import Mathlib

/-!
# edyn: broad-phase dynamic AABB tree, contact manifold and contact solver

A shallow embedding of `src/edyn/collision/dynamic_tree.cpp`,
`src/edyn/util/collision_util.cpp` and `src/edyn/constraints/contact_constraint.cpp`.

Conventions of the embedding:

* scalars are the elements of an arbitrary linearly ordered commutative ring `α`
  (instantiated by `ℤ` for concrete runs), so arithmetic is exact;
* a node id is `Option Nat`: `none` is the null sentinel `null_node_id`;
* `m_nodes[id]` on an id outside the arena, and a failing `EDYN_ASSERT`, make the
  operation return `none`;
* the two `while` loops of the tree take a `fuel` bound on their number of iterations;
  running out of fuel also gives `none`;
* a C++ reference `auto &n = m_nodes[i]` is the index `i`: every read goes through the
  current arena, every write is a `set` on it, in the order of the source statements.
-/

namespace edyn

/-! ## Vectors and boxes -/

/-- Modelled from the spec: `vector3` of the math library (`edyn/math/vector3.hpp`, not part
of the sources at hand): three scalar components. -/
structure vector3 (α : Type) where
  x : α
  y : α
  z : α
deriving DecidableEq

section geometry

variable {α : Type} [LinearOrderedCommRing α]

/-- Modelled from the spec: the constant `vector3_zero` of the math library. -/
def vector3_zero : vector3 α := ⟨0, 0, 0⟩

/-- Modelled from the spec: componentwise `operator+` of the math library. -/
def vector3.add (v w : vector3 α) : vector3 α := ⟨v.x + w.x, v.y + w.y, v.z + w.z⟩

/-- Modelled from the spec: componentwise `operator-` of the math library. -/
def vector3.sub (v w : vector3 α) : vector3 α := ⟨v.x - w.x, v.y - w.y, v.z - w.z⟩

/-- Modelled from the spec: `scalar * vector3` of the math library. -/
def vector3.scale (s : α) (v : vector3 α) : vector3 α := ⟨s * v.x, s * v.y, s * v.z⟩

/-- Modelled from the spec: `operator<=` on vectors of the math library, which holds when it
holds on every component. -/
def vector3.le (v w : vector3 α) : Bool :=
  decide (v.x ≤ w.x) && decide (v.y ≤ w.y) && decide (v.z ≤ w.z)

/-- Modelled from the spec: componentwise minimum of the math library. -/
def vector3.min (v w : vector3 α) : vector3 α :=
  ⟨Min.min v.x w.x, Min.min v.y w.y, Min.min v.z w.z⟩

/-- Modelled from the spec: componentwise maximum of the math library. -/
def vector3.max (v w : vector3 α) : vector3 α :=
  ⟨Max.max v.x w.x, Max.max v.y w.y, Max.max v.z w.z⟩

/-- Modelled from the spec: `AABB` (`edyn/comp/aabb.hpp`, not part of the sources at hand):
"`min`, `max` 3-vectors". -/
structure AABB (α : Type) where
  min : vector3 α
  max : vector3 α
deriving DecidableEq

/-- Modelled from the spec: `AABB::inset`, "inset/outset by a margin": the box shrinks by `v`
on both sides, so a margin with non-positive components expands it. -/
def AABB.inset (b : AABB α) (v : vector3 α) : AABB α := ⟨b.min.add v, b.max.sub v⟩

/-- Modelled from the spec: `AABB::contains(vector3)`, containment of a point. -/
def AABB.contains_point (b : AABB α) (p : vector3 α) : Bool := b.min.le p && p.le b.max

/-- Modelled from the spec: `AABB::contains(AABB)`, "containment": both corners of `a` are
points of `b`. -/
def AABB.contains (b a : AABB α) : Bool := b.contains_point a.min && b.contains_point a.max

/-- Modelled from the spec: `AABB::area`, "surface area (used as a cost heuristic)". -/
def AABB.area (b : AABB α) : α :=
  let d := b.max.sub b.min
  2 * (d.x * d.y + d.y * d.z + d.z * d.x)

/-- Modelled from the spec: `enclosing_aabb`, the "union" of two boxes. -/
def enclosing_aabb (b0 b1 : AABB α) : AABB α := ⟨b0.min.min b1.min, b0.max.max b1.max⟩

end geometry

/-! ## The node arena -/

/-- Modelled from the spec: `node_id_t` (`edyn/collision/dynamic_tree.hpp`, not part of the
sources at hand): "integer id into an arena ... or a null sentinel". -/
abbrev node_id_t := Option Nat

/-- Modelled from the spec: the null sentinel of `node_id_t`. -/
abbrev null_node_id : node_id_t := none

/-- Modelled from the spec: `entt::entity`, an opaque payload reference; `none` is
`entt::null`. -/
abbrev entity := Option Nat

/-- Modelled from the spec: `tree_node` (`edyn/collision/dynamic_tree.hpp`): "fields `aabb`
(fattened), `parent`, `child1`, `child2` (all node ids or a null sentinel), `height` (−1 =
free/recycled, 0 = leaf, >0 = internal), and an opaque payload reference"; "a freed node ...
is linked into a free-list via `next`". -/
structure tree_node (α : Type) where
  entity : entity
  aabb : AABB α
  parent : node_id_t
  next : node_id_t
  child1 : node_id_t
  child2 : node_id_t
  height : Int
deriving DecidableEq

/-- Modelled from the spec: `tree_node::leaf`: a leaf has no children; the test looks at
`child1`. -/
def tree_node.leaf {α : Type} (n : tree_node α) : Bool := n.child1 == null_node_id

/-- The data members of `dynamic_tree`. -/
structure dynamic_tree (α : Type) where
  m_nodes : List (tree_node α)
  m_root : node_id_t
  m_free_list : node_id_t
deriving DecidableEq

section tree

variable {α : Type} [LinearOrderedCommRing α]

/-- The constructor `dynamic_tree::dynamic_tree()`. -/
def dynamic_tree.empty : dynamic_tree α := ⟨[], null_node_id, null_node_id⟩

/-- The read `m_nodes[id]`. -/
def dynamic_tree.node (t : dynamic_tree α) (id : node_id_t) : Option (tree_node α) :=
  match id with
  | none => none
  | some i => t.m_nodes[i]?

/-- A write through `m_nodes[id]`. -/
def dynamic_tree.set (t : dynamic_tree α) (id : node_id_t) (f : tree_node α → tree_node α) :
    Option (dynamic_tree α) :=
  match id with
  | none => none
  | some i =>
    match t.m_nodes[i]? with
    | none => none
    | some n => some { t with m_nodes := t.m_nodes.set i (f n) }

/-- The node `m_nodes.emplace_back()` appends, value-initialised, after the assignments of
`allocate`. -/
def fresh_node : tree_node α :=
  { entity := none, aabb := ⟨vector3_zero, vector3_zero⟩, parent := null_node_id,
    next := null_node_id, child1 := null_node_id, child2 := null_node_id, height := 0 }

/-- The function `dynamic_tree::allocate`. -/
def allocate (t : dynamic_tree α) : Option (dynamic_tree α × node_id_t) :=
  if t.m_free_list = null_node_id then
    some ({ t with m_nodes := t.m_nodes ++ [fresh_node] }, some t.m_nodes.length)
  else do
    let id := t.m_free_list
    let t ← t.set id fun n =>
      { n with parent := null_node_id, child1 := null_node_id, child2 := null_node_id,
               entity := none, height := 0 }
    let node ← t.node id
    some ({ t with m_free_list := node.next }, id)

/-- The function `dynamic_tree::free`. -/
def free (t : dynamic_tree α) (id : node_id_t) : Option (dynamic_tree α) := do
  let t ← t.set id fun n => { n with next := t.m_free_list }
  let t ← t.set id fun n => { n with height := -1 }
  some { t with m_free_list := id }

/-- The read `m_nodes[id].parent`. -/
def dynamic_tree.parent (t : dynamic_tree α) (id : node_id_t) : Option node_id_t :=
  (t.node id).map fun n => n.parent

/-- The read `m_nodes[id].height`. -/
def dynamic_tree.height (t : dynamic_tree α) (id : node_id_t) : Option Int :=
  (t.node id).map fun n => n.height

/-- The read `m_nodes[id].aabb`. -/
def dynamic_tree.aabb (t : dynamic_tree α) (id : node_id_t) : Option (AABB α) :=
  (t.node id).map fun n => n.aabb

/-- The statement `m_nodes[dst].aabb = enclosing_aabb(m_nodes[a].aabb, m_nodes[b].aabb)`. -/
def refit_aabb (t : dynamic_tree α) (dst a b : node_id_t) : Option (dynamic_tree α) := do
  let aa ← t.aabb a
  let ab ← t.aabb b
  t.set dst fun n => { n with aabb := enclosing_aabb aa ab }

/-- The statement
`m_nodes[dst].height = std::max(m_nodes[a].height, m_nodes[b].height) + 1`. -/
def refit_height (t : dynamic_tree α) (dst a b : node_id_t) : Option (dynamic_tree α) := do
  let ha ← t.height a
  let hb ← t.height b
  t.set dst fun n => { n with height := Max.max ha hb + 1 }

/-- The statements of `balance` under `// Swap A and C.` (and `// Swap A and B.`), with
`idX` the child that goes up: `nodeX.child1 = idA; nodeX.parent = nodeA.parent;
nodeA.parent = idX;`. -/
def balance_swap (t : dynamic_tree α) (idA idX : node_id_t) : Option (dynamic_tree α) := do
  let t ← t.set idX fun n => { n with child1 := idA }
  let pA ← t.parent idA
  let t ← t.set idX fun n => { n with parent := pA }
  t.set idA fun n => { n with parent := idX }

/-- The statement `if (nodeC.parent != null_node_id) { ... } else { m_root = idC; }` of
`balance`: A's old parent should point to C. -/
def balance_relink_C (t : dynamic_tree α) (idA idC : node_id_t) : Option (dynamic_tree α) := do
  let pC ← t.parent idC
  if pC ≠ null_node_id then do
    let parent_nodeC ← t.node pC
    if parent_nodeC.child1 = idA then
      t.set pC fun n => { n with child1 := idC }
    else
      t.set pC fun n => { n with child2 := idC }
  else
    some { t with m_root := idC }

/-- The statement `if (nodeB.parent == null_node_id) { ... } else { m_root = idB; }` of
`balance`. The test is `==`, as in the source, so the first branch indexes the arena with
the null id. -/
def balance_relink_B (t : dynamic_tree α) (idA idB : node_id_t) : Option (dynamic_tree α) := do
  let pB ← t.parent idB
  if pB = null_node_id then do
    let parent_nodeB ← t.node pB
    if parent_nodeB.child1 = idA then
      t.set pB fun n => { n with child1 := idB }
    else if parent_nodeB.child2 = idA then
      t.set pB fun n => { n with child2 := idB }
    else
      none
  else
    some { t with m_root := idB }

/-- The four refits that end each `// Rotate.` branch of `balance`: with `idUp` the promoted
child, `idSib` the other child of A, and `idKeep`, `idMove` the children of `idUp`:
`nodeA.aabb = enclosing_aabb(nodeSib.aabb, nodeMove.aabb);
nodeUp.aabb = enclosing_aabb(nodeA.aabb, nodeKeep.aabb);` and the two heights alike. -/
def balance_refit (t : dynamic_tree α) (idA idUp idSib idKeep idMove : node_id_t) :
    Option (dynamic_tree α) := do
  let t ← refit_aabb t idA idSib idMove
  let t ← refit_aabb t idUp idA idKeep
  let t ← refit_height t idA idSib idMove
  refit_height t idUp idA idKeep

/-- A `// Rotate.` branch of `balance` when C goes up: `nodeC.child2 = idKeep;
nodeA.child2 = idMove; nodeMove.parent = idA;` and the refits. -/
def balance_rotate_C_branch (t : dynamic_tree α) (idA idB idC idKeep idMove : node_id_t) :
    Option (dynamic_tree α) := do
  let t ← t.set idC fun n => { n with child2 := idKeep }
  let t ← t.set idA fun n => { n with child2 := idMove }
  let t ← t.set idMove fun n => { n with parent := idA }
  balance_refit t idA idC idB idKeep idMove

/-- A `// Rotate.` branch of `balance` when B goes up: `nodeB.child2 = idKeep;
nodeA.child1 = idMove; nodeMove.parent = idA;` and the refits. -/
def balance_rotate_B_branch (t : dynamic_tree α) (idA idB idC idKeep idMove : node_id_t) :
    Option (dynamic_tree α) := do
  let t ← t.set idB fun n => { n with child2 := idKeep }
  let t ← t.set idA fun n => { n with child1 := idMove }
  let t ← t.set idMove fun n => { n with parent := idA }
  balance_refit t idA idB idC idKeep idMove

/-- The `// Rotate.` statement of `balance` when C goes up: the test
`nodeF.height > nodeG.height` and its two branches. -/
def balance_rotate_C_rotate (t : dynamic_tree α) (idA idB idC idF idG : node_id_t) :
    Option (dynamic_tree α) := do
  let hF ← t.height idF
  let hG ← t.height idG
  if hF > hG then balance_rotate_C_branch t idA idB idC idF idG
  else balance_rotate_C_branch t idA idB idC idG idF

/-- The `// Rotate.` statement of `balance` when B goes up: the test
`nodeD.height > nodeE.height` and its two branches. -/
def balance_rotate_B_rotate (t : dynamic_tree α) (idA idB idC idD idE : node_id_t) :
    Option (dynamic_tree α) := do
  let hD ← t.height idD
  let hE ← t.height idE
  if hD > hE then balance_rotate_B_branch t idA idB idC idD idE
  else balance_rotate_B_branch t idA idB idC idE idD

/-- The part of `dynamic_tree::balance` under `if (balance > 1)`: rotate C up. -/
def balance_rotate_C (t : dynamic_tree α) (idA idB idC : node_id_t) :
    Option (dynamic_tree α × node_id_t) := do
  let nodeC ← t.node idC
  let idF := nodeC.child1
  let idG := nodeC.child2
  let _ ← t.node idF
  let _ ← t.node idG
  let t ← balance_swap t idA idC
  let t ← balance_relink_C t idA idC
  let t ← balance_rotate_C_rotate t idA idB idC idF idG
  some (t, idC)

/-- The part of `dynamic_tree::balance` under `if (balance < -1)`: rotate B up. -/
def balance_rotate_B (t : dynamic_tree α) (idA idB idC : node_id_t) :
    Option (dynamic_tree α × node_id_t) := do
  let nodeB ← t.node idB
  let idD := nodeB.child1
  let idE := nodeB.child2
  let _ ← t.node idD
  let _ ← t.node idE
  let t ← balance_swap t idA idB
  let t ← balance_relink_B t idA idB
  let t ← balance_rotate_B_rotate t idA idB idC idD idE
  some (t, idB)

/-- The function `dynamic_tree::balance`. -/
def balance (t : dynamic_tree α) (idA : node_id_t) : Option (dynamic_tree α × node_id_t) := do
  let nodeA ← t.node idA
  if nodeA.leaf || decide (nodeA.height < 2) then
    some (t, idA)
  else do
    let idB := nodeA.child1
    let idC := nodeA.child2
    let nodeB ← t.node idB
    let nodeC ← t.node idC
    let balance := nodeC.height - nodeB.height
    if balance > 1 then
      balance_rotate_C t idA idB idC
    else if balance < -1 then
      balance_rotate_B t idA idB idC
    else
      some (t, idA)

/-- One iteration of the loop of `dynamic_tree::adjust_bounds`: the new arena and the next
value of `id`. -/
def adjust_bounds_step (t : dynamic_tree α) (id : node_id_t) :
    Option (dynamic_tree α × node_id_t) := do
  let (t, id) ← balance t id
  let node ← t.node id
  if node.child1 = null_node_id then none
  else if node.child2 = null_node_id then none
  else do
    let t ← refit_aabb t id node.child1 node.child2
    let node ← t.node id
    let t ← refit_height t id node.child1 node.child2
    let p ← t.parent id
    some (t, p)

/-- The function `dynamic_tree::adjust_bounds`; `fuel` bounds the iterations of its loop. -/
def adjust_bounds : Nat → dynamic_tree α → node_id_t → Option (dynamic_tree α)
  | fuel, t, id =>
    if id = null_node_id then
      some t
    else
      match fuel with
      | 0 => none
      | fuel + 1 =>
        match adjust_bounds_step t id with
        | none => none
        | some (t, id) => adjust_bounds fuel t id

/-- The cost `cost1` (and `cost2`) of descending into a child in `dynamic_tree::insert`. -/
def insert_child_cost (child_node : tree_node α) (leaf_aabb : AABB α) (inherit_cost : α) : α :=
  let enclosing_area_child := (enclosing_aabb child_node.aabb leaf_aabb).area
  if child_node.leaf then enclosing_area_child + inherit_cost
  else (enclosing_area_child - child_node.aabb.area) + inherit_cost

/-- The body of the sibling search loop of `dynamic_tree::insert` at an internal node:
`none` for `break`, otherwise the child to descend into. -/
def insert_descend (t : dynamic_tree α) (node : tree_node α) (leaf_aabb : AABB α) :
    Option (Option node_id_t) := do
  let enclosing_area := (enclosing_aabb node.aabb leaf_aabb).area
  -- Cost of creating a new parent for this node and the new leaf.
  let cost := 2 * enclosing_area
  -- Minimum cost of pushing the leaf further down the tree.
  let inherit_cost := 2 * (enclosing_area - node.aabb.area)
  -- Cost of descending into child1.
  let child_node1 ← t.node node.child1
  let cost1 := insert_child_cost child_node1 leaf_aabb inherit_cost
  -- Cost of descending into child2.
  let child_node2 ← t.node node.child2
  let cost2 := insert_child_cost child_node2 leaf_aabb inherit_cost
  -- Descend according to minimum cost.
  if cost < cost1 ∧ cost < cost2 then
    some none
  else
    some (some (if cost1 < cost2 then node.child1 else node.child2))

/-- The sibling search of `dynamic_tree::insert` (the `while (!m_nodes[index].leaf())` loop);
`fuel` bounds its iterations. The result is the final value of `index`. -/
def insert_find_sibling : Nat → dynamic_tree α → AABB α → node_id_t → Option node_id_t
  | 0, _, _, _ => none
  | fuel + 1, t, leaf_aabb, index =>
    match t.node index with
    | none => none
    | some node =>
      if node.leaf then
        some index
      else
        match insert_descend t node leaf_aabb with
        | none => none
        | some none => some index
        | some (some next) => insert_find_sibling fuel t leaf_aabb next

/-- The statements of `dynamic_tree::insert` under `// Create new parent.`: the new arena
and `new_parent`. -/
def insert_new_parent (t : dynamic_tree α) (sibling old_parent : node_id_t)
    (leaf_aabb : AABB α) : Option (dynamic_tree α × node_id_t) := do
  let (t, new_parent) ← allocate t
  let t ← t.set new_parent fun n => { n with parent := old_parent }
  let t ← t.set new_parent fun n => { n with entity := none }
  let aS ← t.aabb sibling
  let t ← t.set new_parent fun n => { n with aabb := enclosing_aabb aS leaf_aabb }
  let hS ← t.height sibling
  let t ← t.set new_parent fun n => { n with height := hS + 1 }
  some (t, new_parent)

/-- The four statements common to both branches of `if (old_parent != null_node_id)` in
`dynamic_tree::insert`: `parent_node.child1 = sibling; parent_node.child2 = leaf;
sibling_node.parent = new_parent; leaf_node.parent = new_parent;`. -/
def insert_link (t : dynamic_tree α) (leaf sibling new_parent : node_id_t) :
    Option (dynamic_tree α) := do
  let t ← t.set new_parent fun n => { n with child1 := sibling }
  let t ← t.set new_parent fun n => { n with child2 := leaf }
  let t ← t.set sibling fun n => { n with parent := new_parent }
  t.set leaf fun n => { n with parent := new_parent }

/-- The statement `if (old_parent != null_node_id) { ... } else { ... }` of
`dynamic_tree::insert`. -/
def insert_attach (t : dynamic_tree α) (leaf sibling old_parent new_parent : node_id_t) :
    Option (dynamic_tree α) :=
  if old_parent ≠ null_node_id then do
    -- The sibling was not the root.
    let old_parent_node ← t.node old_parent
    let t ←
      if old_parent_node.child1 = sibling then
        t.set old_parent fun n => { n with child1 := new_parent }
      else
        t.set old_parent fun n => { n with child2 := new_parent }
    insert_link t leaf sibling new_parent
  else do
    -- The sibling was the root.
    let t ← insert_link t leaf sibling new_parent
    some { t with m_root := new_parent }

/-- The function `dynamic_tree::insert`. -/
def insert (fuel : Nat) (t : dynamic_tree α) (leaf : node_id_t) : Option (dynamic_tree α) :=
  if t.m_root = null_node_id then
    let t := { t with m_root := leaf }
    t.set t.m_root fun n => { n with parent := null_node_id }
  else do
    -- Find the best sibling for this node.
    let leaf_aabb ← t.aabb leaf
    let sibling ← insert_find_sibling fuel t leaf_aabb t.m_root
    let old_parent ← t.parent sibling
    let (t, new_parent) ← insert_new_parent t sibling old_parent leaf_aabb
    let _ ← t.node leaf
    let t ← insert_attach t leaf sibling old_parent new_parent
    -- Walk back up the tree refitting AABBs.
    let p ← t.parent leaf
    adjust_bounds fuel t p

/-- The `else` branch of `if (parent == m_root)` in `dynamic_tree::remove`: destroy parent
and connect sibling to grand parent. -/
def remove_splice (fuel : Nat) (t : dynamic_tree α) (parent sibling grandpa : node_id_t) :
    Option (dynamic_tree α) := do
  let grandpa_node ← t.node grandpa
  let t ←
    if grandpa_node.child1 = parent then
      t.set grandpa fun n => { n with child1 := sibling }
    else
      t.set grandpa fun n => { n with child2 := sibling }
  let pp ← t.parent parent
  let t ← t.set sibling fun n => { n with parent := pp }
  let t ← free t parent
  adjust_bounds fuel t grandpa

/-- The function `dynamic_tree::remove`. -/
def remove (fuel : Nat) (t : dynamic_tree α) (leaf : node_id_t) : Option (dynamic_tree α) :=
  if leaf = t.m_root then
    some { t with m_root := null_node_id }
  else do
    let node ← t.node leaf
    let parent := node.parent
    let parent_node ← t.node parent
    let sibling := if parent_node.child1 = leaf then parent_node.child2 else parent_node.child1
    if sibling = null_node_id then none
    else do
      let _ ← t.node sibling
      if parent = t.m_root then do
        let t := { t with m_root := sibling }
        let t ← t.set sibling fun n => { n with parent := null_node_id }
        free t parent
      else
        let grandpa := parent_node.parent
        if grandpa = null_node_id then none
        else remove_splice fuel t parent sibling grandpa

/-- The function `dynamic_tree::create`. The margin `aabb_inset` is a constant of the class
declared in `dynamic_tree.hpp`; it is a parameter here. -/
def create (aabb_inset : vector3 α) (fuel : Nat) (t : dynamic_tree α) (aabb : AABB α)
    (e : entity) : Option (dynamic_tree α × node_id_t) := do
  let (t, id) ← allocate t
  let t ← t.set id fun n => { n with entity := e }
  let t ← t.set id fun n => { n with aabb := aabb.inset aabb_inset }
  let t ← insert fuel t id
  some (t, id)

/-- The function `dynamic_tree::destroy`. -/
def destroy (fuel : Nat) (t : dynamic_tree α) (id : node_id_t) : Option (dynamic_tree α) := do
  let node ← t.node id
  if node.leaf then do
    let t ← remove fuel t id
    free t id
  else
    none

/-- The box `offset_aabb` that `dynamic_tree::move` computes: the tight box, inset by the
margin and extended along the predicted movement `4 * displacement`. -/
def move_offset_aabb (aabb_inset : vector3 α) (aabb : AABB α) (displacement : vector3 α) :
    AABB α :=
  -- Extend AABB.
  let offset_aabb := aabb.inset aabb_inset
  -- Predict AABB movement.
  let d := vector3.scale 4 displacement
  let offset_aabb : AABB α :=
    if d.x < 0 then { offset_aabb with min := { offset_aabb.min with x := offset_aabb.min.x + d.x } }
    else { offset_aabb with max := { offset_aabb.max with x := offset_aabb.max.x + d.x } }
  let offset_aabb : AABB α :=
    if d.y < 0 then { offset_aabb with min := { offset_aabb.min with y := offset_aabb.min.y + d.y } }
    else { offset_aabb with max := { offset_aabb.max with y := offset_aabb.max.y + d.y } }
  if d.z < 0 then { offset_aabb with min := { offset_aabb.min with z := offset_aabb.min.z + d.z } }
  else { offset_aabb with max := { offset_aabb.max with z := offset_aabb.max.z + d.z } }

/-- The function `dynamic_tree::move`. -/
def move (aabb_inset : vector3 α) (fuel : Nat) (t : dynamic_tree α) (id : node_id_t)
    (aabb : AABB α) (displacement : vector3 α) : Option (dynamic_tree α × Bool) := do
  let node ← t.node id
  if node.leaf then do
    let offset_aabb := move_offset_aabb aabb_inset aabb displacement
    if node.aabb.contains aabb &&
        (offset_aabb.inset (vector3.scale 4 aabb_inset)).contains node.aabb then
      some (t, false)
    else do
      let t ← remove fuel t id
      let t ← t.set id fun n => { n with aabb := offset_aabb }
      let t ← insert fuel t id
      -- It moved.
      some (t, true)
  else
    none

/-! ## Sequences of calls and the shape of the tree -/

/-- A call of the public interface of `dynamic_tree`. -/
inductive tree_call (α : Type) where
  | create (aabb : AABB α) (e : entity)
  | move (id : node_id_t) (aabb : AABB α) (displacement : vector3 α)
  | destroy (id : node_id_t)

/-- The state after a sequence of calls, made one after the other. -/
def run_calls (aabb_inset : vector3 α) (fuel : Nat) :
    dynamic_tree α → List (tree_call α) → Option (dynamic_tree α)
  | t, [] => some t
  | t, tree_call.create aabb e :: cs =>
    match create aabb_inset fuel t aabb e with
    | none => none
    | some (t, _) => run_calls aabb_inset fuel t cs
  | t, tree_call.move id aabb d :: cs =>
    match move aabb_inset fuel t id aabb d with
    | none => none
    | some (t, _) => run_calls aabb_inset fuel t cs
  | t, tree_call.destroy id :: cs =>
    match destroy fuel t id with
    | none => none
    | some t => run_calls aabb_inset fuel t cs

/-- The ids met when walking down from `id` through `child1` and `child2`, at most `fuel`
levels deep. -/
def reachable_from : Nat → dynamic_tree α → node_id_t → List Nat
  | 0, _, _ => []
  | fuel + 1, t, id =>
    match id, t.node id with
    | some i, some n => i :: (reachable_from fuel t n.child1 ++ reachable_from fuel t n.child2)
    | _, _ => []

/-- The ids of the nodes reachable from the root. -/
def dynamic_tree.reachable (t : dynamic_tree α) : List Nat :=
  reachable_from t.m_nodes.length t t.m_root

/-- The leaves reachable from the root: id, entity and stored box. -/
def dynamic_tree.leaves (t : dynamic_tree α) : List (Nat × entity × AABB α) :=
  t.reachable.filterMap fun i =>
    match t.node (some i) with
    | some n => if n.leaf then some (i, n.entity, n.aabb) else none
    | none => none

/-- The box invariant at node `i`: a leaf, or an internal node whose box is the
`enclosing_aabb` of the boxes of its two children. -/
def aabb_ok_at (t : dynamic_tree α) (i : Nat) : Bool :=
  match t.node (some i) with
  | none => false
  | some n =>
    n.leaf ||
      (match t.aabb n.child1, t.aabb n.child2 with
       | some a, some b => decide (n.aabb = enclosing_aabb a b)
       | _, _ => false)

/-- The box invariant on every node reachable from the root. -/
def aabb_invariant (t : dynamic_tree α) : Bool := t.reachable.all (aabb_ok_at t)

/-- The shape invariant at node `i`: a leaf with no children and height 0, or an internal
node with two children, height above 0, and both children pointing back to it. -/
def shape_ok_at (t : dynamic_tree α) (i : Nat) : Bool :=
  match t.node (some i) with
  | none => false
  | some n =>
    (n.child1 == null_node_id && n.child2 == null_node_id && n.height == 0) ||
      (n.child1 != null_node_id && n.child2 != null_node_id && decide (0 < n.height) &&
        t.parent n.child1 == some (some i) && t.parent n.child2 == some (some i))

/-- The ids on the free list, following `next` from `id` for at most `fuel` links. -/
def free_list_from : Nat → dynamic_tree α → node_id_t → List Nat
  | 0, _, _ => []
  | fuel + 1, t, id =>
    match id, t.node id with
    | some i, some n => i :: free_list_from fuel t n.next
    | _, _ => []

/-- The ids on the free list. -/
def dynamic_tree.free_ids (t : dynamic_tree α) : List Nat :=
  free_list_from t.m_nodes.length t t.m_free_list

/-- The shape invariant of the whole tree: every reachable node has the right shape, the
root (if any) has a null parent, and every node of the arena that is not reachable from the
root has height -1 and is on the free list. -/
def shape_invariant (t : dynamic_tree α) : Bool :=
  t.reachable.all (shape_ok_at t) &&
  (t.m_root == null_node_id || t.parent t.m_root == some null_node_id) &&
  (List.range t.m_nodes.length).all fun i =>
    t.reachable.contains i || (t.free_ids.contains i && t.height (some i) == some (-1))

end tree

/-! ## Concrete runs of the tree -/

/-- A margin for concrete runs: one unit on every side. -/
def unit_margin : vector3 ℤ := ⟨-1, -1, -1⟩

/-- The tight box `[10 x, 10 x + 1] × [0, 1] × [0, 1]`. -/
def box_at (x : ℤ) : AABB ℤ := ⟨⟨10 * x, 0, 0⟩, ⟨10 * x + 1, 1, 1⟩⟩

/-- The calls `create(box_at x, 7)` for the `x` of a list, in order. -/
def creates_at (xs : List ℤ) : List (tree_call ℤ) :=
  xs.map fun x => tree_call.create (box_at x) (some 7)

/-- The tight box `[x, x + 1] × [0, 1] × [0, 1]`. -/
def small_box_at (x : ℤ) : AABB ℤ := ⟨⟨x, 0, 0⟩, ⟨x + 1, 1, 1⟩⟩

/-- The calls `create(small_box_at x, 7)` for the `x` of a list, in order. -/
def small_creates_at (xs : List ℤ) : List (tree_call ℤ) :=
  xs.map fun x => tree_call.create (small_box_at x) (some 7)

/-! ## Vector and quaternion algebra -/

/-- The type `quaternion` of `edyn/math/quaternion.hpp`. -/
structure quaternion (α : Type) where
  x : α
  y : α
  z : α
  w : α
deriving DecidableEq

section algebra

variable {α : Type} [LinearOrderedCommRing α]

/-- Modelled from the spec: unary `operator-` on vectors of the math library. -/
def vector3.neg (v : vector3 α) : vector3 α := ⟨-v.x, -v.y, -v.z⟩

/-- Modelled from the spec: `dot` on vectors of the math library. -/
def dot (v w : vector3 α) : α := v.x * w.x + v.y * w.y + v.z * w.z

/-- Modelled from the spec: `cross` on vectors of the math library. -/
def cross (v w : vector3 α) : vector3 α :=
  ⟨v.y * w.z - v.z * w.y, v.z * w.x - v.x * w.z, v.x * w.y - v.y * w.x⟩

/-- Modelled from the spec: `length_sqr` on vectors of the math library. -/
def length_sqr (v : vector3 α) : α := dot v v

/-- The constant `quaternion_identity`. -/
def quaternion_identity : quaternion α := ⟨0, 0, 0, 1⟩

/-- The product of two quaternions, `operator*(quaternion, quaternion)`. -/
def quaternion.mul (q r : quaternion α) : quaternion α :=
  ⟨q.w * r.x + q.x * r.w + q.y * r.z - q.z * r.y,
   q.w * r.y + q.y * r.w + q.z * r.x - q.x * r.z,
   q.w * r.z + q.z * r.w + q.x * r.y - q.y * r.x,
   q.w * r.w - q.x * r.x - q.y * r.y - q.z * r.z⟩

/-- The product of a quaternion and a vector, `operator*(quaternion, vector3)`. -/
def quaternion.mul_vec (q : quaternion α) (v : vector3 α) : quaternion α :=
  ⟨q.w * v.x + q.y * v.z - q.z * v.y,
   q.w * v.y + q.z * v.x - q.x * v.z,
   q.w * v.z + q.x * v.y - q.y * v.x,
   -q.x * v.x - q.y * v.y - q.z * v.z⟩

/-- The function `conjugate`. -/
def conjugate (q : quaternion α) : quaternion α := ⟨-q.x, -q.y, -q.z, q.w⟩

/-- The function `rotate`: rotate a vector by a quaternion. -/
def rotate (q : quaternion α) (v : vector3 α) : vector3 α :=
  let r := (q.mul_vec v).mul (conjugate q)
  ⟨r.x, r.y, r.z⟩

/-- The function `to_object_space`. -/
def to_object_space (p pos : vector3 α) (orn : quaternion α) : vector3 α :=
  rotate (conjugate orn) (p.sub pos)

/-- The function `to_world_space`. -/
def to_world_space (p pos : vector3 α) (orn : quaternion α) : vector3 α :=
  pos.add (rotate orn p)

/-- Modelled from the spec: `intersect` on boxes (`edyn/comp/aabb.hpp`), the "intersection
test": the boxes overlap on every axis. -/
def intersect (b0 b1 : AABB α) : Bool :=
  decide (b0.min.x ≤ b1.max.x) && decide (b0.max.x ≥ b1.min.x) &&
  decide (b0.min.y ≤ b1.max.y) && decide (b0.max.y ≥ b1.min.y) &&
  decide (b0.min.z ≤ b1.max.z) && decide (b0.max.z ≥ b1.min.z)

end algebra

/-! ## Contact points and manifolds -/

/-- Modelled from the spec: `contact_normal_attachment`, the "tag identifying which body's
orientation the normal is rigidly attached to (`A`, `B`, or `none`)". -/
inductive contact_normal_attachment where
  | none
  | normal_on_A
  | normal_on_B
deriving DecidableEq

/-- Modelled from the spec: `collision_result::collision_point`
(`edyn/collision/collision_result.hpp`): "object-space pivot on each body, world-space
separating-axis normal, signed separation distance, and a tag". -/
structure collision_point (α : Type) where
  pivotA : vector3 α
  pivotB : vector3 α
  normal : vector3 α
  distance : α
  normal_attachment : contact_normal_attachment
deriving DecidableEq

/-- Modelled from the spec: `collision_result`: "fixed capacity (4) ordered list of candidate
points", with the number of points in use. -/
structure collision_result (α : Type) where
  num_points : Nat
  point : List (collision_point α)
deriving DecidableEq

/-- Modelled from the spec: `contact_point` (`edyn/collision/contact_point.hpp`); the fields
are in the order in which `create_contact_point` initialises them. -/
structure contact_point (α : Type) where
  body : entity × entity
  pivotA : vector3 α
  pivotB : vector3 α
  normal : vector3 α
  local_normal : vector3 α
  normal_attachment : contact_normal_attachment
  friction : α
  restitution : α
  lifetime : Nat
  distance : α
deriving DecidableEq

/-- Modelled from the spec: `constraint_impulse`
(`edyn/constraints/constraint_impulse.hpp`): the "solver warm-start impulses (normal + 2
tangential)" stored with a contact. -/
structure constraint_impulse (α : Type) where
  values : Nat → α

/-- The components of a contact entity that the manifold store and the solver use: the
`contact_point` and the `constraint_impulse`. -/
structure contact_components (α : Type) where
  point : contact_point α
  impulse : constraint_impulse α

/-- Modelled from the spec: the constant `max_contacts`, "maximum contact points per manifold
(4)". -/
def max_contacts : Nat := 4

/-- Modelled from the spec: `contact_manifold` (`edyn/collision/contact_manifold.hpp`): "a
body pair plus up to 4 persistent contact-point references"; an unused slot holds
`entt::null`. -/
structure contact_manifold where
  body : entity × entity
  point : List entity
deriving DecidableEq

/-- Modelled from the spec: `contact_manifold::num_points`, the number of slots that hold a
contact point. -/
def contact_manifold.num_points (m : contact_manifold) : Nat :=
  (m.point.filter fun e => e != none).length

/-- The write `manifold.point[i] = e`; an index outside the array gives `none`. -/
def contact_manifold.set_point (m : contact_manifold) (i : Nat) (e : entity) :
    Option contact_manifold :=
  if i < m.point.length then some { m with point := m.point.set i e } else none

section manifold

variable {α : Type} [LinearOrderedCommRing α]

/-- The function `merge_point`. -/
def merge_point (rp : collision_point α) (cp : contact_point α) : contact_point α :=
  { cp with pivotA := rp.pivotA, pivotB := rp.pivotB, normal := rp.normal,
            distance := rp.distance }

/-- The scalar `normal_dist` of `maybe_remove_point`. -/
def removal_normal_dist (cp : contact_point α) (posA : vector3 α) (ornA : quaternion α)
    (posB : vector3 α) (ornB : quaternion α) : α :=
  let pA := to_world_space cp.pivotA posA ornA
  let pB := to_world_space cp.pivotB posB ornB
  let n := cp.normal
  let d := pA.sub pB
  dot d n

/-- The scalar `tangential_dist_sqr` of `maybe_remove_point`. -/
def removal_tangential_dist_sqr (cp : contact_point α) (posA : vector3 α)
    (ornA : quaternion α) (posB : vector3 α) (ornB : quaternion α) : α :=
  let pA := to_world_space cp.pivotA posA ornA
  let pB := to_world_space cp.pivotB posB ornB
  let n := cp.normal
  let d := pA.sub pB
  let normal_dist := dot d n
  -- tangential separation on contact plane
  let tangential_dir := d.sub (vector3.scale normal_dist n)
  length_sqr tangential_dir

/-- The function `maybe_remove_point`: the manifold afterwards and the returned flag. The
constant `contact_breaking_threshold` (`edyn/config/constants.hpp`) is a parameter. -/
def maybe_remove_point (contact_breaking_threshold : α) (manifold : contact_manifold)
    (cp : contact_point α) (pt_idx : Nat) (posA : vector3 α) (ornA : quaternion α)
    (posB : vector3 α) (ornB : quaternion α) : Option (contact_manifold × Bool) :=
  let threshold := contact_breaking_threshold
  let threshold_sqr := threshold * threshold
  -- Remove separating contact points.
  let normal_dist := removal_normal_dist cp posA ornA posB ornB
  let tangential_dist_sqr := removal_tangential_dist_sqr cp posA ornA posB ornB
  if normal_dist < threshold ∧ tangential_dist_sqr < threshold_sqr then
    some (manifold, false)
  else
    -- Swap with last element.
    if manifold.num_points > 0 then do
      let last_idx := manifold.num_points - 1
      let last ← manifold.point[last_idx]?
      let manifold ← manifold.set_point pt_idx last
      let manifold ← manifold.set_point last_idx none
      some (manifold, true)
    else
      none

/-- The body of the loop of `find_nearest_contact` at index `i`: the new values of
`shortest_dist` and `nearest_idx`. -/
def find_nearest_step (cp : contact_point α) (coll_pt : collision_point α) (i : Nat)
    (st : α × Nat) : α × Nat :=
  let dA := length_sqr (coll_pt.pivotA.sub cp.pivotA)
  let dB := length_sqr (coll_pt.pivotB.sub cp.pivotB)
  let st := if dA < st.1 then (dA, i) else st
  if dB < st.1 then (dB, i) else st

/-- The loop of `find_nearest_contact` from index `i`, with `n` iterations left. -/
def find_nearest_loop (cp : contact_point α) (result : collision_result α) :
    Nat → Nat → α × Nat → Option (α × Nat)
  | 0, _, st => some st
  | n + 1, i, st =>
    match result.point[i]? with
    | none => none
    | some coll_pt => find_nearest_loop cp result n (i + 1) (find_nearest_step cp coll_pt i st)

/-- The function `find_nearest_contact`. The constant `contact_caching_threshold`
(`edyn/config/constants.hpp`) is a parameter. -/
def find_nearest_contact (contact_caching_threshold : α) (cp : contact_point α)
    (result : collision_result α) : Option Nat :=
  let shortest_dist := contact_caching_threshold * contact_caching_threshold
  let nearest_idx := result.num_points
  (find_nearest_loop cp result result.num_points 0 (shortest_dist, nearest_idx)).map
    fun st => st.2

end manifold

/-- The invariant of the loop of `find_nearest_contact` before iteration `i`: either no
candidate seen so far is below the threshold, or `st` holds the first candidate of least
key, which is below the threshold. -/
def find_nearest_inv {α : Type} [LinearOrderedCommRing α] (thr_sqr : α)
    (cp : contact_point α) (result : collision_result α) (i : Nat) (st : α × Nat) : Prop :=
  (st.2 = result.num_points ∧ st.1 = thr_sqr ∧
    ∀ j q, j < i → result.point[j]? = some q →
      ¬ min (length_sqr (q.pivotA.sub cp.pivotA)) (length_sqr (q.pivotB.sub cp.pivotB))
        < thr_sqr) ∨
  (st.2 < i ∧ st.1 < thr_sqr ∧
    (∃ p, result.point[st.2]? = some p ∧
      min (length_sqr (p.pivotA.sub cp.pivotA)) (length_sqr (p.pivotB.sub cp.pivotB)) = st.1) ∧
    (∀ j q, j < i → result.point[j]? = some q →
      st.1 ≤ min (length_sqr (q.pivotA.sub cp.pivotA)) (length_sqr (q.pivotB.sub cp.pivotB))) ∧
    (∀ j q, j < st.2 → result.point[j]? = some q →
      st.1 < min (length_sqr (q.pivotA.sub cp.pivotA)) (length_sqr (q.pivotB.sub cp.pivotB))))

/-! ## The registry and the manifold store -/

/-- Modelled from the spec: `material` (`edyn/comp/material.hpp`), the "material
coefficients" of a body that `create_contact_constraint` reads. -/
structure material (α : Type) where
  restitution : α
  friction : α
  stiffness : α
  damping : α
deriving DecidableEq

/-- The component `contact_constraint` of `contact_constraint.hpp`: the body pair of
`constraint_base` and the two scalars. -/
structure contact_constraint (α : Type) where
  body : entity × entity
  stiffness : α
  damping : α
deriving DecidableEq

/-- Modelled from the spec: the marks the functions of `collision_util.cpp` leave in the
`dirty` component of an entity, for the external "change-tracking" layer. -/
inductive dirty_mark where
  | set_new
  | created_contact_point
  | created_continuous
  | updated_contact_manifold
deriving DecidableEq

/-- Modelled from the spec: the part of `entt::registry` that the manifold store reads and
writes: the components of the bodies, the contact entities with their components, and the
counter from which `registry.create()` takes a fresh entity. -/
structure registry (α : Type) where
  next_entity : Nat
  position : entity → Option (vector3 α)
  orientation : entity → Option (quaternion α)
  center_of_mass : entity → Option (vector3 α)
  aabb : entity → Option (AABB α)
  material : entity → Option (material α)
  continuous_contacts_tag : entity → Bool
  contact_points : List (entity × contact_point α)
  contact_constraints : List (entity × contact_constraint α)
  continuous : List entity
  dirty : List (entity × dirty_mark)

/-- Modelled from the spec: `collision_context` (`edyn/collision/collide.hpp`): "each body's
world position, orientation, AABB, and a contact-breaking distance threshold"; the fields are
in the order in which `detect_collision` initialises them. -/
structure collision_context (α : Type) where
  posA : vector3 α
  ornA : quaternion α
  aabbA : AABB α
  posB : vector3 α
  ornB : quaternion α
  aabbB : AABB α
  threshold : α

section store

variable {α : Type} [LinearOrderedField α]

/-- The origin of a body, as computed at the head of `update_contact_distances`,
`detect_collision`, `prepare_constraints` and `solve_position_constraints`: the position, or
`to_world_space(-com, pos, orn)` when the body has a `center_of_mass`. -/
def body_origin (pos : vector3 α) (orn : quaternion α) (com : Option (vector3 α)) :
    vector3 α :=
  match com with
  | some com => to_world_space com.neg pos orn
  | none => pos

/-- The body of the loop of `update_contact_distances` on one contact point. -/
def update_contact_distance (registry : registry α) (cp : contact_point α) :
    Option (contact_point α) := do
  let posA ← registry.position cp.body.1
  let ornA ← registry.orientation cp.body.1
  let posB ← registry.position cp.body.2
  let ornB ← registry.orientation cp.body.2
  let originA := body_origin posA ornA (registry.center_of_mass cp.body.1)
  let originB := body_origin posB ornB (registry.center_of_mass cp.body.2)
  let pivotA_world := to_world_space cp.pivotA originA ornA
  let pivotB_world := to_world_space cp.pivotB originB ornB
  some { cp with distance := dot cp.normal (pivotA_world.sub pivotB_world) }

/-- The loop of `update_contact_distances` over the view of the contact points. -/
def update_contact_distances_loop (registry : registry α) :
    List (entity × contact_point α) → Option (List (entity × contact_point α))
  | [] => some []
  | (e, cp) :: rest =>
    match update_contact_distance registry cp, update_contact_distances_loop registry rest with
    | some cp', some rest' => some ((e, cp') :: rest')
    | _, _ => none

/-- The function `update_contact_distances`. -/
def update_contact_distances (registry : registry α) : Option (edyn.registry α) :=
  (update_contact_distances_loop registry registry.contact_points).map fun cps =>
    { registry with contact_points := cps }

/-- The function `create_contact_constraint`: the registry and the contact point
afterwards. The constant `large_scalar` (`edyn/math/constants.hpp`) is a parameter;
`make_constraint` is modelled from the spec as the addition of the constraint component
with the given body pair. -/
def create_contact_constraint (large_scalar : α) (registry : registry α)
    (contact_entity : entity) (cp : contact_point α) :
    Option (edyn.registry α × contact_point α) := do
  let materialA ← registry.material cp.body.1
  let materialB ← registry.material cp.body.2
  let cp := { cp with restitution := materialA.restitution * materialB.restitution }
  let cp := { cp with friction := materialA.friction * materialB.friction }
  let stiffness :=
    if materialA.stiffness < large_scalar ∨ materialB.stiffness < large_scalar then
      1 / (1 / materialA.stiffness + 1 / materialB.stiffness)
    else large_scalar
  let damping :=
    if materialA.stiffness < large_scalar ∨ materialB.stiffness < large_scalar then
      1 / (1 / materialA.damping + 1 / materialB.damping)
    else large_scalar
  let contact : contact_constraint α :=
    { body := (cp.body.1, cp.body.2), stiffness := stiffness, damping := damping }
  some ({ registry with
            contact_constraints := registry.contact_constraints ++ [(contact_entity, contact)] },
        cp)

/-- The value of `local_normal` in `create_contact_point`. -/
def create_local_normal (registry : registry α) (manifold : contact_manifold)
    (rp : collision_point α) : Option (vector3 α) :=
  match rp.normal_attachment with
  | contact_normal_attachment.none => some vector3_zero
  | contact_normal_attachment.normal_on_A =>
    (registry.orientation manifold.body.1).map fun orn => rotate (conjugate orn) rp.normal
  | contact_normal_attachment.normal_on_B =>
    (registry.orientation manifold.body.2).map fun orn => rotate (conjugate orn) rp.normal

/-- The marks that `create_contact_point` adds to the `dirty` components. -/
def create_contact_point_marks (registry : registry α) (manifold_entity : entity)
    (manifold : contact_manifold) (contact_entity : entity) : List (entity × dirty_mark) :=
  [(contact_entity, dirty_mark.set_new), (contact_entity, dirty_mark.created_contact_point)] ++
  (if registry.continuous_contacts_tag manifold.body.1 ||
      registry.continuous_contacts_tag manifold.body.2 then
    [(contact_entity, dirty_mark.created_continuous)] else []) ++
  [(manifold_entity, dirty_mark.updated_contact_manifold)]

/-- The function `create_contact_point`: the registry and the manifold afterwards, and the
returned contact entity. `registry.create()` is modelled from the spec as a fresh entity
taken from a counter. -/
def create_contact_point (registry : registry α) (manifold_entity : entity)
    (manifold : contact_manifold) (rp : collision_point α) :
    Option (edyn.registry α × contact_manifold × entity) :=
  let idx := manifold.num_points
  if idx < max_contacts then do
    let contact_entity : entity := some registry.next_entity
    let manifold' ← manifold.set_point idx contact_entity
    let local_normal ← create_local_normal registry manifold' rp
    let cp : contact_point α :=
      { body := manifold'.body, pivotA := rp.pivotA, pivotB := rp.pivotB, normal := rp.normal,
        local_normal := local_normal, normal_attachment := rp.normal_attachment,
        friction := 0, restitution := 0, lifetime := 0, distance := rp.distance }
    some ({ registry with
              next_entity := registry.next_entity + 1,
              contact_points := registry.contact_points ++ [(contact_entity, cp)],
              continuous :=
                if registry.continuous_contacts_tag manifold'.body.1 ||
                    registry.continuous_contacts_tag manifold'.body.2 then
                  registry.continuous ++ [contact_entity] else registry.continuous,
              dirty := registry.dirty ++
                create_contact_point_marks registry manifold_entity manifold' contact_entity },
          manifold', contact_entity)
  else
    none

/-- The function `detect_collision`. The narrow phase, `visit_shape` on both shape indices
and `collide` on the two shapes, is the parameter `narrow_phase`; the constant
`contact_breaking_threshold` is a parameter. -/
def detect_collision (contact_breaking_threshold : α)
    (narrow_phase : entity × entity → collision_context α → collision_result α →
      collision_result α)
    (registry : registry α) (body : entity × entity) (result : collision_result α) :
    Option (collision_result α) := do
  let aabbA ← registry.aabb body.1
  let posA ← registry.position body.1
  let ornA ← registry.orientation body.1
  let aabbB ← registry.aabb body.2
  let posB ← registry.position body.2
  let ornB ← registry.orientation body.2
  let offset : vector3 α :=
    ⟨-contact_breaking_threshold, -contact_breaking_threshold, -contact_breaking_threshold⟩
  -- Only proceed to closest points calculation if AABBs intersect.
  if intersect (aabbA.inset offset) aabbB then
    let originA := body_origin posA ornA (registry.center_of_mass body.1)
    let originB := body_origin posB ornB (registry.center_of_mass body.2)
    let ctx : collision_context α :=
      ⟨originA, ornA, aabbA, originB, ornB, aabbB, contact_breaking_threshold⟩
    some (narrow_phase body ctx result)
  else
    some { result with num_points := 0 }

end store

/-! ## Concrete contacts -/

/-- A registry for concrete runs: unrotated bodies at the origin with the box `[0, 1]³`, no
centre-of-mass offset, one material for all, and no contact entity yet. -/
def sample_registry : registry ℚ :=
  { next_entity := 10
    position := fun _ => some ⟨0, 0, 0⟩
    orientation := fun _ => some ⟨0, 0, 0, 1⟩
    center_of_mass := fun _ => none
    aabb := fun _ => some ⟨⟨0, 0, 0⟩, ⟨1, 1, 1⟩⟩
    material := fun _ => some ⟨1 / 2, 1 / 3, 10, 20⟩
    continuous_contacts_tag := fun _ => false
    contact_points := []
    contact_constraints := []
    continuous := []
    dirty := [] }

/-- A contact point between the bodies 0 and 1 for concrete runs. -/
def sample_point : contact_point ℚ :=
  { body := (some 0, some 1), pivotA := ⟨1, 0, 0⟩, pivotB := ⟨0, 0, 0⟩,
    normal := ⟨1, 0, 0⟩, local_normal := ⟨1, 0, 0⟩,
    normal_attachment := contact_normal_attachment.none, friction := 0,
    restitution := 0, lifetime := 0, distance := 0 }

/-- A candidate point of the narrow phase for concrete runs. -/
def sample_candidate : collision_point ℚ :=
  ⟨⟨1, 0, 0⟩, ⟨0, 0, 0⟩, ⟨1, 0, 0⟩, 1, contact_normal_attachment.normal_on_A⟩

/-! ## The contact solver -/

/-- Modelled from the spec: `matrix3x3` of the math library, by rows. -/
structure matrix3x3 (α : Type) where
  row0 : vector3 α
  row1 : vector3 α
  row2 : vector3 α

/-- Modelled from the spec: `std::array<vector3, 4>`, the "4 Jacobian 3-vectors
(linear/angular for each body)" of a row. -/
structure jacobian (α : Type) where
  j0 : vector3 α
  j1 : vector3 α
  j2 : vector3 α
  j3 : vector3 α

/-- Modelled from the spec: `constraint_row` (`edyn/constraints/constraint_row.hpp`):
"4 Jacobian 3-vectors, inverse mass/inertia references, lower/upper impulse bounds,
accumulated impulse, references to each body's delta-velocity accumulators"; the references
`dvA`, `dwA` (`dvB`, `dwB`) are the entity `bodyA` (`bodyB`) whose accumulators they point
to. -/
structure constraint_row (α : Type) where
  J : jacobian α
  eff_mass : α
  rhs : α
  lower_limit : α
  upper_limit : α
  impulse : α
  inv_mA : α
  inv_mB : α
  inv_IA : matrix3x3 α
  inv_IB : matrix3x3 α
  bodyA : entity
  bodyB : entity

/-- Modelled from the spec: `constraint_row_options`, of which `prepare_constraints` sets
`error` and `restitution`. -/
structure constraint_row_options (α : Type) where
  error : α
  restitution : α

/-- The type `internal::contact_friction_row` of `contact_constraint.hpp`. -/
structure contact_friction_row (α : Type) where
  J : jacobian α
  eff_mass : α
  rhs : α
  impulse : α

/-- The type `internal::contact_friction_row_pair` of `contact_constraint.hpp`. -/
structure contact_friction_row_pair (α : Type) where
  row0 : contact_friction_row α
  row1 : contact_friction_row α
  friction_coefficient : α

/-- Modelled from the spec: the components of a body that the solver reads and writes:
"position, orientation, linear/angular velocity, inverse mass, inverse world-space inertia
tensor", the delta-velocity accumulators and the centre-of-mass offset when present. -/
structure solver_body (α : Type) where
  position : vector3 α
  orientation : quaternion α
  linvel : vector3 α
  angvel : vector3 α
  mass_inv : α
  inertia_world_inv : matrix3x3 α
  delta_linvel : vector3 α
  delta_angvel : vector3 α
  center_of_mass : Option (vector3 α)

/-- The state the contact solver works on: the bodies of the registry, the `row_cache`
(`rows` and `con_num_rows`), and the two context values of the registry,
`row_start_index_contact_constraint` and the friction side table of
`contact_constraint_context`. -/
structure solver_state (α : Type) where
  bodies : entity → Option (solver_body α)
  rows : List (constraint_row α)
  con_num_rows : List Nat
  row_start_index : Nat
  friction_rows : List (contact_friction_row_pair α)

section solver

variable {α : Type} [LinearOrderedField α]

/-- Modelled from the spec: `matrix3x3 * vector3` of the math library. -/
def matrix3x3.mul_vec (m : matrix3x3 α) (v : vector3 α) : vector3 α :=
  ⟨dot m.row0 v, dot m.row1 v, dot m.row2 v⟩

/-- Modelled from the spec: `vector3 * scalar` of the math library. -/
def vector3.mul (v : vector3 α) (s : α) : vector3 α := ⟨v.x * s, v.y * s, v.z * s⟩

/-- The statement `dv += v` on the `delta_linvel` of body `e`. -/
def add_delta_linvel (bodies : entity → Option (solver_body α)) (e : entity)
    (v : vector3 α) : Option (entity → Option (solver_body α)) :=
  (bodies e).map fun b => fun e' =>
    if e' = e then some { b with delta_linvel := b.delta_linvel.add v } else bodies e'

/-- The statement `dw += v` on the `delta_angvel` of body `e`. -/
def add_delta_angvel (bodies : entity → Option (solver_body α)) (e : entity)
    (v : vector3 α) : Option (entity → Option (solver_body α)) :=
  (bodies e).map fun b => fun e' =>
    if e' = e then some { b with delta_angvel := b.delta_angvel.add v } else bodies e'

/-- The four statements that apply an impulse along a Jacobian to the accumulators of two
bodies: `dvA += inv_mA * J[0] * impulse; dwA += inv_IA * J[1] * impulse;
dvB += inv_mB * J[2] * impulse; dwB += inv_IB * J[3] * impulse;`. -/
def apply_impulse (bodies : entity → Option (solver_body α)) (bodyA bodyB : entity)
    (inv_mA : α) (inv_IA : matrix3x3 α) (inv_mB : α) (inv_IB : matrix3x3 α)
    (J : jacobian α) (impulse : α) : Option (entity → Option (solver_body α)) := do
  let bodies ← add_delta_linvel bodies bodyA ((vector3.scale inv_mA J.j0).mul impulse)
  let bodies ← add_delta_angvel bodies bodyA ((inv_IA.mul_vec J.j1).mul impulse)
  let bodies ← add_delta_linvel bodies bodyB ((vector3.scale inv_mB J.j2).mul impulse)
  add_delta_angvel bodies bodyB ((inv_IB.mul_vec J.j3).mul impulse)

/-- The value `delta_relvel` of `iterate_constraints` for one friction row. -/
def friction_delta_relvel (friction_row : contact_friction_row α) (bA bB : solver_body α) : α :=
  dot friction_row.J.j0 bA.delta_linvel + dot friction_row.J.j1 bA.delta_angvel +
  dot friction_row.J.j2 bB.delta_linvel + dot friction_row.J.j3 bB.delta_angvel

/-- The first inner loop of `iterate_constraints`: the vectors `delta_impulse` and
`impulse`, each as a pair. -/
def friction_unclipped (pair : contact_friction_row_pair α) (bA bB : solver_body α) :
    (α × α) × (α × α) :=
  let d0 := (pair.row0.rhs - friction_delta_relvel pair.row0 bA bB) * pair.row0.eff_mass
  let d1 := (pair.row1.rhs - friction_delta_relvel pair.row1 bA bB) * pair.row1.eff_mass
  ((d0, d1), (pair.row0.impulse + d0, pair.row1.impulse + d1))

/-- The statement `// Limit impulse by normal load.` of `iterate_constraints`: the vectors
`delta_impulse` and `impulse` afterwards. `std::sqrt` and the constant `EDYN_EPSILON` are
parameters. -/
def friction_clip (sqrt : α → α) (EDYN_EPSILON : α) (pair : contact_friction_row_pair α)
    (normal_row : constraint_row α) (di : (α × α) × (α × α)) : (α × α) × (α × α) :=
  let impulse := di.2
  let impulse_len_sqr := impulse.1 * impulse.1 + impulse.2 * impulse.2
  let max_impulse_len := pair.friction_coefficient * normal_row.impulse
  if impulse_len_sqr > max_impulse_len * max_impulse_len ∧ impulse_len_sqr > EDYN_EPSILON then
    let impulse_len := sqrt impulse_len_sqr
    let impulse := (impulse.1 / impulse_len * max_impulse_len,
                    impulse.2 / impulse_len * max_impulse_len)
    ((impulse.1 - pair.row0.impulse, impulse.2 - pair.row1.impulse), impulse)
  else
    di

/-- The last inner loop of `iterate_constraints`, `// Apply delta impulse.`: the pair and
the bodies afterwards. -/
def friction_apply (pair : contact_friction_row_pair α) (normal_row : constraint_row α)
    (di : (α × α) × (α × α)) (bodies : entity → Option (solver_body α)) :
    Option (contact_friction_row_pair α × (entity → Option (solver_body α))) := do
  let pair := { pair with row0 := { pair.row0 with impulse := di.2.1 } }
  let bodies ← apply_impulse bodies normal_row.bodyA normal_row.bodyB normal_row.inv_mA
    normal_row.inv_IA normal_row.inv_mB normal_row.inv_IB pair.row0.J di.1.1
  let pair := { pair with row1 := { pair.row1 with impulse := di.2.2 } }
  let bodies ← apply_impulse bodies normal_row.bodyA normal_row.bodyB normal_row.inv_mA
    normal_row.inv_IA normal_row.inv_mB normal_row.inv_IB pair.row1.J di.1.2
  some (pair, bodies)

/-- The body of the outer loop of `iterate_constraints` at `row_idx`. -/
def iterate_step (sqrt : α → α) (EDYN_EPSILON : α) (st : solver_state α) (row_idx : Nat) :
    Option (solver_state α) := do
  let normal_row ← st.rows[st.row_start_index + row_idx]?
  let pair ← st.friction_rows[row_idx]?
  let bA ← st.bodies normal_row.bodyA
  let bB ← st.bodies normal_row.bodyB
  let di := friction_clip sqrt EDYN_EPSILON pair normal_row (friction_unclipped pair bA bB)
  let (pair, bodies) ← friction_apply pair normal_row di st.bodies
  some { st with bodies := bodies, friction_rows := st.friction_rows.set row_idx pair }

/-- The outer loop of `iterate_constraints` from `row_idx`, with `n` iterations left. -/
def iterate_loop (sqrt : α → α) (EDYN_EPSILON : α) :
    Nat → Nat → solver_state α → Option (solver_state α)
  | 0, _, st => some st
  | n + 1, row_idx, st =>
    match iterate_step sqrt EDYN_EPSILON st row_idx with
    | none => none
    | some st => iterate_loop sqrt EDYN_EPSILON n (row_idx + 1) st

/-- The function `iterate_constraints<contact_constraint>`. -/
def iterate_constraints (sqrt : α → α) (EDYN_EPSILON : α) (st : solver_state α) :
    Option (solver_state α) :=
  iterate_loop sqrt EDYN_EPSILON st.friction_rows.length 0 st

end solver

/-- A resting body for concrete runs of the solver: unit inverse mass and inertia, no
velocity and empty accumulators. -/
def sample_body {α : Type} [LinearOrderedField α] : solver_body α :=
  { position := ⟨0, 0, 0⟩, orientation := ⟨0, 0, 0, 1⟩, linvel := ⟨0, 0, 0⟩,
    angvel := ⟨0, 0, 0⟩, mass_inv := 1,
    inertia_world_inv := ⟨⟨1, 0, 0⟩, ⟨0, 1, 0⟩, ⟨0, 0, 1⟩⟩,
    delta_linvel := ⟨0, 0, 0⟩, delta_angvel := ⟨0, 0, 0⟩, center_of_mass := none }

/-- A solver state for concrete runs: one contact between the bodies 0 and 1 with normal
`(0, 1, 0)`, friction coefficient `1 / 2`, no accumulated normal impulse, and a first
friction row along `(1, 0, 0)` that asks for the impulse `1 / 100`. -/
def sample_solver_state {α : Type} [LinearOrderedField α] : solver_state α :=
  { bodies := fun _ => some sample_body
    rows := [{ J := ⟨⟨0, 1, 0⟩, ⟨0, 0, 0⟩, ⟨0, -1, 0⟩, ⟨0, 0, 0⟩⟩, eff_mass := 1 / 2, rhs := 0,
               lower_limit := 0, upper_limit := 1000, impulse := 0, inv_mA := 1, inv_mB := 1,
               inv_IA := ⟨⟨1, 0, 0⟩, ⟨0, 1, 0⟩, ⟨0, 0, 1⟩⟩,
               inv_IB := ⟨⟨1, 0, 0⟩, ⟨0, 1, 0⟩, ⟨0, 0, 1⟩⟩,
               bodyA := some 0, bodyB := some 1 }]
    con_num_rows := [1]
    row_start_index := 0
    friction_rows :=
      [{ row0 := { J := ⟨⟨1, 0, 0⟩, ⟨0, 0, 0⟩, ⟨-1, 0, 0⟩, ⟨0, 0, 0⟩⟩, eff_mass := 1 / 2,
                   rhs := 1 / 50, impulse := 0 }
         row1 := { J := ⟨⟨0, 0, 1⟩, ⟨0, 0, 0⟩, ⟨0, 0, -1⟩, ⟨0, 0, 0⟩⟩, eff_mass := 1 / 2,
                   rhs := 0, impulse := 0 }
         friction_coefficient := 1 / 2 }] }

section prepare

variable {α : Type} [LinearOrderedField α]

/-- The row that `cache.rows.emplace_back()` appends, value-initialised. -/
def zero_row : constraint_row α :=
  { J := ⟨vector3_zero, vector3_zero, vector3_zero, vector3_zero⟩, eff_mass := 0, rhs := 0,
    lower_limit := 0, upper_limit := 0, impulse := 0, inv_mA := 0, inv_mB := 0,
    inv_IA := ⟨vector3_zero, vector3_zero, vector3_zero⟩,
    inv_IB := ⟨vector3_zero, vector3_zero, vector3_zero⟩, bodyA := none, bodyB := none }

/-- The vectors `rA` and `rB` of `prepare_constraints`: the world pivots, computed from the
origins of the bodies, minus the positions of the bodies. -/
def contact_arms (bA bB : solver_body α) (cp : contact_point α) : vector3 α × vector3 α :=
  let originA := body_origin bA.position bA.orientation bA.center_of_mass
  let originB := body_origin bB.position bB.orientation bB.center_of_mass
  let pivotA := to_world_space cp.pivotA originA bA.orientation
  let pivotB := to_world_space cp.pivotB originB bB.orientation
  (pivotA.sub bA.position, pivotB.sub bB.position)

/-- The scalar `normal_relvel` of `prepare_constraints`. -/
def contact_normal_relvel (bA bB : solver_body α) (cp : contact_point α) : α :=
  let r := contact_arms bA bB cp
  let vA := bA.linvel.add (cross bA.angvel r.1)
  let vB := bB.linvel.add (cross bB.angvel r.2)
  let relvel := vA.sub vB
  dot relvel cp.normal

/-- The Jacobian `{d, cross(rA, d), -d, -cross(rB, d)}` that `prepare_constraints` builds
for the normal and for each tangent. -/
def contact_jacobian (rA rB d : vector3 α) : jacobian α :=
  ⟨d, cross rA d, d.neg, (cross rB d).neg⟩

/-- The normal row of `prepare_constraints` after the statements under
`// Create normal row.`, before the limits are chosen. -/
def normal_row_base (bA bB : solver_body α) (con : contact_constraint α)
    (cp : contact_point α) (imp : constraint_impulse α) : constraint_row α :=
  let r := contact_arms bA bB cp
  { (zero_row : constraint_row α) with
    J := contact_jacobian r.1 r.2 cp.normal
    inv_mA := bA.mass_inv, inv_IA := bA.inertia_world_inv
    inv_mB := bB.mass_inv, inv_IB := bB.inertia_world_inv
    bodyA := con.body.1, bodyB := con.body.2
    impulse := imp.values 0
    lower_limit := 0 }

/-- The statement `if (cp.distance < 0) { ... } else if (con.stiffness >= large_scalar)
{ ... }` of `prepare_constraints`: the row and the options afterwards. The constant
`large_scalar` is a parameter. -/
def normal_row_limits (large_scalar dt : α) (con : contact_constraint α)
    (cp : contact_point α) (normal_relvel : α) (normal_row : constraint_row α)
    (normal_options : constraint_row_options α) :
    constraint_row α × constraint_row_options α :=
  if cp.distance < 0 then
    if con.stiffness < large_scalar then
      let spring_force := cp.distance * con.stiffness
      let damper_force := normal_relvel * con.damping
      ({ normal_row with upper_limit := |spring_force + damper_force| * dt }, normal_options)
    else
      ({ normal_row with upper_limit := large_scalar }, normal_options)
  else if con.stiffness ≥ large_scalar then
    -- It is not penetrating thus apply an impulse that will prevent
    -- penetration after the following physics update.
    ({ normal_row with upper_limit := large_scalar },
     { normal_options with error := cp.distance / dt })
  else
    (normal_row, normal_options)

/-- The normal row and its options as `prepare_constraints` hands them to `prepare_row`. -/
def normal_row_and_options (large_scalar dt : α) (bA bB : solver_body α)
    (con : contact_constraint α) (cp : contact_point α) (imp : constraint_impulse α) :
    constraint_row α × constraint_row_options α :=
  normal_row_limits large_scalar dt con cp (contact_normal_relvel bA bB cp)
    (normal_row_base bA bB con cp imp) { error := 0, restitution := cp.restitution }

/-- The scalar `J_invM_JT` of `prepare_constraints`. -/
def J_invM_JT (J : jacobian α) (bA bB : solver_body α) : α :=
  dot J.j0 J.j0 * bA.mass_inv + dot (bA.inertia_world_inv.mul_vec J.j1) J.j1 +
  dot J.j2 J.j2 * bB.mass_inv + dot (bB.inertia_world_inv.mul_vec J.j3) J.j3

/-- The friction row that `prepare_constraints` builds for a tangent, with the stored
impulse `impulse`. -/
def friction_row_of (bA bB : solver_body α) (cp : contact_point α) (tangent : vector3 α)
    (impulse : α) : contact_friction_row α :=
  let r := contact_arms bA bB cp
  let J := contact_jacobian r.1 r.2 tangent
  let relvel := dot J.j0 bA.linvel + dot J.j1 bA.angvel + dot J.j2 bB.linvel +
    dot J.j3 bB.angvel
  { J := J, impulse := impulse, eff_mass := 1 / J_invM_JT J bA bB, rhs := -relvel }

/-- Modelled from the spec: `warm_start` (`edyn/util/constraint_util.hpp`): "immediately
apply that impulse to both bodies' shared delta-velocity accumulators". -/
def warm_start (row : constraint_row α) (bodies : entity → Option (solver_body α)) :
    Option (entity → Option (solver_body α)) :=
  apply_impulse bodies row.bodyA row.bodyB row.inv_mA row.inv_IA row.inv_mB row.inv_IB row.J
    row.impulse

/-- The `// Warm-starting.` statements of `prepare_constraints` for one friction row: the
inverse masses are read from the bodies. -/
def friction_warm_start (bodies : entity → Option (solver_body α)) (bodyA bodyB : entity)
    (friction_row : contact_friction_row α) : Option (entity → Option (solver_body α)) := do
  let bA ← bodies bodyA
  let bB ← bodies bodyB
  apply_impulse bodies bodyA bodyB bA.mass_inv bA.inertia_world_inv bB.mass_inv
    bB.inertia_world_inv friction_row.J friction_row.impulse

/-- The statements of `prepare_constraints` under `// Create special friction rows.`: the
pair, and the bodies after the warm start of both rows. The function `plane_space` of
`edyn/math/geom.hpp` is a parameter. -/
def prepare_friction (plane_space : vector3 α → vector3 α × vector3 α)
    (bodies : entity → Option (solver_body α)) (bA bB : solver_body α)
    (con : contact_constraint α) (cp : contact_point α) (imp : constraint_impulse α) :
    Option (contact_friction_row_pair α × (entity → Option (solver_body α))) := do
  let tangents := plane_space cp.normal
  let row0 := friction_row_of bA bB cp tangents.1 (imp.values 1)
  let bodies ← friction_warm_start bodies con.body.1 con.body.2 row0
  let row1 := friction_row_of bA bB cp tangents.2 (imp.values 2)
  let bodies ← friction_warm_start bodies con.body.1 con.body.2 row1
  some ({ row0 := row0, row1 := row1, friction_coefficient := cp.friction }, bodies)

/-- The body of the loop of `prepare_constraints` on one contact. The function
`prepare_row` of `edyn/util/constraint_util.hpp` is a parameter. -/
def prepare_contact (large_scalar dt : α)
    (plane_space : vector3 α → vector3 α × vector3 α)
    (prepare_row : constraint_row α → constraint_row_options α → vector3 α → vector3 α →
      vector3 α → vector3 α → constraint_row α)
    (imp_view : entity → Option (constraint_impulse α)) (st : solver_state α)
    (c : entity × contact_constraint α × contact_point α) : Option (solver_state α) := do
  let bA ← st.bodies c.2.1.body.1
  let bB ← st.bodies c.2.1.body.2
  let imp ← imp_view c.1
  if c.2.1.body = c.2.2.body then do
    let ro := normal_row_and_options large_scalar dt bA bB c.2.1 c.2.2 imp
    let normal_row := prepare_row ro.1 ro.2 bA.linvel bB.linvel bA.angvel bB.angvel
    let bodies ← warm_start normal_row st.bodies
    let (pair, bodies) ← prepare_friction plane_space bodies bA bB c.2.1 c.2.2 imp
    some { st with bodies := bodies, rows := st.rows ++ [normal_row],
                   friction_rows := st.friction_rows ++ [pair],
                   con_num_rows := st.con_num_rows ++ [1] }
  else
    none

/-- The loop of `prepare_constraints` over the view of the contacts. -/
def prepare_loop (large_scalar dt : α) (plane_space : vector3 α → vector3 α × vector3 α)
    (prepare_row : constraint_row α → constraint_row_options α → vector3 α → vector3 α →
      vector3 α → vector3 α → constraint_row α)
    (imp_view : entity → Option (constraint_impulse α)) :
    solver_state α → List (entity × contact_constraint α × contact_point α) →
      Option (solver_state α)
  | st, [] => some st
  | st, c :: cs =>
    match prepare_contact large_scalar dt plane_space prepare_row imp_view st c with
    | none => none
    | some st => prepare_loop large_scalar dt plane_space prepare_row imp_view st cs

/-- The function `prepare_constraints<contact_constraint>`. -/
def prepare_constraints (large_scalar dt : α)
    (plane_space : vector3 α → vector3 α × vector3 α)
    (prepare_row : constraint_row α → constraint_row_options α → vector3 α → vector3 α →
      vector3 α → vector3 α → constraint_row α)
    (imp_view : entity → Option (constraint_impulse α)) (st : solver_state α)
    (con_view : List (entity × contact_constraint α × contact_point α)) :
    Option (solver_state α) :=
  let start_idx := st.rows.length
  let st := { st with row_start_index := start_idx }
  let st := { st with friction_rows := [] }
  prepare_loop large_scalar dt plane_space prepare_row imp_view st con_view

end prepare

/-- Two values of the components of a body that differ at most in the delta-velocity
accumulators. -/
def same_body_but_deltas {α : Type} (b b' : solver_body α) : Prop :=
  b'.position = b.position ∧ b'.orientation = b.orientation ∧ b'.linvel = b.linvel ∧
  b'.angvel = b.angvel ∧ b'.mass_inv = b.mass_inv ∧
  b'.inertia_world_inv = b.inertia_world_inv ∧ b'.center_of_mass = b.center_of_mass

/-- Two views of the bodies with the same entities, whose bodies differ at most in the
delta-velocity accumulators. -/
def same_bodies_but_deltas {α : Type} (bodies bodies' : entity → Option (solver_body α)) :
    Prop :=
  ∀ e, (bodies e = none ∧ bodies' e = none) ∨
    ∃ b b', bodies e = some b ∧ bodies' e = some b' ∧ same_body_but_deltas b b'

/-! ## Predicates on the arena -/

section arena_predicates

variable {α : Type}

/-- Every node of the arena has a height of at least -1, the height of a free node. -/
def heights_ok (t : dynamic_tree α) : Prop :=
  ∀ j n, t.node (some j) = some n → -1 ≤ n.height

/-- Node `i` is a leaf (no `child1`) of height 0 that stores the box `a`. -/
def leaf_kept (t : dynamic_tree α) (i : Nat) (a : AABB α) : Prop :=
  ∃ n, t.node (some i) = some n ∧ n.child1 = null_node_id ∧ n.height = 0 ∧ n.aabb = a

/-- The id `id` is that of a node with a `child1`. -/
def is_internal (t : dynamic_tree α) (id : node_id_t) : Prop :=
  ∃ n, t.node id = some n ∧ n.child1 ≠ null_node_id

end arena_predicates

/-! ## The stored box of a moved leaf -/

section stored_box

variable {α : Type} [LinearOrderedCommRing α]

/-- The head of the free list is not its own successor: the free list is empty, or the `next`
of its head is another id. -/
def free_head_distinct (t : dynamic_tree α) : Bool :=
  match t.m_free_list with
  | none => true
  | some k =>
    match t.node (some k) with
    | none => true
    | some n => n.next != some k

/-- Every node of the arena has a height of at least -1, as a check that can be run. -/
def heights_check (t : dynamic_tree α) : Bool :=
  t.m_nodes.all fun n => decide (-1 ≤ n.height)

/-- One axis of the stored box of a moved leaf in the words of the specification: the interval
`[lo, hi]` "has its min lowered by 4*|displacement[i]| if displacement[i] < 0 and its max
raised by 4*displacement[i] otherwise". -/
def extended_axis_spec (lo hi displacement : α) : α × α :=
  if displacement < 0 then (lo - 4 * |displacement|, hi) else (lo, hi + 4 * displacement)

/-- The stored box of a moved leaf in the words of the specification: "aabb outset by the
fixed margin and then, on each axis" extended as `extended_axis_spec` says. -/
def moved_aabb_spec (aabb_inset : vector3 α) (aabb : AABB α) (displacement : vector3 α) :
    AABB α :=
  let outset := aabb.inset aabb_inset
  let x := extended_axis_spec outset.min.x outset.max.x displacement.x
  let y := extended_axis_spec outset.min.y outset.max.y displacement.y
  let z := extended_axis_spec outset.min.z outset.max.z displacement.z
  ⟨⟨x.1, y.1, z.1⟩, ⟨x.2, y.2, z.2⟩⟩

end stored_box

/-- The tree after `create(box_at x, 7)` for `x` = 1, 5, 3 and then `destroy(1)`, from the
empty tree: leaves 0 and 3 under the root 2, and the free list 1, 4. -/
def sample_tree : dynamic_tree ℤ :=
  (run_calls unit_margin 10 dynamic_tree.empty
    (creates_at [1, 5, 3] ++ [tree_call.destroy (some 1)])).getD dynamic_tree.empty

/-! ## Rotations of the tree -/

section rotations

variable {α : Type}

/-- The arena with the node at index `k` replaced by `x`. -/
def dynamic_tree.write (t : dynamic_tree α) (k : Nat) (x : tree_node α) : dynamic_tree α :=
  { t with m_nodes := t.m_nodes.set k x }

/-- The true height of the subtree under `id`, walking down at most `fuel` levels: 0 for a
leaf, one more than the taller child for an internal node. -/
def subtree_height : Nat → dynamic_tree α → node_id_t → Option Int
  | 0, _, _ => none
  | fuel + 1, t, id =>
    match t.node id with
    | none => none
    | some n =>
      if n.child1 = null_node_id then some 0
      else
        match subtree_height fuel t n.child1, subtree_height fuel t n.child2 with
        | some h1, some h2 => some (Max.max h1 h2 + 1)
        | _, _ => none

end rotations

/-- The height field of node `id` is the true height of the subtree under it. -/
def has_true_height {α : Type} (t : dynamic_tree α) (id : node_id_t) : Prop :=
  ∃ fuel h, subtree_height fuel t id = some h ∧ t.height id = some h

/-- A node for concrete arenas, with the box `[lo, hi] × [0, 1] × [0, 1]`. -/
def sample_node (parent child1 child2 : node_id_t) (height lo hi : ℤ) : tree_node ℤ :=
  { entity := none, aabb := ⟨⟨lo, 0, 0⟩, ⟨hi, 1, 1⟩⟩, parent := parent, next := none,
    child1 := child1, child2 := child2, height := height }

/-- An arena whose node 1 (A) is heavier on the side of `child2`: A has the parent 0 (the
root, with the other child 7), the children 2 (B, a leaf) and 3 (C, of height 2); C has the
children 4 (F, a leaf) and 5 (G, of height 1, over the leaves 6 and 8). -/
def right_heavy_tree : dynamic_tree ℤ :=
  { m_nodes :=
      [sample_node none (some 1) (some 7) 4 0 9, sample_node (some 0) (some 2) (some 3) 3 0 7,
       sample_node (some 1) none none 0 0 1, sample_node (some 1) (some 4) (some 5) 2 2 7,
       sample_node (some 3) none none 0 2 3, sample_node (some 3) (some 6) (some 8) 1 4 7,
       sample_node (some 5) none none 0 4 5, sample_node (some 0) none none 0 8 9,
       sample_node (some 5) none none 0 6 7]
    m_root := some 0
    m_free_list := none }

/-- An arena whose node 1 (A) is heavier on the side of `child1`: A has the parent 0 (the
root, with the other child 7), the children 2 (B, of height 2) and 3 (C, a leaf); B has the
children 4 (D, a leaf) and 5 (E, of height 1, over the leaves 6 and 8). -/
def left_heavy_tree : dynamic_tree ℤ :=
  { m_nodes :=
      [sample_node none (some 1) (some 7) 4 0 9, sample_node (some 0) (some 2) (some 3) 3 0 7,
       sample_node (some 1) (some 4) (some 5) 2 0 5, sample_node (some 1) none none 0 6 7,
       sample_node (some 2) none none 0 0 1, sample_node (some 2) (some 6) (some 8) 1 2 5,
       sample_node (some 4) none none 0 2 3, sample_node (some 0) none none 0 8 9,
       sample_node (some 4) none none 0 4 5]
    m_root := some 0
    m_free_list := none }

/-- An arena whose root 0 (A) is heavier on the side of `child1`: A has the children 1 (B, of
height 2) and 2 (C, a leaf); B has the children 3 (D, a leaf) and 4 (E, of height 1, over the
leaves 5 and 6). -/
def left_heavy_root_tree : dynamic_tree ℤ :=
  { m_nodes :=
      [sample_node none (some 1) (some 2) 3 0 7, sample_node (some 0) (some 3) (some 4) 2 0 5,
       sample_node (some 0) none none 0 6 7, sample_node (some 1) none none 0 0 1,
       sample_node (some 1) (some 5) (some 6) 1 2 5, sample_node (some 4) none none 0 2 3,
       sample_node (some 4) none none 0 4 5]
    m_root := some 0
    m_free_list := none }

/-! ## A sliding contact -/

section sliding

variable {α : Type} [LinearOrderedField α]

/-- A body without rotational inertia for concrete runs of the solver: inverse mass 1, zero
inverse inertia, the linear velocity `v`, and empty accumulators. -/
def point_mass_body (v : vector3 α) : solver_body α :=
  { position := ⟨0, 0, 0⟩, orientation := ⟨0, 0, 0, 1⟩, linvel := v,
    angvel := ⟨0, 0, 0⟩, mass_inv := 1,
    inertia_world_inv := ⟨vector3_zero, vector3_zero, vector3_zero⟩,
    delta_linvel := ⟨0, 0, 0⟩, delta_angvel := ⟨0, 0, 0⟩, center_of_mass := none }

/-- The contact point of `sliding_state`: between the bodies 0 and 1, at the origin, with
normal `(0, 1, 0)` and friction coefficient 1. -/
def sliding_point : contact_point α :=
  { body := (some 0, some 1), pivotA := ⟨0, 0, 0⟩, pivotB := ⟨0, 0, 0⟩,
    normal := ⟨0, 1, 0⟩, local_normal := ⟨0, 1, 0⟩,
    normal_attachment := contact_normal_attachment.none, friction := 1,
    restitution := 0, lifetime := 0, distance := 0 }

/-- The normal row of `sliding_state`, with the accumulated impulse 1. -/
def sliding_normal_row : constraint_row α :=
  { J := ⟨⟨0, 1, 0⟩, ⟨0, 0, 0⟩, ⟨0, -1, 0⟩, ⟨0, 0, 0⟩⟩, eff_mass := 1 / 2, rhs := 0,
    lower_limit := 0, upper_limit := 1000, impulse := 1, inv_mA := 1, inv_mB := 1,
    inv_IA := ⟨vector3_zero, vector3_zero, vector3_zero⟩,
    inv_IB := ⟨vector3_zero, vector3_zero, vector3_zero⟩,
    bodyA := some 0, bodyB := some 1 }

/-- The friction rows of `sliding_state`: those that `prepare_constraints` builds for the
tangents `(1, 0, 0)` and `(0, 0, 1)`, with no stored impulse. -/
def sliding_pair : contact_friction_row_pair α :=
  { row0 := friction_row_of (point_mass_body ⟨1, 0, 0⟩) (point_mass_body ⟨0, 0, 0⟩)
      sliding_point ⟨1, 0, 0⟩ 0
    row1 := friction_row_of (point_mass_body ⟨1, 0, 0⟩) (point_mass_body ⟨0, 0, 0⟩)
      sliding_point ⟨0, 0, 1⟩ 0
    friction_coefficient := 1 }

/-- A solver state for concrete runs: body 0 slides with the velocity `(1, 0, 0)` over the
resting body 1, both without rotational inertia, with one contact between them. -/
def sliding_state : solver_state α :=
  { bodies := fun e => if e = some 0 then some (point_mass_body ⟨1, 0, 0⟩)
      else some (point_mass_body ⟨0, 0, 0⟩)
    rows := [sliding_normal_row]
    con_num_rows := [1]
    row_start_index := 0
    friction_rows := [sliding_pair] }

end sliding

/-! ## The position solver -/

section position_solver

variable {α : Type} [LinearOrderedField α]

/-- The sum of two quaternions, `operator+(quaternion, quaternion)`. -/
def quaternion.add (q0 q1 : quaternion α) : quaternion α :=
  ⟨q0.x + q1.x, q0.y + q1.y, q0.z + q1.z, q0.w + q1.w⟩

/-- The product of a scalar and a quaternion, `operator*(scalar, quaternion)`. -/
def quaternion.scale (s : α) (q : quaternion α) : quaternion α :=
  ⟨s * q.x, s * q.y, s * q.z, s * q.w⟩

/-- The quotient of a quaternion by a scalar, `operator/(quaternion, scalar)`. -/
def quaternion.div (q : quaternion α) (s : α) : quaternion α :=
  ⟨q.x / s, q.y / s, q.z / s, q.w / s⟩

/-- The function `length_sqr(quaternion)`. -/
def quaternion.length_sqr (q : quaternion α) : α :=
  q.x * q.x + q.y * q.y + q.z * q.z + q.w * q.w

/-- The function `normalize(quaternion)`; a failing `EDYN_ASSERT(l > EDYN_EPSILON)` gives
`none`. `std::sqrt` and the constant `EDYN_EPSILON` are parameters. -/
def normalize (sqrt : α → α) (EDYN_EPSILON : α) (q : quaternion α) : Option (quaternion α) :=
  let l := sqrt q.length_sqr
  if l > EDYN_EPSILON then some (q.div l) else none

/-- Modelled from the spec: the columns of a `matrix3x3` of the math library. -/
def matrix3x3.column0 (m : matrix3x3 α) : vector3 α := ⟨m.row0.x, m.row1.x, m.row2.x⟩

/-- Modelled from the spec: the columns of a `matrix3x3` of the math library. -/
def matrix3x3.column1 (m : matrix3x3 α) : vector3 α := ⟨m.row0.y, m.row1.y, m.row2.y⟩

/-- Modelled from the spec: the columns of a `matrix3x3` of the math library. -/
def matrix3x3.column2 (m : matrix3x3 α) : vector3 α := ⟨m.row0.z, m.row1.z, m.row2.z⟩

/-- Modelled from the spec: `transpose` of the math library. -/
def matrix3x3.transpose (m : matrix3x3 α) : matrix3x3 α := ⟨m.column0, m.column1, m.column2⟩

/-- Modelled from the spec: `matrix3x3 * matrix3x3` of the math library. -/
def matrix3x3.mul (m n : matrix3x3 α) : matrix3x3 α :=
  ⟨⟨dot m.row0 n.column0, dot m.row0 n.column1, dot m.row0 n.column2⟩,
   ⟨dot m.row1 n.column0, dot m.row1 n.column1, dot m.row1 n.column2⟩,
   ⟨dot m.row2 n.column0, dot m.row2 n.column1, dot m.row2 n.column2⟩⟩

/-- Modelled from the spec: `to_matrix3x3(quaternion)` of the math library
(`edyn/math/matrix3x3.hpp`, not part of the sources at hand), the rotation matrix of an
orientation, by which an inertia tensor is "rotated into the new orientation". -/
def to_matrix3x3 (q : quaternion α) : matrix3x3 α :=
  let s := 2 / q.length_sqr
  let xs := q.x * s
  let ys := q.y * s
  let zs := q.z * s
  ⟨⟨1 - (q.y * ys + q.z * zs), q.x * ys - q.w * zs, q.x * zs + q.w * ys⟩,
   ⟨q.x * ys + q.w * zs, 1 - (q.x * xs + q.z * zs), q.y * zs - q.w * xs⟩,
   ⟨q.x * zs - q.w * ys, q.y * zs + q.w * xs, 1 - (q.x * xs + q.y * ys)⟩⟩

/-- The `switch (cp.normal_attachment)` statement of `solve_position_constraints`: the world
normal of the contact afterwards. -/
def refreshed_normal (cp : contact_point α) (ornA ornB : quaternion α) : vector3 α :=
  match cp.normal_attachment with
  | contact_normal_attachment.normal_on_A => rotate ornA cp.local_normal
  | contact_normal_attachment.normal_on_B => rotate ornB cp.local_normal
  | contact_normal_attachment.none => cp.normal

/-- The values that the body of `solve_position_constraints` computes for one contact before
it moves the bodies: the refreshed `normal`, the `distance`, the Jacobian `J` and the
`correction`. -/
structure position_correction (α : Type) where
  normal : vector3 α
  distance : α
  J : jacobian α
  correction : α

/-- The statements of the body of `solve_position_constraints` up to
`auto correction = -error * contact_position_correction_rate * eff_mass;`. The constant
`contact_position_correction_rate` is a parameter. The quotient `scalar(1) / J_invM_JT` is
the quotient of the field: it stands for the quotient of the source where `J_invM_JT` is not
zero. -/
def position_correction_of (contact_position_correction_rate : α) (bA bB : solver_body α)
    (cp : contact_point α) : position_correction α :=
  let originA := body_origin bA.position bA.orientation bA.center_of_mass
  let originB := body_origin bB.position bB.orientation bB.center_of_mass
  let pivotA := to_world_space cp.pivotA originA bA.orientation
  let pivotB := to_world_space cp.pivotB originB bB.orientation
  let normal := refreshed_normal cp bA.orientation bB.orientation
  let distance := dot (pivotA.sub pivotB) normal
  let rA := pivotA.sub bA.position
  let rB := pivotB.sub bB.position
  let J := contact_jacobian rA rB normal
  let eff_mass := 1 / J_invM_JT J bA bB
  let error := Min.min distance 0
  let correction := -error * contact_position_correction_rate * eff_mass
  { normal := normal, distance := distance, J := J, correction := correction }

/-- The statement `pos += inv_m * J * correction` on the position of body `e`. -/
def shift_position (bodies : entity → Option (solver_body α)) (e : entity) (J : vector3 α)
    (correction : α) : Option (entity → Option (solver_body α)) :=
  (bodies e).map fun b => fun e' =>
    if e' = e then
      some { b with position := b.position.add ((vector3.scale b.mass_inv J).mul correction) }
    else bodies e'

/-- The angular correction of body `e`: `auto angular_correction = inv_I * J * correction;
orn += scalar(0.5) * quaternion{angular_correction.x, angular_correction.y,
angular_correction.z, 0} * orn; orn = normalize(orn);`. -/
def angular_correct (sqrt : α → α) (EDYN_EPSILON : α)
    (bodies : entity → Option (solver_body α)) (e : entity) (J : vector3 α)
    (correction : α) : Option (entity → Option (solver_body α)) := do
  let b ← bodies e
  let angular_correction := (b.inertia_world_inv.mul_vec J).mul correction
  let orn := b.orientation.add
    ((quaternion.scale (1 / 2)
      ⟨angular_correction.x, angular_correction.y, angular_correction.z, 0⟩).mul b.orientation)
  let orn ← normalize sqrt EDYN_EPSILON orn
  some fun e' => if e' = e then some { b with orientation := orn } else bodies e'

/-- The inertia refresh of body `e`: `auto basis = to_matrix3x3(orn);
inv_I = basis * inv_I * transpose(basis);`, on the component `inertia_world_inv`. -/
def refresh_inertia (bodies : entity → Option (solver_body α)) (e : entity) :
    Option (entity → Option (solver_body α)) :=
  (bodies e).map fun b => fun e' =>
    if e' = e then
      let basis := to_matrix3x3 b.orientation
      some { b with inertia_world_inv := (basis.mul b.inertia_world_inv).mul basis.transpose }
    else bodies e'

/-- The statements of the body of `solve_position_constraints` that move the two bodies, from
`posA += inv_mA * J[0] * correction;` to the end. -/
def position_apply (sqrt : α → α) (EDYN_EPSILON : α)
    (bodies : entity → Option (solver_body α)) (bodyA bodyB : entity) (J : jacobian α)
    (correction : α) : Option (entity → Option (solver_body α)) := do
  let bodies ← shift_position bodies bodyA J.j0 correction
  let bodies ← shift_position bodies bodyB J.j2 correction
  let bodies ← angular_correct sqrt EDYN_EPSILON bodies bodyA J.j1 correction
  let bodies ← angular_correct sqrt EDYN_EPSILON bodies bodyB J.j3 correction
  let bodies ← refresh_inertia bodies bodyA
  refresh_inertia bodies bodyB

/-- The body of the loop of `solve_position_constraints` on one contact point: the bodies,
the contact point and `min_dist` afterwards. -/
def solve_position_contact (contact_position_correction_rate : α) (sqrt : α → α)
    (EDYN_EPSILON : α) (bodies : entity → Option (solver_body α)) (cp : contact_point α)
    (min_dist : α) :
    Option ((entity → Option (solver_body α)) × contact_point α × α) := do
  let bA ← bodies cp.body.1
  let bB ← bodies cp.body.2
  let c := position_correction_of contact_position_correction_rate bA bB cp
  let cp := { cp with normal := c.normal }
  let cp := { cp with distance := c.distance }
  let min_dist := Min.min cp.distance min_dist
  let bodies ← position_apply sqrt EDYN_EPSILON bodies cp.body.1 cp.body.2 c.J c.correction
  some (bodies, cp, min_dist)

/-- The loop of `solve_position_constraints` over the view of the contact points. -/
def solve_position_loop (contact_position_correction_rate : α) (sqrt : α → α)
    (EDYN_EPSILON : α) :
    (entity → Option (solver_body α)) → α → List (entity × contact_point α) →
      Option ((entity → Option (solver_body α)) × List (entity × contact_point α) × α)
  | bodies, min_dist, [] => some (bodies, [], min_dist)
  | bodies, min_dist, (e, cp) :: rest =>
    match solve_position_contact contact_position_correction_rate sqrt EDYN_EPSILON bodies cp
        min_dist with
    | none => none
    | some (bodies, cp, min_dist) =>
      match solve_position_loop contact_position_correction_rate sqrt EDYN_EPSILON bodies
          min_dist rest with
      | none => none
      | some (bodies, rest, min_dist) => some (bodies, (e, cp) :: rest, min_dist)

/-- The part of the registry that `solve_position_constraints` works on: the bodies and the
contact points. -/
structure position_state (α : Type) where
  bodies : entity → Option (solver_body α)
  contact_points : List (entity × contact_point α)

/-- The function `solve_position_constraints<contact_constraint>`: the state afterwards and
the returned flag. The constants `contact_position_correction_rate` and
`contact_position_solver_min_error` are parameters. -/
def solve_position_constraints (contact_position_correction_rate
    contact_position_solver_min_error : α) (sqrt : α → α) (EDYN_EPSILON : α)
    (st : position_state α) : Option (position_state α × Bool) :=
  (solve_position_loop contact_position_correction_rate sqrt EDYN_EPSILON st.bodies 0
      st.contact_points).map fun r =>
    (⟨r.1, r.2.1⟩, decide (r.2.2 > contact_position_solver_min_error))

end position_solver

/-! ## Concrete contacts for the position solver -/

section position_samples

variable {α : Type} [LinearOrderedField α]

/-- A body without rotational inertia at the position `p`, at rest and unrotated. -/
def point_mass_at (p : vector3 α) : solver_body α :=
  { (point_mass_body ⟨0, 0, 0⟩ : solver_body α) with position := p }

/-- A state for concrete runs of the position solver: body 0 at `(0, d, 0)` over body 1 at the
origin, both without rotational inertia, with the single contact `sliding_point` (pivots at
the centres, normal `(0, 1, 0)` not attached to a body) as the entity 5; its distance is
`d`. -/
def contact_state_at (d : α) : position_state α :=
  { bodies := fun e => if e = some 0 then some (point_mass_at ⟨0, d, 0⟩)
      else some (point_mass_at ⟨0, 0, 0⟩)
    contact_points := [(some 5, sliding_point)] }

/-- The body-space inverse inertia tensor of `tilted_body`: the diagonal 1, 2, 3. -/
def tilted_body_inertia : matrix3x3 α := ⟨⟨1, 0, 0⟩, ⟨0, 2, 0⟩, ⟨0, 0, 3⟩⟩

/-- A body at the origin with the unit orientation `(0, 0, 3/5, 4/5)`, a rotation about the
z axis, whose world-space inverse inertia is its body-space inverse inertia
`tilted_body_inertia` rotated into that orientation. -/
def tilted_body : solver_body α :=
  { (point_mass_body ⟨0, 0, 0⟩ : solver_body α) with
    orientation := ⟨0, 0, 3 / 5, 4 / 5⟩
    inertia_world_inv :=
      ((to_matrix3x3 ⟨0, 0, 3 / 5, 4 / 5⟩).mul tilted_body_inertia).mul
        (to_matrix3x3 (⟨0, 0, 3 / 5, 4 / 5⟩ : quaternion α)).transpose }

/-- A state for concrete runs of the position solver: the body 0 is `tilted_body`, the body 1
rests unrotated at the origin, and the single contact `sliding_point` between them, the entity
5, has the distance 0. -/
def tilted_state : position_state α :=
  { bodies := fun e => if e = some 0 then some tilted_body else some (point_mass_at ⟨0, 0, 0⟩)
    contact_points := [(some 5, sliding_point)] }

/-- The contact `sliding_point` with its normal attached to body A: the stored object-space
normal is `(0, 1, 0)`. -/
def attached_point : contact_point α :=
  { (sliding_point : contact_point α) with
    normal_attachment := contact_normal_attachment.normal_on_A }

end position_samples

/-! ## Narrow phase: shapes and the geometry library -/

/-- Modelled from the spec: `vector2` of the math library. -/
structure vector2 (α : Type) where
  x : α
  y : α

/-- Modelled from the spec: `cylinder_shape` (`edyn/shapes/cylinder_shape.hpp`, not part of
the sources at hand): a cylinder along the x axis of its body. -/
structure cylinder_shape (α : Type) where
  radius : α
  half_length : α

/-- Modelled from the spec: `box_shape` (`edyn/shapes/box_shape.hpp`). -/
structure box_shape (α : Type) where
  half_extents : vector3 α

/-- Modelled from the spec: `capsule_shape` (`edyn/shapes/capsule_shape.hpp`). -/
structure capsule_shape (α : Type) where
  radius : α
  half_length : α

/-- Modelled from the spec: `cylinder_feature`, the "contact feature" of a cylinder. -/
inductive cylinder_feature where
  | face
  | side_edge
  | cap_edge
deriving DecidableEq

/-- Modelled from the spec: `box_feature`, the "contact feature ... (vertex/edge/face)" of a
box. -/
inductive box_feature where
  | vertex
  | edge
  | face
deriving DecidableEq

/-- Modelled from the spec: `triangle_feature`, the "contact feature ... (vertex/edge/face)"
of a triangle. -/
inductive triangle_feature where
  | vertex
  | edge
  | face
deriving DecidableEq

/-- The output parameters of `closest_point_circle_line` (`edyn/math/geom.hpp`). -/
structure circle_line_points (α : Type) where
  num_points : Nat
  s0 : α
  closest_circle0 : vector3 α
  closest_line0 : vector3 α
  s1 : α
  closest_circle1 : vector3 α
  closest_line1 : vector3 α
  normal : vector3 α

/-- The output parameters of `closest_point_segment_segment` (`edyn/math/geom.hpp`). -/
structure segment_segment_points (α : Type) where
  num_points : Nat
  s0 : α
  t0 : α
  closestA0 : vector3 α
  closestB0 : vector3 α
  s1 : α
  t1 : α
  closestA1 : vector3 α
  closestB1 : vector3 α

/-- The functions of the shape classes and of the math library that the narrow phase calls
and that are not part of the sources at hand (`edyn/shapes/cylinder_shape.hpp`,
`box_shape.hpp`, `triangle_shape.hpp`, `edyn/util/shape_util.hpp`, `edyn/math/geom.hpp`,
`math.hpp`, `vector2_3_util.hpp`, `matrix3x3.hpp`): each is a parameter, named after the C++
function; an array result is a function of the index, and a function with output parameters
returns them. -/
structure narrow_phase_library (α : Type) where
  cylinder_support_projection : cylinder_shape α → vector3 α → quaternion α → vector3 α → α
  cylinder_support_feature :
    cylinder_shape α → vector3 α → quaternion α → vector3 α → α → cylinder_feature × Nat
  cylinder_support_point : cylinder_shape α → vector3 α → quaternion α → vector3 α → vector3 α
  box_support_projection : box_shape α → vector3 α → quaternion α → vector3 α → α
  box_support_feature :
    box_shape α → vector3 α → quaternion α → vector3 α → α → box_feature × Nat
  get_box_num_features : box_feature → Nat
  box_get_vertex : box_shape α → Nat → vector3 α
  box_get_vertex_world : box_shape α → Nat → vector3 α → quaternion α → vector3 α
  box_get_edge : box_shape α → Nat → Nat → vector3 α
  box_get_edge_world : box_shape α → Nat → vector3 α → quaternion α → Nat → vector3 α
  box_get_face : box_shape α → Nat → Nat → vector3 α
  box_get_face_world : box_shape α → Nat → vector3 α → quaternion α → Nat → vector3 α
  box_get_face_normal : box_shape α → Nat → vector3 α
  box_get_face_normal_world : box_shape α → Nat → quaternion α → vector3 α
  box_get_face_center : box_shape α → Nat → vector3 α → quaternion α → vector3 α
  box_get_face_basis : box_shape α → Nat → quaternion α → matrix3x3 α
  box_get_face_half_extents : box_shape α → Nat → vector2 α
  capsule_support_projection : (Nat → vector3 α) → α → vector3 α → α
  get_triangle_support_projection : (Nat → vector3 α) → vector3 α → α
  get_triangle_support_feature :
    (Nat → vector3 α) → vector3 α → vector3 α → α → triangle_feature × Nat × α
  try_normalize : vector3 α → Option (vector3 α)
  normalize : vector3 α → vector3 α
  closest_point_line : vector3 α → vector3 α → vector3 α → α × vector3 α
  closest_point_segment : vector3 α → vector3 α → vector3 α → α × vector3 α
  closest_point_circle_line :
    vector3 α → quaternion α → α → vector3 α → vector3 α → α → circle_line_points α
  closest_point_segment_segment :
    vector3 α → vector3 α → vector3 α → vector3 α → segment_segment_points α
  intersect_line_circle : vector2 α → vector2 α → α → Nat × α × α
  intersect_line_aabb : vector2 α → vector2 α → vector2 α → vector2 α → Nat × α × α
  intersect_segments : vector2 α → vector2 α → vector2 α → vector2 α → Nat × (α × α) × (α × α)
  point_in_polygonal_prism : (Nat → vector3 α) → vector3 α → vector3 α → Bool
  point_in_triangle : (Nat → vector3 α) → vector3 α → vector3 α → Bool
  project_plane : vector3 α → vector3 α → vector3 α → vector3 α
  lerp : vector3 α → vector3 α → α → vector3 α
  clamp_unit : α → α
  to_sign : Bool → α
  to_vector2_zy : vector3 α → vector2 α
  to_vector2_xz : vector3 α → vector2 α
  vector2_sub : vector2 α → vector2 α → vector2 α
  vector2_neg : vector2 α → vector2 α
  vector2_dot : vector2 α → vector2 α → α
  vector2_normalize : vector2 α → vector2 α
  orthogonal : vector2 α → vector2 α
  matrix3x3_columns : vector3 α → vector3 α → vector3 α → matrix3x3 α
  to_object_space_basis : vector3 α → vector3 α → matrix3x3 α → vector3 α

/-- Modelled from the spec: the part of `triangle_mesh` (`edyn/shapes/triangle_mesh.hpp`, not
part of the sources at hand) that `collide_capsule_triangle` calls: its member functions, by
name. -/
structure triangle_mesh (α : Type) where
  get_triangle_vertices : Nat → Nat → vector3 α
  get_triangle_normal : Nat → vector3 α
  ignore_triangle_feature : Nat → triangle_feature → Nat → vector3 α → Bool
  is_concave_edge : Nat → Bool
  get_face_edge_index : Nat → Nat → Nat

section narrow_phase

variable {α : Type} [LinearOrderedField α]

/-- Modelled from the spec: the constant `vector3_x` of the math library. -/
def vector3_x : vector3 α := ⟨1, 0, 0⟩

/-- Modelled from the spec: the constant `vector3_y` of the math library. -/
def vector3_y : vector3 α := ⟨0, 1, 0⟩

/-- Modelled from the spec: the constant `vector3_z` of the math library. -/
def vector3_z : vector3 α := ⟨0, 0, 1⟩

/-- The function `quaternion_x`. -/
def quaternion_x (q : quaternion α) : vector3 α := rotate q vector3_x

/-- The function `quaternion_y`. -/
def quaternion_y (q : quaternion α) : vector3 α := rotate q vector3_y

/-- The function `quaternion_z`. -/
def quaternion_z (q : quaternion α) : vector3 α := rotate q vector3_z

/-- Modelled from the spec: `vector3::operator[]` of the math library. -/
def vector3.get (v : vector3 α) (i : Nat) : α :=
  match i with
  | 0 => v.x
  | 1 => v.y
  | _ => v.z

/-- Modelled from the spec: `collision_result::add_point`, the "unconditional add":
`point[num_points++] = new_point`; a full result gives `none`. -/
def collision_result.add_point (result : collision_result α) (new_point : collision_point α) :
    Option (collision_result α) :=
  if result.num_points < max_contacts then
    some ⟨result.num_points + 1,
      result.point.take result.num_points ++ [new_point] ++
        result.point.drop (result.num_points + 1)⟩
  else none

/-- Modelled from the spec: `collision_result::maybe_add_point`, the "deduplicating add that
rejects points coincident (within tolerance) with an already-stored point"; the test of
coincidence is the parameter `coincident`. -/
def collision_result.maybe_add_point (coincident : collision_point α → collision_point α → Bool)
    (result : collision_result α) (new_point : collision_point α) :
    Option (collision_result α) :=
  if (result.point.take result.num_points).any fun p => coincident p new_point then
    some result
  else result.add_point new_point

/-- A sequence of calls of `maybe_add_point` (flag `true`) and `add_point` (flag `false`) on
`result`, in order. -/
def collision_result.add_points (coincident : collision_point α → collision_point α → Bool) :
    collision_result α → List (Bool × collision_point α) → Option (collision_result α)
  | result, [] => some result
  | result, (dedup, p) :: rest =>
    match (if dedup then result.maybe_add_point coincident p else result.add_point p) with
    | none => none
    | some result => collision_result.add_points coincident result rest

/-- The statement `if (dot(posA - posB, dir) < 0) { dir *= -1; }`: make `dir` point towards
A. -/
def towards_A (posA posB dir : vector3 α) : vector3 α :=
  if dot (posA.sub posB) dir < 0 then dir.mul (-1) else dir

/-- The statement `if (dist > distance) { distance = dist; sep_axis = dir; }` on the pair
`(distance, sep_axis)`, for a candidate axis `dir` with the gap `dist`. -/
def axis_update (st : α × vector3 α) (c : vector3 α × α) : α × vector3 α :=
  if c.2 > st.1 then (c.2, c.1) else st

end narrow_phase
/-! ## Narrow phase: cylinder against box -/

section cylinder_box

variable {α : Type} [LinearOrderedField α]

/-- The array `box_axes` of `collide(cylinder_shape, box_shape)`. -/
def box_axes (ornB : quaternion α) (i : Nat) : vector3 α :=
  match i with
  | 0 => quaternion_x ornB
  | 1 => quaternion_y ornB
  | _ => quaternion_z ornB

/-- The array `cyl_vertices` of `collide(cylinder_shape, box_shape)`. -/
def cyl_vertices (shA : cylinder_shape α) (ctx : collision_context α) (i : Nat) : vector3 α :=
  let cyl_axis := quaternion_x ctx.ornA
  match i with
  | 0 => ctx.posA.add (cyl_axis.mul shA.half_length)
  | _ => ctx.posA.sub (cyl_axis.mul shA.half_length)

/-- The body of the loop `// Box faces.`: the candidate axis and its gap. -/
def box_face_candidate (L : narrow_phase_library α) (shA : cylinder_shape α)
    (shB : box_shape α) (ctx : collision_context α) (i : Nat) : vector3 α × α :=
  let dir := towards_A ctx.posA ctx.posB (box_axes ctx.ornB i)
  let projA := -(L.cylinder_support_projection shA ctx.posA ctx.ornA dir.neg)
  let projB := dot ctx.posB dir + shB.half_extents.get i
  let dist := projA - projB
  (dir, dist)

/-- The block `// Cylinder cap faces.`: the candidate axis and its gap. -/
def cylinder_cap_candidate (L : narrow_phase_library α) (shA : cylinder_shape α)
    (shB : box_shape α) (ctx : collision_context α) : vector3 α × α :=
  let dir := towards_A ctx.posA ctx.posB (quaternion_x ctx.ornA)
  let projA := -(dot ctx.posA dir.neg + shA.half_length)
  let projB := L.box_support_projection shB ctx.posB ctx.ornB dir
  let dist := projA - projB
  (dir, dist)

/-- The body of the loop `// Box edges vs cylinder side edges.`: the candidate axis and its
gap, or `none` for `continue`. -/
def box_edge_candidate (L : narrow_phase_library α) (shA : cylinder_shape α)
    (shB : box_shape α) (ctx : collision_context α) (i : Nat) : Option (vector3 α × α) :=
  match L.try_normalize (cross (box_axes ctx.ornB i) (quaternion_x ctx.ornA)) with
  | none => none
  | some dir =>
    let dir := towards_A ctx.posA ctx.posB dir
    let projA := -(L.cylinder_support_projection shA ctx.posA ctx.ornA dir.neg)
    let projB := L.box_support_projection shB ctx.posB ctx.ornB dir
    let dist := projA - projB
    some (dir, dist)

/-- The body of the loop `// Box vertices vs cylinder side edges.`: the candidate axis and
its gap, or `none` for `continue`. -/
def box_vertex_candidate (L : narrow_phase_library α) (shA : cylinder_shape α)
    (shB : box_shape α) (ctx : collision_context α) (i : Nat) : Option (vector3 α × α) :=
  let vertex := L.box_get_vertex_world shB i ctx.posB ctx.ornB
  let closest := (L.closest_point_line ctx.posA (quaternion_x ctx.ornA) vertex).2
  match L.try_normalize (closest.sub vertex) with
  | none => none
  | some dir =>
    let dir := towards_A ctx.posA ctx.posB dir
    let projA := -(dot ctx.posA dir.neg + shA.radius)
    let projB := L.box_support_projection shB ctx.posB ctx.ornB dir
    let dist := projA - projB
    some (dir, dist)

/-- The body of the inner loop of `// Cylinder cap edges.`, for the cap `i` and the box edge
`j`: the candidate axis and its gap, or `none` for `continue`. The constant
`support_feature_tolerance` is a parameter. -/
def cap_edge_candidate (L : narrow_phase_library α) (support_feature_tolerance : α)
    (shA : cylinder_shape α) (shB : box_shape α) (ctx : collision_context α) (i j : Nat) :
    Option (vector3 α × α) :=
  let circle_position := cyl_vertices shA ctx i
  let edge_vertices := L.box_get_edge_world shB j ctx.posB ctx.ornB
  -- Find closest point between circle and triangle edge segment.
  let cl := L.closest_point_circle_line circle_position ctx.ornA shA.radius (edge_vertices 0)
    (edge_vertices 1) support_feature_tolerance
  if cl.num_points = 2 then none
  else
    let dir := towards_A ctx.posA ctx.posB cl.normal
    let projA := -(L.cylinder_support_projection shA ctx.posA ctx.ornA dir.neg)
    let projB := L.box_support_projection shB ctx.posB ctx.ornB dir
    let dist := projA - projB
    some (dir, dist)

/-- The candidate axes of `collide(cylinder_shape, box_shape)` with their gaps, in the order
in which the five loops meet them. -/
def cylinder_box_candidates (L : narrow_phase_library α) (support_feature_tolerance : α)
    (shA : cylinder_shape α) (shB : box_shape α) (ctx : collision_context α) :
    List (vector3 α × α) :=
  (List.range 3).map (box_face_candidate L shA shB ctx) ++
  [cylinder_cap_candidate L shA shB ctx] ++
  (List.range 3).filterMap (box_edge_candidate L shA shB ctx) ++
  (List.range (L.get_box_num_features box_feature.vertex)).filterMap
    (box_vertex_candidate L shA shB ctx) ++
  ((List.range 2).map fun i =>
    (List.range (L.get_box_num_features box_feature.edge)).filterMap
      (cap_edge_candidate L support_feature_tolerance shA shB ctx i)).flatten

/-- The values of `distance` and `sep_axis` after the five loops of
`collide(cylinder_shape, box_shape)`. The constant `EDYN_SCALAR_MAX` is a parameter, and so
is the value `sep_axis0` of the uninitialised `vector3 sep_axis;`. -/
def cylinder_box_axis (L : narrow_phase_library α) (EDYN_SCALAR_MAX support_feature_tolerance : α)
    (sep_axis0 : vector3 α) (shA : cylinder_shape α) (shB : box_shape α)
    (ctx : collision_context α) : α × vector3 α :=
  (cylinder_box_candidates L support_feature_tolerance shA shB ctx).foldl axis_update
    (-EDYN_SCALAR_MAX, sep_axis0)

/-- The body of the loop `// Check if circle and face edges intersect.` of the case cylinder
face against box face, for the edge from `vertex_idx`: `none` for `continue`, otherwise the
points it adds. -/
def face_face_edge_points (L : narrow_phase_library α) (shA : cylinder_shape α)
    (ctx : collision_context α) (sep_axis : vector3 α) (sign_faceA : α)
    (verticesB_local verticesB_world : Nat → vector3 α) (vertex_idx : Nat) :
    Option (List (collision_point α)) :=
  let next_vertex_idx := (vertex_idx + 1) % 4
  -- Transform vertices to `shA` (cylinder) space. The cylinder axis is the x-axis.
  let v0w := verticesB_world vertex_idx
  let v1w := verticesB_world next_vertex_idx
  let v0A := to_object_space v0w ctx.posA ctx.ornA
  let v1A := to_object_space v1w ctx.posA ctx.ornA
  let r := L.intersect_line_circle (L.to_vector2_zy v0A) (L.to_vector2_zy v1A) shA.radius
  let num_points := r.1
  let s0 := r.2.1
  let s1 := r.2.2
  if num_points = 0 then none
  -- Single point outside the segment range.
  else if num_points = 1 ∧ (s0 < 0 ∨ s0 > 1) then none
  -- The line intersects the circle, but the segment doesn't.
  else if num_points = 2 ∧ ((s0 < 0 ∧ s1 < 0) ∨ (s0 > 1 ∧ s1 > 1)) then none
  else
    let v0B := verticesB_local vertex_idx
    let v1B := verticesB_local next_vertex_idx
    let pivotA_x := shA.half_length * sign_faceA
    some (([s0, s1].take num_points).filterMap fun t =>
      -- Avoid adding the same point twice.
      if ¬ (t < 1) then none
      else
        let u := L.clamp_unit t
        let pivotA := L.lerp v0A v1A u
        let local_distance := (pivotA.x - pivotA_x) * sign_faceA
        let pivotA := { pivotA with x := pivotA_x }
        let pivotB := L.lerp v0B v1B u
        some ⟨pivotA, pivotB, sep_axis, local_distance,
          contact_normal_attachment.normal_on_B⟩)

/-- The points of the case cylinder face against box face when no edge intersects the circle
and the centre of the cylinder face is in the quad. -/
def face_face_contained_points (L : narrow_phase_library α) (shA : cylinder_shape α)
    (sep_axis : vector3 α) (sign_faceA : α) (verticesB_local : Nat → vector3 α)
    (posA_in_B : vector3 α) (ornA_in_B : quaternion α) (face_normal_local : vector3 α) :
    List (collision_point α) :=
  let multipliers : Nat → α := fun i =>
    match i with
    | 0 => 0
    | 1 => 1
    | 2 => 0
    | _ => -1
  (List.range 4).map fun i =>
    let j := (i + 1) % 4
    let pivotA_x := shA.half_length * sign_faceA
    let pivotA : vector3 α := ⟨pivotA_x, shA.radius * multipliers i, shA.radius * multipliers j⟩
    let pivotA_in_B := to_world_space pivotA posA_in_B ornA_in_B
    let local_distance := dot (pivotA_in_B.sub (verticesB_local 0)) face_normal_local
    let pivotB := L.project_plane pivotA_in_B (verticesB_local 0) face_normal_local
    ⟨pivotA, pivotB, sep_axis, local_distance, contact_normal_attachment.normal_on_B⟩

/-- The point of the case cylinder face against box face when a single edge intersects the
circle: the extra point that makes a stable base. -/
def face_face_extra_point (L : narrow_phase_library α) (shA : cylinder_shape α)
    (ctx : collision_context α) (sep_axis : vector3 α) (feature_indexA : Nat)
    (verticesB_local : Nat → vector3 α) (last_edge : vector3 α × vector3 α)
    (posA_in_B : vector3 α) (ornA_in_B : quaternion α) (face_normal_local : vector3 α) :
    collision_point α :=
  let edge_in_A :=
    (L.to_vector2_zy (to_object_space last_edge.1 ctx.posA ctx.ornA),
     L.to_vector2_zy (to_object_space last_edge.2 ctx.posA ctx.ornA))
  let edge_dir := L.vector2_sub edge_in_A.2 edge_in_A.1
  let tangent := L.vector2_normalize (L.orthogonal edge_dir)
  -- Make tangent point towards box face.
  let box_face_center := L.to_vector2_zy (to_object_space ctx.posB ctx.posA ctx.ornA)
  let tangent := if L.vector2_dot tangent box_face_center < 0 then L.vector2_neg tangent
    else tangent
  let pivotA_x := shA.half_length * L.to_sign (feature_indexA = 0)
  let pivotA : vector3 α := ⟨pivotA_x, tangent.y * shA.radius, tangent.x * shA.radius⟩
  -- Transform pivotA into box space and project onto box face.
  let pivotA_in_B := to_world_space pivotA posA_in_B ornA_in_B
  let pivotB := L.project_plane pivotA_in_B (verticesB_local 0) face_normal_local
  let local_distance := dot (pivotA_in_B.sub (verticesB_local 0)) face_normal_local
  ⟨pivotA, pivotB, sep_axis, local_distance, contact_normal_attachment.normal_on_B⟩

/-- The case `featureA == cylinder_feature::face && featureB == box_feature::face`: the
points it hands to `maybe_add_point`, in order. -/
def face_face_points (L : narrow_phase_library α) (shA : cylinder_shape α) (shB : box_shape α)
    (ctx : collision_context α) (sep_axis : vector3 α) (feature_indexA feature_indexB : Nat) :
    List (collision_point α) :=
  let sign_faceA := L.to_sign (feature_indexA = 0)
  let verticesB_local := L.box_get_face shB feature_indexB
  let verticesB_world := fun i => to_world_space (verticesB_local i) ctx.posB ctx.ornB
  let edges := (List.range 4).map fun vertex_idx =>
    (vertex_idx, face_face_edge_points L shA ctx sep_axis sign_faceA verticesB_local
      verticesB_world vertex_idx)
  let hits := edges.filter fun e => e.2.isSome
  let num_edge_intersections := hits.length
  let last_idx := (hits.getLast?.map fun e => e.1).getD 0
  let last_edge := (verticesB_world last_idx, verticesB_world ((last_idx + 1) % 4))
  -- If there are no edge intersections, the circle could be contained in the box face.
  let posA_in_B := to_object_space ctx.posA ctx.posB ctx.ornB
  let ornA_in_B := (conjugate ctx.ornB).mul ctx.ornA
  let face_normal_local := L.box_get_face_normal shB feature_indexB
  (edges.map fun e => e.2.getD []).flatten ++
  (if num_edge_intersections = 0 then
    -- Check if cylinder face center is in quad.
    if L.point_in_polygonal_prism verticesB_local face_normal_local posA_in_B then
      face_face_contained_points L shA sep_axis sign_faceA verticesB_local posA_in_B ornA_in_B
        face_normal_local
    else []
  else if num_edge_intersections = 1 then
    [face_face_extra_point L shA ctx sep_axis feature_indexA verticesB_local last_edge
      posA_in_B ornA_in_B face_normal_local]
  else [])

/-- The case `featureA == cylinder_feature::face && featureB == box_feature::edge`: the
points it hands to `maybe_add_point`; a failing `EDYN_ASSERT(num_points > 0)` gives `none`. -/
def face_edge_points (L : narrow_phase_library α) (shA : cylinder_shape α) (shB : box_shape α)
    (ctx : collision_context α) (sep_axis : vector3 α) (feature_indexA feature_indexB : Nat) :
    Option (List (collision_point α)) :=
  let verticesB_local := L.box_get_edge shB feature_indexB
  let verticesB_world := fun i => to_world_space (verticesB_local i) ctx.posB ctx.ornB
  -- Transform vertices to `shA` (cylinder) space. The cylinder axis is the x-axis.
  let v0A := to_object_space (verticesB_world 0) ctx.posA ctx.ornA
  let v1A := to_object_space (verticesB_world 1) ctx.posA ctx.ornA
  let r := L.intersect_line_circle (L.to_vector2_zy v0A) (L.to_vector2_zy v1A) shA.radius
  let num_points := r.1
  if num_points > 0 then
    let sign_faceA := L.to_sign (feature_indexA = 0)
    let pivotA_x := shA.half_length * sign_faceA
    some (([r.2.1, r.2.2].take num_points).map fun s =>
      let t := L.clamp_unit s
      let pivotA := L.lerp v0A v1A t
      let local_distance := (pivotA.x - pivotA_x) * sign_faceA
      let pivotA := { pivotA with x := pivotA_x }
      let pivotB := L.lerp (verticesB_local 0) (verticesB_local 1) t
      ⟨pivotA, pivotB, sep_axis, local_distance, contact_normal_attachment.normal_on_A⟩)
  else none

/-- The case `featureA == cylinder_feature::face && featureB == box_feature::vertex`: the
point it hands to `maybe_add_point`. -/
def face_vertex_point (L : narrow_phase_library α) (shA : cylinder_shape α) (shB : box_shape α)
    (ctx : collision_context α) (sep_axis : vector3 α) (feature_indexA feature_indexB : Nat) :
    collision_point α :=
  let sign_faceA := L.to_sign (feature_indexA = 0)
  let vertexB := L.box_get_vertex shB feature_indexB
  let vertexB_world := to_world_space vertexB ctx.posB ctx.ornB
  let vertexA_x := shA.half_length * sign_faceA
  let vertexA := to_object_space vertexB_world ctx.posA ctx.ornA
  let local_distance := (vertexA.x - vertexA_x) * sign_faceA
  -- Project onto face by setting the x value directly.
  let vertexA := { vertexA with x := vertexA_x }
  ⟨vertexA, vertexB, sep_axis, local_distance, contact_normal_attachment.normal_on_A⟩

/-- The case `featureA == cylinder_feature::side_edge && featureB == box_feature::face`: the
points it hands to `add_point`. -/
def side_edge_face_points (L : narrow_phase_library α) (shA : cylinder_shape α)
    (shB : box_shape α) (ctx : collision_context α) (sep_axis : vector3 α)
    (feature_indexB : Nat) : List (collision_point α) :=
  let face_normal := L.box_get_face_normal_world shB feature_indexB ctx.ornB
  let face_vertices := L.box_get_face_world shB feature_indexB ctx.posB ctx.ornB
  let edge_vertices : Nat → vector3 α := fun i =>
    (cyl_vertices shA ctx i).sub (sep_axis.mul shA.radius)
  -- Perform edge intersection tests.
  let face_center := L.box_get_face_center shB feature_indexB ctx.posB ctx.ornB
  let face_basis := L.box_get_face_basis shB feature_indexB ctx.ornB
  let half_extents := L.box_get_face_half_extents shB feature_indexB
  let e0 := L.to_object_space_basis (edge_vertices 0) face_center face_basis
  let e1 := L.to_object_space_basis (edge_vertices 1) face_center face_basis
  let p0 := L.to_vector2_xz e0
  let p1 := L.to_vector2_xz e1
  let r := L.intersect_line_aabb p0 p1 (L.vector2_neg half_extents) half_extents
  ([r.2.1, r.2.2].take r.1).map fun s =>
    -- Keep points within segment.
    let t := L.clamp_unit s
    let edge_pivot := L.lerp (edge_vertices 0) (edge_vertices 1) t
    let local_distance := dot (edge_pivot.sub (face_vertices 0)) face_normal
    let pivot_on_face := edge_pivot.sub (face_normal.mul local_distance)
    let pivotA := to_object_space edge_pivot ctx.posA ctx.ornA
    let pivotB := to_object_space pivot_on_face ctx.posB ctx.ornB
    ⟨pivotA, pivotB, sep_axis, local_distance, contact_normal_attachment.normal_on_B⟩

/-- The case `featureA == cylinder_feature::side_edge && featureB == box_feature::edge`: the
points it hands to `add_point`. -/
def side_edge_edge_points (L : narrow_phase_library α) (shA : cylinder_shape α)
    (shB : box_shape α) (ctx : collision_context α) (sep_axis : vector3 α) (distance : α)
    (feature_indexB : Nat) : List (collision_point α) :=
  let box_edge := L.box_get_edge_world shB feature_indexB ctx.posB ctx.ornB
  let r := L.closest_point_segment_segment (cyl_vertices shA ctx 0) (cyl_vertices shA ctx 1)
    (box_edge 0) (box_edge 1)
  ([(r.closestA0, r.closestB0), (r.closestA1, r.closestB1)].take r.num_points).map fun c =>
    let pivotA_world := c.1.sub (sep_axis.mul shA.radius)
    let pivotB_world := c.2
    let pivotA := to_object_space pivotA_world ctx.posA ctx.ornA
    let pivotB := to_object_space pivotB_world ctx.posB ctx.ornB
    ⟨pivotA, pivotB, sep_axis, distance, contact_normal_attachment.none⟩

/-- The case `featureA == cylinder_feature::side_edge && featureB == box_feature::vertex`:
the point it hands to `add_point`. -/
def side_edge_vertex_point (L : narrow_phase_library α) (shA : cylinder_shape α)
    (shB : box_shape α) (ctx : collision_context α) (sep_axis : vector3 α) (distance : α)
    (feature_indexB : Nat) : collision_point α :=
  let pivotB := L.box_get_vertex shB feature_indexB
  let pivotB_world := to_world_space pivotB ctx.posB ctx.ornB
  let closest := (L.closest_point_segment (cyl_vertices shA ctx 0) (cyl_vertices shA ctx 1)
    pivotB_world).2
  let pivotA_world := closest.sub (sep_axis.mul shA.radius)
  let pivotA := to_object_space pivotA_world ctx.posA ctx.ornA
  ⟨pivotA, pivotB, sep_axis, distance, contact_normal_attachment.none⟩

/-- The case `featureA == cylinder_feature::cap_edge`: the point it hands to
`maybe_add_point`. -/
def cap_edge_point (L : narrow_phase_library α) (shA : cylinder_shape α)
    (ctx : collision_context α) (sep_axis : vector3 α) (distance : α) (featureB : box_feature) :
    collision_point α :=
  let supportA := L.cylinder_support_point shA ctx.posA ctx.ornA sep_axis.neg
  let pivotA := to_object_space supportA ctx.posA ctx.ornA
  let pivotB := to_object_space (supportA.sub (sep_axis.mul distance)) ctx.posB ctx.ornB
  let normal_attachment :=
    if featureB = box_feature.face then contact_normal_attachment.normal_on_B
    else contact_normal_attachment.none
  ⟨pivotA, pivotB, sep_axis, distance, normal_attachment⟩

/-- The chain `if (featureA == ... && featureB == ...) { ... } else if ...` of
`collide(cylinder_shape, box_shape)`: the calls of `maybe_add_point` (flag `true`) and of
`add_point` (flag `false`) it makes, in order; `none` for a failing assertion. -/
def cylinder_box_points (L : narrow_phase_library α) (shA : cylinder_shape α)
    (shB : box_shape α) (ctx : collision_context α) (sep_axis : vector3 α) (distance : α)
    (featureA : cylinder_feature) (feature_indexA : Nat) (featureB : box_feature)
    (feature_indexB : Nat) : Option (List (Bool × collision_point α)) :=
  if featureA = cylinder_feature.face ∧ featureB = box_feature.face then
    some ((face_face_points L shA shB ctx sep_axis feature_indexA feature_indexB).map
      fun p => (true, p))
  else if featureA = cylinder_feature.face ∧ featureB = box_feature.edge then
    (face_edge_points L shA shB ctx sep_axis feature_indexA feature_indexB).map fun ps =>
      ps.map fun p => (true, p)
  else if featureA = cylinder_feature.face ∧ featureB = box_feature.vertex then
    some [(true, face_vertex_point L shA shB ctx sep_axis feature_indexA feature_indexB)]
  else if featureA = cylinder_feature.side_edge ∧ featureB = box_feature.face then
    some ((side_edge_face_points L shA shB ctx sep_axis feature_indexB).map
      fun p => (false, p))
  else if featureA = cylinder_feature.side_edge ∧ featureB = box_feature.edge then
    some ((side_edge_edge_points L shA shB ctx sep_axis distance feature_indexB).map
      fun p => (false, p))
  else if featureA = cylinder_feature.side_edge ∧ featureB = box_feature.vertex then
    some [(false, side_edge_vertex_point L shA shB ctx sep_axis distance feature_indexB)]
  else if featureA = cylinder_feature.cap_edge then
    some [(true, cap_edge_point L shA ctx sep_axis distance featureB)]
  else some []

/-- The function `collide(const cylinder_shape &, const box_shape &, const collision_context
&, collision_result &)`: the result afterwards. -/
def collide_cylinder_box (L : narrow_phase_library α)
    (coincident : collision_point α → collision_point α → Bool)
    (EDYN_SCALAR_MAX support_feature_tolerance : α) (sep_axis0 : vector3 α)
    (shA : cylinder_shape α) (shB : box_shape α) (ctx : collision_context α)
    (result : collision_result α) : Option (collision_result α) :=
  let axis := cylinder_box_axis L EDYN_SCALAR_MAX support_feature_tolerance sep_axis0 shA shB ctx
  let distance := axis.1
  let sep_axis := axis.2
  if distance > ctx.threshold then some result
  else
    let fA := L.cylinder_support_feature shA ctx.posA ctx.ornA sep_axis.neg
      support_feature_tolerance
    let fB := L.box_support_feature shB ctx.posB ctx.ornB sep_axis support_feature_tolerance
    match cylinder_box_points L shA shB ctx sep_axis distance fA.1 fA.2 fB.1 fB.2 with
    | none => none
    | some points => result.add_points coincident points

end cylinder_box
/-! ## Narrow phase: capsule against a triangle of a mesh -/

section capsule_triangle

variable {α : Type} [LinearOrderedField α]

/-- The block `// Triangle face normal.` of `collide_capsule_triangle`: the candidate axis
and its gap. -/
def triangle_face_candidate (L : narrow_phase_library α) (capsule : capsule_shape α)
    (tri_vertices : Nat → vector3 α) (tri_normal : vector3 α)
    (capsule_vertices : Nat → vector3 α) : vector3 α × α :=
  let dir := tri_normal
  let proj_cap := -(L.capsule_support_projection capsule_vertices capsule.radius dir.neg)
  let proj_tri := dot (tri_vertices 0) tri_normal
  let dist := proj_cap - proj_tri
  (tri_normal, dist)

/-- The body of the loop `// Triangle edges vs capsule edge.`: the candidate axis and its
gap, or `none` for `continue`. -/
def triangle_edge_candidate (L : narrow_phase_library α) (capsule : capsule_shape α)
    (tri_vertices : Nat → vector3 α) (capsule_vertices : Nat → vector3 α) (posA : vector3 α)
    (i : Nat) : Option (vector3 α × α) :=
  let capsule_axis := (capsule_vertices 1).sub (capsule_vertices 0)
  let v0 := tri_vertices i
  let v1 := tri_vertices ((i + 1) % 3)
  let edge_dir := v1.sub v0
  match L.try_normalize (cross edge_dir capsule_axis) with
  | none => none
  | some dir =>
    -- Make it point towards capsule.
    let dir := towards_A posA v0 dir
    let proj_cap := -(L.capsule_support_projection capsule_vertices capsule.radius dir.neg)
    let proj_tri := L.get_triangle_support_projection tri_vertices dir
    let dist := proj_cap - proj_tri
    some (dir, dist)

/-- The body of the loop `// Triangle vertices vs capsule edge.`: the candidate axis and its
gap, or `none` for `continue`. -/
def triangle_vertex_candidate (L : narrow_phase_library α) (capsule : capsule_shape α)
    (tri_vertices : Nat → vector3 α) (capsule_vertices : Nat → vector3 α) (i : Nat) :
    Option (vector3 α × α) :=
  let capsule_axis := (capsule_vertices 1).sub (capsule_vertices 0)
  let vertex := tri_vertices i
  let closest := (L.closest_point_line (capsule_vertices 0) capsule_axis vertex).2
  match L.try_normalize (closest.sub vertex) with
  | none => none
  | some dir =>
    let proj_cap := -(L.capsule_support_projection capsule_vertices capsule.radius dir.neg)
    let proj_tri := L.get_triangle_support_projection tri_vertices dir
    let dist := proj_cap - proj_tri
    some (dir, dist)

/-- The body of the inner loop of `// Capsule vertices vs Triangle edges.`, for the triangle
edge `i` and the capsule vertex `k`: the candidate axis and its gap, or `none` for
`continue`. -/
def capsule_vertex_candidate (L : narrow_phase_library α) (capsule : capsule_shape α)
    (tri_vertices : Nat → vector3 α) (capsule_vertices : Nat → vector3 α) (i k : Nat) :
    Option (vector3 α × α) :=
  let v0 := tri_vertices i
  let v1 := tri_vertices ((i + 1) % 3)
  let edge_dir := v1.sub v0
  let capsule_vertex := capsule_vertices k
  let closest := (L.closest_point_line v0 edge_dir capsule_vertex).2
  match L.try_normalize (capsule_vertex.sub closest) with
  | none => none
  | some dir =>
    let proj_cap := -(L.capsule_support_projection capsule_vertices capsule.radius dir.neg)
    let proj_tri := L.get_triangle_support_projection tri_vertices dir
    let dist := proj_cap - proj_tri
    some (dir, dist)

/-- The candidate axes of `collide_capsule_triangle` with their gaps, in the order in which
the block and the three loops meet them. -/
def capsule_triangle_candidates (L : narrow_phase_library α) (capsule : capsule_shape α)
    (tri_vertices : Nat → vector3 α) (tri_normal : vector3 α)
    (capsule_vertices : Nat → vector3 α) (posA : vector3 α) : List (vector3 α × α) :=
  [triangle_face_candidate L capsule tri_vertices tri_normal capsule_vertices] ++
  (List.range 3).filterMap
    (triangle_edge_candidate L capsule tri_vertices capsule_vertices posA) ++
  (List.range 3).filterMap (triangle_vertex_candidate L capsule tri_vertices capsule_vertices) ++
  ((List.range 3).map fun i =>
    (List.range 2).filterMap
      (capsule_vertex_candidate L capsule tri_vertices capsule_vertices i)).flatten

/-- The values of `distance` and `sep_axis` of `collide_capsule_triangle` after the search
of the axis. The constant `EDYN_SCALAR_MAX` is a parameter. -/
def capsule_triangle_axis (L : narrow_phase_library α) (EDYN_SCALAR_MAX : α)
    (capsule : capsule_shape α) (tri_vertices : Nat → vector3 α) (tri_normal : vector3 α)
    (capsule_vertices : Nat → vector3 α) (posA : vector3 α) : α × vector3 α :=
  (capsule_triangle_candidates L capsule tri_vertices tri_normal capsule_vertices posA).foldl
    axis_update (-EDYN_SCALAR_MAX, vector3_zero)

/-- The loop `// Check if capsule vertex is inside triangle face.`: the points it hands to
`maybe_add_point`. The tag that `collision_point` gets when none is given is the parameter
`attachment`. -/
def capsule_face_inside_points (L : narrow_phase_library α)
    (attachment : contact_normal_attachment) (capsule : capsule_shape α)
    (tri_vertices : Nat → vector3 α) (capsule_vertices : Nat → vector3 α)
    (ctx : collision_context α) (sep_axis : vector3 α) : List (collision_point α) :=
  (List.range 2).filterMap fun k =>
    let vertex := capsule_vertices k
    if L.point_in_triangle tri_vertices sep_axis vertex then
      let pivotA_world := vertex.sub (sep_axis.mul capsule.radius)
      let pivotA := to_object_space pivotA_world ctx.posA ctx.ornA
      let pivotB := L.project_plane vertex (tri_vertices 0) sep_axis
      let local_distance := dot (pivotA_world.sub (tri_vertices 0)) sep_axis
      some ⟨pivotA, pivotB, sep_axis, local_distance, attachment⟩
    else none

/-- The body of the loop `// Check if the capsule edge intersects the triangle edges.`, for
the triangle edge `i`: the points it hands to `maybe_add_point`. -/
def capsule_face_edge_points (L : narrow_phase_library α)
    (attachment : contact_normal_attachment) (capsule : capsule_shape α)
    (mesh : triangle_mesh α) (tri_idx : Nat) (tri_vertices : Nat → vector3 α)
    (tri_normal : vector3 α) (capsule_vertices : Nat → vector3 α) (ctx : collision_context α)
    (sep_axis : vector3 α) (i : Nat) : List (collision_point α) :=
  let tri_origin := tri_vertices 0
  let tangent := L.normalize ((tri_vertices 1).sub (tri_vertices 0))
  let bitangent := cross tri_normal tangent
  let tri_basis := L.matrix3x3_columns tangent tri_normal bitangent
  let p0 := L.to_vector2_xz (L.to_object_space_basis (capsule_vertices 0) tri_origin tri_basis)
  let p1 := L.to_vector2_xz (L.to_object_space_basis (capsule_vertices 1) tri_origin tri_basis)
  -- Ignore concave edges.
  if mesh.is_concave_edge (mesh.get_face_edge_index tri_idx i) then []
  else
    let v0 := tri_vertices i
    let v1 := tri_vertices ((i + 1) % 3)
    let q0 := L.to_vector2_xz (L.to_object_space_basis v0 tri_origin tri_basis)
    let q1 := L.to_vector2_xz (L.to_object_space_basis v1 tri_origin tri_basis)
    let r := L.intersect_segments p0 p1 q0 q1
    ([r.2.1, r.2.2].take r.1).map fun st =>
      let pivotA_world :=
        (L.lerp (capsule_vertices 0) (capsule_vertices 1) st.1).sub (sep_axis.mul capsule.radius)
      let pivotA := to_object_space pivotA_world ctx.posA ctx.ornA
      let pivotB := L.lerp v0 v1 st.2
      let local_distance := dot (pivotA_world.sub (tri_vertices 0)) sep_axis
      ⟨pivotA, pivotB, sep_axis, local_distance, attachment⟩

/-- The case `triangle_feature::face` of `collide_capsule_triangle`: the result afterwards. -/
def capsule_triangle_face (L : narrow_phase_library α)
    (coincident : collision_point α → collision_point α → Bool)
    (attachment : contact_normal_attachment) (capsule : capsule_shape α)
    (mesh : triangle_mesh α) (tri_idx : Nat) (capsule_vertices : Nat → vector3 α)
    (ctx : collision_context α) (sep_axis : vector3 α) (distance : α) (is_capsule_edge : Bool)
    (capsule_vertex_index : Nat) (result : collision_result α) : Option (collision_result α) :=
  let tri_vertices := mesh.get_triangle_vertices tri_idx
  let tri_normal := mesh.get_triangle_normal tri_idx
  if is_capsule_edge then
    match result.add_points coincident
      ((capsule_face_inside_points L attachment capsule tri_vertices capsule_vertices ctx
        sep_axis).map fun p => (true, p)) with
    | none => none
    | some result =>
      -- Both vertices are inside the triangle. Unnecessary to look for intersections.
      if result.num_points = 2 then some result
      else
        result.add_points coincident
          (((List.range 3).map fun i =>
            (capsule_face_edge_points L attachment capsule mesh tri_idx tri_vertices tri_normal
              capsule_vertices ctx sep_axis i).map fun p => (true, p)).flatten)
  else
    -- Triangle face against capsule vertex.
    let closest_capsule_vertex := capsule_vertices capsule_vertex_index
    if L.point_in_triangle tri_vertices tri_normal closest_capsule_vertex then
      let pivotA_world := closest_capsule_vertex.sub (sep_axis.mul capsule.radius)
      let pivotA := to_object_space pivotA_world ctx.posA ctx.ornA
      let pivotB := L.project_plane closest_capsule_vertex (tri_vertices 0) sep_axis
      result.maybe_add_point coincident ⟨pivotA, pivotB, sep_axis, distance, attachment⟩
    else some result

/-- The case `triangle_feature::edge` of `collide_capsule_triangle`: the points it hands to
`maybe_add_point`. -/
def capsule_triangle_edge_points (L : narrow_phase_library α)
    (attachment : contact_normal_attachment) (capsule : capsule_shape α)
    (tri_vertices : Nat → vector3 α) (capsule_vertices : Nat → vector3 α)
    (ctx : collision_context α) (sep_axis : vector3 α) (distance : α) (is_capsule_edge : Bool)
    (capsule_vertex_index tri_feature_index : Nat) : List (collision_point α) :=
  let v0 := tri_vertices tri_feature_index
  let v1 := tri_vertices ((tri_feature_index + 1) % 3)
  if is_capsule_edge then
    let r := L.closest_point_segment_segment (capsule_vertices 0) (capsule_vertices 1) v0 v1
    ([(r.closestA0, r.closestB0), (r.closestA1, r.closestB1)].take r.num_points).map fun c =>
      let pivotA_world := c.1.sub (sep_axis.mul capsule.radius)
      let pivotA := to_object_space pivotA_world ctx.posA ctx.ornA
      let pivotB := c.2
      ⟨pivotA, pivotB, sep_axis, distance, attachment⟩
  else
    let closest_capsule_vertex := capsule_vertices capsule_vertex_index
    let pivotB := (L.closest_point_line v0 (v1.sub v0) closest_capsule_vertex).2
    let pivotA_world := closest_capsule_vertex.sub (sep_axis.mul capsule.radius)
    let pivotA := to_object_space pivotA_world ctx.posA ctx.ornA
    [⟨pivotA, pivotB, sep_axis, distance, attachment⟩]

/-- The case `triangle_feature::vertex` of `collide_capsule_triangle`: the point it hands to
`maybe_add_point`. -/
def capsule_triangle_vertex_point (L : narrow_phase_library α)
    (attachment : contact_normal_attachment) (capsule : capsule_shape α)
    (tri_vertices : Nat → vector3 α) (capsule_vertices : Nat → vector3 α)
    (ctx : collision_context α) (sep_axis : vector3 α) (distance : α) (is_capsule_edge : Bool)
    (capsule_vertex_index tri_feature_index : Nat) : collision_point α :=
  let pivotB := tri_vertices tri_feature_index
  if is_capsule_edge then
    let edge := (capsule_vertices 1).sub (capsule_vertices 0)
    let closest := (L.closest_point_line (capsule_vertices 0) edge pivotB).2
    let pivotA_world := closest.sub (sep_axis.mul capsule.radius)
    let pivotA := to_object_space pivotA_world ctx.posA ctx.ornA
    ⟨pivotA, pivotB, sep_axis, distance, attachment⟩
  else
    let closest_capsule_vertex := capsule_vertices capsule_vertex_index
    let pivotA_world := closest_capsule_vertex.sub (sep_axis.mul capsule.radius)
    let pivotA := to_object_space pivotA_world ctx.posA ctx.ornA
    ⟨pivotA, pivotB, sep_axis, distance, attachment⟩

/-- The function `collide_capsule_triangle`: the result afterwards. The constants
`EDYN_SCALAR_MAX` and `support_feature_tolerance` are parameters. -/
def collide_capsule_triangle (L : narrow_phase_library α)
    (coincident : collision_point α → collision_point α → Bool)
    (attachment : contact_normal_attachment) (EDYN_SCALAR_MAX support_feature_tolerance : α)
    (capsule : capsule_shape α) (mesh : triangle_mesh α) (tri_idx : Nat)
    (capsule_vertices : Nat → vector3 α) (ctx : collision_context α)
    (result : collision_result α) : Option (collision_result α) :=
  let tri_vertices := mesh.get_triangle_vertices tri_idx
  let tri_normal := mesh.get_triangle_normal tri_idx
  let axis := capsule_triangle_axis L EDYN_SCALAR_MAX capsule tri_vertices tri_normal
    capsule_vertices ctx.posA
  let distance := axis.1
  let sep_axis := axis.2
  if distance > ctx.threshold then some result
  else
    let f := L.get_triangle_support_feature tri_vertices vector3_zero sep_axis
      support_feature_tolerance
    let tri_feature := f.1
    let tri_feature_index := f.2.1
    if mesh.ignore_triangle_feature tri_idx tri_feature tri_feature_index sep_axis then
      some result
    else
      let proj_capsule_vertices : Nat → α := fun k => dot (capsule_vertices k) sep_axis
      let is_capsule_edge : Bool :=
        decide (|proj_capsule_vertices 0 - proj_capsule_vertices 1| < support_feature_tolerance)
      let capsule_vertex_index :=
        if proj_capsule_vertices 0 < proj_capsule_vertices 1 then 0 else 1
      match tri_feature with
      | triangle_feature.face =>
        capsule_triangle_face L coincident attachment capsule mesh tri_idx capsule_vertices ctx
          sep_axis distance is_capsule_edge capsule_vertex_index result
      | triangle_feature.edge =>
        result.add_points coincident
          ((capsule_triangle_edge_points L attachment capsule tri_vertices capsule_vertices ctx
            sep_axis distance is_capsule_edge capsule_vertex_index tri_feature_index).map
              fun p => (true, p))
      | triangle_feature.vertex =>
        result.maybe_add_point coincident
          (capsule_triangle_vertex_point L attachment capsule tri_vertices capsule_vertices ctx
            sep_axis distance is_capsule_edge capsule_vertex_index tri_feature_index)

end capsule_triangle
/-! ## Narrow phase: sample shapes -/

section narrow_phase_samples

/-- A library for the sample runs, in which the shapes are axis aligned and touch along the
x axis: the support projections are those of the shapes along a coordinate axis,
`try_normalize` fails and `closest_point_circle_line` reports two points, so that only the
face axes are candidates; the support features are the cap of the cylinder and the face of
the box that look along x, whose edges do not meet the circle. -/
def sample_library : narrow_phase_library ℚ where
  cylinder_support_projection := fun sh pos _ dir =>
    dot pos dir + sh.half_length * |dir.x| + sh.radius * max |dir.y| |dir.z|
  cylinder_support_feature := fun _ _ _ dir _ =>
    (cylinder_feature.face, if dir.x > 0 then 0 else 1)
  cylinder_support_point := fun sh pos _ dir =>
    pos.add ⟨if dir.x > 0 then sh.half_length else -sh.half_length, 0, 0⟩
  box_support_projection := fun sh pos _ dir =>
    dot pos dir + sh.half_extents.x * |dir.x| + sh.half_extents.y * |dir.y| +
      sh.half_extents.z * |dir.z|
  box_support_feature := fun _ _ _ dir _ => (box_feature.face, if dir.x > 0 then 0 else 1)
  get_box_num_features := fun f =>
    match f with
    | box_feature.vertex => 8
    | box_feature.edge => 12
    | box_feature.face => 6
  box_get_vertex := fun sh _ => sh.half_extents
  box_get_vertex_world := fun sh _ pos _ => pos.add sh.half_extents
  box_get_edge := fun sh _ i =>
    ⟨sh.half_extents.x, sh.half_extents.y, if i = 0 then sh.half_extents.z else -sh.half_extents.z⟩
  box_get_edge_world := fun sh _ pos _ i =>
    pos.add ⟨sh.half_extents.x, sh.half_extents.y,
      if i = 0 then sh.half_extents.z else -sh.half_extents.z⟩
  box_get_face := fun sh _ i =>
    match i with
    | 0 => ⟨sh.half_extents.x, sh.half_extents.y, sh.half_extents.z⟩
    | 1 => ⟨sh.half_extents.x, -sh.half_extents.y, sh.half_extents.z⟩
    | 2 => ⟨sh.half_extents.x, -sh.half_extents.y, -sh.half_extents.z⟩
    | _ => ⟨sh.half_extents.x, sh.half_extents.y, -sh.half_extents.z⟩
  box_get_face_world := fun sh _ pos _ i =>
    match i with
    | 0 => pos.add ⟨sh.half_extents.x, sh.half_extents.y, sh.half_extents.z⟩
    | 1 => pos.add ⟨sh.half_extents.x, -sh.half_extents.y, sh.half_extents.z⟩
    | 2 => pos.add ⟨sh.half_extents.x, -sh.half_extents.y, -sh.half_extents.z⟩
    | _ => pos.add ⟨sh.half_extents.x, sh.half_extents.y, -sh.half_extents.z⟩
  box_get_face_normal := fun _ _ => vector3_x
  box_get_face_normal_world := fun _ _ _ => vector3_x
  box_get_face_center := fun sh _ pos _ => pos.add ⟨sh.half_extents.x, 0, 0⟩
  box_get_face_basis := fun _ _ _ => ⟨vector3_y, vector3_x, vector3_z⟩
  box_get_face_half_extents := fun sh _ => ⟨sh.half_extents.y, sh.half_extents.z⟩
  capsule_support_projection := fun v radius dir => max (dot (v 0) dir) (dot (v 1) dir) + radius
  get_triangle_support_projection := fun v dir =>
    max (dot (v 0) dir) (max (dot (v 1) dir) (dot (v 2) dir))
  get_triangle_support_feature := fun v _ dir _ => (triangle_feature.face, 0, dot (v 0) dir)
  try_normalize := fun _ => none
  normalize := fun v => v
  closest_point_line := fun q0 _ _ => (0, q0)
  closest_point_segment := fun q0 _ _ => (0, q0)
  closest_point_circle_line := fun c _ _ p0 _ _ => ⟨2, 0, c, p0, 0, c, p0, vector3_x⟩
  closest_point_segment_segment := fun p1 _ p2 _ => ⟨1, 0, 0, p1, p2, 0, 0, p1, p2⟩
  intersect_line_circle := fun _ _ _ => (0, 0, 0)
  intersect_line_aabb := fun _ _ _ _ => (0, 0, 0)
  intersect_segments := fun _ _ _ _ => (0, (0, 0), (0, 0))
  point_in_polygonal_prism := fun _ _ _ => true
  point_in_triangle := fun _ _ _ => true
  project_plane := fun p q normal => p.sub (normal.mul (dot (p.sub q) normal))
  lerp := fun a b s => (a.mul (1 - s)).add (b.mul s)
  clamp_unit := fun s => max 0 (min s 1)
  to_sign := fun b => if b then 1 else -1
  to_vector2_zy := fun v => ⟨v.z, v.y⟩
  to_vector2_xz := fun v => ⟨v.x, v.z⟩
  vector2_sub := fun v w => ⟨v.x - w.x, v.y - w.y⟩
  vector2_neg := fun v => ⟨-v.x, -v.y⟩
  vector2_dot := fun v w => v.x * w.x + v.y * w.y
  vector2_normalize := fun v => v
  orthogonal := fun v => ⟨-v.y, v.x⟩
  matrix3x3_columns := fun a b c => ⟨⟨a.x, b.x, c.x⟩, ⟨a.y, b.y, c.y⟩, ⟨a.z, b.z, c.z⟩⟩
  to_object_space_basis := fun p pos _ => p.sub pos

/-- A cylinder of radius 1/2 and of length 2. -/
def sample_cylinder : cylinder_shape ℚ := ⟨1 / 2, 1⟩

/-- A box with the half extents 1. -/
def sample_box : box_shape ℚ := ⟨⟨1, 1, 1⟩⟩

/-- The cylinder with its centre at `(x, 0, 0)` and the box at the origin, neither rotated,
with the breaking distance 1/50. -/
def cylinder_box_context (x : ℚ) : collision_context ℚ :=
  { posA := ⟨x, 0, 0⟩, ornA := quaternion_identity,
    aabbA := ⟨⟨x - 1, -(1 / 2), -(1 / 2)⟩, ⟨x + 1, 1 / 2, 1 / 2⟩⟩,
    posB := vector3_zero, ornB := quaternion_identity,
    aabbB := ⟨⟨-1, -1, -1⟩, ⟨1, 1, 1⟩⟩, threshold := 1 / 50 }

/-- A result without points: the four places of the array hold a point of zeros. -/
def empty_result : collision_result ℚ :=
  ⟨0, List.replicate max_contacts
    ⟨vector3_zero, vector3_zero, vector3_zero, 0, contact_normal_attachment.none⟩⟩

/-- Two points coincide when their pivots on A are equal. -/
def same_pivotA (p q : collision_point ℚ) : Bool := decide (p.pivotA = q.pivotA)

/-- The four points of the cap of `sample_cylinder` that lies on the face of `sample_box`. -/
def cap_on_face_result : collision_result ℚ :=
  ⟨4, [⟨⟨-1, 0, 1 / 2⟩, ⟨1, 0, 1 / 2⟩, ⟨1, 0, 0⟩, 0, contact_normal_attachment.normal_on_B⟩,
       ⟨⟨-1, 1 / 2, 0⟩, ⟨1, 1 / 2, 0⟩, ⟨1, 0, 0⟩, 0, contact_normal_attachment.normal_on_B⟩,
       ⟨⟨-1, 0, -(1 / 2)⟩, ⟨1, 0, -(1 / 2)⟩, ⟨1, 0, 0⟩, 0,
         contact_normal_attachment.normal_on_B⟩,
       ⟨⟨-1, -(1 / 2), 0⟩, ⟨1, -(1 / 2), 0⟩, ⟨1, 0, 0⟩, 0,
         contact_normal_attachment.normal_on_B⟩]⟩

/-- A capsule of radius 1/2 and of length 2. -/
def sample_capsule : capsule_shape ℚ := ⟨1 / 2, 1⟩

/-- A mesh of one triangle in the plane `y = 0`, with the normal along y and no concave
edge. -/
def sample_mesh : triangle_mesh ℚ where
  get_triangle_vertices := fun _ i =>
    match i with
    | 0 => ⟨0, 0, 0⟩
    | 1 => ⟨0, 0, 4⟩
    | _ => ⟨4, 0, 0⟩
  get_triangle_normal := fun _ => vector3_y
  ignore_triangle_feature := fun _ _ _ _ => false
  is_concave_edge := fun _ => false
  get_face_edge_index := fun _ i => i

/-- The end points of `sample_capsule` with its centre at `(1, y, 1)`, along x. -/
def sample_capsule_vertices (y : ℚ) (i : Nat) : vector3 ℚ :=
  match i with
  | 0 => ⟨0, y, 1⟩
  | _ => ⟨2, y, 1⟩

/-- The capsule with its centre at `(1, y, 1)` over the triangle of `sample_mesh`, with the
breaking distance 1/50. -/
def capsule_mesh_context (y : ℚ) : collision_context ℚ :=
  { posA := ⟨1, y, 1⟩, ornA := quaternion_identity,
    aabbA := ⟨⟨-(1 / 2), y - 1 / 2, 1 / 2⟩, ⟨5 / 2, y + 1 / 2, 3 / 2⟩⟩,
    posB := vector3_zero, ornB := quaternion_identity,
    aabbB := ⟨⟨0, 0, 0⟩, ⟨4, 0, 4⟩⟩, threshold := 1 / 50 }

end narrow_phase_samples

/-! ## Unit orientations -/

section unit_orientations

variable {α : Type} [LinearOrderedField α]

/-- Every body of the view has an orientation of unit length. -/
def unit_orientations (bodies : entity → Option (solver_body α)) : Prop :=
  ∀ e b, bodies e = some b → b.orientation.length_sqr = 1

/-- A state for concrete runs of the position solver: every body is `sample_body` (inverse
mass 1, unit inverse inertia, unrotated, at the origin), and the single contact, the entity
5, between the bodies 0 and 1 has its pivot on A at `(1, -1/10, 0)`, its pivot on B at
`(1, 0, 0)` and the normal `(0, 1, 0)`: it penetrates by 1/10 off the centres, so that its
correction turns both bodies. -/
def turning_state : position_state α :=
  { bodies := fun _ => some sample_body
    contact_points := [(some 5,
      { (sliding_point : contact_point α) with
        pivotA := ⟨1, -1 / 10, 0⟩, pivotB := ⟨1, 0, 0⟩ })] }

end unit_orientations
/-! ## Narrow phase: capsule against a mesh -/

section capsule_mesh

variable {α : Type} [LinearOrderedField α]

/-- The function `collide(const capsule_shape &, const triangle_mesh &, const
collision_context &, collision_result &)`: the result afterwards. The functions
`capsule_shape::get_vertices` and `triangle_mesh::visit_triangles`, which are not part of
the sources at hand, are parameters: the end points of the capsule, and the indices of the
triangles that the visit hands to the callback, in order. The constant
`contact_breaking_threshold` is a parameter. -/
def collide_capsule_mesh (L : narrow_phase_library α)
    (coincident : collision_point α → collision_point α → Bool)
    (attachment : contact_normal_attachment)
    (EDYN_SCALAR_MAX support_feature_tolerance contact_breaking_threshold : α)
    (get_vertices : capsule_shape α → vector3 α → quaternion α → Nat → vector3 α)
    (visit_triangles : triangle_mesh α → AABB α → List Nat)
    (capsule : capsule_shape α) (mesh : triangle_mesh α) (ctx : collision_context α)
    (result : collision_result α) : Option (collision_result α) :=
  let capsule_vertices := get_vertices capsule ctx.posA ctx.ornA
  let inset : vector3 α :=
    ⟨-contact_breaking_threshold, -contact_breaking_threshold, -contact_breaking_threshold⟩
  let visit_aabb := ctx.aabbA.inset inset
  (visit_triangles mesh visit_aabb).foldl
    (fun r tri_idx => r.bind fun result =>
      collide_capsule_triangle L coincident attachment EDYN_SCALAR_MAX
        support_feature_tolerance capsule mesh tri_idx capsule_vertices ctx result)
    (some result)

end capsule_mesh

section capsule_mesh_samples

/-- The library `sample_library` with the tests of the plane worked out: a point is in a
triangle when it is on the inner side of the three edges, two segments of the plane that are
not parallel meet where their lines meet (if that is on both), a point is taken into a
basis by the transposed matrix, and `normalize` divides a vector along a coordinate axis by
its length. -/
def planar_library : narrow_phase_library ℚ :=
  { sample_library with
    point_in_triangle := fun v normal p =>
      decide (0 ≤ dot (cross ((v 1).sub (v 0)) (p.sub (v 0))) normal) &&
      decide (0 ≤ dot (cross ((v 2).sub (v 1)) (p.sub (v 1))) normal) &&
      decide (0 ≤ dot (cross ((v 0).sub (v 2)) (p.sub (v 2))) normal)
    intersect_segments := fun p0 p1 q0 q1 =>
      let dp : vector2 ℚ := ⟨p1.x - p0.x, p1.y - p0.y⟩
      let dq : vector2 ℚ := ⟨q1.x - q0.x, q1.y - q0.y⟩
      let e : vector2 ℚ := ⟨q0.x - p0.x, q0.y - p0.y⟩
      let denom := dp.x * dq.y - dp.y * dq.x
      let s := (e.x * dq.y - e.y * dq.x) / denom
      let t := (e.x * dp.y - e.y * dp.x) / denom
      if denom ≠ 0 ∧ 0 ≤ s ∧ s ≤ 1 ∧ 0 ≤ t ∧ t ≤ 1 then (1, (s, t), (0, 0))
      else (0, (0, 0), (0, 0))
    to_object_space_basis := fun p pos basis => basis.transpose.mul_vec (p.sub pos)
    normalize := fun v => v.mul (1 / (|v.x| + |v.y| + |v.z|)) }

/-- A mesh of two triangles in the plane `y = 0` with the normal along y, apart from each
other and without a concave edge: triangle 0 with the corners `(-1/2, 0, 0)`, `(-4, 0, 0)`,
`(-1/2, 0, 4)`, and triangle 1 with the corners `(0, 0, 0)`, `(0, 0, 4)`, `(1/2, 0, 0)`. -/
def gap_mesh : triangle_mesh ℚ where
  get_triangle_vertices := fun tri_idx i =>
    match tri_idx, i with
    | 0, 0 => ⟨-1 / 2, 0, 0⟩
    | 0, 1 => ⟨-4, 0, 0⟩
    | 0, _ => ⟨-1 / 2, 0, 4⟩
    | _, 0 => ⟨0, 0, 0⟩
    | _, 1 => ⟨0, 0, 4⟩
    | _, _ => ⟨1 / 2, 0, 0⟩
  get_triangle_normal := fun _ => vector3_y
  ignore_triangle_feature := fun _ _ _ _ => false
  is_concave_edge := fun _ => false
  get_face_edge_index := fun tri_idx i => tri_idx * 3 + i

/-- The end points `(-1, 1/2, 1)` and `(1, 1/2, 1)` of a capsule of radius 1/2 that lies on
the plane `y = 0`, along x. -/
def lying_capsule_vertices (i : Nat) : vector3 ℚ :=
  match i with
  | 0 => ⟨-1, 1 / 2, 1⟩
  | _ => ⟨1, 1 / 2, 1⟩

/-- The capsule of `lying_capsule_vertices` with its centre at `(0, 1/2, 1)`, unrotated, and
the mesh at the origin, with the breaking distance 1/50. -/
def lying_capsule_context : collision_context ℚ :=
  { posA := ⟨0, 1 / 2, 1⟩, ornA := quaternion_identity,
    aabbA := ⟨⟨-3 / 2, 0, 1 / 2⟩, ⟨3 / 2, 1, 3 / 2⟩⟩,
    posB := vector3_zero, ornB := quaternion_identity,
    aabbB := ⟨⟨-4, 0, 0⟩, ⟨1 / 2, 0, 4⟩⟩, threshold := 1 / 50 }

end capsule_mesh_samples

section flagged_meshes

/-- The mesh `gap_mesh` with the first edge of triangle 1, from `(0, 0, 0)` to `(0, 0, 4)`,
flagged as concave. -/
def flagged_mesh : triangle_mesh ℚ :=
  { gap_mesh with is_concave_edge := fun edge_idx => decide (edge_idx = 3) }

/-- The mesh `gap_mesh` with every feature of triangle 1 to be ignored. -/
def ignoring_mesh : triangle_mesh ℚ :=
  { gap_mesh with ignore_triangle_feature := fun tri_idx _ _ _ => decide (tri_idx = 1) }

end flagged_meshes
/-! ## A contact whose normal is attached to a rotated body -/

section attached_contacts

/-- The registry `sample_registry` with body 0 in the unit orientation `(0, 0, 3/5, 4/5)`, a
rotation about the z axis. -/
def tilted_registry : registry ℚ :=
  { sample_registry with
    orientation := fun e => if e = some 0 then some ⟨0, 0, 3 / 5, 4 / 5⟩ else some ⟨0, 0, 0, 1⟩ }

/-- A candidate point of the narrow phase with the same pivots as `sample_candidate`, the
normal `(0, 1, 0)` and the normal attached to body B. -/
def turned_candidate : collision_point ℚ :=
  ⟨⟨1, 0, 0⟩, ⟨0, 0, 0⟩, ⟨0, 1, 0⟩, 1, contact_normal_attachment.normal_on_B⟩

end attached_contacts
/-! ## The paged triangle mesh -/

/-- The number of values of `size_t`, taken as 64 bits wide: sums of `size_t` wrap around at
it. -/
def size_t_values : Nat := 2 ^ 64

/-- The type `paged_triangle_mesh::triangle_mesh_node`; `trimesh` is `none` for a null
pointer. The type `M` stands for `triangle_mesh`. -/
structure triangle_mesh_node (M : Type) where
  num_vertices : Nat
  num_indices : Nat
  trimesh : Option M

/-- The members of `paged_triangle_mesh` that the cache uses. The member
`m_input_archive_source` gives, for an index, the triangle mesh that `serialize` reads from
the archive of that index. -/
structure paged_triangle_mesh (M : Type) where
  m_max_cache_num_vertices : Nat
  m_cache : List (triangle_mesh_node M)
  m_lru_indices : List Nat
  m_input_archive_source : Nat → M

section paged_mesh

variable {M : Type}

/-- The function `paged_triangle_mesh::cache_num_vertices`. -/
def paged_triangle_mesh.cache_num_vertices (mesh : paged_triangle_mesh M) : Nat :=
  mesh.m_cache.foldl
    (fun count node =>
      if node.trimesh.isSome then (count + node.num_vertices) % size_t_values else count) 0

/-- The function `paged_triangle_mesh::unload_node` on the node at `idx`. -/
def paged_triangle_mesh.unload_node (mesh : paged_triangle_mesh M) (idx : Nat)
    (node : triangle_mesh_node M) : paged_triangle_mesh M :=
  { mesh with m_cache := mesh.m_cache.set idx { node with trimesh := none } }

/-- The loop of `unload_least_recently_visited_node` over the indices `its`; an index outside
`m_cache` gives `none`. -/
def paged_triangle_mesh.unload_first_loaded (mesh : paged_triangle_mesh M) :
    List Nat → Option (paged_triangle_mesh M)
  | [] => some mesh
  | it :: its =>
    match mesh.m_cache[it]? with
    | none => none
    | some node =>
      if node.trimesh.isSome then some (mesh.unload_node it node)
      else mesh.unload_first_loaded its

/-- The function `paged_triangle_mesh::unload_least_recently_visited_node`: the loop runs
from `m_lru_indices.rbegin()` to `m_lru_indices.rend()`. -/
def paged_triangle_mesh.unload_least_recently_visited_node (mesh : paged_triangle_mesh M) :
    Option (paged_triangle_mesh M) :=
  mesh.unload_first_loaded mesh.m_lru_indices.reverse

/-- The loop `while (cache_num_vertices() + node.num_vertices > m_max_cache_num_vertices)
{ unload_least_recently_visited_node(); }` of `visit` and `visit_all`, for a node with
`num_vertices` vertices, with at most `fuel` tests of the condition; `none` when they do not
suffice. -/
def paged_triangle_mesh.evict : Nat → paged_triangle_mesh M → Nat →
    Option (paged_triangle_mesh M)
  | 0, _, _ => none
  | fuel + 1, mesh, num_vertices =>
    if (mesh.cache_num_vertices + num_vertices) % size_t_values >
        mesh.m_max_cache_num_vertices then
      match mesh.unload_least_recently_visited_node with
      | none => none
      | some mesh => paged_triangle_mesh.evict fuel mesh num_vertices
    else some mesh

/-- The statement `if (!node.trimesh) { ... }` of `visit` and `visit_all` for the node at
`trimesh_idx`: load the triangle mesh into the cache, after the cache has been cleared as
far as needed. -/
def paged_triangle_mesh.load (fuel : Nat) (mesh : paged_triangle_mesh M) (trimesh_idx : Nat) :
    Option (paged_triangle_mesh M) :=
  match mesh.m_cache[trimesh_idx]? with
  | none => none
  | some node =>
    if node.trimesh.isNone then
      match mesh.evict fuel node.num_vertices with
      | none => none
      | some mesh =>
        match mesh.m_cache[trimesh_idx]? with
        | none => none
        | some node =>
          some { mesh with
            m_cache := mesh.m_cache.set trimesh_idx
              { node with trimesh := some (mesh.m_input_archive_source trimesh_idx) } }
    else some mesh

/-- The function `paged_triangle_mesh::mark_recent_visit`: the index is moved to the front of
`m_lru_indices`; an index that is not in the list gives `none`. -/
def paged_triangle_mesh.mark_recent_visit (mesh : paged_triangle_mesh M) (trimesh_idx : Nat) :
    Option (paged_triangle_mesh M) :=
  if trimesh_idx ∈ mesh.m_lru_indices then
    some { mesh with m_lru_indices := trimesh_idx :: mesh.m_lru_indices.erase trimesh_idx }
  else none

/-- The function `paged_triangle_mesh::visit`, as far as the cache goes: `visited` holds the
indices that `m_tree.visit` hands to the callback, in order (`static_tree` is not part of
the sources at hand). -/
def paged_triangle_mesh.visit (fuel : Nat) (mesh : paged_triangle_mesh M) (visited : List Nat) :
    Option (paged_triangle_mesh M) :=
  visited.foldl
    (fun r trimesh_idx => r.bind fun mesh =>
      (mesh.load fuel trimesh_idx).bind fun mesh => mesh.mark_recent_visit trimesh_idx)
    (some mesh)

/-- The function `paged_triangle_mesh::visit_all`, as far as the cache goes. -/
def paged_triangle_mesh.visit_all (fuel : Nat) (mesh : paged_triangle_mesh M) :
    Option (paged_triangle_mesh M) :=
  (List.range mesh.m_cache.length).foldl
    (fun r i => r.bind fun mesh => mesh.load fuel i) (some mesh)

/-- The sum of `num_vertices` over the loaded nodes of a cache, without wrapping. -/
def loaded_vertices : List (triangle_mesh_node M) → Nat
  | [] => 0
  | node :: nodes =>
    (if node.trimesh.isSome then node.num_vertices else 0) + loaded_vertices nodes

/-- The number of loaded nodes of a cache. -/
def loaded_nodes : List (triangle_mesh_node M) → Nat
  | [] => 0
  | node :: nodes => (if node.trimesh.isSome then 1 else 0) + loaded_nodes nodes

/-- The list `m_lru_indices` holds indices of `m_cache` only, and the index of every loaded
node. -/
def paged_triangle_mesh.lru_lists_loaded (mesh : paged_triangle_mesh M) : Prop :=
  (∀ i ∈ mesh.m_lru_indices, i < mesh.m_cache.length) ∧
  ∀ (i : Nat) (node : triangle_mesh_node M),
    mesh.m_cache[i]? = some node → node.trimesh.isSome → i ∈ mesh.m_lru_indices

/-- The mesh `mesh'` is `mesh` with some nodes unloaded, as far as the limit, the list of
indices, the archives, the sizes of the nodes and the nodes that are not loaded go. -/
def paged_triangle_mesh.unloaded_to (mesh mesh' : paged_triangle_mesh M) : Prop :=
  mesh'.m_max_cache_num_vertices = mesh.m_max_cache_num_vertices ∧
  mesh'.m_lru_indices = mesh.m_lru_indices ∧
  mesh'.m_input_archive_source = mesh.m_input_archive_source ∧
  mesh'.m_cache.length = mesh.m_cache.length ∧
  ∀ (i : Nat) (node : triangle_mesh_node M), mesh.m_cache[i]? = some node →
    ∃ node' : triangle_mesh_node M, mesh'.m_cache[i]? = some node' ∧
      node'.num_vertices = node.num_vertices ∧ node'.num_indices = node.num_indices ∧
      (node.trimesh = none → node'.trimesh = none)

end paged_mesh

/-- A paged mesh with the default limit `1 << 13` and a single node of 8193 vertices, not
loaded. -/
def oversized_mesh : paged_triangle_mesh Unit :=
  { m_max_cache_num_vertices := 8192, m_cache := [⟨8193, 24576, none⟩], m_lru_indices := [0],
    m_input_archive_source := fun _ => () }

/-- A paged mesh with the default limit `1 << 13` and two nodes of 5000 vertices, of which
the first is loaded, whose list `m_lru_indices` is empty. -/
def unlisted_mesh : paged_triangle_mesh Unit :=
  { m_max_cache_num_vertices := 8192,
    m_cache := [⟨5000, 15000, some ()⟩, ⟨5000, 15000, none⟩], m_lru_indices := [],
    m_input_archive_source := fun _ => () }

/-- A paged mesh with the default limit `1 << 13` and three nodes of 4000, 3000 and 5000
vertices, of which the first two are loaded; the node 1 is the most recently visited one. -/
def sample_paged_mesh : paged_triangle_mesh Unit :=
  { m_max_cache_num_vertices := 8192,
    m_cache := [⟨4000, 12000, some ()⟩, ⟨3000, 9000, some ()⟩, ⟨5000, 15000, none⟩],
    m_lru_indices := [1, 0, 2],
    m_input_archive_source := fun _ => () }
/-! ## A move on a tree of five leaves -/

/-- The tree built from the empty one by `create` of the boxes `box_at x` for
`x = 1, 3, 5, 7, 9`. -/
def five_leaf_tree : Option (dynamic_tree ℤ) :=
  run_calls unit_margin 50 dynamic_tree.empty (creates_at [1, 3, 5, 7, 9])

/-- The arena in the call `move(7, box_at 20, 0)` on `five_leaf_tree` when `insert` has
linked the leaf and is about to call `adjust_bounds`: after `remove(7)`, the assignment of
the new box, the search of the sibling and the creation and linking of the new parent. The
sibling and the new parent come with it. -/
def five_leaf_tree_before_adjust : Option (dynamic_tree ℤ × node_id_t × node_id_t) :=
  five_leaf_tree.bind fun t =>
    (remove 50 t (some 7)).bind fun t =>
      (t.set (some 7) fun n =>
        { n with aabb := move_offset_aabb unit_margin (box_at 20) ⟨0, 0, 0⟩ }).bind fun t =>
      (t.aabb (some 7)).bind fun leaf_aabb =>
      (insert_find_sibling 50 t leaf_aabb t.m_root).bind fun sibling =>
      (t.parent sibling).bind fun old_parent =>
      (insert_new_parent t sibling old_parent leaf_aabb).bind fun r =>
      (insert_attach r.1 (some 7) sibling old_parent r.2).map fun t => (t, sibling, r.2)

/-! ## Bodies ready for the position solver -/

section ready_bodies

variable {α : Type} [LinearOrderedField α]

/-- A matrix is positive semidefinite: `dot(m * v, v) >= 0` for every vector `v`. -/
def positive_semidefinite (m : matrix3x3 α) : Prop :=
  ∀ v : vector3 α, 0 ≤ dot (m.mul_vec v) v

/-- Every body of the view has an orientation of unit length, an inverse mass that is not
negative and a positive semidefinite inverse inertia tensor. -/
def solver_ready (bodies : entity → Option (solver_body α)) : Prop :=
  ∀ e b, bodies e = some b →
    b.orientation.length_sqr = 1 ∧ 0 ≤ b.mass_inv ∧ positive_semidefinite b.inertia_world_inv

/-- The values of `J_invM_JT` by which the loop of `solve_position_constraints` divides, in
the order of the contacts: each is computed from the bodies as the contacts before it have
left them. -/
def solve_position_denominators (contact_position_correction_rate : α) (sqrt : α → α)
    (EDYN_EPSILON : α) :
    (entity → Option (solver_body α)) → α → List (entity × contact_point α) → List α
  | _, _, [] => []
  | bodies, min_dist, (_, cp) :: rest =>
    match bodies cp.body.1, bodies cp.body.2 with
    | some bA, some bB =>
      J_invM_JT (position_correction_of contact_position_correction_rate bA bB cp).J bA bB ::
        (match solve_position_contact contact_position_correction_rate sqrt EDYN_EPSILON bodies
            cp min_dist with
         | some (bodies, _, min_dist) =>
           solve_position_denominators contact_position_correction_rate sqrt EDYN_EPSILON bodies
             min_dist rest
         | none => [])
    | _, _ => []

end ready_bodies

/-! ## Theorems -/

/-- C1: seven `create` calls followed by one `move` of the live leaf 0 return normally and
leave the reachable internal node 2 with a box that is not the `enclosing_aabb` of its
children's boxes: `aabb_invariant` is false on the result. -/
theorem aabb_invariant_broken_by_calls :
    (run_calls unit_margin 50 dynamic_tree.empty
        (creates_at [9, 1, 9, 2, 6, 2, 9] ++
          [tree_call.move (some 0) (box_at 2) vector3_zero])).map
      (fun t => (aabb_invariant t, t.reachable.contains 2, aabb_ok_at t 2)) =
      some (false, true, false) := by
  decide!

/-- C2: five `create` calls build a tree with the shape invariant; the sixth `create` returns
normally and leaves node 8 as root although its parent field is node 4, so the shape
invariant is false on the result. -/
theorem shape_invariant_broken_by_create :
    (run_calls unit_margin 50 dynamic_tree.empty (creates_at [5, 3, 10, 11, 9])).map
        shape_invariant = some true ∧
    (run_calls unit_margin 50 dynamic_tree.empty (creates_at [5, 3, 10, 11, 9, 7])).map
      (fun t => (shape_invariant t, t.m_root, t.parent t.m_root)) =
      some (false, some 8, some (some 4)) := by
  decide!

/-- C4: on the tree built by five `create` calls, whose reachable leaves are 0, 1, 3, 7 and
5, a sixth `create` returns the new leaf 9, and afterwards the reachable leaves are 3, 5, 7
and 9 only: the leaves 0 and 1 are no longer reachable from the root. -/
theorem create_loses_leaves :
    (run_calls unit_margin 50 dynamic_tree.empty (creates_at [5, 3, 10, 11, 9])).map
        (fun t => (shape_invariant t, t.leaves.map fun l => l.1)) =
      some (true, [0, 1, 3, 7, 5]) ∧
    ((run_calls unit_margin 50 dynamic_tree.empty (creates_at [5, 3, 10, 11, 9])).bind
        fun t => (create unit_margin 50 t (box_at 7) (some 7)).map
          fun r => (r.2, r.1.leaves.map fun l => l.1)) =
      some (some 9, [3, 5, 7, 9]) := by
  decide!

/-- C5: on the tree built by eight `create` calls, which has the shape invariant and the
reachable leaves 0, 3, 11, 1, 13, 5, 7 and 9, `destroy(7)` returns normally, and afterwards
the reachable leaves are 5, 9, 1 and 13 only: the leaves 0, 3 and 11 are no longer reachable
from the root, whose parent field is not null. -/
theorem destroy_loses_leaves :
    (run_calls unit_margin 50 dynamic_tree.empty
        (small_creates_at [0, 8, 1, 15, 15, 12, 4, 9])).map
        (fun t => (shape_invariant t, t.leaves.map fun l => l.1)) =
      some (true, [0, 3, 11, 1, 13, 5, 7, 9]) ∧
    ((run_calls unit_margin 50 dynamic_tree.empty
        (small_creates_at [0, 8, 1, 15, 15, 12, 4, 9])).bind
        fun t => (destroy 50 t (some 7)).map
          fun t => (t.leaves.map (fun l => l.1), t.m_root, t.parent t.m_root)) =
      some ([5, 9, 1, 13], some 6, some (some 2)) := by
  decide!

theorem node_set_same {α : Type} (t t' : dynamic_tree α) (i : Nat) (f : tree_node α → tree_node α)
    (h : t.set (some i) f = some t') :
    ∃ n, t.node (some i) = some n ∧ t'.node (some i) = some (f n) ∧
      t'.m_nodes.length = t.m_nodes.length ∧ t'.m_root = t.m_root ∧
      t'.m_free_list = t.m_free_list := by
  unfold dynamic_tree.set at h
  simp only at h
  cases hn : t.m_nodes[i]? with
  | none => simp [hn] at h
  | some n =>
    simp only [hn, Option.some.injEq] at h
    subst h
    have hi : i < t.m_nodes.length := (List.getElem?_eq_some.mp hn).1
    refine ⟨n, ?_, ?_, ?_, rfl, rfl⟩
    · simp [dynamic_tree.node, hn]
    · simp [dynamic_tree.node, hi]
    · simp

theorem set_of_lt {α : Type} (t : dynamic_tree α) (i : Nat) (f : tree_node α → tree_node α)
    (hi : i < t.m_nodes.length) :
    t.set (some i) f = some { t with m_nodes := t.m_nodes.set i (f t.m_nodes[i]) } := by
  simp [dynamic_tree.set, List.getElem?_eq_getElem hi]

/-- C8: `free(id)` on a node of the arena sets its height to -1, chains it to the old free
list through `next` and makes it the head of the free list; `allocate()` called right
after returns the same id, with parent, children and entity null and height 0, gives back
the old free list and does not grow the arena. When the free list is empty, `allocate()`
appends one node and returns the previous size of the arena. -/
theorem free_then_allocate_recycles {α : Type} [LinearOrderedCommRing α]
    (t : dynamic_tree α) (i : Nat) (hi : i < t.m_nodes.length) :
    (∃ t1, free t (some i) = some t1 ∧ t1.m_free_list = some i ∧
      t1.height (some i) = some (-1) ∧
      (t1.node (some i)).map (fun n => n.next) = some t.m_free_list ∧
      ∃ t2 n, allocate t1 = some (t2, some i) ∧ t2.node (some i) = some n ∧
        n.parent = null_node_id ∧ n.child1 = null_node_id ∧ n.child2 = null_node_id ∧
        n.entity = none ∧ n.height = 0 ∧
        t2.m_nodes.length = t.m_nodes.length ∧ t2.m_free_list = t.m_free_list) ∧
    (t.m_free_list = null_node_id →
      ∃ t', allocate t = some (t', some t.m_nodes.length) ∧
        t'.m_nodes = t.m_nodes ++ [fresh_node] ∧ t'.m_root = t.m_root ∧
        t'.m_free_list = null_node_id) := by
  constructor
  · simp [free, allocate, dynamic_tree.set, dynamic_tree.node, dynamic_tree.height,
      List.getElem?_eq_getElem hi, hi, bind, Option.bind]
  · intro h
    simp [allocate, h]

/-- Witness for `free_then_allocate_recycles`: the arena with one node and an empty free
list. -/
theorem free_then_allocate_recycles_witness :
    (∃ t1, free (⟨[fresh_node], some 0, none⟩ : dynamic_tree ℤ) (some 0) = some t1 ∧
      t1.m_free_list = some 0 ∧ t1.height (some 0) = some (-1) ∧
      (t1.node (some 0)).map (fun n => n.next) = some none ∧
      ∃ t2 n, allocate t1 = some (t2, some 0) ∧ t2.node (some 0) = some n ∧
        n.parent = null_node_id ∧ n.child1 = null_node_id ∧ n.child2 = null_node_id ∧
        n.entity = none ∧ n.height = 0 ∧
        t2.m_nodes.length = 1 ∧ t2.m_free_list = none) ∧
    ((none : node_id_t) = null_node_id →
      ∃ t', allocate (⟨[fresh_node], some 0, none⟩ : dynamic_tree ℤ) = some (t', some 1) ∧
        t'.m_nodes = [fresh_node] ++ [fresh_node] ∧ t'.m_root = some 0 ∧
        t'.m_free_list = null_node_id) :=
  free_then_allocate_recycles (⟨[fresh_node], some 0, none⟩ : dynamic_tree ℤ) 0 (by decide)

/-- C6, as stated, fails: on the tree holding the single leaf 0 with stored box
`[-1, 2]³` (created from the tight box `[0, 1]³` with margin 1), `move` with the tight box
`[-1, 0] × [0, 1]²` and no displacement returns false and leaves the tree unchanged,
although that tight box does not fit within the stored box contracted by the margin. -/
theorem move_unchanged_outside_contracted_box :
    ((create unit_margin 50 dynamic_tree.empty (small_box_at 0) (some 7)).bind fun r =>
      (r.1.node (some 0)).bind fun n =>
        (move unit_margin 50 r.1 (some 0) (small_box_at (-1)) vector3_zero).map fun m =>
          (decide (m.1 = r.1), m.2, n.aabb,
            (n.aabb.inset unit_margin.neg).contains (small_box_at (-1)))) =
      some (true, false, ⟨⟨-1, -1, -1⟩, ⟨2, 2, 2⟩⟩, false) := by
  decide!

/-- C6, amended: for a leaf `id` with node `n`, let `offset_aabb` be the freshly computed fat
box. When the tight box is contained in the stored box and the stored box is contained in
`offset_aabb` outset by four more margins, `move` returns false and the tree is unchanged.
In every other case `move` is `remove(id)`, the write of `offset_aabb` into the leaf and
`insert(id)`, one after the other: it returns exactly when these three return, and then it
returns true with the tree they leave. So a call that returns gives false exactly under the
condition above. -/
theorem move_unchanged_iff {α : Type} [LinearOrderedCommRing α] (aabb_inset : vector3 α)
    (fuel : Nat) (t : dynamic_tree α) (id : node_id_t) (aabb : AABB α)
    (displacement : vector3 α) (n : tree_node α) (hn : t.node id = some n)
    (hl : n.leaf = true) :
    ((n.aabb.contains aabb &&
        ((move_offset_aabb aabb_inset aabb displacement).inset
          (vector3.scale 4 aabb_inset)).contains n.aabb) = true →
      move aabb_inset fuel t id aabb displacement = some (t, false)) ∧
    ((n.aabb.contains aabb &&
        ((move_offset_aabb aabb_inset aabb displacement).inset
          (vector3.scale 4 aabb_inset)).contains n.aabb) = false →
      move aabb_inset fuel t id aabb displacement =
        (remove fuel t id).bind fun t1 =>
          (t1.set id fun m =>
            { m with aabb := move_offset_aabb aabb_inset aabb displacement }).bind fun t2 =>
          (insert fuel t2 id).map fun t' => (t', true)) ∧
    ∀ t' r, move aabb_inset fuel t id aabb displacement = some (t', r) →
      (r = false ↔
        (n.aabb.contains aabb &&
          ((move_offset_aabb aabb_inset aabb displacement).inset
            (vector3.scale 4 aabb_inset)).contains n.aabb) = true) ∧
      (r = false → t' = t) ∧
      (r = true → ∃ t1 t2, remove fuel t id = some t1 ∧
        t1.set id (fun m => { m with aabb := move_offset_aabb aabb_inset aabb displacement })
          = some t2 ∧
        insert fuel t2 id = some t') := by
  refine ⟨?_, ?_, ?_⟩
  · intro hk
    simp only [move, hn, hl, hk, Option.bind_eq_bind, Option.some_bind, if_true]
  · intro hk
    simp only [move, hn, hl, hk, Option.bind_eq_bind, Option.some_bind, if_true,
      Bool.false_eq_true, if_false]
    cases remove fuel t id with
    | none => rfl
    | some t1 =>
      simp only [Option.some_bind]
      cases t1.set id fun m =>
          { m with aabb := move_offset_aabb aabb_inset aabb displacement } with
      | none => rfl
      | some t2 =>
        simp only [Option.some_bind]
        cases insert fuel t2 id with
        | none => rfl
        | some t3 => rfl
  · intro t' r h
    by_cases hk : (n.aabb.contains aabb &&
        ((move_offset_aabb aabb_inset aabb displacement).inset
          (vector3.scale 4 aabb_inset)).contains n.aabb) = true
    · simp only [move, hn, hl, hk, Option.bind_eq_bind, Option.some_bind, if_true,
        Option.some.injEq, Prod.mk.injEq] at h
      obtain ⟨h1, h2⟩ := h
      subst h1 h2
      simp [hk]
    · simp only [move, hn, hl, hk, Option.bind_eq_bind, Option.some_bind, if_true] at h
      simp only [Bool.false_eq_true, if_false, Option.bind_eq_some, Option.some.injEq,
        Prod.mk.injEq] at h
      obtain ⟨t1, h1, t2, h2, t3, h3, h4, h5⟩ := h
      subst h4 h5
      simp only [hk, iff_false, Bool.true_eq_false, not_false_eq_true, false_implies,
        true_and, forall_const]
      exact ⟨by simp, t1, t2, h1, h2, h3⟩

/-- Witness for `move_unchanged_iff` on `sample_tree`, whose leaf 0 has the stored box
`[9, 12] × [-1, 2]²` and the sibling 3 under the root 2. The move of leaf 0 to the tight box
`box_at 1`, inside the stored box, returns false with the tree unchanged. The move of leaf 0
to `box_at 20`, outside the stored box, is the removal, the write and the reinsertion; these
return, so it returns true, and the tree it leaves has the shape and the box invariant, the
fresh fat box `[199, 202] × [-1, 2]²` in leaf 0 and the leaves 3 and 0 under the root 2. -/
theorem move_unchanged_iff_witness :
    (sample_tree.node (some 0)).map (fun n => (n.leaf, n.aabb)) =
      some (true, ⟨⟨9, -1, -1⟩, ⟨12, 2, 2⟩⟩) ∧
    move unit_margin 50 sample_tree (some 0) (box_at 1) vector3_zero =
      some (sample_tree, false) ∧
    move unit_margin 50 sample_tree (some 0) (box_at 20) vector3_zero =
      ((remove 50 sample_tree (some 0)).bind fun t1 =>
        (t1.set (some 0) fun m =>
          { m with aabb := move_offset_aabb unit_margin (box_at 20) vector3_zero }).bind fun t2 =>
        (insert 50 t2 (some 0)).map fun t' => (t', true)) ∧
    (move unit_margin 50 sample_tree (some 0) (box_at 20) vector3_zero).map
        (fun m => (m.2, shape_invariant m.1, aabb_invariant m.1, m.1.aabb (some 0))) =
      some (true, true, true, some ⟨⟨199, -1, -1⟩, ⟨202, 2, 2⟩⟩) ∧
    (move unit_margin 50 sample_tree (some 0) (box_at 20) vector3_zero).map
        (fun m => (m.1.m_root, m.1.leaves.map fun l => l.1)) = some (some 2, [3, 0]) :=
  ⟨by decide!,
   (move_unchanged_iff unit_margin 50 sample_tree (some 0) (box_at 1) vector3_zero
      { entity := some 7, aabb := ⟨⟨9, -1, -1⟩, ⟨12, 2, 2⟩⟩, parent := some 2, next := none,
        child1 := none, child2 := none, height := 0 } (by decide!) (by decide!)).1
      (by decide!),
   (move_unchanged_iff unit_margin 50 sample_tree (some 0) (box_at 20) vector3_zero
      { entity := some 7, aabb := ⟨⟨9, -1, -1⟩, ⟨12, 2, 2⟩⟩, parent := some 2, next := none,
        child1 := none, child2 := none, height := 0 } (by decide!) (by decide!)).2.1
      (by decide!),
   by decide!, by decide!⟩

/-- C10: `merge_point(rp, cp)` sets `pivotA`, `pivotB`, `normal` and `distance` of the
persisted point to the candidate's values and leaves its body pair, `local_normal`,
`normal_attachment`, friction, restitution and lifetime unchanged; applied to the point of a
contact entity it leaves the stored `constraint_impulse` of that entity unchanged. -/
theorem merge_point_frame {α : Type} [LinearOrderedCommRing α] (rp : collision_point α)
    (c : contact_components α) :
    (merge_point rp c.point).pivotA = rp.pivotA ∧
    (merge_point rp c.point).pivotB = rp.pivotB ∧
    (merge_point rp c.point).normal = rp.normal ∧
    (merge_point rp c.point).distance = rp.distance ∧
    (merge_point rp c.point).body = c.point.body ∧
    (merge_point rp c.point).local_normal = c.point.local_normal ∧
    (merge_point rp c.point).normal_attachment = c.point.normal_attachment ∧
    (merge_point rp c.point).friction = c.point.friction ∧
    (merge_point rp c.point).restitution = c.point.restitution ∧
    (merge_point rp c.point).lifetime = c.point.lifetime ∧
    ({ c with point := merge_point rp c.point } : contact_components α).impulse = c.impulse :=
  ⟨rfl, rfl, rfl, rfl, rfl, rfl, rfl, rfl, rfl, rfl, rfl⟩

/-- C11, as stated, fails: with breaking threshold 2, a point whose world pivots are
`(2, 0, 0)` apart along its normal `(1, 0, 0)` has a normal separation equal to the threshold
and no tangential drift, so neither exceeds the threshold; `maybe_remove_point` evicts it
all the same. -/
theorem maybe_remove_point_evicts_at_threshold :
    (removal_normal_dist
        ({ body := (some 0, some 1), pivotA := ⟨2, 0, 0⟩, pivotB := ⟨0, 0, 0⟩,
           normal := ⟨1, 0, 0⟩, local_normal := ⟨1, 0, 0⟩,
           normal_attachment := contact_normal_attachment.none, friction := 0,
           restitution := 0, lifetime := 0, distance := 2 } : contact_point ℤ)
        vector3_zero quaternion_identity vector3_zero quaternion_identity,
      removal_tangential_dist_sqr
        ({ body := (some 0, some 1), pivotA := ⟨2, 0, 0⟩, pivotB := ⟨0, 0, 0⟩,
           normal := ⟨1, 0, 0⟩, local_normal := ⟨1, 0, 0⟩,
           normal_attachment := contact_normal_attachment.none, friction := 0,
           restitution := 0, lifetime := 0, distance := 2 } : contact_point ℤ)
        vector3_zero quaternion_identity vector3_zero quaternion_identity,
      maybe_remove_point (2 : ℤ) ⟨(some 0, some 1), [some 5, none, none, none]⟩
        { body := (some 0, some 1), pivotA := ⟨2, 0, 0⟩, pivotB := ⟨0, 0, 0⟩,
          normal := ⟨1, 0, 0⟩, local_normal := ⟨1, 0, 0⟩,
          normal_attachment := contact_normal_attachment.none, friction := 0,
          restitution := 0, lifetime := 0, distance := 2 }
        0 vector3_zero quaternion_identity vector3_zero quaternion_identity) =
      (2, 0, some (⟨(some 0, some 1), [none, none, none, none]⟩, true)) := by
  decide!

/-- C11, amended: whenever `maybe_remove_point` returns, it returns true (the point is
evicted) exactly when the normal separation `dot(pA - pB, n)` is at least
`contact_breaking_threshold` or the squared tangential drift is at least the squared
threshold; otherwise it returns false with the manifold unchanged, and in that case it
always returns. -/
theorem maybe_remove_point_iff {α : Type} [LinearOrderedCommRing α] (threshold : α)
    (manifold : contact_manifold) (cp : contact_point α) (pt_idx : Nat)
    (posA : vector3 α) (ornA : quaternion α) (posB : vector3 α) (ornB : quaternion α) :
    (¬ (threshold ≤ removal_normal_dist cp posA ornA posB ornB ∨
        threshold * threshold ≤ removal_tangential_dist_sqr cp posA ornA posB ornB) →
      maybe_remove_point threshold manifold cp pt_idx posA ornA posB ornB =
        some (manifold, false)) ∧
    ∀ m' r, maybe_remove_point threshold manifold cp pt_idx posA ornA posB ornB = some (m', r) →
      (r = true ↔ (threshold ≤ removal_normal_dist cp posA ornA posB ornB ∨
        threshold * threshold ≤ removal_tangential_dist_sqr cp posA ornA posB ornB)) ∧
      (r = false → m' = manifold) := by
  constructor
  · intro h
    have h' : removal_normal_dist cp posA ornA posB ornB < threshold ∧
        removal_tangential_dist_sqr cp posA ornA posB ornB < threshold * threshold := by
      constructor
      · by_contra hc; exact h (Or.inl (not_lt.mp hc))
      · by_contra hc; exact h (Or.inr (not_lt.mp hc))
    simp only [maybe_remove_point, h', and_self, if_true]
  · intro m' r h
    by_cases hc : removal_normal_dist cp posA ornA posB ornB < threshold ∧
        removal_tangential_dist_sqr cp posA ornA posB ornB < threshold * threshold
    · simp only [maybe_remove_point, hc, and_self, if_true, Option.some.injEq,
        Prod.mk.injEq] at h
      obtain ⟨h1, h2⟩ := h
      subst h1 h2
      refine ⟨?_, fun _ => rfl⟩
      constructor
      · intro hf; cases hf
      · rintro (h3 | h3)
        · exact absurd hc.1 (not_lt.mpr h3)
        · exact absurd hc.2 (not_lt.mpr h3)
    · have hor : threshold ≤ removal_normal_dist cp posA ornA posB ornB ∨
          threshold * threshold ≤ removal_tangential_dist_sqr cp posA ornA posB ornB := by
        by_contra hno
        push_neg at hno
        exact hc ⟨hno.1, hno.2⟩
      simp only [maybe_remove_point, hc, if_false] at h
      split at h
      · simp only [Option.bind_eq_bind, Option.bind_eq_some, Option.some.injEq,
          Prod.mk.injEq] at h
        obtain ⟨_, _, _, _, _, _, _, hr⟩ := h
        subst hr
        exact ⟨by simp [hor], by simp⟩
      · cases h

/-- Witness for `maybe_remove_point_iff`: with threshold 2, a point whose world pivots are
`(1, 0, 0)` apart along its normal is kept. -/
theorem maybe_remove_point_iff_witness :
    maybe_remove_point (2 : ℤ) ⟨(some 0, some 1), [some 5, none, none, none]⟩
        { body := (some 0, some 1), pivotA := ⟨1, 0, 0⟩, pivotB := ⟨0, 0, 0⟩,
          normal := ⟨1, 0, 0⟩, local_normal := ⟨1, 0, 0⟩,
          normal_attachment := contact_normal_attachment.none, friction := 0,
          restitution := 0, lifetime := 0, distance := 1 }
        0 vector3_zero quaternion_identity vector3_zero quaternion_identity =
      some (⟨(some 0, some 1), [some 5, none, none, none]⟩, false) :=
  (maybe_remove_point_iff (2 : ℤ) ⟨(some 0, some 1), [some 5, none, none, none]⟩
      { body := (some 0, some 1), pivotA := ⟨1, 0, 0⟩, pivotB := ⟨0, 0, 0⟩,
        normal := ⟨1, 0, 0⟩, local_normal := ⟨1, 0, 0⟩,
        normal_attachment := contact_normal_attachment.none, friction := 0,
        restitution := 0, lifetime := 0, distance := 1 }
      0 vector3_zero quaternion_identity vector3_zero quaternion_identity).1 (by decide!)

/-- The result of an eviction by `maybe_remove_point`: the last occupied slot is copied into
slot `pt_idx` and then cleared. -/
theorem maybe_remove_point_evicted {α : Type} [LinearOrderedCommRing α] (threshold : α)
    (manifold m' : contact_manifold) (cp : contact_point α) (pt_idx : Nat)
    (posA : vector3 α) (ornA : quaternion α) (posB : vector3 α) (ornB : quaternion α)
    (h : maybe_remove_point threshold manifold cp pt_idx posA ornA posB ornB = some (m', true)) :
    0 < manifold.num_points ∧
    ∃ last m1, manifold.point[manifold.num_points - 1]? = some last ∧
      manifold.set_point pt_idx last = some m1 ∧
      m1.set_point (manifold.num_points - 1) none = some m' := by
  unfold maybe_remove_point at h
  simp only at h
  split at h
  · simp at h
  · split at h
    · rename_i hpos
      simp only [Option.bind_eq_bind, Option.bind_eq_some, Option.some.injEq,
        Prod.mk.injEq, and_true] at h
      obtain ⟨last, h1, m1, h2, m2, h3, h4⟩ := h
      subst h4
      exact ⟨hpos, last, m1, h1, h2, h3⟩
    · cases h

/-- The write `manifold.point[i] = e` succeeds only inside the array and changes only that
slot. -/
theorem set_point_eq (m m' : contact_manifold) (i : Nat) (e : entity)
    (h : m.set_point i e = some m') :
    i < m.point.length ∧ m' = { m with point := m.point.set i e } := by
  unfold contact_manifold.set_point at h
  split at h
  · rename_i hi
    exact ⟨hi, by simpa using h.symm⟩
  · cases h

/-- C12, as stated, fails: when the evicted slot is the last occupied one (here slot 1 of a
manifold holding two points), slot `pt_idx` is null afterwards: the former last point is
not stored there. -/
theorem maybe_remove_point_last_slot_cleared :
    (maybe_remove_point (2 : ℤ) ⟨(some 0, some 1), [some 5, some 6, none, none]⟩
        { body := (some 0, some 1), pivotA := ⟨3, 0, 0⟩, pivotB := ⟨0, 0, 0⟩,
          normal := ⟨1, 0, 0⟩, local_normal := ⟨1, 0, 0⟩,
          normal_attachment := contact_normal_attachment.none, friction := 0,
          restitution := 0, lifetime := 0, distance := 3 }
        1 vector3_zero quaternion_identity vector3_zero quaternion_identity).map
      (fun r => (r.2, r.1.point, r.1.point[1]?)) =
      some (true, [some 5, none, none, none], some none) := by
  decide!

/-- C12, amended: when `maybe_remove_point` evicts slot `pt_idx` of a manifold of four slots
whose first `n` slots are occupied and whose other slots are null (`pt_idx < n ≤ 4`),
afterwards every slot `j < n - 1` other than `pt_idx` holds what it held, slot `pt_idx`
holds the former last point when `pt_idx < n - 1`, slot `n - 1` is null, `num_points()` is
`n - 1`, the slots from `n` on are still null and the body pair is unchanged. -/
theorem maybe_remove_point_swaps_last {α : Type} [LinearOrderedCommRing α] (threshold : α)
    (manifold m' : contact_manifold) (cp : contact_point α) (pt_idx n : Nat)
    (posA : vector3 α) (ornA : quaternion α) (posB : vector3 α) (ornB : quaternion α)
    (hlen : manifold.point.length = max_contacts)
    (hocc : ∀ j, j < n → ∃ e, manifold.point[j]? = some (some e))
    (hnull : ∀ j, n ≤ j → j < max_contacts → manifold.point[j]? = some none)
    (hn : n ≤ max_contacts) (hpt : pt_idx < n)
    (h : maybe_remove_point threshold manifold cp pt_idx posA ornA posB ornB = some (m', true)) :
    (∀ j, j < n - 1 → j ≠ pt_idx → m'.point[j]? = manifold.point[j]?) ∧
    (pt_idx < n - 1 → m'.point[pt_idx]? = manifold.point[n - 1]?) ∧
    m'.point[n - 1]? = some none ∧
    m'.num_points = n - 1 ∧
    (∀ j, n ≤ j → j < max_contacts → m'.point[j]? = some none) ∧
    m'.point.length = max_contacts ∧
    m'.body = manifold.body := by
  obtain ⟨_, last, m1, h1, h2, h3⟩ :=
    maybe_remove_point_evicted threshold manifold m' cp pt_idx posA ornA posB ornB h
  obtain ⟨body, point⟩ := manifold
  simp only [max_contacts] at hlen hn hnull ⊢
  simp only at hlen hocc hnull
  match point, hlen with
  | [a, b, c, d], _ =>
    have hcases : n = 1 ∨ n = 2 ∨ n = 3 ∨ n = 4 := by omega
    rcases hcases with rfl | rfl | rfl | rfl
    · obtain ⟨ea, ha⟩ := hocc 0 (by omega)
      have hb := hnull 1 (by omega) (by omega)
      have hc := hnull 2 (by omega) (by omega)
      have hd := hnull 3 (by omega) (by omega)
      simp only [List.getElem?_cons_zero, List.getElem?_cons_succ, Option.some.injEq] at ha hb hc hd
      subst ha hb hc hd
      have hp : pt_idx = 0 := by omega
      subst hp
      obtain ⟨_, rfl⟩ := set_point_eq _ _ _ _ h2
      obtain ⟨_, rfl⟩ := set_point_eq _ _ _ _ h3
      simp [contact_manifold.num_points] at h1
      subst h1
      refine ⟨?_, ?_, ?_, ?_, ?_, ?_, ?_⟩
      all_goals (try simp [contact_manifold.num_points])
      all_goals (try (intro j hj1 hj2; interval_cases j <;> simp_all))
    · obtain ⟨ea, ha⟩ := hocc 0 (by omega)
      obtain ⟨eb, hb⟩ := hocc 1 (by omega)
      have hc := hnull 2 (by omega) (by omega)
      have hd := hnull 3 (by omega) (by omega)
      simp only [List.getElem?_cons_zero, List.getElem?_cons_succ, Option.some.injEq] at ha hb hc hd
      subst ha hb hc hd
      have hp : pt_idx = 0 ∨ pt_idx = 1 := by omega
      rcases hp with rfl | rfl <;>
      · obtain ⟨_, rfl⟩ := set_point_eq _ _ _ _ h2
        obtain ⟨_, rfl⟩ := set_point_eq _ _ _ _ h3
        simp [contact_manifold.num_points] at h1
        subst h1
        refine ⟨?_, ?_, ?_, ?_, ?_, ?_, ?_⟩
        all_goals (try simp [contact_manifold.num_points])
        all_goals (try (intro j hj1 hj2; interval_cases j <;> simp_all))
    · obtain ⟨ea, ha⟩ := hocc 0 (by omega)
      obtain ⟨eb, hb⟩ := hocc 1 (by omega)
      obtain ⟨ec, hc⟩ := hocc 2 (by omega)
      have hd := hnull 3 (by omega) (by omega)
      simp only [List.getElem?_cons_zero, List.getElem?_cons_succ, Option.some.injEq] at ha hb hc hd
      subst ha hb hc hd
      have hp : pt_idx = 0 ∨ pt_idx = 1 ∨ pt_idx = 2 := by omega
      rcases hp with rfl | rfl | rfl <;>
      · obtain ⟨_, rfl⟩ := set_point_eq _ _ _ _ h2
        obtain ⟨_, rfl⟩ := set_point_eq _ _ _ _ h3
        simp [contact_manifold.num_points] at h1
        subst h1
        refine ⟨?_, ?_, ?_, ?_, ?_, ?_, ?_⟩
        all_goals (try simp [contact_manifold.num_points])
        all_goals (try (intro j hj1 hj2; interval_cases j <;> simp_all))
    · obtain ⟨ea, ha⟩ := hocc 0 (by omega)
      obtain ⟨eb, hb⟩ := hocc 1 (by omega)
      obtain ⟨ec, hc⟩ := hocc 2 (by omega)
      obtain ⟨ed, hd⟩ := hocc 3 (by omega)
      simp only [List.getElem?_cons_zero, List.getElem?_cons_succ, Option.some.injEq] at ha hb hc hd
      subst ha hb hc hd
      have hp : pt_idx = 0 ∨ pt_idx = 1 ∨ pt_idx = 2 ∨ pt_idx = 3 := by omega
      rcases hp with rfl | rfl | rfl | rfl <;>
      · obtain ⟨_, rfl⟩ := set_point_eq _ _ _ _ h2
        obtain ⟨_, rfl⟩ := set_point_eq _ _ _ _ h3
        simp [contact_manifold.num_points] at h1
        subst h1
        refine ⟨?_, ?_, ?_, ?_, ?_, ?_, ?_⟩
        all_goals (try simp [contact_manifold.num_points])
        all_goals (try (intro j hj1 hj2; interval_cases j <;> simp_all))

/-- Witness for `maybe_remove_point_swaps_last`: slot 0 of a manifold holding three points is
evicted; the former last point 7 moves into slot 0. -/
theorem maybe_remove_point_swaps_last_witness :
    (∀ j, j < 3 - 1 → j ≠ 0 →
      [some 7, some 6, none, none][j]? = [some 5, some 6, some 7, (none : entity)][j]?) ∧
    (0 < 3 - 1 →
      [some 7, some 6, none, none][0]? = [some 5, some 6, some 7, (none : entity)][3 - 1]?) ∧
    [some 7, some 6, none, (none : entity)][3 - 1]? = some none ∧
    (⟨(some 0, some 1), [some 7, some 6, none, none]⟩ : contact_manifold).num_points = 3 - 1 ∧
    (∀ j, 3 ≤ j → j < max_contacts →
      [some 7, some 6, none, (none : entity)][j]? = some none) ∧
    [some 7, some 6, none, (none : entity)].length = max_contacts ∧
    ((some 0, some 1) : entity × entity) = (some 0, some 1) :=
  maybe_remove_point_swaps_last (2 : ℤ)
    ⟨(some 0, some 1), [some 5, some 6, some 7, none]⟩
    ⟨(some 0, some 1), [some 7, some 6, none, none]⟩
    { body := (some 0, some 1), pivotA := ⟨3, 0, 0⟩, pivotB := ⟨0, 0, 0⟩,
      normal := ⟨1, 0, 0⟩, local_normal := ⟨1, 0, 0⟩,
      normal_attachment := contact_normal_attachment.none, friction := 0,
      restitution := 0, lifetime := 0, distance := 3 }
    0 3 vector3_zero quaternion_identity vector3_zero quaternion_identity
    (by decide)
    (by intro j hj; interval_cases j <;> simp)
    (by intro j hj1 hj2; simp only [max_contacts] at hj2; interval_cases j; simp)
    (by decide) (by decide) (by decide!)

/-- One iteration of the loop of `find_nearest_contact` replaces the pair exactly when the
smaller of the two squared pivot distances is below the current `shortest_dist`. -/
theorem find_nearest_step_eq {α : Type} [LinearOrderedCommRing α] (cp : contact_point α)
    (p : collision_point α) (i : Nat) (st : α × Nat) :
    find_nearest_step cp p i st =
      if min (length_sqr (p.pivotA.sub cp.pivotA)) (length_sqr (p.pivotB.sub cp.pivotB)) < st.1
      then (min (length_sqr (p.pivotA.sub cp.pivotA)) (length_sqr (p.pivotB.sub cp.pivotB)), i)
      else st := by
  obtain ⟨best, idx⟩ := st
  unfold find_nearest_step
  simp only
  by_cases hA : length_sqr (p.pivotA.sub cp.pivotA) < best
  · by_cases hB : length_sqr (p.pivotB.sub cp.pivotB) < length_sqr (p.pivotA.sub cp.pivotA)
    · have hm : min (length_sqr (p.pivotA.sub cp.pivotA)) (length_sqr (p.pivotB.sub cp.pivotB))
          = length_sqr (p.pivotB.sub cp.pivotB) := min_eq_right (le_of_lt hB)
      simp [hA, hB, hm, lt_trans hB hA]
    · have hm : min (length_sqr (p.pivotA.sub cp.pivotA)) (length_sqr (p.pivotB.sub cp.pivotB))
          = length_sqr (p.pivotA.sub cp.pivotA) := min_eq_left (not_lt.mp hB)
      simp [hA, hB, hm]
  · by_cases hB : length_sqr (p.pivotB.sub cp.pivotB) < best
    · have hm : min (length_sqr (p.pivotA.sub cp.pivotA)) (length_sqr (p.pivotB.sub cp.pivotB))
          = length_sqr (p.pivotB.sub cp.pivotB) :=
        min_eq_right (le_trans (le_of_lt hB) (not_lt.mp hA))
      simp [hA, hB, hm]
    · have hm : ¬ min (length_sqr (p.pivotA.sub cp.pivotA))
          (length_sqr (p.pivotB.sub cp.pivotB)) < best := by
        simp [not_lt.mp hA, not_lt.mp hB]
      simp [hA, hB, hm]

/-- The loop of `find_nearest_contact` runs to its end inside the array and keeps its
invariant. -/
theorem find_nearest_loop_inv {α : Type} [LinearOrderedCommRing α] (thr_sqr : α)
    (cp : contact_point α) (result : collision_result α) (n : Nat) :
    ∀ (i : Nat) (st : α × Nat), i + n = result.num_points →
      result.num_points ≤ result.point.length →
      find_nearest_inv thr_sqr cp result i st →
      ∃ st', find_nearest_loop cp result n i st = some st' ∧
        find_nearest_inv thr_sqr cp result result.num_points st' := by
  induction n with
  | zero =>
    intro i st hi _ hinv
    have : i = result.num_points := by omega
    subst this
    exact ⟨st, rfl, hinv⟩
  | succ n ih =>
    intro i st hi hlen hinv
    have hil : i < result.point.length := by omega
    have hget : result.point[i]? = some result.point[i] := List.getElem?_eq_getElem hil
    simp only [find_nearest_loop, hget]
    apply ih (i + 1) _ (by omega) hlen
    rw [find_nearest_step_eq]
    obtain ⟨best, idx⟩ := st
    simp only [find_nearest_inv] at hinv ⊢
    by_cases hk : min (length_sqr (result.point[i].pivotA.sub cp.pivotA))
        (length_sqr (result.point[i].pivotB.sub cp.pivotB)) < best
    · simp only [hk, if_true]
      right
      refine ⟨by omega, ?_, ⟨result.point[i], hget, rfl⟩, ?_, ?_⟩
      · rcases hinv with ⟨_, hb, _⟩ | ⟨_, hb, _⟩
        · simpa [hb] using hk
        · exact lt_trans hk hb
      · intro j q hj hq
        by_cases hji : j = i
        · subst hji
          rw [hget] at hq
          cases hq
          exact le_refl _
        · have hj' : j < i := by omega
          rcases hinv with ⟨_, hb, hall⟩ | ⟨_, _, _, hall, _⟩
          · have := hall j q hj' hq
            rw [← hb] at this
            exact le_trans (le_of_lt hk) (not_lt.mp this)
          · exact le_trans (le_of_lt hk) (hall j q hj' hq)
      · intro j q hj hq
        rcases hinv with ⟨_, hb, hall⟩ | ⟨_, _, _, hall, _⟩
        · have := hall j q hj hq
          rw [← hb] at this
          exact lt_of_lt_of_le hk (not_lt.mp this)
        · exact lt_of_lt_of_le hk (hall j q hj hq)
    · simp only [hk, if_false]
      rcases hinv with ⟨h1, hb, hall⟩ | ⟨h1, hb, hp, hall, hfirst⟩
      · left
        refine ⟨h1, hb, ?_⟩
        intro j q hj hq
        by_cases hji : j = i
        · subst hji
          rw [hget] at hq
          cases hq
          rw [← hb]
          exact hk
        · exact hall j q (by omega) hq
      · right
        refine ⟨by omega, hb, hp, ?_, hfirst⟩
        intro j q hj hq
        by_cases hji : j = i
        · subst hji
          rw [hget] at hq
          cases hq
          exact not_lt.mp hk
        · exact hall j q (by omega) hq

/-- C14: for a result whose `num_points` candidates lie inside its array,
`find_nearest_contact` returns an index `k`. It is `num_points` if and only if no candidate
has a squared distance from `cp.pivotA` or from `cp.pivotB` strictly below the squared
caching threshold (for a non-negative threshold: no distance below the threshold).
Otherwise `k < num_points`, the smaller of the two squared distances of candidate `k` is
below the squared threshold, it is the least over all candidates, and it is strictly less
than that of every candidate of smaller index. -/
theorem find_nearest_contact_spec {α : Type} [LinearOrderedCommRing α] (threshold : α)
    (cp : contact_point α) (result : collision_result α)
    (hlen : result.num_points ≤ result.point.length) :
    ∃ k, find_nearest_contact threshold cp result = some k ∧
      (k = result.num_points ↔
        ∀ j q, j < result.num_points → result.point[j]? = some q →
          ¬ (length_sqr (q.pivotA.sub cp.pivotA) < threshold * threshold ∨
             length_sqr (q.pivotB.sub cp.pivotB) < threshold * threshold)) ∧
      (k ≠ result.num_points →
        k < result.num_points ∧
        ∃ p, result.point[k]? = some p ∧
          min (length_sqr (p.pivotA.sub cp.pivotA)) (length_sqr (p.pivotB.sub cp.pivotB))
            < threshold * threshold ∧
          (∀ j q, j < result.num_points → result.point[j]? = some q →
            min (length_sqr (p.pivotA.sub cp.pivotA)) (length_sqr (p.pivotB.sub cp.pivotB)) ≤
              min (length_sqr (q.pivotA.sub cp.pivotA))
                (length_sqr (q.pivotB.sub cp.pivotB))) ∧
          (∀ j q, j < k → result.point[j]? = some q →
            min (length_sqr (p.pivotA.sub cp.pivotA)) (length_sqr (p.pivotB.sub cp.pivotB)) <
              min (length_sqr (q.pivotA.sub cp.pivotA))
                (length_sqr (q.pivotB.sub cp.pivotB)))) := by
  have hinit : find_nearest_inv (threshold * threshold) cp result 0
      (threshold * threshold, result.num_points) := by
    left
    exact ⟨rfl, rfl, fun j q hj _ => absurd hj (Nat.not_lt_zero j)⟩
  obtain ⟨st', hrun, hinv⟩ := find_nearest_loop_inv (threshold * threshold) cp result
    result.num_points 0 (threshold * threshold, result.num_points) (by omega) hlen hinit
  refine ⟨st'.2, by simp [find_nearest_contact, hrun], ?_, ?_⟩
  · constructor
    · intro hk j q hj hq
      rcases hinv with ⟨_, _, hall⟩ | ⟨hlt, _⟩
      · have := hall j q hj hq
        simpa [min_lt_iff] using this
      · omega
    · intro hall
      rcases hinv with ⟨h1, _⟩ | ⟨hlt, hb, ⟨p, hp, hpe⟩, _, _⟩
      · exact h1
      · exfalso
        have := hall st'.2 p hlt hp
        apply this
        rw [← hpe] at hb
        exact min_lt_iff.mp hb
  · intro hne
    rcases hinv with ⟨h1, _⟩ | ⟨hlt, hb, ⟨p, hp, hpe⟩, hall, hfirst⟩
    · exact absurd h1 hne
    · refine ⟨hlt, p, hp, by rw [hpe]; exact hb, ?_, ?_⟩
      · intro j q hj hq
        rw [hpe]
        exact hall j q hj hq
      · intro j q hj hq
        rw [hpe]
        exact hfirst j q hj hq

/-- Witness for `find_nearest_contact_spec`: a result with two candidates, the second of
which is at squared distance 1 from the pivots of the point, with threshold 2. -/
theorem find_nearest_contact_spec_witness :
    (2 : Nat) ≤ [(⟨⟨5, 0, 0⟩, ⟨5, 0, 0⟩, ⟨0, 1, 0⟩, 0, contact_normal_attachment.none⟩ :
        collision_point ℤ), ⟨⟨1, 0, 0⟩, ⟨1, 0, 0⟩, ⟨0, 1, 0⟩, 0,
        contact_normal_attachment.none⟩].length ∧
    ∃ k, find_nearest_contact (2 : ℤ)
      { body := (some 0, some 1), pivotA := ⟨0, 0, 0⟩, pivotB := ⟨0, 0, 0⟩,
        normal := ⟨0, 1, 0⟩, local_normal := ⟨0, 1, 0⟩,
        normal_attachment := contact_normal_attachment.none, friction := 0,
        restitution := 0, lifetime := 0, distance := 0 }
      ⟨2, [⟨⟨5, 0, 0⟩, ⟨5, 0, 0⟩, ⟨0, 1, 0⟩, 0, contact_normal_attachment.none⟩,
           ⟨⟨1, 0, 0⟩, ⟨1, 0, 0⟩, ⟨0, 1, 0⟩, 0, contact_normal_attachment.none⟩]⟩ = some k ∧
      k ≠ 2 :=
  ⟨by decide,
    (find_nearest_contact_spec (2 : ℤ)
      { body := (some 0, some 1), pivotA := ⟨0, 0, 0⟩, pivotB := ⟨0, 0, 0⟩,
        normal := ⟨0, 1, 0⟩, local_normal := ⟨0, 1, 0⟩,
        normal_attachment := contact_normal_attachment.none, friction := 0,
        restitution := 0, lifetime := 0, distance := 0 }
      ⟨2, [⟨⟨5, 0, 0⟩, ⟨5, 0, 0⟩, ⟨0, 1, 0⟩, 0, contact_normal_attachment.none⟩,
           ⟨⟨1, 0, 0⟩, ⟨1, 0, 0⟩, ⟨0, 1, 0⟩, 0, contact_normal_attachment.none⟩]⟩
      (by decide)).imp fun k h =>
        ⟨h.1, fun hk => by
          have h2 := h.2.1.mp hk 1 _ (by decide) rfl
          exact h2 (by decide!)⟩⟩

/-- C16: when both bodies have a material, `create_contact_constraint` returns; it sets
`cp.friction` and `cp.restitution` to the products of the two materials' values and leaves
the other fields of the point; the constraint it adds has stiffness and damping
`large_scalar` when neither material's stiffness is below `large_scalar`, and otherwise
`1 / stiffness = 1 / sA + 1 / sB` and `1 / damping = 1 / dA + 1 / dB`; the four combined
values are the same when the two materials are swapped. -/
theorem create_contact_constraint_combines {α : Type} [LinearOrderedField α]
    (large_scalar : α) (reg : registry α) (contact_entity : entity) (cp : contact_point α)
    (mA mB : material α) (hA : reg.material cp.body.1 = some mA)
    (hB : reg.material cp.body.2 = some mB) :
    ∃ reg' cp' con, create_contact_constraint large_scalar reg contact_entity cp =
        some (reg', cp') ∧
      reg'.contact_constraints = reg.contact_constraints ++ [(contact_entity, con)] ∧
      cp'.friction = mA.friction * mB.friction ∧
      cp'.restitution = mA.restitution * mB.restitution ∧
      cp' = { cp with friction := cp'.friction, restitution := cp'.restitution } ∧
      con.body = cp.body ∧
      (¬ (mA.stiffness < large_scalar ∨ mB.stiffness < large_scalar) →
        con.stiffness = large_scalar ∧ con.damping = large_scalar) ∧
      ((mA.stiffness < large_scalar ∨ mB.stiffness < large_scalar) →
        1 / con.stiffness = 1 / mA.stiffness + 1 / mB.stiffness ∧
        1 / con.damping = 1 / mA.damping + 1 / mB.damping) ∧
      ∀ (reg2 : registry α) (cp2 : contact_point α) reg2' cp2' con2,
        reg2.material cp2.body.1 = some mB → reg2.material cp2.body.2 = some mA →
        create_contact_constraint large_scalar reg2 contact_entity cp2 = some (reg2', cp2') →
        reg2'.contact_constraints = reg2.contact_constraints ++ [(contact_entity, con2)] →
        cp2'.friction = cp'.friction ∧ cp2'.restitution = cp'.restitution ∧
        con2.stiffness = con.stiffness ∧ con2.damping = con.damping := by
  refine ⟨_, _, _, by simp only [create_contact_constraint, hA, hB, Option.bind_eq_bind,
    Option.some_bind]; rfl, rfl, rfl, rfl, rfl, rfl, ?_, ?_, ?_⟩
  · intro h
    simp [h]
  · intro h
    simp [h]
  · intro reg2 cp2 reg2' cp2' con2 h1 h2 hc hr
    simp only [create_contact_constraint, h1, h2, Option.bind_eq_bind, Option.some_bind,
      Option.some.injEq, Prod.mk.injEq] at hc
    obtain ⟨hc1, hc2⟩ := hc
    subst hc1 hc2
    simp only [List.append_cancel_left_eq, List.cons.injEq, Prod.mk.injEq, true_and,
      and_true] at hr
    subst hr
    refine ⟨mul_comm _ _, mul_comm _ _, ?_, ?_⟩
    · simp only [or_comm (a := mB.stiffness < large_scalar), add_comm (1 / mB.stiffness)]
    · simp only [or_comm (a := mB.stiffness < large_scalar), add_comm (1 / mB.damping)]

/-- Witness for `create_contact_constraint_combines`: two bodies of friction `1 / 3`. -/
theorem create_contact_constraint_combines_witness :
    ∃ reg' cp', create_contact_constraint (100 : ℚ) sample_registry (some 9) sample_point =
        some (reg', cp') ∧
      cp'.friction = (1 / 3 : ℚ) * (1 / 3) := by
  obtain ⟨reg', cp', con, h, _, hf, _⟩ :=
    create_contact_constraint_combines (100 : ℚ) sample_registry (some 9) sample_point
      ⟨1 / 2, 1 / 3, 10, 20⟩ ⟨1 / 2, 1 / 3, 10, 20⟩ rfl rfl
  exact ⟨reg', cp', h, hf⟩

/-- C17: when both bodies have a box, a position and an orientation, `detect_collision`
returns. If body A's box outset by `contact_breaking_threshold` does not intersect body B's
box, the result is the given one with `num_points` set to 0, whatever the narrow phase is:
it is not run. If the boxes intersect, the result is that of the narrow phase on the
context built from the two origins, orientations and boxes. -/
theorem detect_collision_gate {α : Type} [LinearOrderedField α] (threshold : α)
    (narrow_phase : entity × entity → collision_context α → collision_result α →
      collision_result α)
    (reg : registry α) (body : entity × entity) (result : collision_result α)
    (aabbA aabbB : AABB α) (posA posB : vector3 α) (ornA ornB : quaternion α)
    (h1 : reg.aabb body.1 = some aabbA) (h2 : reg.position body.1 = some posA)
    (h3 : reg.orientation body.1 = some ornA) (h4 : reg.aabb body.2 = some aabbB)
    (h5 : reg.position body.2 = some posB) (h6 : reg.orientation body.2 = some ornB) :
    (intersect (aabbA.inset ⟨-threshold, -threshold, -threshold⟩) aabbB = false →
      detect_collision threshold narrow_phase reg body result =
        some { result with num_points := 0 }) ∧
    (intersect (aabbA.inset ⟨-threshold, -threshold, -threshold⟩) aabbB = true →
      detect_collision threshold narrow_phase reg body result =
        some (narrow_phase body
          ⟨body_origin posA ornA (reg.center_of_mass body.1), ornA, aabbA,
           body_origin posB ornB (reg.center_of_mass body.2), ornB, aabbB, threshold⟩
          result)) ∧
    (aabbA.inset ⟨-threshold, -threshold, -threshold⟩ : AABB α) =
      ⟨⟨aabbA.min.x - threshold, aabbA.min.y - threshold, aabbA.min.z - threshold⟩,
       ⟨aabbA.max.x + threshold, aabbA.max.y + threshold, aabbA.max.z + threshold⟩⟩ := by
  refine ⟨?_, ?_, ?_⟩
  · intro h
    simp [detect_collision, h1, h2, h3, h4, h5, h6, h]
  · intro h
    simp [detect_collision, h1, h2, h3, h4, h5, h6, h]
  · simp [AABB.inset, vector3.add, vector3.sub, sub_eq_add_neg]

/-- Witness for `detect_collision_gate`: two bodies with the box `[0, 1]³`, which
intersect, and a narrow phase that returns its input. -/
theorem detect_collision_gate_witness :
    detect_collision (1 / 50 : ℚ) (fun _ _ r => r) sample_registry (some 0, some 1)
        ⟨1, [sample_candidate]⟩ = some ⟨1, [sample_candidate]⟩ :=
  (detect_collision_gate (1 / 50 : ℚ) (fun _ _ r => r) sample_registry (some 0, some 1)
    ⟨1, [sample_candidate]⟩ ⟨⟨0, 0, 0⟩, ⟨1, 1, 1⟩⟩ ⟨⟨0, 0, 0⟩, ⟨1, 1, 1⟩⟩ ⟨0, 0, 0⟩ ⟨0, 0, 0⟩
    ⟨0, 0, 0, 1⟩ ⟨0, 0, 0, 1⟩ rfl rfl rfl rfl rfl rfl).2.1
    (by simp [intersect, AABB.inset, vector3.add, vector3.sub]; norm_num)

/-- The loop of `update_contact_distances` keeps the entities and writes only the distances. -/
theorem update_contact_distances_loop_spec {α : Type} [LinearOrderedField α]
    (reg : registry α) (cps : List (entity × contact_point α))
    (hb : ∀ p, p ∈ cps →
      (reg.position p.2.body.1).isSome ∧ (reg.orientation p.2.body.1).isSome ∧
      (reg.position p.2.body.2).isSome ∧ (reg.orientation p.2.body.2).isSome) :
    ∃ cps', update_contact_distances_loop reg cps = some cps' ∧
      List.Forall₂ (fun old new =>
        new.1 = old.1 ∧
        ∃ posA ornA posB ornB,
          reg.position old.2.body.1 = some posA ∧ reg.orientation old.2.body.1 = some ornA ∧
          reg.position old.2.body.2 = some posB ∧ reg.orientation old.2.body.2 = some ornB ∧
          new.2 =
            { (old.2) with
              distance := dot old.2.normal
                (((match reg.center_of_mass old.2.body.1 with
                  | some com => posA.add (rotate ornA com.neg)
                  | none => posA).add (rotate ornA old.2.pivotA)).sub
               ((match reg.center_of_mass old.2.body.2 with
                  | some com => posB.add (rotate ornB com.neg)
                  | none => posB).add (rotate ornB old.2.pivotB))) })
        cps cps' := by
  induction cps with
  | nil => exact ⟨[], rfl, List.Forall₂.nil⟩
  | cons p rest ih =>
    obtain ⟨e, cp⟩ := p
    obtain ⟨rest', hrest, hall⟩ := ih (fun q hq => hb q (List.mem_cons_of_mem _ hq))
    obtain ⟨hpA, hoA, hpB, hoB⟩ := hb (e, cp) (List.mem_cons_self _ _)
    obtain ⟨posA, hpA⟩ := Option.isSome_iff_exists.mp hpA
    obtain ⟨ornA, hoA⟩ := Option.isSome_iff_exists.mp hoA
    obtain ⟨posB, hpB⟩ := Option.isSome_iff_exists.mp hpB
    obtain ⟨ornB, hoB⟩ := Option.isSome_iff_exists.mp hoB
    simp only at hpA hoA hpB hoB
    have hstep : update_contact_distance reg cp = some
        { cp with
          distance := dot cp.normal
            (((match reg.center_of_mass cp.body.1 with
                | some com => posA.add (rotate ornA com.neg)
                | none => posA).add (rotate ornA cp.pivotA)).sub
             ((match reg.center_of_mass cp.body.2 with
                | some com => posB.add (rotate ornB com.neg)
                | none => posB).add (rotate ornB cp.pivotB))) } := by
      simp only [update_contact_distance, hpA, hoA, hpB, hoB, Option.bind_eq_bind,
        Option.some_bind]
      cases h1 : reg.center_of_mass cp.body.1 <;> cases h2 : reg.center_of_mass cp.body.2 <;>
        simp [body_origin, to_world_space]
    obtain ⟨cp', hstep', hcp'⟩ : ∃ cp', update_contact_distance reg cp = some cp' ∧
        cp' = { cp with
          distance := dot cp.normal
            (((match reg.center_of_mass cp.body.1 with
                | some com => posA.add (rotate ornA com.neg)
                | none => posA).add (rotate ornA cp.pivotA)).sub
             ((match reg.center_of_mass cp.body.2 with
                | some com => posB.add (rotate ornB com.neg)
                | none => posB).add (rotate ornB cp.pivotB))) } := ⟨_, hstep, rfl⟩
    refine ⟨(e, cp') :: rest', ?_, ?_⟩
    · simp only [update_contact_distances_loop, hstep', hrest]
    · exact List.Forall₂.cons ⟨rfl, posA, ornA, posB, ornB, hpA, hoA, hpB, hoB, hcp'⟩ hall

/-- C15: when the bodies of every contact point have a position and an orientation,
`update_contact_distances` returns; the registry afterwards differs from the one before
in its contact points only; these are the same entities in the same order, and each point
differs from the one before in its `distance` only, which is
`dot(normal, pA_world - pB_world)` with `p_world = origin + rotate(orn, pivot)` and `origin`
the position, or `pos + rotate(orn, -com)` for a body with a centre-of-mass offset. -/
theorem update_contact_distances_spec {α : Type} [LinearOrderedField α] (reg : registry α)
    (hb : ∀ p, p ∈ reg.contact_points →
      (reg.position p.2.body.1).isSome ∧ (reg.orientation p.2.body.1).isSome ∧
      (reg.position p.2.body.2).isSome ∧ (reg.orientation p.2.body.2).isSome) :
    ∃ reg', update_contact_distances reg = some reg' ∧
      reg' = { reg with contact_points := reg'.contact_points } ∧
      List.Forall₂ (fun old new =>
        new.1 = old.1 ∧
        ∃ posA ornA posB ornB,
          reg.position old.2.body.1 = some posA ∧ reg.orientation old.2.body.1 = some ornA ∧
          reg.position old.2.body.2 = some posB ∧ reg.orientation old.2.body.2 = some ornB ∧
          new.2 =
            { (old.2) with
              distance := dot old.2.normal
                (((match reg.center_of_mass old.2.body.1 with
                  | some com => posA.add (rotate ornA com.neg)
                  | none => posA).add (rotate ornA old.2.pivotA)).sub
               ((match reg.center_of_mass old.2.body.2 with
                  | some com => posB.add (rotate ornB com.neg)
                  | none => posB).add (rotate ornB old.2.pivotB))) })
        reg.contact_points reg'.contact_points := by
  obtain ⟨cps', h, hall⟩ := update_contact_distances_loop_spec reg reg.contact_points hb
  exact ⟨{ reg with contact_points := cps' }, by simp [update_contact_distances, h], rfl, hall⟩

/-- Witness for `update_contact_distances_spec`: the sample registry holding the sample
point. -/
theorem update_contact_distances_spec_witness :
    ∃ reg', update_contact_distances
        { sample_registry with contact_points := [(some 10, sample_point)] } = some reg' ∧
      reg'.contact_points.length = 1 := by
  obtain ⟨reg', h, _, hall⟩ := update_contact_distances_spec
    { sample_registry with contact_points := [(some 10, sample_point)] }
    (by intro p _; exact ⟨rfl, rfl, rfl, rfl⟩)
  exact ⟨reg', h, by simpa using hall.length_eq.symm⟩

/-- The number of points of a manifold of four slots whose first `n` slots are occupied and
whose other slots are null is `n`. -/
theorem num_points_of_prefix (manifold : contact_manifold) (n : Nat)
    (hlen : manifold.point.length = max_contacts)
    (hocc : ∀ j, j < n → ∃ e, manifold.point[j]? = some (some e))
    (hnull : ∀ j, n ≤ j → j < max_contacts → manifold.point[j]? = some none)
    (hn : n ≤ max_contacts) : manifold.num_points = n := by
  obtain ⟨body, point⟩ := manifold
  simp only [max_contacts] at hlen hn hnull
  simp only at hlen hocc hnull
  match point, hlen with
  | [a, b, c, d], _ =>
    have h0 : n ≤ 0 → a = none := fun h => by simpa using hnull 0 (by omega) (by omega)
    have h1 : n ≤ 1 → b = none := fun h => by simpa using hnull 1 (by omega) (by omega)
    have h2 : n ≤ 2 → c = none := fun h => by simpa using hnull 2 (by omega) (by omega)
    have h3 : n ≤ 3 → d = none := fun h => by simpa using hnull 3 (by omega) (by omega)
    have g0 : 0 < n → ∃ e, a = some e := fun h => by simpa using hocc 0 h
    have g1 : 1 < n → ∃ e, b = some e := fun h => by simpa using hocc 1 h
    have g2 : 2 < n → ∃ e, c = some e := fun h => by simpa using hocc 2 h
    have g3 : 3 < n → ∃ e, d = some e := fun h => by simpa using hocc 3 h
    have hcases : n = 0 ∨ n = 1 ∨ n = 2 ∨ n = 3 ∨ n = 4 := by omega
    rcases hcases with rfl | rfl | rfl | rfl | rfl
    · rw [h0 (by omega), h1 (by omega), h2 (by omega), h3 (by omega)]
      rfl
    · obtain ⟨ea, rfl⟩ := g0 (by omega)
      rw [h1 (by omega), h2 (by omega), h3 (by omega)]
      rfl
    · obtain ⟨ea, rfl⟩ := g0 (by omega)
      obtain ⟨eb, rfl⟩ := g1 (by omega)
      rw [h2 (by omega), h3 (by omega)]
      rfl
    · obtain ⟨ea, rfl⟩ := g0 (by omega)
      obtain ⟨eb, rfl⟩ := g1 (by omega)
      obtain ⟨ec, rfl⟩ := g2 (by omega)
      rw [h3 (by omega)]
      rfl
    · obtain ⟨ea, rfl⟩ := g0 (by omega)
      obtain ⟨eb, rfl⟩ := g1 (by omega)
      obtain ⟨ec, rfl⟩ := g2 (by omega)
      obtain ⟨ed, rfl⟩ := g3 (by omega)
      rfl

/-- C13: for a manifold of four slots whose first `n < 4` slots are occupied and whose
other slots are null, `create_contact_point` returns (given the orientation of the body the
normal is attached to); it stores the new contact entity in slot `n` and leaves every other
slot unchanged, so the manifold holds `n + 1 ≤ 4` points; the registry gets one
`contact_point` more, for that entity, with the candidate's `pivotA`, `pivotB`, `normal`,
`distance` and attachment tag, the manifold's body pair and lifetime 0. When the manifold
holds 4 points (or more) the capacity assertion fails: nothing is returned. -/
theorem create_contact_point_spec {α : Type} [LinearOrderedField α] (reg : registry α)
    (manifold_entity : entity) (manifold : contact_manifold) (rp : collision_point α)
    (n : Nat) (hlen : manifold.point.length = max_contacts)
    (hocc : ∀ j, j < n → ∃ e, manifold.point[j]? = some (some e))
    (hnull : ∀ j, n ≤ j → j < max_contacts → manifold.point[j]? = some none)
    (hn : n ≤ max_contacts)
    (hornA : rp.normal_attachment = contact_normal_attachment.normal_on_A →
      (reg.orientation manifold.body.1).isSome)
    (hornB : rp.normal_attachment = contact_normal_attachment.normal_on_B →
      (reg.orientation manifold.body.2).isSome) :
    (n < max_contacts →
      ∃ reg' m' ce cp, create_contact_point reg manifold_entity manifold rp =
          some (reg', m', ce) ∧
        ce = some reg.next_entity ∧
        m'.point = manifold.point.set n ce ∧ m'.body = manifold.body ∧
        m'.point[n]? = some ce ∧
        (∀ j, j ≠ n → m'.point[j]? = manifold.point[j]?) ∧
        m'.num_points = n + 1 ∧ n + 1 ≤ max_contacts ∧
        reg'.contact_points = reg.contact_points ++ [(ce, cp)] ∧
        cp.pivotA = rp.pivotA ∧ cp.pivotB = rp.pivotB ∧ cp.normal = rp.normal ∧
        cp.distance = rp.distance ∧ cp.normal_attachment = rp.normal_attachment ∧
        cp.body = manifold.body ∧ cp.lifetime = 0) ∧
    (n = max_contacts → create_contact_point reg manifold_entity manifold rp = none) := by
  have hnum := num_points_of_prefix manifold n hlen hocc hnull hn
  constructor
  · intro hlt
    have hset : manifold.set_point n (some reg.next_entity) =
        some { manifold with point := manifold.point.set n (some reg.next_entity) } := by
      simp [contact_manifold.set_point, hlen, hlt]
    obtain ⟨ln, hln⟩ : ∃ ln, create_local_normal reg
        { manifold with point := manifold.point.set n (some reg.next_entity) } rp = some ln := by
      unfold create_local_normal
      cases hatt : rp.normal_attachment with
      | none => exact ⟨_, rfl⟩
      | normal_on_A =>
        obtain ⟨o, ho⟩ := Option.isSome_iff_exists.mp (hornA hatt)
        exact ⟨rotate (conjugate o) rp.normal, by simp [ho]⟩
      | normal_on_B =>
        obtain ⟨o, ho⟩ := Option.isSome_iff_exists.mp (hornB hatt)
        exact ⟨rotate (conjugate o) rp.normal, by simp [ho]⟩
    have hnum' : ({ manifold with point := manifold.point.set n (some reg.next_entity) } :
        contact_manifold).num_points = n + 1 := by
      apply num_points_of_prefix _ (n + 1)
      · simpa using hlen
      · intro j hj
        by_cases hjn : j = n
        · subst hjn
          exact ⟨reg.next_entity, by simp [List.getElem?_set, hlen, hlt]⟩
        · obtain ⟨e, he⟩ := hocc j (by omega)
          exact ⟨e, by simp [List.getElem?_set, Ne.symm hjn, he]⟩
      · intro j hj1 hj2
        have hjn : n ≠ j := by omega
        simp only [List.getElem?_set, hjn, if_false]
        exact hnull j (by omega) hj2
      · omega
    refine ⟨_, { manifold with point := manifold.point.set n (some reg.next_entity) },
      some reg.next_entity,
      { body := manifold.body, pivotA := rp.pivotA, pivotB := rp.pivotB, normal := rp.normal,
        local_normal := ln, normal_attachment := rp.normal_attachment,
        friction := 0, restitution := 0, lifetime := 0, distance := rp.distance },
      by simp only [create_contact_point, hnum, hlt, if_true, hset, hln,
        Option.bind_eq_bind, Option.some_bind]; rfl, rfl, rfl, rfl, ?_, ?_, hnum', by omega, rfl,
      rfl, rfl, rfl, rfl, rfl, rfl, rfl⟩
    · simp [List.getElem?_set, hlen, hlt]
    · intro j hj
      simp [List.getElem?_set, Ne.symm hj]
  · intro h4
    simp [create_contact_point, hnum, h4]

/-- Witness for `create_contact_point_spec`: a manifold holding one point gets a second one,
the fresh entity 10, from a candidate whose normal is attached to body A. -/
theorem create_contact_point_spec_witness :
    ∃ reg' m' ce, create_contact_point sample_registry (some 2)
        ⟨(some 0, some 1), [some 5, none, none, none]⟩ sample_candidate = some (reg', m', ce) ∧
      m'.point = [some 5, some 10, none, none] := by
  obtain ⟨reg', m', ce, _, h, hce, hp, _⟩ := (create_contact_point_spec sample_registry (some 2)
    ⟨(some 0, some 1), [some 5, none, none, none]⟩ sample_candidate 1 rfl
    (by intro j hj; interval_cases j; exact ⟨5, rfl⟩)
    (by intro j hj1 hj2; simp only [max_contacts] at hj2; interval_cases j <;> rfl)
    (by decide) (fun _ => rfl) (fun _ => rfl)).1 (by decide)
  refine ⟨reg', m', ce, h, ?_⟩
  rw [hp, hce]
  rfl

/-- C9, as stated, fails: with `EDYN_EPSILON = 1 / 100`, a contact of friction coefficient
`1 / 2` whose normal row has accumulated impulse 0 leaves the pass with the friction impulse
vector `(1 / 100, 0)`, whose magnitude is above `friction_coefficient * normal_row.impulse
= 0`. -/
theorem friction_impulse_above_bound :
    (iterate_constraints (fun x => x) (1 / 100 : ℚ) sample_solver_state).map
        (fun st => (st.friction_rows.map fun p =>
            (p.row0.impulse, p.row1.impulse, p.friction_coefficient),
          st.rows.map fun r => r.impulse)) =
      some ([((1 / 100 : ℚ), (0 : ℚ), (1 / 2 : ℚ))], [(0 : ℚ)]) ∧
    ¬ ((1 / 100 : ℚ) * (1 / 100) + 0 * 0 ≤ (1 / 2 * 0) * (1 / 2 * 0)) := by
  constructor
  · simp [iterate_constraints, iterate_loop, iterate_step, sample_solver_state, sample_body,
      friction_apply, apply_impulse, add_delta_linvel, add_delta_angvel, friction_clip,
      friction_unclipped, friction_delta_relvel, dot, vector3.scale, vector3.mul,
      vector3.add, matrix3x3.mul_vec]
    norm_num
  · norm_num

/-- After the clipping statement of `iterate_constraints`, the squared length of `impulse`
is at most the squared `max_impulse_len`, or at most `EDYN_EPSILON`. -/
theorem friction_clip_bound {α : Type} [LinearOrderedField α] (sqrt : α → α) (eps : α)
    (hsqrt : ∀ s, 0 < s → sqrt s * sqrt s = s) (pair : contact_friction_row_pair α)
    (normal_row : constraint_row α) (di : (α × α) × (α × α)) :
    (friction_clip sqrt eps pair normal_row di).2.1 *
        (friction_clip sqrt eps pair normal_row di).2.1 +
      (friction_clip sqrt eps pair normal_row di).2.2 *
        (friction_clip sqrt eps pair normal_row di).2.2 ≤
      (pair.friction_coefficient * normal_row.impulse) *
        (pair.friction_coefficient * normal_row.impulse) ∨
    (friction_clip sqrt eps pair normal_row di).2.1 *
        (friction_clip sqrt eps pair normal_row di).2.1 +
      (friction_clip sqrt eps pair normal_row di).2.2 *
        (friction_clip sqrt eps pair normal_row di).2.2 ≤ eps := by
  unfold friction_clip
  simp only
  split
  · rename_i hc
    left
    have hpos : 0 < di.2.1 * di.2.1 + di.2.2 * di.2.2 :=
      lt_of_le_of_lt (mul_self_nonneg _) hc.1
    have hs := hsqrt _ hpos
    have hne : sqrt (di.2.1 * di.2.1 + di.2.2 * di.2.2) ≠ 0 := by
      intro h0
      rw [h0] at hs
      simp at hs
      exact absurd hs.symm (ne_of_gt hpos)
    apply le_of_eq
    simp only
    generalize sqrt (di.2.1 * di.2.1 + di.2.2 * di.2.2) = L at hs hne
    field_simp
    linear_combination (-(pair.friction_coefficient * normal_row.impulse) ^ 2) * hs
  · rename_i hc
    by_cases h1 : di.2.1 * di.2.1 + di.2.2 * di.2.2 >
        pair.friction_coefficient * normal_row.impulse *
          (pair.friction_coefficient * normal_row.impulse)
    · right
      by_contra h2
      exact hc ⟨h1, not_le.mp h2⟩
    · left
      exact not_lt.mp h1

/-- The friction bound on one pair with respect to its normal row: the squared length of
the friction impulse vector is at most the squared `friction_coefficient *
normal_row.impulse`, or at most `EDYN_EPSILON`. -/
theorem iterate_step_spec {α : Type} [LinearOrderedField α] (sqrt : α → α) (eps : α)
    (hsqrt : ∀ s, 0 < s → sqrt s * sqrt s = s) (st st' : solver_state α) (i : Nat)
    (h : iterate_step sqrt eps st i = some st') :
    st'.rows = st.rows ∧ st'.row_start_index = st.row_start_index ∧
    st'.con_num_rows = st.con_num_rows ∧
    ∃ pair pair' row, st.friction_rows[i]? = some pair ∧
      st.rows[st.row_start_index + i]? = some row ∧
      st'.friction_rows = st.friction_rows.set i pair' ∧
      pair'.friction_coefficient = pair.friction_coefficient ∧
      (pair'.row0.impulse * pair'.row0.impulse + pair'.row1.impulse * pair'.row1.impulse ≤
          (pair.friction_coefficient * row.impulse) * (pair.friction_coefficient * row.impulse) ∨
        pair'.row0.impulse * pair'.row0.impulse + pair'.row1.impulse * pair'.row1.impulse ≤
          eps) := by
  unfold iterate_step at h
  simp only [Option.bind_eq_bind, Option.bind_eq_some] at h
  obtain ⟨row, hrow, pair, hpair, bA, hbA, bB, hbB, ⟨pair', bodies'⟩, happ, hst⟩ := h
  simp only [Option.some.injEq] at hst
  subst hst
  unfold friction_apply at happ
  simp only [Option.bind_eq_bind, Option.bind_eq_some, Option.some.injEq, Prod.mk.injEq] at happ
  obtain ⟨b1, _, b2, _, hp, _⟩ := happ
  subst hp
  exact ⟨rfl, rfl, rfl, pair, _, row, hpair, hrow, rfl, rfl,
    friction_clip_bound sqrt eps hsqrt pair row (friction_unclipped pair bA bB)⟩

/-- The outer loop of `iterate_constraints` leaves the rows of the cache alone and
establishes the friction bound on every pair it has passed. -/
theorem iterate_loop_spec {α : Type} [LinearOrderedField α] (sqrt : α → α) (eps : α)
    (hsqrt : ∀ s, 0 < s → sqrt s * sqrt s = s) (n : Nat) :
    ∀ (i : Nat) (st st' : solver_state α), iterate_loop sqrt eps n i st = some st' →
      (∀ j pair row, j < i → st.friction_rows[j]? = some pair →
        st.rows[st.row_start_index + j]? = some row →
        (pair.row0.impulse * pair.row0.impulse + pair.row1.impulse * pair.row1.impulse ≤
            (pair.friction_coefficient * row.impulse) *
              (pair.friction_coefficient * row.impulse) ∨
          pair.row0.impulse * pair.row0.impulse + pair.row1.impulse * pair.row1.impulse ≤
            eps)) →
      st'.rows = st.rows ∧ st'.row_start_index = st.row_start_index ∧
      st'.con_num_rows = st.con_num_rows ∧
      st'.friction_rows.length = st.friction_rows.length ∧
      (∀ j pair row, j < i + n → st'.friction_rows[j]? = some pair →
        st'.rows[st'.row_start_index + j]? = some row →
        (pair.row0.impulse * pair.row0.impulse + pair.row1.impulse * pair.row1.impulse ≤
            (pair.friction_coefficient * row.impulse) *
              (pair.friction_coefficient * row.impulse) ∨
          pair.row0.impulse * pair.row0.impulse + pair.row1.impulse * pair.row1.impulse ≤
            eps)) := by
  induction n with
  | zero =>
    intro i st st' h hinv
    simp only [iterate_loop, Option.some.injEq] at h
    subst h
    exact ⟨rfl, rfl, rfl, rfl, fun j pair row hj => hinv j pair row (by omega)⟩
  | succ n ih =>
    intro i st st' h hinv
    simp only [iterate_loop] at h
    cases hstep : iterate_step sqrt eps st i with
    | none => simp [hstep] at h
    | some st1 =>
      simp only [hstep] at h
      obtain ⟨hr, hs, hc, pair, pair', row, hpair, hrow, hfr, hmu, hb⟩ :=
        iterate_step_spec sqrt eps hsqrt st st1 i hstep
      have hil : i < st.friction_rows.length := (List.getElem?_eq_some.mp hpair).1
      have hinv1 : ∀ j pair row, j < i + 1 → st1.friction_rows[j]? = some pair →
          st1.rows[st1.row_start_index + j]? = some row →
          (pair.row0.impulse * pair.row0.impulse + pair.row1.impulse * pair.row1.impulse ≤
              (pair.friction_coefficient * row.impulse) *
                (pair.friction_coefficient * row.impulse) ∨
            pair.row0.impulse * pair.row0.impulse + pair.row1.impulse * pair.row1.impulse ≤
              eps) := by
        intro j p r hj hp hrw
        rw [hr, hs] at hrw
        rw [hfr] at hp
        by_cases hji : j = i
        · subst hji
          simp only [List.getElem?_set, hil, if_true, Option.some.injEq] at hp
          subst hp
          rw [hrow] at hrw
          cases hrw
          rw [hmu]
          exact hb
        · simp only [List.getElem?_set, Ne.symm hji, if_false] at hp
          exact hinv j p r (by omega) hp hrw
      obtain ⟨h1, h2, h3, h4, h5⟩ := ih (i + 1) st1 st' h hinv1
      refine ⟨h1.trans hr, h2.trans hs, h3.trans hc, ?_, ?_⟩
      · rw [h4, hfr]
        simp
      · intro j p r hj
        exact h5 j p r (by omega)

/-- C9, amended: if one `iterate_constraints` pass returns (with a `std::sqrt` that is exact
on positive numbers), it leaves the rows of the cache, and so the normal impulses, as they
were, and afterwards the friction impulse vector `(row[0].impulse, row[1].impulse)` of
every contact has a squared magnitude that is at most the square of
`friction_coefficient * normal_row.impulse` or at most `EDYN_EPSILON`: when the
coefficient and the normal impulse are not negative, the magnitude is at most
`friction_coefficient * normal_row.impulse` unless its square is at most `EDYN_EPSILON`. -/
theorem iterate_constraints_friction_bound {α : Type} [LinearOrderedField α]
    (sqrt : α → α) (EDYN_EPSILON : α) (hsqrt : ∀ s, 0 < s → sqrt s * sqrt s = s)
    (st st' : solver_state α)
    (h : iterate_constraints sqrt EDYN_EPSILON st = some st') :
    st'.rows = st.rows ∧ st'.friction_rows.length = st.friction_rows.length ∧
    ∀ i pair row, st'.friction_rows[i]? = some pair →
      st.rows[st.row_start_index + i]? = some row →
      (pair.row0.impulse * pair.row0.impulse + pair.row1.impulse * pair.row1.impulse ≤
          (pair.friction_coefficient * row.impulse) *
            (pair.friction_coefficient * row.impulse) ∨
        pair.row0.impulse * pair.row0.impulse + pair.row1.impulse * pair.row1.impulse ≤
          EDYN_EPSILON) := by
  obtain ⟨h1, h2, _, h4, h5⟩ := iterate_loop_spec sqrt EDYN_EPSILON hsqrt
    st.friction_rows.length 0 st st' h (fun j _ _ hj => absurd hj (Nat.not_lt_zero j))
  refine ⟨h1, h4, ?_⟩
  intro i pair row hp hrow
  have hil : i < st.friction_rows.length := by
    rw [← h4]
    exact (List.getElem?_eq_some.mp hp).1
  apply h5 i pair row (by omega) hp
  rw [h1, h2]
  exact hrow

/-- Witness for `iterate_constraints_friction_bound`: the sample state over the reals, with
the real square root: the pass returns and the bound holds for its contact. -/
theorem iterate_constraints_friction_bound_witness :
    ∃ st', iterate_constraints Real.sqrt (1 / 100 : ℝ) sample_solver_state = some st' ∧
      st'.rows = (sample_solver_state : solver_state ℝ).rows ∧
      st'.friction_rows.length = 1 := by
  cases hrun : iterate_constraints Real.sqrt (1 / 100 : ℝ) sample_solver_state with
  | none =>
    exfalso
    simp [iterate_constraints, iterate_loop, iterate_step, sample_solver_state, sample_body,
      friction_apply, apply_impulse, add_delta_linvel, add_delta_angvel] at hrun
  | some st' =>
    have r := iterate_constraints_friction_bound Real.sqrt (1 / 100 : ℝ)
      (fun s hs => Real.mul_self_sqrt (le_of_lt hs)) sample_solver_state st' hrun
    exact ⟨st', rfl, r.1, r.2.1⟩

/-- A view of the bodies differs from itself in nothing. -/
theorem same_bodies_refl {α : Type} (bodies : entity → Option (solver_body α)) :
    same_bodies_but_deltas bodies bodies := by
  intro e
  cases h : bodies e with
  | none => exact Or.inl ⟨rfl, rfl⟩
  | some b => exact Or.inr ⟨b, b, rfl, rfl, rfl, rfl, rfl, rfl, rfl, rfl, rfl⟩

/-- Differing at most in the accumulators is transitive. -/
theorem same_bodies_trans {α : Type} (b1 b2 b3 : entity → Option (solver_body α))
    (h12 : same_bodies_but_deltas b1 b2) (h23 : same_bodies_but_deltas b2 b3) :
    same_bodies_but_deltas b1 b3 := by
  intro e
  rcases h12 e with ⟨h1, h2⟩ | ⟨x, y, h1, h2, hxy⟩
  · rcases h23 e with ⟨h3, h4⟩ | ⟨y', z, h3, _, _⟩
    · exact Or.inl ⟨h1, h4⟩
    · rw [h2] at h3; cases h3
  · rcases h23 e with ⟨h3, _⟩ | ⟨y', z, h3, h4, hyz⟩
    · rw [h2] at h3; cases h3
    · rw [h2] at h3
      cases h3
      obtain ⟨a1, a2, a3, a4, a5, a6, a7⟩ := hxy
      obtain ⟨c1, c2, c3, c4, c5, c6, c7⟩ := hyz
      exact Or.inr ⟨x, z, h1, h4, c1.trans a1, c2.trans a2, c3.trans a3, c4.trans a4,
        c5.trans a5, c6.trans a6, c7.trans a7⟩

/-- The statement `dv += v` changes a delta-velocity accumulator only. -/
theorem add_delta_linvel_frame {α : Type} [LinearOrderedField α]
    (bodies bodies' : entity → Option (solver_body α)) (e : entity) (v : vector3 α)
    (h : add_delta_linvel bodies e v = some bodies') :
    same_bodies_but_deltas bodies bodies' := by
  unfold add_delta_linvel at h
  cases hb : bodies e with
  | none => simp [hb] at h
  | some b =>
    simp only [hb, Option.map_some', Option.some.injEq] at h
    subst h
    intro e'
    by_cases he : e' = e
    · subst he
      exact Or.inr ⟨b, { b with delta_linvel := b.delta_linvel.add v }, hb, by simp,
        rfl, rfl, rfl, rfl, rfl, rfl, rfl⟩
    · simp only [he, if_false]
      exact same_bodies_refl bodies e'

/-- The statement `dw += v` changes a delta-velocity accumulator only. -/
theorem add_delta_angvel_frame {α : Type} [LinearOrderedField α]
    (bodies bodies' : entity → Option (solver_body α)) (e : entity) (v : vector3 α)
    (h : add_delta_angvel bodies e v = some bodies') :
    same_bodies_but_deltas bodies bodies' := by
  unfold add_delta_angvel at h
  cases hb : bodies e with
  | none => simp [hb] at h
  | some b =>
    simp only [hb, Option.map_some', Option.some.injEq] at h
    subst h
    intro e'
    by_cases he : e' = e
    · subst he
      exact Or.inr ⟨b, { b with delta_angvel := b.delta_angvel.add v }, hb, by simp,
        rfl, rfl, rfl, rfl, rfl, rfl, rfl⟩
    · simp only [he, if_false]
      exact same_bodies_refl bodies e'

/-- Applying an impulse changes delta-velocity accumulators only. -/
theorem apply_impulse_frame {α : Type} [LinearOrderedField α]
    (bodies bodies' : entity → Option (solver_body α)) (bodyA bodyB : entity)
    (inv_mA : α) (inv_IA : matrix3x3 α) (inv_mB : α) (inv_IB : matrix3x3 α)
    (J : jacobian α) (impulse : α)
    (h : apply_impulse bodies bodyA bodyB inv_mA inv_IA inv_mB inv_IB J impulse =
      some bodies') :
    same_bodies_but_deltas bodies bodies' := by
  unfold apply_impulse at h
  simp only [Option.bind_eq_bind, Option.bind_eq_some] at h
  obtain ⟨b1, h1, b2, h2, b3, h3, h4⟩ := h
  exact same_bodies_trans _ _ _ (add_delta_linvel_frame _ _ _ _ h1)
    (same_bodies_trans _ _ _ (add_delta_angvel_frame _ _ _ _ h2)
      (same_bodies_trans _ _ _ (add_delta_linvel_frame _ _ _ _ h3)
        (add_delta_angvel_frame _ _ _ _ h4)))

/-- What the body of the loop of `prepare_constraints` does on one contact. -/
theorem prepare_contact_spec {α : Type} [LinearOrderedField α] (large_scalar dt : α)
    (plane_space : vector3 α → vector3 α × vector3 α)
    (prepare_row : constraint_row α → constraint_row_options α → vector3 α → vector3 α →
      vector3 α → vector3 α → constraint_row α)
    (imp_view : entity → Option (constraint_impulse α)) (st st' : solver_state α)
    (c : entity × contact_constraint α × contact_point α)
    (h : prepare_contact large_scalar dt plane_space prepare_row imp_view st c = some st') :
    ∃ bA bB imp, st.bodies c.2.1.body.1 = some bA ∧ st.bodies c.2.1.body.2 = some bB ∧
      imp_view c.1 = some imp ∧ c.2.1.body = c.2.2.body ∧
      st'.rows = st.rows ++
        [prepare_row (normal_row_and_options large_scalar dt bA bB c.2.1 c.2.2 imp).1
          (normal_row_and_options large_scalar dt bA bB c.2.1 c.2.2 imp).2
          bA.linvel bB.linvel bA.angvel bB.angvel] ∧
      st'.friction_rows = st.friction_rows ++
        [{ row0 := friction_row_of bA bB c.2.2 (plane_space c.2.2.normal).1 (imp.values 1),
           row1 := friction_row_of bA bB c.2.2 (plane_space c.2.2.normal).2 (imp.values 2),
           friction_coefficient := c.2.2.friction }] ∧
      st'.con_num_rows = st.con_num_rows ++ [1] ∧
      st'.row_start_index = st.row_start_index ∧
      same_bodies_but_deltas st.bodies st'.bodies := by
  unfold prepare_contact at h
  simp only [Option.bind_eq_bind, Option.bind_eq_some] at h
  obtain ⟨bA, hbA, bB, hbB, imp, himp, h⟩ := h
  split at h
  · rename_i hbody
    simp only [Option.bind_eq_bind, Option.bind_eq_some, Option.some.injEq] at h
    obtain ⟨bodies1, hw, ⟨pair, bodies2⟩, hf, hst⟩ := h
    subst hst
    unfold prepare_friction at hf
    simp only [Option.bind_eq_bind, Option.bind_eq_some, Option.some.injEq,
      Prod.mk.injEq] at hf
    obtain ⟨b3, hf1, b4, hf2, hp, hb⟩ := hf
    subst hp hb
    have fr1 : same_bodies_but_deltas st.bodies bodies1 := apply_impulse_frame _ _ _ _ _ _ _ _ _ _ hw
    have fr2 : same_bodies_but_deltas bodies1 b3 := by
      unfold friction_warm_start at hf1
      simp only [Option.bind_eq_bind, Option.bind_eq_some] at hf1
      obtain ⟨_, _, _, _, hf1⟩ := hf1
      exact apply_impulse_frame _ _ _ _ _ _ _ _ _ _ hf1
    have fr3 : same_bodies_but_deltas b3 b4 := by
      unfold friction_warm_start at hf2
      simp only [Option.bind_eq_bind, Option.bind_eq_some] at hf2
      obtain ⟨_, _, _, _, hf2⟩ := hf2
      exact apply_impulse_frame _ _ _ _ _ _ _ _ _ _ hf2
    exact ⟨bA, bB, imp, hbA, hbB, himp, hbody, rfl, rfl, rfl, rfl,
      same_bodies_trans _ _ _ fr1 (same_bodies_trans _ _ _ fr2 fr3)⟩
  · cases h

/-- A body of a view is still there in every view that differs in the accumulators only. -/
theorem same_bodies_some {α : Type} (bodies bodies' : entity → Option (solver_body α))
    (h : same_bodies_but_deltas bodies bodies') (e : entity) (b : solver_body α)
    (hb : bodies e = some b) : ∃ b', bodies' e = some b' ∧ same_body_but_deltas b b' := by
  rcases h e with ⟨h1, _⟩ | ⟨x, y, h1, h2, hxy⟩
  · rw [hb] at h1; cases h1
  · rw [hb] at h1
    cases h1
    exact ⟨y, h2, hxy⟩

/-- Applying an impulse to two bodies of the view returns. -/
theorem apply_impulse_some {α : Type} [LinearOrderedField α]
    (bodies : entity → Option (solver_body α)) (bodyA bodyB : entity)
    (inv_mA : α) (inv_IA : matrix3x3 α) (inv_mB : α) (inv_IB : matrix3x3 α)
    (J : jacobian α) (impulse : α) (bA bB : solver_body α)
    (hA : bodies bodyA = some bA) (hB : bodies bodyB = some bB) :
    ∃ bodies', apply_impulse bodies bodyA bodyB inv_mA inv_IA inv_mB inv_IB J impulse =
      some bodies' := by
  obtain ⟨b1, h1⟩ : ∃ b1, add_delta_linvel bodies bodyA
      ((vector3.scale inv_mA J.j0).mul impulse) = some b1 := by
    simp [add_delta_linvel, hA]
  have f1 := add_delta_linvel_frame _ _ _ _ h1
  obtain ⟨a1, ha1, _⟩ := same_bodies_some _ _ f1 bodyA bA hA
  obtain ⟨b2, h2⟩ : ∃ b2, add_delta_angvel b1 bodyA
      ((inv_IA.mul_vec J.j1).mul impulse) = some b2 := by
    simp [add_delta_angvel, ha1]
  have f2 := same_bodies_trans _ _ _ f1 (add_delta_angvel_frame _ _ _ _ h2)
  obtain ⟨a2, ha2, _⟩ := same_bodies_some _ _ f2 bodyB bB hB
  obtain ⟨b3, h3⟩ : ∃ b3, add_delta_linvel b2 bodyB
      ((vector3.scale inv_mB J.j2).mul impulse) = some b3 := by
    simp [add_delta_linvel, ha2]
  have f3 := same_bodies_trans _ _ _ f2 (add_delta_linvel_frame _ _ _ _ h3)
  obtain ⟨a3, ha3, _⟩ := same_bodies_some _ _ f3 bodyB bB hB
  obtain ⟨b4, h4⟩ : ∃ b4, add_delta_angvel b3 bodyB
      ((inv_IB.mul_vec J.j3).mul impulse) = some b4 := by
    simp [add_delta_angvel, ha3]
  exact ⟨b4, by simp [apply_impulse, h1, h2, h3, h4]⟩

/-- The warm start of a friction row on two bodies of the view returns. -/
theorem friction_warm_start_some {α : Type} [LinearOrderedField α]
    (bodies : entity → Option (solver_body α)) (bodyA bodyB : entity)
    (friction_row : contact_friction_row α) (bA bB : solver_body α)
    (hA : bodies bodyA = some bA) (hB : bodies bodyB = some bB) :
    ∃ bodies', friction_warm_start bodies bodyA bodyB friction_row = some bodies' ∧
      same_bodies_but_deltas bodies bodies' := by
  obtain ⟨b', h⟩ := apply_impulse_some bodies bodyA bodyB bA.mass_inv bA.inertia_world_inv
    bB.mass_inv bB.inertia_world_inv friction_row.J friction_row.impulse bA bB hA hB
  exact ⟨b', by simp [friction_warm_start, hA, hB, h], apply_impulse_frame _ _ _ _ _ _ _ _ _ _ h⟩

/-- The body of the loop of `prepare_constraints` returns when the two bodies of the
contact are in the view, the contact entity has a `constraint_impulse`, and the constraint
and the point name the same body pair, and the row made by `prepare_row` still points to
these two bodies. -/
theorem prepare_contact_some {α : Type} [LinearOrderedField α] (large_scalar dt : α)
    (plane_space : vector3 α → vector3 α × vector3 α)
    (prepare_row : constraint_row α → constraint_row_options α → vector3 α → vector3 α →
      vector3 α → vector3 α → constraint_row α)
    (hprep : ∀ r o a b c d, (prepare_row r o a b c d).bodyA = r.bodyA ∧
      (prepare_row r o a b c d).bodyB = r.bodyB)
    (imp_view : entity → Option (constraint_impulse α)) (st : solver_state α)
    (c : entity × contact_constraint α × contact_point α) (bA bB : solver_body α)
    (imp : constraint_impulse α)
    (hA : st.bodies c.2.1.body.1 = some bA) (hB : st.bodies c.2.1.body.2 = some bB)
    (hi : imp_view c.1 = some imp) (hbody : c.2.1.body = c.2.2.body) :
    ∃ st', prepare_contact large_scalar dt plane_space prepare_row imp_view st c =
      some st' := by
  have hrA : (prepare_row (normal_row_and_options large_scalar dt bA bB c.2.1 c.2.2 imp).1
      (normal_row_and_options large_scalar dt bA bB c.2.1 c.2.2 imp).2
      bA.linvel bB.linvel bA.angvel bB.angvel).bodyA = c.2.1.body.1 := by
    rw [(hprep _ _ _ _ _ _).1]
    simp only [normal_row_and_options, normal_row_limits]
    split_ifs <;> rfl
  have hrB : (prepare_row (normal_row_and_options large_scalar dt bA bB c.2.1 c.2.2 imp).1
      (normal_row_and_options large_scalar dt bA bB c.2.1 c.2.2 imp).2
      bA.linvel bB.linvel bA.angvel bB.angvel).bodyB = c.2.1.body.2 := by
    rw [(hprep _ _ _ _ _ _).2]
    simp only [normal_row_and_options, normal_row_limits]
    split_ifs <;> rfl
  obtain ⟨b1, h1⟩ : ∃ b1, warm_start
      (prepare_row (normal_row_and_options large_scalar dt bA bB c.2.1 c.2.2 imp).1
        (normal_row_and_options large_scalar dt bA bB c.2.1 c.2.2 imp).2
        bA.linvel bB.linvel bA.angvel bB.angvel) st.bodies = some b1 := by
    unfold warm_start
    rw [hrA, hrB]
    exact apply_impulse_some _ _ _ _ _ _ _ _ _ bA bB hA hB
  have f1 : same_bodies_but_deltas st.bodies b1 := apply_impulse_frame _ _ _ _ _ _ _ _ _ _ h1
  obtain ⟨a1, ha1, _⟩ := same_bodies_some _ _ f1 _ bA hA
  obtain ⟨a1', ha1', _⟩ := same_bodies_some _ _ f1 _ bB hB
  obtain ⟨b2, h2, f2⟩ := friction_warm_start_some b1 c.2.1.body.1 c.2.1.body.2
    (friction_row_of bA bB c.2.2 (plane_space c.2.2.normal).1 (imp.values 1)) a1 a1' ha1 ha1'
  obtain ⟨a2, ha2, _⟩ := same_bodies_some _ _ f2 _ a1 ha1
  obtain ⟨a2', ha2', _⟩ := same_bodies_some _ _ f2 _ a1' ha1'
  obtain ⟨b3, h3, _⟩ := friction_warm_start_some b2 c.2.1.body.1 c.2.1.body.2
    (friction_row_of bA bB c.2.2 (plane_space c.2.2.normal).2 (imp.values 2)) a2 a2' ha2 ha2'
  unfold prepare_contact
  simp only [hA, hB, hi, Option.bind_eq_bind, Option.some_bind]
  rw [if_pos hbody]
  simp only [h1, prepare_friction, h2, h3, Option.bind_eq_bind, Option.some_bind]
  exact ⟨_, rfl⟩

/-- C19: the body of the loop of `prepare_constraints` appends, for a contact, the row
`prepare_row` makes of a row `r` and options `o` such that: with `cp.distance < 0`,
`r.upper_limit` is `|cp.distance * stiffness + normal_relvel * damping| * dt` when
`con.stiffness < large_scalar` and `large_scalar` otherwise; with `cp.distance ≥ 0` and
`con.stiffness ≥ large_scalar`, `r.upper_limit` is `large_scalar` and `o.error` is
`cp.distance / dt`; and in each of these cases `r.lower_limit ≤ r.upper_limit` when
`dt ≥ 0` (and `large_scalar ≥ 0`). -/
theorem prepare_contact_upper_limit {α : Type} [LinearOrderedField α] (large_scalar dt : α)
    (plane_space : vector3 α → vector3 α × vector3 α)
    (prepare_row : constraint_row α → constraint_row_options α → vector3 α → vector3 α →
      vector3 α → vector3 α → constraint_row α)
    (imp_view : entity → Option (constraint_impulse α)) (st st' : solver_state α)
    (c : entity × contact_constraint α × contact_point α)
    (hdt : 0 ≤ dt) (hlarge : 0 ≤ large_scalar)
    (h : prepare_contact large_scalar dt plane_space prepare_row imp_view st c = some st') :
    ∃ bA bB r o, st.bodies c.2.1.body.1 = some bA ∧ st.bodies c.2.1.body.2 = some bB ∧
      st'.rows = st.rows ++ [prepare_row r o bA.linvel bB.linvel bA.angvel bB.angvel] ∧
      r.lower_limit = 0 ∧
      (c.2.2.distance < 0 → c.2.1.stiffness < large_scalar →
        r.upper_limit = |c.2.2.distance * c.2.1.stiffness +
          contact_normal_relvel bA bB c.2.2 * c.2.1.damping| * dt ∧
        r.lower_limit ≤ r.upper_limit) ∧
      (c.2.2.distance < 0 → ¬ c.2.1.stiffness < large_scalar →
        r.upper_limit = large_scalar ∧ r.lower_limit ≤ r.upper_limit) ∧
      (¬ c.2.2.distance < 0 → c.2.1.stiffness ≥ large_scalar →
        r.upper_limit = large_scalar ∧ o.error = c.2.2.distance / dt ∧
        r.lower_limit ≤ r.upper_limit) := by
  obtain ⟨bA, bB, imp, hbA, hbB, _, _, hrows, _⟩ :=
    prepare_contact_spec large_scalar dt plane_space prepare_row imp_view st st' c h
  have hl : (normal_row_and_options large_scalar dt bA bB c.2.1 c.2.2 imp).1.lower_limit = 0 := by
    simp only [normal_row_and_options, normal_row_limits]
    split_ifs <;> rfl
  refine ⟨bA, bB, (normal_row_and_options large_scalar dt bA bB c.2.1 c.2.2 imp).1,
    (normal_row_and_options large_scalar dt bA bB c.2.1 c.2.2 imp).2, hbA, hbB, hrows, hl,
    ?_, ?_, ?_⟩
  · intro hd hs
    have hu : (normal_row_and_options large_scalar dt bA bB c.2.1 c.2.2 imp).1.upper_limit =
        |c.2.2.distance * c.2.1.stiffness +
          contact_normal_relvel bA bB c.2.2 * c.2.1.damping| * dt := by
      simp [normal_row_and_options, normal_row_limits, hd, hs]
    refine ⟨hu, ?_⟩
    rw [hl, hu]
    exact mul_nonneg (abs_nonneg _) hdt
  · intro hd hs
    have hu : (normal_row_and_options large_scalar dt bA bB c.2.1 c.2.2 imp).1.upper_limit =
        large_scalar := by
      simp [normal_row_and_options, normal_row_limits, hd, hs]
    refine ⟨hu, ?_⟩
    rw [hl, hu]
    exact hlarge
  · intro hd hs
    have hs' : ¬ c.2.1.stiffness < large_scalar := not_lt.mpr hs
    have hu : (normal_row_and_options large_scalar dt bA bB c.2.1 c.2.2 imp).1.upper_limit =
        large_scalar := by
      simp [normal_row_and_options, normal_row_limits, hd, hs]
    have he : (normal_row_and_options large_scalar dt bA bB c.2.1 c.2.2 imp).2.error =
        c.2.2.distance / dt := by
      simp [normal_row_and_options, normal_row_limits, hd, hs]
    refine ⟨hu, he, ?_⟩
    rw [hl, hu]
    exact hlarge

/-- Witness for `prepare_contact_upper_limit`: the sample state and the sample point with a
rigid contact, time step `1 / 60`, and a `prepare_row` that returns the row it is given. -/
theorem prepare_contact_upper_limit_witness :
    ∃ st', prepare_contact (1000 : ℚ) (1 / 60) (fun _ => (⟨1, 0, 0⟩, ⟨0, 0, 1⟩))
        (fun r _ _ _ _ _ => r) (fun _ => some ⟨fun _ => 0⟩) sample_solver_state
        (some 10, ⟨(some 0, some 1), 1000, 1000⟩, sample_point) = some st' ∧
      st'.rows.length = 2 := by
  obtain ⟨st', hrun⟩ := prepare_contact_some (1000 : ℚ) (1 / 60)
    (fun _ => (⟨1, 0, 0⟩, ⟨0, 0, 1⟩)) (fun r _ _ _ _ _ => r) (fun _ _ _ _ _ _ => ⟨rfl, rfl⟩)
    (fun _ => some ⟨fun _ => 0⟩) sample_solver_state
    (some 10, ⟨(some 0, some 1), 1000, 1000⟩, sample_point) sample_body sample_body
    ⟨fun _ => 0⟩ rfl rfl rfl rfl
  obtain ⟨bA, bB, r, o, _, _, hrows, _⟩ := prepare_contact_upper_limit (1000 : ℚ) (1 / 60)
    (fun _ => (⟨1, 0, 0⟩, ⟨0, 0, 1⟩)) (fun r _ _ _ _ _ => r) (fun _ => some ⟨fun _ => 0⟩)
    sample_solver_state st' (some 10, ⟨(some 0, some 1), 1000, 1000⟩, sample_point)
    (by norm_num) (by norm_num) hrun
  exact ⟨st', hrun, by rw [hrows]; simp [sample_solver_state]⟩

/-- The row and options of a contact, its friction rows and the velocities handed to
`prepare_row` do not depend on the delta-velocity accumulators of the bodies. -/
theorem contact_rows_congr {α : Type} [LinearOrderedField α] (large_scalar dt : α)
    (bA bB bA' bB' : solver_body α) (hA : same_body_but_deltas bA bA')
    (hB : same_body_but_deltas bB bB') (con : contact_constraint α) (cp : contact_point α)
    (imp : constraint_impulse α) (t : vector3 α) (x : α) :
    normal_row_and_options large_scalar dt bA' bB' con cp imp =
      normal_row_and_options large_scalar dt bA bB con cp imp ∧
    friction_row_of bA' bB' cp t x = friction_row_of bA bB cp t x ∧
    contact_arms bA' bB' cp = contact_arms bA bB cp ∧
    bA'.linvel = bA.linvel ∧ bB'.linvel = bB.linvel ∧ bA'.angvel = bA.angvel ∧
    bB'.angvel = bB.angvel := by
  obtain ⟨a1, a2, a3, a4, a5, a6, a7⟩ := hA
  obtain ⟨c1, c2, c3, c4, c5, c6, c7⟩ := hB
  refine ⟨?_, ?_, ?_, a3, c3, a4, c4⟩
  · simp only [normal_row_and_options, normal_row_limits, normal_row_base, contact_arms,
      contact_normal_relvel, a1, a2, a3, a4, a5, a6, a7, c1, c2, c3, c4, c5, c6, c7]
  · simp only [friction_row_of, J_invM_JT, contact_arms, a1, a2, a3, a4, a5, a6, a7, c1, c2,
      c3, c4, c5, c6, c7]
  · simp only [contact_arms, a1, a2, a7, c1, c2, c7]

/-- What the loop of `prepare_constraints` appends for a list of contacts: one row, one
friction pair and one count per contact, in the order of the contacts, each built from
that contact and from the bodies of the view. -/
theorem prepare_loop_spec {α : Type} [LinearOrderedField α] (large_scalar dt : α)
    (plane_space : vector3 α → vector3 α × vector3 α)
    (prepare_row : constraint_row α → constraint_row_options α → vector3 α → vector3 α →
      vector3 α → vector3 α → constraint_row α)
    (imp_view : entity → Option (constraint_impulse α))
    (cs : List (entity × contact_constraint α × contact_point α)) :
    ∀ (st st' : solver_state α),
      prepare_loop large_scalar dt plane_space prepare_row imp_view st cs = some st' →
      st'.row_start_index = st.row_start_index ∧
      same_bodies_but_deltas st.bodies st'.bodies ∧
      st'.con_num_rows = st.con_num_rows ++ List.replicate cs.length 1 ∧
      ∃ (rows : List (constraint_row α)) (pairs : List (contact_friction_row_pair α)),
        st'.rows = st.rows ++ rows ∧ st'.friction_rows = st.friction_rows ++ pairs ∧
        rows.length = cs.length ∧ pairs.length = cs.length ∧
        ∀ (i : Nat) (c : entity × contact_constraint α × contact_point α), cs[i]? = some c →
          ∃ bA bB imp, st.bodies c.2.1.body.1 = some bA ∧ st.bodies c.2.1.body.2 = some bB ∧
            imp_view c.1 = some imp ∧ c.2.1.body = c.2.2.body ∧
            rows[i]? = some
              (prepare_row (normal_row_and_options large_scalar dt bA bB c.2.1 c.2.2 imp).1
                (normal_row_and_options large_scalar dt bA bB c.2.1 c.2.2 imp).2
                bA.linvel bB.linvel bA.angvel bB.angvel) ∧
            pairs[i]? = some
              { row0 := friction_row_of bA bB c.2.2 (plane_space c.2.2.normal).1 (imp.values 1),
                row1 := friction_row_of bA bB c.2.2 (plane_space c.2.2.normal).2 (imp.values 2),
                friction_coefficient := c.2.2.friction } := by
  induction cs with
  | nil =>
    intro st st' h
    simp only [prepare_loop, Option.some.injEq] at h
    subst h
    exact ⟨rfl, same_bodies_refl _, by simp, [], [], by simp, by simp, rfl, rfl,
      fun i c hc => by simp at hc⟩
  | cons c0 cs ih =>
    intro st st' h
    simp only [prepare_loop] at h
    cases hstep : prepare_contact large_scalar dt plane_space prepare_row imp_view st c0 with
    | none => simp [hstep] at h
    | some s1 =>
      simp only [hstep] at h
      obtain ⟨bA, bB, imp, hbA, hbB, himp, hbody, hrows, hfr, hcn, hsi, hfrm⟩ :=
        prepare_contact_spec large_scalar dt plane_space prepare_row imp_view st s1 c0 hstep
      obtain ⟨i1, i2, i3, rows, pairs, i4, i5, i6, i7, i8⟩ := ih s1 st' h
      refine ⟨i1.trans hsi, same_bodies_trans _ _ _ hfrm i2, ?_,
        prepare_row (normal_row_and_options large_scalar dt bA bB c0.2.1 c0.2.2 imp).1
          (normal_row_and_options large_scalar dt bA bB c0.2.1 c0.2.2 imp).2
          bA.linvel bB.linvel bA.angvel bB.angvel :: rows,
        { row0 := friction_row_of bA bB c0.2.2 (plane_space c0.2.2.normal).1 (imp.values 1),
          row1 := friction_row_of bA bB c0.2.2 (plane_space c0.2.2.normal).2 (imp.values 2),
          friction_coefficient := c0.2.2.friction } :: pairs, ?_, ?_,
        by simp [i6], by simp [i7], ?_⟩
      · rw [i3, hcn]
        simp [List.replicate_succ]
      · rw [i4, hrows]
        simp
      · rw [i5, hfr]
        simp
      · intro i c hc
        cases i with
        | zero =>
          simp only [List.getElem?_cons_zero, Option.some.injEq] at hc
          subst hc
          exact ⟨bA, bB, imp, hbA, hbB, himp, hbody, by simp, by simp⟩
        | succ i =>
          simp only [List.getElem?_cons_succ] at hc
          obtain ⟨xA, xB, ximp, hxA, hxB, hximp, hxbody, hxr, hxp⟩ := i8 i c hc
          have back : ∀ e (x : solver_body α), s1.bodies e = some x →
              ∃ y, st.bodies e = some y ∧ same_body_but_deltas y x := by
            intro e x hx
            rcases hfrm e with ⟨_, h2⟩ | ⟨y, x', h1, h2, hyx⟩
            · rw [hx] at h2; cases h2
            · rw [hx] at h2
              cases h2
              exact ⟨y, h1, hyx⟩
          obtain ⟨yA, hyA, hyxA⟩ := back _ xA hxA
          obtain ⟨yB, hyB, hyxB⟩ := back _ xB hxB
          obtain ⟨e1, _, _, e4, e5, e6, e7⟩ := contact_rows_congr large_scalar dt yA yB xA xB
            hyxA hyxB c.2.1 c.2.2 ximp vector3_zero 0
          have e2 := fun t x => (contact_rows_congr large_scalar dt yA yB xA xB
            hyxA hyxB c.2.1 c.2.2 ximp t x).2.1
          refine ⟨yA, yB, ximp, hyA, hyB, hximp, hxbody, ?_, ?_⟩
          · simp only [List.getElem?_cons_succ]
            rw [hxr, e1, e4, e5, e6, e7]
          · simp only [List.getElem?_cons_succ]
            rw [hxp, e2, e2]

/-- The row of a contact as `prepare_constraints` builds it: the Jacobian, the lower limit,
the seeded impulse and the bodies it points to. -/
theorem normal_row_and_options_fields {α : Type} [LinearOrderedField α] (large_scalar dt : α)
    (bA bB : solver_body α) (con : contact_constraint α) (cp : contact_point α)
    (imp : constraint_impulse α) :
    (normal_row_and_options large_scalar dt bA bB con cp imp).1.J =
      contact_jacobian (contact_arms bA bB cp).1 (contact_arms bA bB cp).2 cp.normal ∧
    (normal_row_and_options large_scalar dt bA bB con cp imp).1.lower_limit = 0 ∧
    (normal_row_and_options large_scalar dt bA bB con cp imp).1.impulse = imp.values 0 ∧
    (normal_row_and_options large_scalar dt bA bB con cp imp).1.bodyA = con.body.1 ∧
    (normal_row_and_options large_scalar dt bA bB con cp imp).1.bodyB = con.body.2 := by
  simp only [normal_row_and_options, normal_row_limits]
  split_ifs <;> exact ⟨rfl, rfl, rfl, rfl, rfl⟩

/-- C18: if `prepare_constraints` returns, with a `prepare_row` that leaves the Jacobian,
the lower limit and the impulse of the row it is given, then for the contact at place `i`
of the view the row at index `start_idx + i` of the cache has the Jacobian
`{n, rA × n, -n, -(rB × n)}` with `n = cp.normal` and `rA`, `rB` the world pivots, computed
from the centre-of-mass-adjusted origins, minus the positions of the bodies; its
`lower_limit` is 0 and its impulse is the stored `values[0]`. -/
theorem prepare_constraints_normal_row {α : Type} [LinearOrderedField α]
    (large_scalar dt : α) (plane_space : vector3 α → vector3 α × vector3 α)
    (prepare_row : constraint_row α → constraint_row_options α → vector3 α → vector3 α →
      vector3 α → vector3 α → constraint_row α)
    (hprep : ∀ r o a b c d, (prepare_row r o a b c d).J = r.J ∧
      (prepare_row r o a b c d).lower_limit = r.lower_limit ∧
      (prepare_row r o a b c d).impulse = r.impulse)
    (imp_view : entity → Option (constraint_impulse α)) (st st' : solver_state α)
    (con_view : List (entity × contact_constraint α × contact_point α))
    (h : prepare_constraints large_scalar dt plane_space prepare_row imp_view st con_view =
      some st') :
    ∀ (i : Nat) (c : entity × contact_constraint α × contact_point α),
      con_view[i]? = some c →
      ∃ bA bB imp row, st.bodies c.2.1.body.1 = some bA ∧ st.bodies c.2.1.body.2 = some bB ∧
        imp_view c.1 = some imp ∧ st'.rows[st.rows.length + i]? = some row ∧
        row.J.j0 = c.2.2.normal ∧
        row.J.j1 = cross ((to_world_space c.2.2.pivotA
          (body_origin bA.position bA.orientation bA.center_of_mass) bA.orientation).sub
            bA.position) c.2.2.normal ∧
        row.J.j2 = c.2.2.normal.neg ∧
        row.J.j3 = (cross ((to_world_space c.2.2.pivotB
          (body_origin bB.position bB.orientation bB.center_of_mass) bB.orientation).sub
            bB.position) c.2.2.normal).neg ∧
        row.lower_limit = 0 ∧ row.impulse = imp.values 0 := by
  intro i c hc
  unfold prepare_constraints at h
  obtain ⟨_, _, _, rows, pairs, hrows, _, _, _, hall⟩ :=
    prepare_loop_spec large_scalar dt plane_space prepare_row imp_view con_view _ st' h
  obtain ⟨bA, bB, imp, hbA, hbB, himp, _, hr, _⟩ := hall i c hc
  obtain ⟨f1, f2, f3, _, _⟩ :=
    normal_row_and_options_fields large_scalar dt bA bB c.2.1 c.2.2 imp
  obtain ⟨p1, p2, p3⟩ := hprep (normal_row_and_options large_scalar dt bA bB c.2.1 c.2.2 imp).1
    (normal_row_and_options large_scalar dt bA bB c.2.1 c.2.2 imp).2
    bA.linvel bB.linvel bA.angvel bB.angvel
  refine ⟨bA, bB, imp, _, hbA, hbB, himp, ?_, ?_, ?_, ?_, ?_, p2.trans f2, p3.trans f3⟩
  · simp only at hrows
    rw [hrows, List.getElem?_append_right (by omega)]
    simpa using hr
  · rw [p1, f1]; rfl
  · rw [p1, f1]; rfl
  · rw [p1, f1]; rfl
  · rw [p1, f1]; rfl

/-- C20: if `prepare_constraints` returns on a view of `k` contacts, then
`row_start_index` is the number of rows the cache held, the rows of the cache are the
former ones followed by `k` new ones, the friction side table holds exactly `k` pairs
whatever it held before, `con_num_rows` has `k` more entries, all 1, and for the contact
at place `i` of the view, friction pair `i` and the row at index `row_start_index + i` are
the ones built from that contact. -/
theorem prepare_constraints_pairing {α : Type} [LinearOrderedField α]
    (large_scalar dt : α) (plane_space : vector3 α → vector3 α × vector3 α)
    (prepare_row : constraint_row α → constraint_row_options α → vector3 α → vector3 α →
      vector3 α → vector3 α → constraint_row α)
    (imp_view : entity → Option (constraint_impulse α)) (st st' : solver_state α)
    (con_view : List (entity × contact_constraint α × contact_point α))
    (h : prepare_constraints large_scalar dt plane_space prepare_row imp_view st con_view =
      some st') :
    st'.row_start_index = st.rows.length ∧
    st'.rows.length = st.rows.length + con_view.length ∧
    st'.rows.take st.rows.length = st.rows ∧
    st'.friction_rows.length = con_view.length ∧
    st'.con_num_rows = st.con_num_rows ++ List.replicate con_view.length 1 ∧
    ∀ (i : Nat) (c : entity × contact_constraint α × contact_point α),
      con_view[i]? = some c →
      ∃ bA bB imp, st.bodies c.2.1.body.1 = some bA ∧ st.bodies c.2.1.body.2 = some bB ∧
        imp_view c.1 = some imp ∧
        st'.friction_rows[i]? = some
          { row0 := friction_row_of bA bB c.2.2 (plane_space c.2.2.normal).1 (imp.values 1),
            row1 := friction_row_of bA bB c.2.2 (plane_space c.2.2.normal).2 (imp.values 2),
            friction_coefficient := c.2.2.friction } ∧
        st'.rows[st'.row_start_index + i]? = some
          (prepare_row (normal_row_and_options large_scalar dt bA bB c.2.1 c.2.2 imp).1
            (normal_row_and_options large_scalar dt bA bB c.2.1 c.2.2 imp).2
            bA.linvel bB.linvel bA.angvel bB.angvel) := by
  unfold prepare_constraints at h
  obtain ⟨h1, _, h3, rows, pairs, hrows, hpairs, hrl, hpl, hall⟩ :=
    prepare_loop_spec large_scalar dt plane_space prepare_row imp_view con_view _ st' h
  simp only at h1 h3 hrows hpairs
  refine ⟨h1, by rw [hrows]; simp [hrl], by rw [hrows]; simp, by rw [hpairs]; simp [hpl], h3,
    ?_⟩
  intro i c hc
  obtain ⟨bA, bB, imp, hbA, hbB, himp, _, hr, hp⟩ := hall i c hc
  refine ⟨bA, bB, imp, hbA, hbB, himp, ?_, ?_⟩
  · rw [hpairs]
    simpa using hp
  · rw [h1, hrows, List.getElem?_append_right (by omega)]
    simpa using hr

/-- On the sample state, `prepare_constraints` returns for the view that holds the sample
point with a rigid contact, with a `prepare_row` that returns the row it is given. -/
theorem prepare_constraints_sample_some :
    ∃ st', prepare_constraints (1000 : ℚ) (1 / 60) (fun _ => (⟨1, 0, 0⟩, ⟨0, 0, 1⟩))
      (fun r _ _ _ _ _ => r) (fun _ => some ⟨fun _ => 0⟩) sample_solver_state
      [(some 10, ⟨(some 0, some 1), 1000, 1000⟩, sample_point)] = some st' := by
  obtain ⟨st', hrun⟩ := prepare_contact_some (1000 : ℚ) (1 / 60)
    (fun _ => (⟨1, 0, 0⟩, ⟨0, 0, 1⟩)) (fun r _ _ _ _ _ => r) (fun _ _ _ _ _ _ => ⟨rfl, rfl⟩)
    (fun _ => some ⟨fun _ => 0⟩)
    { (sample_solver_state : solver_state ℚ) with
      row_start_index := (sample_solver_state : solver_state ℚ).rows.length,
      friction_rows := [] }
    (some 10, ⟨(some 0, some 1), 1000, 1000⟩, sample_point) sample_body sample_body
    ⟨fun _ => 0⟩ rfl rfl rfl rfl
  exact ⟨st', by simp only [prepare_constraints, prepare_loop, hrun]⟩

/-- Witness for `prepare_constraints_normal_row`: the sample state and the sample point. -/
theorem prepare_constraints_normal_row_witness :
    ∃ st' row, prepare_constraints (1000 : ℚ) (1 / 60) (fun _ => (⟨1, 0, 0⟩, ⟨0, 0, 1⟩))
        (fun r _ _ _ _ _ => r) (fun _ => some ⟨fun _ => 0⟩) sample_solver_state
        [(some 10, ⟨(some 0, some 1), 1000, 1000⟩, sample_point)] = some st' ∧
      st'.rows[1]? = some row ∧ row.J.j0 = ⟨1, 0, 0⟩ ∧ row.lower_limit = 0 := by
  obtain ⟨st', hrun⟩ := prepare_constraints_sample_some
  obtain ⟨bA, bB, imp, row, _, _, _, hrow, hj0, _, _, _, hlow, _⟩ :=
    prepare_constraints_normal_row (1000 : ℚ) (1 / 60) (fun _ => (⟨1, 0, 0⟩, ⟨0, 0, 1⟩))
      (fun r _ _ _ _ _ => r) (fun _ _ _ _ _ _ => ⟨rfl, rfl, rfl⟩) (fun _ => some ⟨fun _ => 0⟩)
      sample_solver_state st' [(some 10, ⟨(some 0, some 1), 1000, 1000⟩, sample_point)] hrun
      0 (some 10, ⟨(some 0, some 1), 1000, 1000⟩, sample_point) rfl
  exact ⟨st', row, hrun, hrow, hj0, hlow⟩

/-- Witness for `prepare_constraints_pairing`: the sample state and the sample point. -/
theorem prepare_constraints_pairing_witness :
    ∃ st', prepare_constraints (1000 : ℚ) (1 / 60) (fun _ => (⟨1, 0, 0⟩, ⟨0, 0, 1⟩))
        (fun r _ _ _ _ _ => r) (fun _ => some ⟨fun _ => 0⟩) sample_solver_state
        [(some 10, ⟨(some 0, some 1), 1000, 1000⟩, sample_point)] = some st' ∧
      st'.row_start_index = 1 ∧ st'.rows.length = 2 ∧ st'.friction_rows.length = 1 ∧
      st'.con_num_rows = [1, 1] := by
  obtain ⟨st', hrun⟩ := prepare_constraints_sample_some
  obtain ⟨h1, h2, _, h4, h5, _⟩ :=
    prepare_constraints_pairing (1000 : ℚ) (1 / 60) (fun _ => (⟨1, 0, 0⟩, ⟨0, 0, 1⟩))
      (fun r _ _ _ _ _ => r) (fun _ => some ⟨fun _ => 0⟩)
      sample_solver_state st' [(some 10, ⟨(some 0, some 1), 1000, 1000⟩, sample_point)] hrun
  exact ⟨st', hrun, h1, h2, h4, h5⟩

/-- What a write through `m_nodes[id]` does to the arena. -/
theorem set_spec {α : Type} (t t' : dynamic_tree α) (id : node_id_t)
    (f : tree_node α → tree_node α) (h : t.set id f = some t') :
    ∃ k n, id = some k ∧ t.node (some k) = some n ∧ t'.node (some k) = some (f n) ∧
      (∀ j, j ≠ k → t'.node (some j) = t.node (some j)) ∧
      t'.m_root = t.m_root ∧ t'.m_free_list = t.m_free_list ∧
      t'.m_nodes.length = t.m_nodes.length := by
  cases id with
  | none => simp [dynamic_tree.set] at h
  | some k =>
    obtain ⟨n, h1, h2, h3, h4, h5⟩ := node_set_same t t' k f h
    refine ⟨k, n, rfl, h1, h2, ?_, h4, h5, h3⟩
    intro j hj
    unfold dynamic_tree.set at h
    simp only at h
    cases hn : t.m_nodes[k]? with
    | none => simp [hn] at h
    | some m =>
      simp only [hn, Option.some.injEq] at h
      subst h
      simp [dynamic_tree.node, List.getElem?_set, Ne.symm hj]

/-- A write that keeps heights at -1 or more keeps `heights_ok`. -/
theorem set_heights_ok {α : Type} (t t' : dynamic_tree α) (id : node_id_t)
    (f : tree_node α → tree_node α) (h : t.set id f = some t') (hh : heights_ok t)
    (hf : ∀ n, -1 ≤ n.height → -1 ≤ (f n).height) : heights_ok t' := by
  obtain ⟨k, n, _, hn, hn', hother, _⟩ := set_spec t t' id f h
  intro j m hm
  by_cases hj : j = k
  · subst hj
    rw [hn'] at hm
    cases hm
    exact hf n (hh j n hn)
  · rw [hother j hj] at hm
    exact hh j m hm

/-- A write that does not touch the leaf `i`, or that leaves its `child1`, height and box
alone, keeps `leaf_kept`. -/
theorem set_leaf_kept {α : Type} (t t' : dynamic_tree α) (id : node_id_t)
    (f : tree_node α → tree_node α) (i : Nat) (a : AABB α) (h : t.set id f = some t')
    (hl : leaf_kept t i a)
    (hf : id = some i → ∀ n, n.child1 = null_node_id → n.height = 0 → n.aabb = a →
      (f n).child1 = null_node_id ∧ (f n).height = 0 ∧ (f n).aabb = a) :
    leaf_kept t' i a := by
  obtain ⟨k, n, hid, hn, hn', hother, _⟩ := set_spec t t' id f h
  obtain ⟨m, hm, h1, h2, h3⟩ := hl
  by_cases hi : i = k
  · subst hi
    rw [hn] at hm
    cases hm
    obtain ⟨g1, g2, g3⟩ := hf hid n h1 h2 h3
    exact ⟨f n, hn', g1, g2, g3⟩
  · exact ⟨m, by rw [hother i hi]; exact hm, h1, h2, h3⟩

/-- A write that leaves a non-null `child1` non-null keeps `is_internal`. -/
theorem set_is_internal {α : Type} (t t' : dynamic_tree α) (id x : node_id_t)
    (f : tree_node α → tree_node α) (h : t.set id f = some t') (hx : is_internal t x)
    (hf : ∀ n, n.child1 ≠ null_node_id → (f n).child1 ≠ null_node_id) :
    is_internal t' x := by
  obtain ⟨k, n, hid, hn, hn', hother, _⟩ := set_spec t t' id f h
  obtain ⟨m, hm, h1⟩ := hx
  cases x with
  | none => simp [dynamic_tree.node] at hm
  | some j =>
    by_cases hj : j = k
    · subst hj
      rw [hn] at hm
      cases hm
      exact ⟨f n, hn', hf n h1⟩
    · exact ⟨m, by rw [hother j hj]; exact hm, h1⟩

/-- An internal node is not the kept leaf. -/
theorem internal_ne_leaf {α : Type} (t : dynamic_tree α) (id : node_id_t) (i : Nat)
    (a : AABB α) (hx : is_internal t id) (hl : leaf_kept t i a) : id ≠ some i := by
  intro h
  subst h
  obtain ⟨n, hn, h1⟩ := hx
  obtain ⟨m, hm, h2, _⟩ := hl
  rw [hn] at hm
  cases hm
  exact h1 h2

/-- A node that exists has a non-null id. -/
theorem node_some_ne_null {α : Type} (t : dynamic_tree α) (id : node_id_t) (n : tree_node α)
    (h : t.node id = some n) : id ≠ null_node_id := by
  intro hid
  subst hid
  simp [dynamic_tree.node] at h

/-- The statement `m_nodes[dst].aabb = enclosing_aabb(...)` on an internal node keeps the
heights, the kept leaf and the internal nodes, and leaves root and free list. -/
theorem refit_aabb_keeps {α : Type} [LinearOrderedCommRing α] (t t' : dynamic_tree α)
    (dst x y : node_id_t) (i : Nat) (a : AABB α) (h : refit_aabb t dst x y = some t')
    (hh : heights_ok t) (hl : leaf_kept t i a) (hd : is_internal t dst) :
    heights_ok t' ∧ leaf_kept t' i a ∧ (∀ z, is_internal t z → is_internal t' z) ∧
      t'.m_free_list = t.m_free_list := by
  unfold refit_aabb at h
  simp only [Option.bind_eq_bind, Option.bind_eq_some] at h
  obtain ⟨ax, _, ay, _, hset⟩ := h
  have hne := internal_ne_leaf t dst i a hd hl
  refine ⟨set_heights_ok _ _ _ _ hset hh (fun n hn => hn),
    set_leaf_kept _ _ _ _ i a hset hl (fun hid => absurd hid hne),
    fun z hz => set_is_internal _ _ _ z _ hset hz (fun n hn => hn), ?_⟩
  obtain ⟨_, _, _, _, _, _, _, hfl, _⟩ := set_spec _ _ _ _ hset
  exact hfl

/-- The statement `m_nodes[dst].height = std::max(...) + 1` on an internal node keeps the
heights, the kept leaf and the internal nodes, and leaves root and free list. -/
theorem refit_height_keeps {α : Type} [LinearOrderedCommRing α] (t t' : dynamic_tree α)
    (dst x y : node_id_t) (i : Nat) (a : AABB α) (h : refit_height t dst x y = some t')
    (hh : heights_ok t) (hl : leaf_kept t i a) (hd : is_internal t dst) :
    heights_ok t' ∧ leaf_kept t' i a ∧ (∀ z, is_internal t z → is_internal t' z) ∧
      t'.m_free_list = t.m_free_list := by
  unfold refit_height at h
  simp only [Option.bind_eq_bind, Option.bind_eq_some, dynamic_tree.height,
    Option.map_eq_some'] at h
  obtain ⟨hx, ⟨nx, hnx, hxe⟩, hy, ⟨ny, hny, hye⟩, hset⟩ := h
  have hne := internal_ne_leaf t dst i a hd hl
  have hxge : -1 ≤ hx := by
    cases x with
    | none => simp [dynamic_tree.node] at hnx
    | some j => rw [← hxe]; exact hh j nx hnx
  refine ⟨set_heights_ok _ _ _ _ hset hh (fun n _ => ?_),
    set_leaf_kept _ _ _ _ i a hset hl (fun hid => absurd hid hne),
    fun z hz => set_is_internal _ _ _ z _ hset hz (fun n hn => hn), ?_⟩
  · show -1 ≤ max hx hy + 1
    have := le_max_left hx hy
    omega
  · obtain ⟨_, _, _, _, _, _, _, hfl, _⟩ := set_spec _ _ _ _ hset
    exact hfl
/-- A write that leaves `child1`, height and box of the node it writes keeps the heights,
the kept leaf and the internal nodes, and leaves the free list. -/
theorem set_harmless {α : Type} (t t' : dynamic_tree α) (id : node_id_t)
    (f : tree_node α → tree_node α) (i : Nat) (a : AABB α) (h : t.set id f = some t')
    (hf : ∀ n, (f n).child1 = n.child1 ∧ (f n).height = n.height ∧ (f n).aabb = n.aabb)
    (hh : heights_ok t) (hl : leaf_kept t i a) :
    heights_ok t' ∧ leaf_kept t' i a ∧ (∀ z, is_internal t z → is_internal t' z) ∧
      t'.m_free_list = t.m_free_list := by
  refine ⟨set_heights_ok _ _ _ _ h hh (fun n hn => by rw [(hf n).2.1]; exact hn),
    set_leaf_kept _ _ _ _ i a h hl (fun _ n h1 h2 h3 => ?_),
    fun z hz => set_is_internal _ _ _ z _ h hz (fun n hn => by rw [(hf n).1]; exact hn), ?_⟩
  · obtain ⟨g1, g2, g3⟩ := hf n
    exact ⟨g1.trans h1, g2.trans h2, g3.trans h3⟩
  · obtain ⟨_, _, _, _, _, _, _, hfl, _⟩ := set_spec _ _ _ _ h
    exact hfl

/-- The write `m_nodes[id].child1 = v` of a non-null `v` into a node other than the kept
leaf keeps the heights, the kept leaf and the internal nodes, makes `id` internal and
leaves the free list. -/
theorem set_child1_keeps {α : Type} (t t' : dynamic_tree α) (id v : node_id_t)
    (i : Nat) (a : AABB α)
    (h : t.set id (fun n => { n with child1 := v }) = some t')
    (hv : v ≠ null_node_id) (hne : id ≠ some i)
    (hh : heights_ok t) (hl : leaf_kept t i a) :
    heights_ok t' ∧ leaf_kept t' i a ∧ (∀ z, is_internal t z → is_internal t' z) ∧
      t'.m_free_list = t.m_free_list ∧ is_internal t' id := by
  refine ⟨set_heights_ok _ _ _ _ h hh (fun n hn => hn),
    set_leaf_kept _ _ _ _ i a h hl (fun hid => absurd hid hne),
    fun z hz => set_is_internal _ _ _ z _ h hz (fun n _ => hv), ?_, ?_⟩
  · obtain ⟨_, _, _, _, _, _, _, hfl, _⟩ := set_spec _ _ _ _ h
    exact hfl
  · obtain ⟨k, n, hid, _, hn', _⟩ := set_spec _ _ _ _ h
    subst hid
    exact ⟨_, hn', hv⟩

/-- The statements `// Swap A and C.` of `balance` keep the heights, the kept leaf and the
internal nodes when the promoted child is not the kept leaf; the promoted child is internal
afterwards. -/
theorem balance_swap_keeps {α : Type} [LinearOrderedCommRing α] (t t' : dynamic_tree α)
    (idA idX : node_id_t) (i : Nat) (a : AABB α) (h : balance_swap t idA idX = some t')
    (hA : idA ≠ null_node_id) (hX : idX ≠ some i)
    (hh : heights_ok t) (hl : leaf_kept t i a) :
    heights_ok t' ∧ leaf_kept t' i a ∧ (∀ z, is_internal t z → is_internal t' z) ∧
      t'.m_free_list = t.m_free_list ∧ is_internal t' idX := by
  unfold balance_swap at h
  simp only [Option.bind_eq_bind, Option.bind_eq_some] at h
  obtain ⟨t1, h1, pA, _, t2, h2, h3⟩ := h
  obtain ⟨a1, a2, a3, a4, a5⟩ := set_child1_keeps t t1 idX idA i a h1 hA hX hh hl
  obtain ⟨b1, b2, b3, b4⟩ := set_harmless t1 t2 idX _ i a h2 (fun n => ⟨rfl, rfl, rfl⟩) a1 a2
  obtain ⟨c1, c2, c3, c4⟩ := set_harmless t2 t' idA _ i a h3 (fun n => ⟨rfl, rfl, rfl⟩) b1 b2
  exact ⟨c1, c2, fun z hz => c3 z (b3 z (a3 z hz)), c4.trans (b4.trans a4), c3 _ (b3 _ a5)⟩

/-- The relinking of A's old parent to C in `balance` keeps the heights, the kept leaf and
the internal nodes. -/
theorem balance_relink_C_keeps {α : Type} [LinearOrderedCommRing α] (t t' : dynamic_tree α)
    (idA idC : node_id_t) (i : Nat) (a : AABB α) (h : balance_relink_C t idA idC = some t')
    (hA : idA ≠ null_node_id) (hC : idC ≠ null_node_id)
    (hh : heights_ok t) (hl : leaf_kept t i a) :
    heights_ok t' ∧ leaf_kept t' i a ∧ (∀ z, is_internal t z → is_internal t' z) ∧
      t'.m_free_list = t.m_free_list := by
  unfold balance_relink_C at h
  simp only [Option.bind_eq_bind, Option.bind_eq_some] at h
  obtain ⟨pC, _, h⟩ := h
  split at h
  · simp only [Option.bind_eq_bind, Option.bind_eq_some] at h
    obtain ⟨pn, hpn, h⟩ := h
    split at h
    · rename_i hc1
      have hne : pC ≠ some i := by
        apply internal_ne_leaf t pC i a ⟨pn, hpn, ?_⟩ hl
        rw [hc1]
        exact hA
      obtain ⟨a1, a2, a3, a4, _⟩ := set_child1_keeps t t' pC idC i a h hC hne hh hl
      exact ⟨a1, a2, a3, a4⟩
    · exact set_harmless t t' pC _ i a h (fun n => ⟨rfl, rfl, rfl⟩) hh hl
  · simp only [Option.some.injEq] at h
    subst h
    exact ⟨hh, hl, fun z hz => hz, rfl⟩

/-- The relinking statement of the rotate-B-up branch of `balance` keeps the heights, the
kept leaf and the internal nodes. -/
theorem balance_relink_B_keeps {α : Type} [LinearOrderedCommRing α] (t t' : dynamic_tree α)
    (idA idB : node_id_t) (i : Nat) (a : AABB α) (h : balance_relink_B t idA idB = some t')
    (hh : heights_ok t) (hl : leaf_kept t i a) :
    heights_ok t' ∧ leaf_kept t' i a ∧ (∀ z, is_internal t z → is_internal t' z) ∧
      t'.m_free_list = t.m_free_list := by
  unfold balance_relink_B at h
  simp only [Option.bind_eq_bind, Option.bind_eq_some] at h
  obtain ⟨pB, _, h⟩ := h
  split at h
  · rename_i hnull
    subst hnull
    simp [dynamic_tree.node] at h
  · simp only [Option.some.injEq] at h
    subst h
    exact ⟨hh, hl, fun z hz => hz, rfl⟩

/-- The four refits that end a rotation keep the heights, the kept leaf and the internal
nodes when A and the promoted child are internal. -/
theorem balance_refit_keeps {α : Type} [LinearOrderedCommRing α] (t t' : dynamic_tree α)
    (idA idUp idSib idKeep idMove : node_id_t) (i : Nat) (a : AABB α)
    (h : balance_refit t idA idUp idSib idKeep idMove = some t')
    (hA : is_internal t idA) (hU : is_internal t idUp)
    (hh : heights_ok t) (hl : leaf_kept t i a) :
    heights_ok t' ∧ leaf_kept t' i a ∧ (∀ z, is_internal t z → is_internal t' z) ∧
      t'.m_free_list = t.m_free_list := by
  unfold balance_refit at h
  simp only [Option.bind_eq_bind, Option.bind_eq_some] at h
  obtain ⟨t1, h1, t2, h2, t3, h3, h4⟩ := h
  obtain ⟨a1, a2, a3, a4⟩ := refit_aabb_keeps t t1 idA idSib idMove i a h1 hh hl hA
  obtain ⟨b1, b2, b3, b4⟩ := refit_aabb_keeps t1 t2 idUp idA idKeep i a h2 a1 a2 (a3 _ hU)
  obtain ⟨c1, c2, c3, c4⟩ :=
    refit_height_keeps t2 t3 idA idSib idMove i a h3 b1 b2 (b3 _ (a3 _ hA))
  obtain ⟨d1, d2, d3, d4⟩ :=
    refit_height_keeps t3 t' idUp idA idKeep i a h4 c1 c2 (c3 _ (b3 _ (a3 _ hU)))
  exact ⟨d1, d2, fun z hz => d3 z (c3 z (b3 z (a3 z hz))),
    d4.trans (c4.trans (b4.trans a4))⟩

/-- A `// Rotate.` branch of `balance` with C going up keeps the heights, the kept leaf and
the internal nodes. -/
theorem balance_rotate_C_branch_keeps {α : Type} [LinearOrderedCommRing α]
    (t t' : dynamic_tree α) (idA idB idC idKeep idMove : node_id_t) (i : Nat) (a : AABB α)
    (h : balance_rotate_C_branch t idA idB idC idKeep idMove = some t')
    (hA : is_internal t idA) (hC : is_internal t idC)
    (hh : heights_ok t) (hl : leaf_kept t i a) :
    heights_ok t' ∧ leaf_kept t' i a ∧ (∀ z, is_internal t z → is_internal t' z) ∧
      t'.m_free_list = t.m_free_list := by
  unfold balance_rotate_C_branch at h
  simp only [Option.bind_eq_bind, Option.bind_eq_some] at h
  obtain ⟨t1, h1, t2, h2, t3, h3, h4⟩ := h
  obtain ⟨a1, a2, a3, a4⟩ := set_harmless t t1 idC _ i a h1 (fun n => ⟨rfl, rfl, rfl⟩) hh hl
  obtain ⟨b1, b2, b3, b4⟩ := set_harmless t1 t2 idA _ i a h2 (fun n => ⟨rfl, rfl, rfl⟩) a1 a2
  obtain ⟨c1, c2, c3, c4⟩ :=
    set_harmless t2 t3 idMove _ i a h3 (fun n => ⟨rfl, rfl, rfl⟩) b1 b2
  obtain ⟨d1, d2, d3, d4⟩ := balance_refit_keeps t3 t' idA idC idB idKeep idMove i a h4
    (c3 _ (b3 _ (a3 _ hA))) (c3 _ (b3 _ (a3 _ hC))) c1 c2
  exact ⟨d1, d2, fun z hz => d3 z (c3 z (b3 z (a3 z hz))),
    d4.trans (c4.trans (b4.trans a4))⟩

/-- A `// Rotate.` branch of `balance` with B going up keeps the heights, the kept leaf and
the internal nodes. -/
theorem balance_rotate_B_branch_keeps {α : Type} [LinearOrderedCommRing α]
    (t t' : dynamic_tree α) (idA idB idC idKeep idMove : node_id_t) (i : Nat) (a : AABB α)
    (h : balance_rotate_B_branch t idA idB idC idKeep idMove = some t')
    (hA : is_internal t idA) (hB : is_internal t idB) (hM : idMove ≠ null_node_id)
    (hh : heights_ok t) (hl : leaf_kept t i a) :
    heights_ok t' ∧ leaf_kept t' i a ∧ (∀ z, is_internal t z → is_internal t' z) ∧
      t'.m_free_list = t.m_free_list := by
  unfold balance_rotate_B_branch at h
  simp only [Option.bind_eq_bind, Option.bind_eq_some] at h
  obtain ⟨t1, h1, t2, h2, t3, h3, h4⟩ := h
  obtain ⟨a1, a2, a3, a4⟩ := set_harmless t t1 idB _ i a h1 (fun n => ⟨rfl, rfl, rfl⟩) hh hl
  obtain ⟨b1, b2, b3, b4, _⟩ := set_child1_keeps t1 t2 idA idMove i a h2 hM
    (internal_ne_leaf t1 idA i a (a3 _ hA) a2) a1 a2
  obtain ⟨c1, c2, c3, c4⟩ :=
    set_harmless t2 t3 idMove _ i a h3 (fun n => ⟨rfl, rfl, rfl⟩) b1 b2
  obtain ⟨d1, d2, d3, d4⟩ := balance_refit_keeps t3 t' idA idB idC idKeep idMove i a h4
    (c3 _ (b3 _ (a3 _ hA))) (c3 _ (b3 _ (a3 _ hB))) c1 c2
  exact ⟨d1, d2, fun z hz => d3 z (c3 z (b3 z (a3 z hz))),
    d4.trans (c4.trans (b4.trans a4))⟩

/-- The `// Rotate.` statement of `balance` with C going up keeps the heights, the kept leaf
and the internal nodes. -/
theorem balance_rotate_C_rotate_keeps {α : Type} [LinearOrderedCommRing α]
    (t t' : dynamic_tree α) (idA idB idC idF idG : node_id_t) (i : Nat) (a : AABB α)
    (h : balance_rotate_C_rotate t idA idB idC idF idG = some t')
    (hA : is_internal t idA) (hC : is_internal t idC)
    (hh : heights_ok t) (hl : leaf_kept t i a) :
    heights_ok t' ∧ leaf_kept t' i a ∧ (∀ z, is_internal t z → is_internal t' z) ∧
      t'.m_free_list = t.m_free_list := by
  unfold balance_rotate_C_rotate at h
  simp only [Option.bind_eq_bind, Option.bind_eq_some] at h
  obtain ⟨hF, _, hG, _, h⟩ := h
  split at h
  · exact balance_rotate_C_branch_keeps t t' idA idB idC idF idG i a h hA hC hh hl
  · exact balance_rotate_C_branch_keeps t t' idA idB idC idG idF i a h hA hC hh hl

/-- The `// Rotate.` statement of `balance` with B going up keeps the heights, the kept leaf
and the internal nodes. -/
theorem balance_rotate_B_rotate_keeps {α : Type} [LinearOrderedCommRing α]
    (t t' : dynamic_tree α) (idA idB idC idD idE : node_id_t) (i : Nat) (a : AABB α)
    (h : balance_rotate_B_rotate t idA idB idC idD idE = some t')
    (hA : is_internal t idA) (hB : is_internal t idB)
    (hD : idD ≠ null_node_id) (hE : idE ≠ null_node_id)
    (hh : heights_ok t) (hl : leaf_kept t i a) :
    heights_ok t' ∧ leaf_kept t' i a ∧ (∀ z, is_internal t z → is_internal t' z) ∧
      t'.m_free_list = t.m_free_list := by
  unfold balance_rotate_B_rotate at h
  simp only [Option.bind_eq_bind, Option.bind_eq_some] at h
  obtain ⟨hD', _, hE', _, h⟩ := h
  split at h
  · exact balance_rotate_B_branch_keeps t t' idA idB idC idD idE i a h hA hB hE hh hl
  · exact balance_rotate_B_branch_keeps t t' idA idB idC idE idD i a h hA hB hD hh hl

/-- Rotating C up in `balance` keeps the heights, the kept leaf and the internal nodes when C
is not the kept leaf. -/
theorem balance_rotate_C_keeps {α : Type} [LinearOrderedCommRing α]
    (t : dynamic_tree α) (r : dynamic_tree α × node_id_t) (idA idB idC : node_id_t) (i : Nat)
    (a : AABB α) (h : balance_rotate_C t idA idB idC = some r)
    (hA : is_internal t idA) (hC : idC ≠ some i)
    (hh : heights_ok t) (hl : leaf_kept t i a) :
    heights_ok r.1 ∧ leaf_kept r.1 i a ∧ (∀ z, is_internal t z → is_internal r.1 z) ∧
      r.1.m_free_list = t.m_free_list := by
  unfold balance_rotate_C at h
  simp only [Option.bind_eq_bind, Option.bind_eq_some] at h
  obtain ⟨nodeC, hnC, nF, _, nG, _, t1, h1, t2, h2, t3, h3, h4⟩ := h
  simp only [Option.some.injEq] at h4
  subst h4
  have hAn : idA ≠ null_node_id := by
    obtain ⟨n, hn, _⟩ := hA
    exact node_some_ne_null t idA n hn
  obtain ⟨a1, a2, a3, a4, a5⟩ := balance_swap_keeps t t1 idA idC i a h1 hAn hC hh hl
  obtain ⟨b1, b2, b3, b4⟩ := balance_relink_C_keeps t1 t2 idA idC i a h2 hAn
    (node_some_ne_null t idC nodeC hnC) a1 a2
  obtain ⟨c1, c2, c3, c4⟩ := balance_rotate_C_rotate_keeps t2 t3 idA idB idC _ _ i a h3
    (b3 _ (a3 _ hA)) (b3 _ a5) b1 b2
  exact ⟨c1, c2, fun z hz => c3 z (b3 z (a3 z hz)), c4.trans (b4.trans a4)⟩

/-- Rotating B up in `balance` keeps the heights, the kept leaf and the internal nodes when B
is not the kept leaf. -/
theorem balance_rotate_B_keeps {α : Type} [LinearOrderedCommRing α]
    (t : dynamic_tree α) (r : dynamic_tree α × node_id_t) (idA idB idC : node_id_t) (i : Nat)
    (a : AABB α) (h : balance_rotate_B t idA idB idC = some r)
    (hA : is_internal t idA) (hB : idB ≠ some i)
    (hh : heights_ok t) (hl : leaf_kept t i a) :
    heights_ok r.1 ∧ leaf_kept r.1 i a ∧ (∀ z, is_internal t z → is_internal r.1 z) ∧
      r.1.m_free_list = t.m_free_list := by
  unfold balance_rotate_B at h
  simp only [Option.bind_eq_bind, Option.bind_eq_some] at h
  obtain ⟨nodeB, hnB, nD, hnD, nE, hnE, t1, h1, t2, h2, t3, h3, h4⟩ := h
  simp only [Option.some.injEq] at h4
  subst h4
  have hAn : idA ≠ null_node_id := by
    obtain ⟨n, hn, _⟩ := hA
    exact node_some_ne_null t idA n hn
  obtain ⟨a1, a2, a3, a4, a5⟩ := balance_swap_keeps t t1 idA idB i a h1 hAn hB hh hl
  obtain ⟨b1, b2, b3, b4⟩ := balance_relink_B_keeps t1 t2 idA idB i a h2 a1 a2
  obtain ⟨c1, c2, c3, c4⟩ := balance_rotate_B_rotate_keeps t2 t3 idA idB idC _ _ i a h3
    (b3 _ (a3 _ hA)) (b3 _ a5) (node_some_ne_null t _ nD hnD) (node_some_ne_null t _ nE hnE)
    b1 b2
  exact ⟨c1, c2, fun z hz => c3 z (b3 z (a3 z hz)), c4.trans (b4.trans a4)⟩

/-- The function `balance` keeps the heights, the kept leaf and the internal nodes. -/
theorem balance_keeps {α : Type} [LinearOrderedCommRing α]
    (t : dynamic_tree α) (r : dynamic_tree α × node_id_t) (idA : node_id_t) (i : Nat)
    (a : AABB α) (h : balance t idA = some r)
    (hh : heights_ok t) (hl : leaf_kept t i a) :
    heights_ok r.1 ∧ leaf_kept r.1 i a ∧ (∀ z, is_internal t z → is_internal r.1 z) ∧
      r.1.m_free_list = t.m_free_list := by
  unfold balance at h
  simp only [Option.bind_eq_bind, Option.bind_eq_some] at h
  obtain ⟨nodeA, hnA, h⟩ := h
  split at h
  · simp only [Option.some.injEq] at h
    subst h
    exact ⟨hh, hl, fun z hz => hz, rfl⟩
  · rename_i hcond
    simp only [Bool.or_eq_true, decide_eq_true_eq, not_or, tree_node.leaf, beq_iff_eq] at hcond
    have hA : is_internal t idA := ⟨nodeA, hnA, hcond.1⟩
    simp only [Option.bind_eq_bind, Option.bind_eq_some] at h
    obtain ⟨nodeB, hnB, nodeC, hnC, h⟩ := h
    obtain ⟨m, hm, hm1, hm2, _⟩ := hl
    have hl : leaf_kept t i a := ⟨m, hm, hm1, hm2, by assumption⟩
    split at h
    · rename_i hbal
      refine balance_rotate_C_keeps t r idA _ _ i a h hA ?_ hh hl
      intro hC
      rw [hC, hm] at hnC
      cases hnC
      cases hb : nodeA.child1 with
      | none => exact hcond.1 hb
      | some b =>
        rw [hb] at hnB
        have := hh b nodeB hnB
        omega
    · split at h
      · rename_i hbal
        refine balance_rotate_B_keeps t r idA _ _ i a h hA ?_ hh hl
        intro hB
        rw [hB, hm] at hnB
        cases hnB
        cases hc : nodeA.child2 with
        | none =>
          rw [hc] at hnC
          simp [dynamic_tree.node] at hnC
        | some c =>
          rw [hc] at hnC
          have := hh c nodeC hnC
          omega
      · simp only [Option.some.injEq] at h
        subst h
        exact ⟨hh, hl, fun z hz => hz, rfl⟩

/-- One iteration of the loop of `adjust_bounds` keeps the heights, the kept leaf and the
internal nodes. -/
theorem adjust_bounds_step_keeps {α : Type} [LinearOrderedCommRing α]
    (t : dynamic_tree α) (r : dynamic_tree α × node_id_t) (id : node_id_t) (i : Nat)
    (a : AABB α) (h : adjust_bounds_step t id = some r)
    (hh : heights_ok t) (hl : leaf_kept t i a) :
    heights_ok r.1 ∧ leaf_kept r.1 i a ∧ (∀ z, is_internal t z → is_internal r.1 z) ∧
      r.1.m_free_list = t.m_free_list := by
  unfold adjust_bounds_step at h
  simp only [Option.bind_eq_bind, Option.bind_eq_some] at h
  obtain ⟨⟨t1, id1⟩, hb, node, hnode, h⟩ := h
  obtain ⟨a1, a2, a3, a4⟩ := balance_keeps t (t1, id1) id i a hb hh hl
  simp only at a1 a2 a3 a4 hnode h
  split at h
  · cases h
  · rename_i hc1
    split at h
    · cases h
    · simp only [Option.bind_eq_bind, Option.bind_eq_some] at h
      obtain ⟨t2, h2, node2, _, t3, h3, p, _, h4⟩ := h
      simp only [Option.some.injEq] at h4
      subst h4
      have hI : is_internal t1 id1 := ⟨node, hnode, hc1⟩
      obtain ⟨b1, b2, b3, b4⟩ := refit_aabb_keeps t1 t2 id1 _ _ i a h2 a1 a2 hI
      obtain ⟨c1, c2, c3, c4⟩ := refit_height_keeps t2 t3 id1 _ _ i a h3 b1 b2 (b3 _ hI)
      exact ⟨c1, c2, fun z hz => c3 z (b3 z (a3 z hz)), c4.trans (b4.trans a4)⟩

/-- The function `adjust_bounds` keeps the heights, the kept leaf and the internal nodes, and
leaves the free list. -/
theorem adjust_bounds_keeps {α : Type} [LinearOrderedCommRing α] (fuel : Nat)
    (t t' : dynamic_tree α) (id : node_id_t) (i : Nat)
    (a : AABB α) (h : adjust_bounds fuel t id = some t')
    (hh : heights_ok t) (hl : leaf_kept t i a) :
    heights_ok t' ∧ leaf_kept t' i a ∧ (∀ z, is_internal t z → is_internal t' z) ∧
      t'.m_free_list = t.m_free_list := by
  induction fuel generalizing t id with
  | zero =>
    unfold adjust_bounds at h
    split at h
    · cases h
      exact ⟨hh, hl, fun z hz => hz, rfl⟩
    · cases h
  | succ fuel ih =>
    unfold adjust_bounds at h
    split at h
    · cases h
      exact ⟨hh, hl, fun z hz => hz, rfl⟩
    · simp only at h
      cases hs : adjust_bounds_step t id with
      | none =>
        rw [hs] at h
        cases h
      | some r =>
        rw [hs] at h
        obtain ⟨t1, id1⟩ := r
        simp only at h
        obtain ⟨a1, a2, a3, a4⟩ := adjust_bounds_step_keeps t (t1, id1) id i a hs hh hl
        obtain ⟨b1, b2, b3, b4⟩ := ih t1 id1 h a1 a2
        exact ⟨b1, b2, fun z hz => b3 z (a3 z hz), b4.trans a4⟩

/-- What `allocate` does to the arena: the returned node is a leaf of height 0, the other
nodes are as before, and the free list is empty as before or advanced to the `next` of
its old head. -/
theorem allocate_spec {α : Type} [LinearOrderedCommRing α] (t : dynamic_tree α)
    (r : dynamic_tree α × node_id_t) (h : allocate t = some r) :
    ∃ k n, r.2 = some k ∧ r.1.node (some k) = some n ∧ n.child1 = null_node_id ∧
      n.height = 0 ∧
      (∀ j, j ≠ k → r.1.node (some j) = t.node (some j)) ∧
      r.1.m_root = t.m_root ∧
      ((t.m_free_list = null_node_id ∧ r.1.m_free_list = null_node_id ∧
          t.node (some k) = none) ∨
        (t.m_free_list = some k ∧ ∃ n0, t.node (some k) = some n0 ∧
          r.1.m_free_list = n0.next)) := by
  unfold allocate at h
  split at h
  · rename_i hnull
    simp only [Option.some.injEq] at h
    subst h
    refine ⟨t.m_nodes.length, fresh_node, rfl, ?_, rfl, rfl, ?_, rfl, Or.inl ⟨hnull, hnull, ?_⟩⟩
    · simp [dynamic_tree.node]
    · intro j hj
      simp only [dynamic_tree.node]
      rw [List.getElem?_append]
      split
      · rfl
      · rename_i hlt
        have hge : t.m_nodes.length ≤ j := Nat.le_of_not_lt hlt
        have hgt : t.m_nodes.length < j := lt_of_le_of_ne hge (Ne.symm hj)
        rw [List.getElem?_eq_none hge]
        rw [List.getElem?_eq_none]
        simp only [List.length_singleton]
        omega
    · simp [dynamic_tree.node]
  · simp only [Option.bind_eq_bind, Option.bind_eq_some] at h
    obtain ⟨t1, h1, node, hnode, h⟩ := h
    simp only [Option.some.injEq] at h
    subst h
    obtain ⟨k, n0, hid, hn0, hn1, hother, hroot, hfl, _⟩ := set_spec _ _ _ _ h1
    rw [hid, hn1] at hnode
    simp only [Option.some.injEq] at hnode
    subst hnode
    exact ⟨k, _, hid, hn1, rfl, rfl, hother, hroot, Or.inr ⟨hid, n0, hn0, rfl⟩⟩

/-- The function `allocate` keeps the heights and a kept leaf that is not the head of the
free list; the node it returns is not the kept leaf. -/
theorem allocate_keeps {α : Type} [LinearOrderedCommRing α] (t : dynamic_tree α)
    (r : dynamic_tree α × node_id_t) (i : Nat) (a : AABB α) (h : allocate t = some r)
    (hh : heights_ok t) (hl : leaf_kept t i a) (hf : t.m_free_list ≠ some i) :
    heights_ok r.1 ∧ leaf_kept r.1 i a ∧ r.2 ≠ some i ∧ r.2 ≠ null_node_id ∧
      r.1.m_root = t.m_root := by
  obtain ⟨k, n, hid, hn, hc, hht, hother, hroot, hfl⟩ := allocate_spec t r h
  have hki : i ≠ k := by
    intro hik
    subst hik
    obtain ⟨m, hm, _⟩ := hl
    rcases hfl with ⟨_, _, hnone⟩ | ⟨hhead, _⟩
    · rw [hnone] at hm
      cases hm
    · exact hf hhead
  refine ⟨?_, ?_, ?_, ?_, hroot⟩
  · intro j m hm
    by_cases hj : j = k
    · subst hj
      rw [hn] at hm
      cases hm
      rw [hht]
      decide
    · rw [hother j hj] at hm
      exact hh j m hm
  · obtain ⟨m, hm, h1, h2, h3⟩ := hl
    exact ⟨m, by rw [hother i hki]; exact hm, h1, h2, h3⟩
  · rw [hid]
    intro hc
    cases hc
    exact hki rfl
  · rw [hid]
    intro hc
    cases hc

/-- The function `free` on a node other than the kept leaf keeps the heights, the kept leaf
and the internal nodes, and makes the node the head of the free list. -/
theorem free_keeps {α : Type} [LinearOrderedCommRing α] (t t' : dynamic_tree α)
    (id : node_id_t) (i : Nat) (a : AABB α) (h : free t id = some t')
    (hne : id ≠ some i) (hh : heights_ok t) (hl : leaf_kept t i a) :
    heights_ok t' ∧ leaf_kept t' i a ∧ (∀ z, is_internal t z → is_internal t' z) ∧
      t'.m_free_list = id ∧ t'.m_root = t.m_root := by
  unfold free at h
  simp only [Option.bind_eq_bind, Option.bind_eq_some] at h
  obtain ⟨t1, h1, t2, h2, h3⟩ := h
  simp only [Option.some.injEq] at h3
  subst h3
  obtain ⟨a1, a2, a3, _⟩ := set_harmless t t1 id _ i a h1 (fun n => ⟨rfl, rfl, rfl⟩) hh hl
  have b1 : heights_ok t2 := set_heights_ok _ _ _ _ h2 a1 (fun n _ => le_refl _)
  have b2 : leaf_kept t2 i a := set_leaf_kept _ _ _ _ i a h2 a2 (fun hid => absurd hid hne)
  have b3 : ∀ z, is_internal t1 z → is_internal t2 z :=
    fun z hz => set_is_internal _ _ _ z _ h2 hz (fun n hn => hn)
  obtain ⟨_, _, _, _, _, _, r1, _, _⟩ := set_spec _ _ _ _ h1
  obtain ⟨_, _, _, _, _, _, r2, _, _⟩ := set_spec _ _ _ _ h2
  exact ⟨b1, b2, fun z hz => b3 z (a3 z hz), rfl, r2.trans r1⟩

/-- The statements under `// Create new parent.` of `insert` keep the heights and a kept
leaf that is not the head of the free list; the new parent is not the kept leaf. -/
theorem insert_new_parent_keeps {α : Type} [LinearOrderedCommRing α] (t : dynamic_tree α)
    (r : dynamic_tree α × node_id_t) (sibling old_parent : node_id_t) (leaf_aabb : AABB α)
    (i : Nat) (a : AABB α) (h : insert_new_parent t sibling old_parent leaf_aabb = some r)
    (hh : heights_ok t) (hl : leaf_kept t i a) (hf : t.m_free_list ≠ some i) :
    heights_ok r.1 ∧ leaf_kept r.1 i a ∧ r.2 ≠ some i ∧ r.2 ≠ null_node_id ∧
      r.1.m_root = t.m_root := by
  unfold insert_new_parent at h
  simp only [Option.bind_eq_bind, Option.bind_eq_some] at h
  obtain ⟨⟨t0, np⟩, h0, t1, h1, t2, h2, aS, _, t3, h3, hS, hhS, t4, h4, h5⟩ := h
  simp only [Option.some.injEq] at h5
  subst h5
  simp only at h1 h2 h3 h4 hhS ⊢
  obtain ⟨z1, z2, z3, z4, z5⟩ := allocate_keeps t (t0, np) i a h0 hh hl hf
  simp only at z1 z2 z3 z4 z5
  obtain ⟨a1, a2, _, _⟩ := set_harmless t0 t1 np _ i a h1 (fun n => ⟨rfl, rfl, rfl⟩) z1 z2
  obtain ⟨b1, b2, _, _⟩ := set_harmless t1 t2 np _ i a h2 (fun n => ⟨rfl, rfl, rfl⟩) a1 a2
  have c1 : heights_ok t3 := set_heights_ok _ _ _ _ h3 b1 (fun n hn => hn)
  have c2 : leaf_kept t3 i a := set_leaf_kept _ _ _ _ i a h3 b2 (fun hid => absurd hid z3)
  simp only [dynamic_tree.height, Option.map_eq_some'] at hhS
  obtain ⟨nS, hnS, hSe⟩ := hhS
  have hSge : -1 ≤ hS := by
    cases sibling with
    | none => simp [dynamic_tree.node] at hnS
    | some s =>
      rw [← hSe]
      exact c1 s nS hnS
  have d1 : heights_ok t4 := set_heights_ok _ _ _ _ h4 c1 (fun n _ => by simp only; omega)
  have d2 : leaf_kept t4 i a := set_leaf_kept _ _ _ _ i a h4 c2 (fun hid => absurd hid z3)
  obtain ⟨_, _, _, _, _, _, r1, _, _⟩ := set_spec _ _ _ _ h1
  obtain ⟨_, _, _, _, _, _, r2, _, _⟩ := set_spec _ _ _ _ h2
  obtain ⟨_, _, _, _, _, _, r3, _, _⟩ := set_spec _ _ _ _ h3
  obtain ⟨_, _, _, _, _, _, r4, _, _⟩ := set_spec _ _ _ _ h4
  exact ⟨d1, d2, z3, z4, r4.trans (r3.trans (r2.trans (r1.trans z5)))⟩

/-- The four linking statements of `insert` keep the heights and the kept leaf when the new
parent is not the kept leaf. -/
theorem insert_link_keeps {α : Type} [LinearOrderedCommRing α] (t t' : dynamic_tree α)
    (leaf sibling new_parent : node_id_t) (i : Nat) (a : AABB α)
    (h : insert_link t leaf sibling new_parent = some t')
    (hnp : new_parent ≠ some i) (hs : sibling ≠ null_node_id)
    (hh : heights_ok t) (hl : leaf_kept t i a) :
    heights_ok t' ∧ leaf_kept t' i a := by
  unfold insert_link at h
  simp only [Option.bind_eq_bind, Option.bind_eq_some] at h
  obtain ⟨t1, h1, t2, h2, t3, h3, h4⟩ := h
  obtain ⟨a1, a2, _, _, _⟩ := set_child1_keeps t t1 new_parent sibling i a h1 hs hnp hh hl
  obtain ⟨b1, b2, _, _⟩ :=
    set_harmless t1 t2 new_parent _ i a h2 (fun n => ⟨rfl, rfl, rfl⟩) a1 a2
  obtain ⟨c1, c2, _, _⟩ := set_harmless t2 t3 sibling _ i a h3 (fun n => ⟨rfl, rfl, rfl⟩) b1 b2
  obtain ⟨d1, d2, _, _⟩ := set_harmless t3 t' leaf _ i a h4 (fun n => ⟨rfl, rfl, rfl⟩) c1 c2
  exact ⟨d1, d2⟩

/-- The statement `if (old_parent != null_node_id) ... else ...` of `insert` keeps the
heights and the kept leaf when the new parent is not the kept leaf. -/
theorem insert_attach_keeps {α : Type} [LinearOrderedCommRing α] (t t' : dynamic_tree α)
    (leaf sibling old_parent new_parent : node_id_t) (i : Nat) (a : AABB α)
    (h : insert_attach t leaf sibling old_parent new_parent = some t')
    (hnp : new_parent ≠ some i) (hnn : new_parent ≠ null_node_id)
    (hs : sibling ≠ null_node_id)
    (hh : heights_ok t) (hl : leaf_kept t i a) :
    heights_ok t' ∧ leaf_kept t' i a := by
  unfold insert_attach at h
  split at h
  · simp only [Option.bind_eq_bind] at h
    cases hopn : t.node old_parent with
    | none =>
      rw [hopn] at h
      cases h
    | some opn =>
    rw [hopn] at h
    simp only [Option.some_bind] at h
    by_cases hc1 : opn.child1 = sibling
    · rw [if_pos hc1] at h
      simp only [Option.bind_eq_some] at h
      obtain ⟨t1, h1, h2⟩ := h
      have hne : old_parent ≠ some i := by
        apply internal_ne_leaf t old_parent i a ⟨opn, hopn, ?_⟩ hl
        rw [hc1]
        exact hs
      obtain ⟨a1, a2, _, _, _⟩ :=
        set_child1_keeps t t1 old_parent new_parent i a h1 hnn hne hh hl
      exact insert_link_keeps t1 t' leaf sibling new_parent i a h2 hnp hs a1 a2
    · rw [if_neg hc1] at h
      simp only [Option.bind_eq_some] at h
      obtain ⟨t1, h1, h2⟩ := h
      obtain ⟨a1, a2, _, _⟩ :=
        set_harmless t t1 old_parent _ i a h1 (fun n => ⟨rfl, rfl, rfl⟩) hh hl
      exact insert_link_keeps t1 t' leaf sibling new_parent i a h2 hnp hs a1 a2
  · simp only [Option.bind_eq_bind, Option.bind_eq_some] at h
    obtain ⟨t1, h1, h2⟩ := h
    simp only [Option.some.injEq] at h2
    subst h2
    exact insert_link_keeps t t1 leaf sibling new_parent i a h1 hnp hs hh hl

/-- The function `insert` keeps the heights and the kept leaf, when the kept leaf is not the
head of the free list at an insertion into a non-empty tree. -/
theorem insert_keeps {α : Type} [LinearOrderedCommRing α] (fuel : Nat)
    (t t' : dynamic_tree α) (leaf : node_id_t) (i : Nat) (a : AABB α)
    (h : insert fuel t leaf = some t')
    (hf : t.m_root ≠ null_node_id → t.m_free_list ≠ some i)
    (hh : heights_ok t) (hl : leaf_kept t i a) :
    heights_ok t' ∧ leaf_kept t' i a := by
  unfold insert at h
  split at h
  · simp only at h
    have hh0 : heights_ok { t with m_root := leaf } := hh
    have hl0 : leaf_kept { t with m_root := leaf } i a := hl
    obtain ⟨a1, a2, _, _⟩ := set_harmless _ t' leaf _ i a h (fun n => ⟨rfl, rfl, rfl⟩) hh0 hl0
    exact ⟨a1, a2⟩
  · rename_i hroot
    simp only [Option.bind_eq_bind, Option.bind_eq_some] at h
    obtain ⟨leaf_aabb, _, sibling, _, old_parent, hop, ⟨t1, np⟩, h1, nl, _, t2, h2, p, _, h3⟩ := h
    simp only at h2 h3
    obtain ⟨a1, a2, a3, a4, _⟩ :=
      insert_new_parent_keeps t (t1, np) sibling old_parent leaf_aabb i a h1 hh hl (hf hroot)
    simp only at a1 a2 a3 a4
    have hs : sibling ≠ null_node_id := by
      simp only [dynamic_tree.parent, Option.map_eq_some'] at hop
      obtain ⟨n, hn, _⟩ := hop
      exact node_some_ne_null t sibling n hn
    obtain ⟨b1, b2⟩ := insert_attach_keeps t1 t2 leaf sibling old_parent np i a h2 a3 a4 hs a1 a2
    obtain ⟨c1, c2, _, _⟩ := adjust_bounds_keeps fuel t2 t' p i a h3 b1 b2
    exact ⟨c1, c2⟩

/-- The `else` branch of `if (parent == m_root)` in `remove` keeps the heights and the kept
leaf when the parent is not the kept leaf, and makes the parent the head of the free list. -/
theorem remove_splice_keeps {α : Type} [LinearOrderedCommRing α] (fuel : Nat)
    (t t' : dynamic_tree α) (parent sibling grandpa : node_id_t) (i : Nat) (a : AABB α)
    (h : remove_splice fuel t parent sibling grandpa = some t')
    (hp : parent ≠ some i) (hpn : parent ≠ null_node_id) (hs : sibling ≠ null_node_id)
    (hh : heights_ok t) (hl : leaf_kept t i a) :
    heights_ok t' ∧ leaf_kept t' i a ∧ t'.m_free_list = parent := by
  unfold remove_splice at h
  simp only [Option.bind_eq_bind] at h
  cases hg : t.node grandpa with
  | none =>
    rw [hg] at h
    cases h
  | some gn =>
  rw [hg] at h
  simp only [Option.some_bind] at h
  have key : ∀ t1 : dynamic_tree α, heights_ok t1 → leaf_kept t1 i a →
      ((t1.parent parent).bind fun pp =>
        (t1.set sibling fun n => { n with parent := pp }).bind fun t =>
          (free t parent).bind fun t => adjust_bounds fuel t grandpa) = some t' →
      heights_ok t' ∧ leaf_kept t' i a ∧ t'.m_free_list = parent := by
    intro t1 a1 a2 h
    simp only [Option.bind_eq_some] at h
    obtain ⟨pp, _, t2, h2, t3, h3, h4⟩ := h
    obtain ⟨b1, b2, _, _⟩ :=
      set_harmless t1 t2 sibling _ i a h2 (fun n => ⟨rfl, rfl, rfl⟩) a1 a2
    obtain ⟨c1, c2, _, c4, _⟩ := free_keeps t2 t3 parent i a h3 hp b1 b2
    obtain ⟨d1, d2, _, d4⟩ := adjust_bounds_keeps fuel t3 t' grandpa i a h4 c1 c2
    exact ⟨d1, d2, d4.trans c4⟩
  by_cases hc1 : gn.child1 = parent
  · rw [if_pos hc1] at h
    rw [Option.bind_eq_some] at h
    obtain ⟨t1, h1, h⟩ := h
    have hne : grandpa ≠ some i := by
      apply internal_ne_leaf t grandpa i a ⟨gn, hg, ?_⟩ hl
      rw [hc1]
      exact hpn
    obtain ⟨a1, a2, _, _, _⟩ := set_child1_keeps t t1 grandpa sibling i a h1 hs hne hh hl
    exact key t1 a1 a2 h
  · rw [if_neg hc1] at h
    rw [Option.bind_eq_some] at h
    obtain ⟨t1, h1, h⟩ := h
    obtain ⟨a1, a2, _, _⟩ :=
      set_harmless t t1 grandpa _ i a h1 (fun n => ⟨rfl, rfl, rfl⟩) hh hl
    exact key t1 a1 a2 h

/-- The function `remove` on the kept leaf keeps the heights and the kept leaf; afterwards the
tree is empty or the head of the free list is not the kept leaf. -/
theorem remove_keeps {α : Type} [LinearOrderedCommRing α] (fuel : Nat)
    (t t' : dynamic_tree α) (i : Nat) (a : AABB α)
    (h : remove fuel t (some i) = some t')
    (hh : heights_ok t) (hl : leaf_kept t i a) :
    heights_ok t' ∧ leaf_kept t' i a ∧
      (t'.m_root ≠ null_node_id → t'.m_free_list ≠ some i) := by
  unfold remove at h
  by_cases hr : some i = t.m_root
  · rw [if_pos hr] at h
    simp only [Option.some.injEq] at h
    subst h
    exact ⟨hh, hl, fun hr => absurd rfl hr⟩
  · rw [if_neg hr] at h
    obtain ⟨m, hm, hm1, hm2, hm3⟩ := hl
    have hl : leaf_kept t i a := ⟨m, hm, hm1, hm2, hm3⟩
    simp only [Option.bind_eq_bind, hm, Option.some_bind] at h
    cases hpn : t.node m.parent with
    | none =>
      rw [hpn] at h
      cases h
    | some pn =>
    rw [hpn] at h
    simp only [Option.some_bind] at h
    generalize hsd : (if pn.child1 = some i then pn.child2 else pn.child1) = sibling at h
    by_cases hsib : sibling = null_node_id
    · rw [if_pos hsib] at h
      cases h
    · rw [if_neg hsib] at h
      have hp : m.parent ≠ some i := by
        intro hpi
        rw [hpi, hm] at hpn
        cases hpn
        apply hsib
        rw [← hsd, if_neg]
        · exact hm1
        · rw [hm1]
          intro hc
          cases hc
      have hpnn : m.parent ≠ null_node_id := node_some_ne_null t _ pn hpn
      rw [Option.bind_eq_some] at h
      obtain ⟨sn, _, h⟩ := h
      by_cases hroot : m.parent = t.m_root
      · rw [if_pos hroot] at h
        rw [Option.bind_eq_some] at h
        obtain ⟨t1, h1, h2⟩ := h
        have hh0 : heights_ok { t with m_root := sibling } := hh
        have hl0 : leaf_kept { t with m_root := sibling } i a := hl
        obtain ⟨a1, a2, _, _⟩ :=
          set_harmless _ t1 _ _ i a h1 (fun n => ⟨rfl, rfl, rfl⟩) hh0 hl0
        obtain ⟨b1, b2, _, b4, _⟩ := free_keeps t1 t' _ i a h2 hp a1 a2
        exact ⟨b1, b2, fun _ => by rw [b4]; exact hp⟩
      · rw [if_neg hroot] at h
        by_cases hgp : pn.parent = null_node_id
        · rw [if_pos hgp] at h
          cases h
        · rw [if_neg hgp] at h
          obtain ⟨b1, b2, b3⟩ := remove_splice_keeps fuel t t' _ _ _ i a h hp hpnn hsib hh hl
          exact ⟨b1, b2, fun _ => by rw [b3]; exact hp⟩

/-- The check `heights_check` gives `heights_ok`. -/
theorem heights_ok_of_check {α : Type} [LinearOrderedCommRing α] (t : dynamic_tree α)
    (h : heights_check t = true) : heights_ok t := by
  intro j n hn
  unfold heights_check at h
  rw [List.all_eq_true] at h
  have hmem : n ∈ t.m_nodes := by
    simp only [dynamic_tree.node] at hn
    obtain ⟨hj, hjn⟩ := List.getElem?_eq_some.mp hn
    rw [← hjn]
    exact List.getElem_mem _
  simpa using h n hmem

/-- The function `allocate` keeps the heights. -/
theorem allocate_heights_ok {α : Type} [LinearOrderedCommRing α] (t : dynamic_tree α)
    (r : dynamic_tree α × node_id_t) (h : allocate t = some r) (hh : heights_ok t) :
    heights_ok r.1 := by
  obtain ⟨k, n, _, hn, _, hht, hother, _⟩ := allocate_spec t r h
  intro j m hm
  by_cases hj : j = k
  · subst hj
    rw [hn] at hm
    cases hm
    rw [hht]
    decide
  · rw [hother j hj] at hm
    exact hh j m hm

/-- The function `create` returns a leaf of height 0 that stores the box `aabb.inset
aabb_inset`, and keeps the heights. -/
theorem create_stores {α : Type} [LinearOrderedCommRing α] (aabb_inset : vector3 α)
    (fuel : Nat) (t : dynamic_tree α) (aabb : AABB α) (e : entity)
    (r : dynamic_tree α × node_id_t) (h : create aabb_inset fuel t aabb e = some r)
    (hh : heights_ok t) (hf : free_head_distinct t = true) :
    heights_ok r.1 ∧ ∃ i, r.2 = some i ∧ leaf_kept r.1 i (aabb.inset aabb_inset) := by
  unfold create at h
  simp only [Option.bind_eq_bind, Option.bind_eq_some] at h
  obtain ⟨⟨t0, id⟩, h0, t1, h1, t2, h2, t3, h3, h4⟩ := h
  simp only [Option.some.injEq] at h4
  subst h4
  simp only at h1 h2 h3 ⊢
  have z1 := allocate_heights_ok t (t0, id) h0 hh
  obtain ⟨k, n, hid, hn, hc, hht, hother, hroot, hfl⟩ := allocate_spec t (t0, id) h0
  simp only at z1 hid hn hother hroot hfl
  subst hid
  have hfree : t0.m_free_list ≠ some k := by
    rcases hfl with ⟨_, hnone, _⟩ | ⟨hhead, n0, hn0, hnext⟩
    · rw [hnone]
      intro hc
      cases hc
    · rw [hnext]
      unfold free_head_distinct at hf
      rw [hhead] at hf
      simp only [hn0] at hf
      simpa using hf
  obtain ⟨k1, n1, hk1, hn1, hn1', _, _, hfl1, _⟩ := set_spec _ _ _ _ h1
  cases hk1
  rw [hn] at hn1
  cases hn1
  obtain ⟨k2, n2, hk2, hn2, hn2', _, _, hfl2, _⟩ := set_spec _ _ _ _ h2
  cases hk2
  rw [hn1'] at hn2
  cases hn2
  have a1 : heights_ok t1 := set_heights_ok _ _ _ _ h1 z1 (fun n hn => hn)
  have a2 : heights_ok t2 := set_heights_ok _ _ _ _ h2 a1 (fun n hn => hn)
  have hl2 : leaf_kept t2 k (aabb.inset aabb_inset) := ⟨_, hn2', hc, hht, rfl⟩
  obtain ⟨b1, b2⟩ := insert_keeps fuel t2 t3 (some k) k _ h3
    (fun _ => by rw [hfl2, hfl1]; exact hfree) a2 hl2
  exact ⟨b1, k, rfl, b2⟩

/-- A `move` that returns true leaves the leaf with the box `move_offset_aabb`, and keeps
the heights. -/
theorem move_stores {α : Type} [LinearOrderedCommRing α] (aabb_inset : vector3 α)
    (fuel : Nat) (t t' : dynamic_tree α) (i : Nat) (aabb : AABB α) (displacement : vector3 α)
    (h : move aabb_inset fuel t (some i) aabb displacement = some (t', true))
    (hh : heights_ok t) (h0 : t.height (some i) = some 0) :
    heights_ok t' ∧ leaf_kept t' i (move_offset_aabb aabb_inset aabb displacement) := by
  unfold move at h
  simp only [Option.bind_eq_bind, Option.bind_eq_some] at h
  obtain ⟨node, hnode, h⟩ := h
  simp only [dynamic_tree.height, hnode, Option.map_some', Option.some.injEq] at h0
  split at h
  · rename_i hleaf
    simp only [tree_node.leaf, beq_iff_eq] at hleaf
    split at h
    · simp at h
    · simp only [Option.bind_eq_bind, Option.bind_eq_some] at h
      obtain ⟨t1, h1, t2, h2, t3, h3, h4⟩ := h
      simp only [Option.some.injEq, Prod.mk.injEq, and_true] at h4
      subst h4
      have hl : leaf_kept t i node.aabb := ⟨node, hnode, hleaf, h0, rfl⟩
      obtain ⟨a1, a2, a3⟩ := remove_keeps fuel t t1 i _ h1 hh hl
      obtain ⟨k, n, hk, hn, hn', _, hroot, hfl, _⟩ := set_spec _ _ _ _ h2
      cases hk
      obtain ⟨m, hm, hm1, hm2, _⟩ := a2
      rw [hm] at hn
      cases hn
      have b1 : heights_ok t2 := set_heights_ok _ _ _ _ h2 a1 (fun n hn => hn)
      have b2 : leaf_kept t2 i (move_offset_aabb aabb_inset aabb displacement) :=
        ⟨_, hn', hm1, hm2, rfl⟩
      exact insert_keeps fuel t2 t3 (some i) i _ h3
        (fun hr => by rw [hfl]; exact a3 (by rw [← hroot]; exact hr)) b1 b2
  · cases h

/-- A `move` that returns false leaves the tree as it was, and the stored box of the leaf
contains the tight box. -/
theorem move_false_spec {α : Type} [LinearOrderedCommRing α] (aabb_inset : vector3 α)
    (fuel : Nat) (t t' : dynamic_tree α) (id : node_id_t) (aabb : AABB α)
    (displacement : vector3 α)
    (h : move aabb_inset fuel t id aabb displacement = some (t', false)) :
    t' = t ∧ ∃ n, t.node id = some n ∧ n.aabb.contains aabb = true := by
  unfold move at h
  simp only [Option.bind_eq_bind, Option.bind_eq_some] at h
  obtain ⟨node, hnode, h⟩ := h
  split at h
  · split at h
    · rename_i hc
      simp only [Option.some.injEq, Prod.mk.injEq, and_true] at h
      simp only [Bool.and_eq_true] at hc
      exact ⟨h.symm, node, hnode, hc.1⟩
    · simp only [Option.bind_eq_bind, Option.bind_eq_some] at h
      obtain ⟨t1, h1, t2, h2, t3, h3, h4⟩ := h
      simp at h4
  · cases h

/-- The box `move_offset_aabb` contains the tight box, for a margin with non-positive
components and a tight box with `min <= max`. -/
theorem move_offset_aabb_contains {α : Type} [LinearOrderedCommRing α]
    (aabb_inset : vector3 α) (aabb : AABB α) (displacement : vector3 α)
    (hm : aabb_inset.le vector3_zero = true) (hw : aabb.min.le aabb.max = true) :
    (move_offset_aabb aabb_inset aabb displacement).contains aabb = true := by
  simp only [vector3.le, vector3_zero, Bool.and_eq_true, decide_eq_true_eq] at hm hw
  obtain ⟨⟨m1, m2⟩, m3⟩ := hm
  obtain ⟨⟨w1, w2⟩, w3⟩ := hw
  unfold move_offset_aabb
  simp only [AABB.contains, AABB.contains_point, vector3.le, AABB.inset, vector3.add,
    vector3.sub, vector3.scale, Bool.and_eq_true, decide_eq_true_eq]
  split_ifs <;> simp only <;> refine ⟨⟨⟨⟨?_, ?_⟩, ?_⟩, ⟨?_, ?_⟩, ?_⟩, ⟨⟨?_, ?_⟩, ?_⟩, ⟨?_, ?_⟩, ?_⟩ <;>
    linarith

/-- The box `move_offset_aabb` of the code is the box `moved_aabb_spec` of the
specification. -/
theorem move_offset_aabb_eq_spec {α : Type} [LinearOrderedCommRing α]
    (aabb_inset : vector3 α) (aabb : AABB α) (displacement : vector3 α) :
    move_offset_aabb aabb_inset aabb displacement =
      moved_aabb_spec aabb_inset aabb displacement := by
  have key : ∀ d : α, (4 * d < 0 ↔ d < 0) := fun d =>
    ⟨fun h => by linarith, fun h => by linarith⟩
  have habs : ∀ lo d : α, d < 0 → lo + 4 * d = lo - 4 * |d| := fun lo d h => by
    rw [abs_of_neg h]
    ring
  unfold move_offset_aabb moved_aabb_spec extended_axis_spec
  simp only [vector3.scale, key]
  split_ifs <;> simp [AABB.inset, vector3.add, vector3.sub, habs, *]

/-- C3: for a margin `aabb_inset` with non-positive components and a tight box with
`min <= max`, on an arena whose heights are all at least -1: after `create(aabb, e)`, when
the head of the free list is not its own successor, the stored box of the returned leaf
contains `aabb`; and after `move(i, aabb, displacement)` of a leaf of height 0, whether it
returns true or false and for every displacement, the stored box of leaf `i` contains
`aabb`. -/
theorem stored_aabb_contains_tight {α : Type} [LinearOrderedCommRing α]
    (aabb_inset : vector3 α) (fuel : Nat) (t : dynamic_tree α) (aabb : AABB α)
    (hm : aabb_inset.le vector3_zero = true) (hw : aabb.min.le aabb.max = true)
    (hh : heights_ok t) :
    (∀ e r, free_head_distinct t = true → create aabb_inset fuel t aabb e = some r →
      ∃ n, r.1.node r.2 = some n ∧ n.aabb.contains aabb = true) ∧
    (∀ i displacement r, t.height (some i) = some 0 →
      move aabb_inset fuel t (some i) aabb displacement = some r →
      ∃ n, r.1.node (some i) = some n ∧ n.aabb.contains aabb = true) := by
  constructor
  · intro e r hf hc
    obtain ⟨_, i, hi, n, hn, _, _, hbox⟩ := create_stores aabb_inset fuel t aabb e r hc hh hf
    refine ⟨n, by rw [hi]; exact hn, ?_⟩
    rw [hbox]
    have h0 := move_offset_aabb_contains aabb_inset aabb vector3_zero hm hw
    have he : move_offset_aabb aabb_inset aabb vector3_zero = aabb.inset aabb_inset := by
      simp [move_offset_aabb, vector3_zero, vector3.scale]
    rw [he] at h0
    exact h0
  · intro i displacement r h0 hmv
    obtain ⟨t', b⟩ := r
    cases b with
    | true =>
      obtain ⟨_, n, hn, _, _, hbox⟩ :=
        move_stores aabb_inset fuel t t' i aabb displacement hmv hh h0
      refine ⟨n, hn, ?_⟩
      rw [hbox]
      exact move_offset_aabb_contains aabb_inset aabb displacement hm hw
    | false =>
      obtain ⟨ht, n, hn, hc⟩ := move_false_spec aabb_inset fuel t t' _ aabb displacement hmv
      subst ht
      exact ⟨n, hn, hc⟩

/-- The heights of `sample_tree` are all at least -1. -/
theorem sample_tree_heights_ok : heights_ok sample_tree :=
  heights_ok_of_check sample_tree (by decide!)

/-- C3 on `sample_tree`, margin (-1, -1, -1): `create` of the tight box at 80 returns a leaf
whose stored box contains it, the `move` of leaf 0 to that box with displacement (-2, 0, 1)
returns true and the `move` of leaf 0 to its own tight box returns false, and after each the
stored box of leaf 0 contains the tight box. -/
theorem stored_aabb_contains_tight_witness :
    (∃ r, create unit_margin 10 sample_tree (box_at 8) (some 9) = some r ∧
      ∃ n, r.1.node r.2 = some n ∧ n.aabb.contains (box_at 8) = true) ∧
    (∃ r, move unit_margin 10 sample_tree (some 0) (box_at 8) ⟨-2, 0, 1⟩ = some r ∧
      r.2 = true ∧ ∃ n, r.1.node (some 0) = some n ∧ n.aabb.contains (box_at 8) = true) ∧
    (∃ r, move unit_margin 10 sample_tree (some 0) (box_at 1) vector3_zero = some r ∧
      r.2 = false ∧ ∃ n, r.1.node (some 0) = some n ∧ n.aabb.contains (box_at 1) = true) := by
  have h8 := stored_aabb_contains_tight unit_margin 10 sample_tree (box_at 8)
    (by decide) (by decide) sample_tree_heights_ok
  have h1 := stored_aabb_contains_tight unit_margin 10 sample_tree (box_at 1)
    (by decide) (by decide) sample_tree_heights_ok
  have hc : (create unit_margin 10 sample_tree (box_at 8) (some 9)).isSome = true := by
    decide!
  have hm8 : (move unit_margin 10 sample_tree (some 0) (box_at 8) ⟨-2, 0, 1⟩).map Prod.snd =
      some true := by
    decide!
  have hm1 : (move unit_margin 10 sample_tree (some 0) (box_at 1) vector3_zero).map Prod.snd =
      some false := by
    decide!
  obtain ⟨rc, hrc⟩ := Option.isSome_iff_exists.mp hc
  obtain ⟨r8, hr8, hb8⟩ := Option.map_eq_some'.mp hm8
  obtain ⟨r1, hr1, hb1⟩ := Option.map_eq_some'.mp hm1
  exact ⟨⟨rc, hrc, h8.1 (some 9) rc (by decide!) hrc⟩,
    ⟨r8, hr8, hb8, h8.2 0 _ r8 (by decide!) hr8⟩,
    ⟨r1, hr1, hb1, h1.2 0 _ r1 (by decide!) hr1⟩⟩

/-- C7: on an arena whose heights are all at least -1, when `move(i, aabb, displacement)` of
a leaf of height 0 returns true, the stored box of leaf `i` afterwards is `aabb` outset by
the margin with, on each axis, its min lowered by four times the absolute displacement when
the displacement is negative and its max raised by four times the displacement otherwise;
with zero displacement it is `aabb` outset by the margin, which is also the box that
`create(aabb, e)` stores in the leaf it returns. -/
theorem move_stores_extended_aabb {α : Type} [LinearOrderedCommRing α]
    (aabb_inset : vector3 α) (fuel : Nat) (t t' : dynamic_tree α) (i : Nat) (aabb : AABB α)
    (displacement : vector3 α) (hh : heights_ok t) (h0 : t.height (some i) = some 0)
    (h : move aabb_inset fuel t (some i) aabb displacement = some (t', true)) :
    (∃ n, t'.node (some i) = some n ∧
      n.aabb = moved_aabb_spec aabb_inset aabb displacement ∧
      (displacement = vector3_zero → n.aabb = aabb.inset aabb_inset)) ∧
    (∀ e r, free_head_distinct t = true → create aabb_inset fuel t aabb e = some r →
      ∃ n, r.1.node r.2 = some n ∧ n.aabb = aabb.inset aabb_inset) := by
  constructor
  · obtain ⟨_, n, hn, _, _, hbox⟩ := move_stores aabb_inset fuel t t' i aabb displacement h hh h0
    refine ⟨n, hn, ?_, ?_⟩
    · rw [hbox]
      exact move_offset_aabb_eq_spec aabb_inset aabb displacement
    · intro hd
      rw [hbox, hd]
      simp [move_offset_aabb, vector3_zero, vector3.scale]
  · intro e r hf hc
    obtain ⟨_, k, hk, n, hn, _, _, hbox⟩ := create_stores aabb_inset fuel t aabb e r hc hh hf
    exact ⟨n, by rw [hk]; exact hn, hbox⟩

/-- C7 on `sample_tree`, margin (-1, -1, -1): the `move` of leaf 0 to the tight box
`[80, 81] x [0, 1] x [0, 1]` with displacement (-2, 0, 1) returns true and leaves it with the
box `[71, 82] x [-1, 2] x [-1, 6]`; with zero displacement it returns true and leaves it with
`[79, 82] x [-1, 2] x [-1, 2]`, the box that `create` stores for that tight box. -/
theorem move_stores_extended_aabb_witness :
    (∃ t', move unit_margin 10 sample_tree (some 0) (box_at 8) ⟨-2, 0, 1⟩ = some (t', true) ∧
      ∃ n, t'.node (some 0) = some n ∧ n.aabb = ⟨⟨71, -1, -1⟩, ⟨82, 2, 6⟩⟩) ∧
    (∃ t', move unit_margin 10 sample_tree (some 0) (box_at 8) vector3_zero = some (t', true) ∧
      ∃ n, t'.node (some 0) = some n ∧ n.aabb = ⟨⟨79, -1, -1⟩, ⟨82, 2, 2⟩⟩) ∧
    (∃ r, create unit_margin 10 sample_tree (box_at 8) (some 9) = some r ∧
      ∃ n, r.1.node r.2 = some n ∧ n.aabb = ⟨⟨79, -1, -1⟩, ⟨82, 2, 2⟩⟩) := by
  have hm8 : (move unit_margin 10 sample_tree (some 0) (box_at 8) ⟨-2, 0, 1⟩).map Prod.snd =
      some true := by
    decide!
  have hm0 : (move unit_margin 10 sample_tree (some 0) (box_at 8) vector3_zero).map Prod.snd =
      some true := by
    decide!
  have hc : (create unit_margin 10 sample_tree (box_at 8) (some 9)).isSome = true := by
    decide!
  obtain ⟨⟨t8, b8⟩, hr8, hb8⟩ := Option.map_eq_some'.mp hm8
  obtain ⟨⟨t0, b0⟩, hr0, hb0⟩ := Option.map_eq_some'.mp hm0
  obtain ⟨rc, hrc⟩ := Option.isSome_iff_exists.mp hc
  simp only at hb8 hb0
  subst hb8
  subst hb0
  have h8 := move_stores_extended_aabb unit_margin 10 sample_tree t8 0 (box_at 8) ⟨-2, 0, 1⟩
    sample_tree_heights_ok (by decide!) hr8
  have h0 := move_stores_extended_aabb unit_margin 10 sample_tree t0 0 (box_at 8) vector3_zero
    sample_tree_heights_ok (by decide!) hr0
  obtain ⟨⟨n8, hn8, hbox8, _⟩, _⟩ := h8
  obtain ⟨⟨n0, hn0, _, hbox0⟩, hcreate⟩ := h0
  obtain ⟨nc, hnc, hboxc⟩ := hcreate (some 9) rc (by decide!) hrc
  refine ⟨⟨t8, hr8, n8, hn8, ?_⟩, ⟨t0, hr0, n0, hn0, ?_⟩, ⟨rc, hrc, nc, hnc, ?_⟩⟩
  · rw [hbox8]
    decide
  · rw [hbox0 rfl]
    decide
  · rw [hboxc]
    decide

/-- A write through `m_nodes[k]` in terms of `write`. -/
theorem set_eq_write {α : Type} (t : dynamic_tree α) (k : Nat) (f : tree_node α → tree_node α) :
    t.set (some k) f = (t.node (some k)).map fun n => t.write k (f n) := by
  unfold dynamic_tree.set dynamic_tree.node dynamic_tree.write
  simp only
  cases h : t.m_nodes[k]? <;> simp

/-- A read after `write`. -/
theorem node_write {α : Type} (t : dynamic_tree α) (k j : Nat) (x : tree_node α) :
    (t.write k x).node (some j) =
      if j = k then (t.node (some k)).map (fun _ => x) else t.node (some j) := by
  unfold dynamic_tree.write dynamic_tree.node
  simp only [List.getElem?_set]
  by_cases h : j = k
  · subst h
    simp only [if_true]
    by_cases hl : j < t.m_nodes.length
    · simp [hl, List.getElem?_eq_getElem hl]
    · simp [hl, List.getElem?_eq_none (Nat.le_of_not_lt hl)]
  · simp [h, Ne.symm h]

/-- The root after `write`. -/
theorem write_m_root {α : Type} (t : dynamic_tree α) (k : Nat) (x : tree_node α) :
    (t.write k x).m_root = t.m_root := rfl

/-- The free list after `write`. -/
theorem write_m_free_list {α : Type} (t : dynamic_tree α) (k : Nat) (x : tree_node α) :
    (t.write k x).m_free_list = t.m_free_list := rfl

/-- A read does not depend on the root. -/
theorem node_with_root {α : Type} (t : dynamic_tree α) (r : node_id_t) (j : node_id_t) :
    ({ t with m_root := r } : dynamic_tree α).node j = t.node j := rfl


/-- The three statements under `// Swap A and C.` of `balance`, node by node. -/
theorem balance_swap_spec {α : Type} [LinearOrderedCommRing α] (t : dynamic_tree α)
    (a x : Nat) (nA nX : tree_node α) (hA : t.node (some a) = some nA)
    (hX : t.node (some x) = some nX) (hax : a ≠ x) :
    ∃ t', balance_swap t (some a) (some x) = some t' ∧ t'.m_root = t.m_root ∧
      t'.m_free_list = t.m_free_list ∧
      ∀ j, t'.node (some j) =
        if j = a then some { nA with parent := some x }
        else if j = x then some { nX with child1 := some a, parent := nA.parent }
        else t.node (some j) := by
  have hxa : x ≠ a := Ne.symm hax
  have e : balance_swap t (some a) (some x) =
      some (((t.write x { nX with child1 := some a }).write x
        { nX with child1 := some a, parent := nA.parent }).write a
        { nA with parent := some x }) := by
    simp only [balance_swap, set_eq_write, node_write, dynamic_tree.parent, hA, hX, hax, hxa,
      Option.map_some', Option.bind_eq_bind, Option.some_bind, if_true, if_false]
  refine ⟨_, e, rfl, rfl, ?_⟩
  intro j
  simp only [node_write, hA, hX, hax, hxa, Option.map_some', if_true, if_false]
  by_cases h1 : j = a
  · simp [h1, hax]
  · by_cases h2 : j = x
    · simp [h2, hxa]
    · simp [h1, h2]

/-- The statement `if (nodeC.parent != null_node_id) ... else m_root = idC` of `balance` when
C has no parent: C becomes the root. -/
theorem balance_relink_C_root {α : Type} [LinearOrderedCommRing α] (t : dynamic_tree α)
    (a c : Nat) (nC : tree_node α) (hC : t.node (some c) = some nC)
    (hp : nC.parent = null_node_id) :
    balance_relink_C t (some a) (some c) = some { t with m_root := some c } := by
  simp [balance_relink_C, dynamic_tree.parent, hC, hp]

/-- The statement `if (nodeC.parent != null_node_id) ... else m_root = idC` of `balance` when
C has the parent `p`: the child of `p` that is tested against A is redirected to C. -/
theorem balance_relink_C_parent {α : Type} [LinearOrderedCommRing α] (t : dynamic_tree α)
    (a c p : Nat) (nC nP : tree_node α) (hC : t.node (some c) = some nC)
    (hp : nC.parent = some p) (hP : t.node (some p) = some nP) :
    ∃ t', balance_relink_C t (some a) (some c) = some t' ∧ t'.m_root = t.m_root ∧
      t'.m_free_list = t.m_free_list ∧
      ∀ j, t'.node (some j) =
        if j = p then
          some (if nP.child1 = some a then { nP with child1 := some c }
            else { nP with child2 := some c })
        else t.node (some j) := by
  by_cases h1 : nP.child1 = some a
  · refine ⟨t.write p { nP with child1 := some c }, ?_, rfl, rfl, ?_⟩
    · simp [balance_relink_C, dynamic_tree.parent, hC, hp, hP, h1, set_eq_write]
    · intro j
      simp only [node_write, hP, Option.map_some', h1, if_true]
  · refine ⟨t.write p { nP with child2 := some c }, ?_, rfl, rfl, ?_⟩
    · simp [balance_relink_C, dynamic_tree.parent, hC, hp, hP, h1, set_eq_write]
    · intro j
      simp only [node_write, hP, Option.map_some', h1, if_false]

/-- A `// Rotate.` branch of `balance` with C going up, node by node. -/
theorem balance_rotate_C_branch_spec {α : Type} [LinearOrderedCommRing α]
    (t : dynamic_tree α) (a b c keep move : Nat) (nA nB nC nKeep nMove : tree_node α)
    (hA : t.node (some a) = some nA) (hB : t.node (some b) = some nB)
    (hC : t.node (some c) = some nC) (hK : t.node (some keep) = some nKeep)
    (hM : t.node (some move) = some nMove)
    (hac : a ≠ c) (ham : a ≠ move) (hcm : c ≠ move) (hba : b ≠ a) (hbc : b ≠ c)
    (hbm : b ≠ move) (hka : keep ≠ a) (hkc : keep ≠ c) (hkm : keep ≠ move) :
    ∃ t', balance_rotate_C_branch t (some a) (some b) (some c) (some keep) (some move) =
        some t' ∧ t'.m_root = t.m_root ∧ t'.m_free_list = t.m_free_list ∧
      ∀ j, t'.node (some j) =
        if j = a then
          some { nA with child2 := some move, aabb := enclosing_aabb nB.aabb nMove.aabb,
                         height := Max.max nB.height nMove.height + 1 }
        else if j = c then
          some { nC with child2 := some keep,
                         aabb := enclosing_aabb (enclosing_aabb nB.aabb nMove.aabb) nKeep.aabb,
                         height := Max.max (Max.max nB.height nMove.height + 1)
                           nKeep.height + 1 }
        else if j = move then some { nMove with parent := some a }
        else t.node (some j) := by
  have hca := Ne.symm hac
  have hma := Ne.symm ham
  have hmc := Ne.symm hcm
  cases hres : balance_rotate_C_branch t (some a) (some b) (some c) (some keep) (some move) with
  | none =>
    simp [balance_rotate_C_branch, balance_refit, refit_aabb, refit_height,
      dynamic_tree.aabb, dynamic_tree.height, set_eq_write, node_write, hA, hB, hC, hK, hM,
      hac, ham, hcm, hba, hbc, hbm, hka, hkc, hkm, hca, hma, hmc] at hres
  | some t' =>
    simp only [balance_rotate_C_branch, balance_refit, refit_aabb, refit_height,
      dynamic_tree.aabb, dynamic_tree.height, set_eq_write, node_write, hA, hB, hC, hK, hM,
      hac, ham, hcm, hba, hbc, hbm, hka, hkc, hkm, hca, hma, hmc,
      Option.map_some', Option.bind_eq_bind, Option.some_bind, if_true, if_false,
      Option.some.injEq] at hres
    subst hres
    refine ⟨_, rfl, rfl, rfl, fun j => ?_⟩
    simp only [node_write, hA, hB, hC, hK, hM, hac, ham, hcm, hba, hbc, hbm, hka, hkc, hkm,
      hca, hma, hmc, Option.map_some', if_true, if_false]
    by_cases h1 : j = a
    · simp [h1, hac, ham]
    · by_cases h2 : j = c
      · simp [h2, hca, hcm]
      · by_cases h3 : j = move
        · simp [h3, hma, hmc]
        · simp [h1, h2, h3]

/-- The `// Rotate.` statement of `balance` with C going up, node by node: the strictly taller
of F and G (G on a tie) is kept under C and the other moves under A. -/
theorem balance_rotate_C_rotate_spec {α : Type} [LinearOrderedCommRing α]
    (t : dynamic_tree α) (a b c f g : Nat) (nA nB nC nF nG : tree_node α)
    (hA : t.node (some a) = some nA) (hB : t.node (some b) = some nB)
    (hC : t.node (some c) = some nC) (hF : t.node (some f) = some nF)
    (hG : t.node (some g) = some nG)
    (hab : a ≠ b) (hac : a ≠ c) (haf : a ≠ f) (hag : a ≠ g) (hbc : b ≠ c) (hbf : b ≠ f)
    (hbg : b ≠ g) (hcf : c ≠ f) (hcg : c ≠ g) (hfg : f ≠ g)
    (keep move : Nat) (nKeep nMove : tree_node α)
    (hkm : (keep, move, nKeep, nMove) =
      if nF.height > nG.height then (f, g, nF, nG) else (g, f, nG, nF)) :
    ∃ t', balance_rotate_C_rotate t (some a) (some b) (some c) (some f) (some g) = some t' ∧
      t'.m_root = t.m_root ∧ t'.m_free_list = t.m_free_list ∧
      ∀ j, t'.node (some j) =
        if j = a then
          some { nA with child2 := some move, aabb := enclosing_aabb nB.aabb nMove.aabb,
                         height := Max.max nB.height nMove.height + 1 }
        else if j = c then
          some { nC with child2 := some keep,
                         aabb := enclosing_aabb (enclosing_aabb nB.aabb nMove.aabb) nKeep.aabb,
                         height := Max.max (Max.max nB.height nMove.height + 1)
                           nKeep.height + 1 }
        else if j = move then some { nMove with parent := some a }
        else t.node (some j) := by
  by_cases hFG : nF.height > nG.height
  · rw [if_pos hFG] at hkm
    simp only [Prod.mk.injEq] at hkm
    obtain ⟨rfl, rfl, rfl, rfl⟩ := hkm
    have e := balance_rotate_C_branch_spec t a b c keep move nA nB nC nKeep nMove hA hB hC hF hG
      hac hag hcg (Ne.symm hab) hbc hbg (Ne.symm haf) (Ne.symm hcf) hfg
    simpa [balance_rotate_C_rotate, dynamic_tree.height, hF, hG, hFG] using e
  · rw [if_neg hFG] at hkm
    simp only [Prod.mk.injEq] at hkm
    obtain ⟨rfl, rfl, rfl, rfl⟩ := hkm
    have e := balance_rotate_C_branch_spec t a b c keep move nA nB nC nKeep nMove hA hB hC hG hF
      hac haf hcf (Ne.symm hab) hbc hbf (Ne.symm hag) (Ne.symm hcg) (Ne.symm hfg)
    simpa [balance_rotate_C_rotate, dynamic_tree.height, hF, hG, hFG] using e

/-- The rotation of `balance` that promotes C, node by node: when the height of C exceeds that
of B by more than 1, `balance(A)` returns C and leaves the arena as described. -/
theorem balance_C_up_spec {α : Type} [LinearOrderedCommRing α]
    (t : dynamic_tree α) (a b c f g : Nat) (nA nB nC nF nG : tree_node α)
    (hA : t.node (some a) = some nA) (hB : t.node (some b) = some nB)
    (hC : t.node (some c) = some nC) (hF : t.node (some f) = some nF)
    (hG : t.node (some g) = some nG)
    (hA1 : nA.child1 = some b) (hA2 : nA.child2 = some c)
    (hC1 : nC.child1 = some f) (hC2 : nC.child2 = some g)
    (hab : a ≠ b) (hac : a ≠ c) (haf : a ≠ f) (hag : a ≠ g) (hbc : b ≠ c) (hbf : b ≠ f)
    (hbg : b ≠ g) (hcf : c ≠ f) (hcg : c ≠ g) (hfg : f ≠ g)
    (hAh : 2 ≤ nA.height) (hbal : nC.height - nB.height > 1)
    (hP : ∀ p, nA.parent = some p →
      p ≠ a ∧ p ≠ b ∧ p ≠ c ∧ p ≠ f ∧ p ≠ g ∧ ∃ nP, t.node (some p) = some nP)
    (keep move : Nat) (nKeep nMove : tree_node α)
    (hkm : (keep, move, nKeep, nMove) =
      if nF.height > nG.height then (f, g, nF, nG) else (g, f, nG, nF)) :
    ∃ t', balance t (some a) = some (t', some c) ∧ t'.m_free_list = t.m_free_list ∧
      t'.m_root = (if nA.parent = null_node_id then some c else t.m_root) ∧
      ∀ j, t'.node (some j) =
        if j = a then
          some { nA with parent := some c, child2 := some move,
                         aabb := enclosing_aabb nB.aabb nMove.aabb,
                         height := Max.max nB.height nMove.height + 1 }
        else if j = c then
          some { nC with child1 := some a, parent := nA.parent, child2 := some keep,
                         aabb := enclosing_aabb (enclosing_aabb nB.aabb nMove.aabb) nKeep.aabb,
                         height := Max.max (Max.max nB.height nMove.height + 1)
                           nKeep.height + 1 }
        else if j = move then some { nMove with parent := some a }
        else if some j = nA.parent then
          (t.node (some j)).map fun nP =>
            if nP.child1 = some a then { nP with child1 := some c }
            else { nP with child2 := some c }
        else t.node (some j) := by
  have hl : nA.leaf = false := by simp [tree_node.leaf, hA1]
  have hh : ¬ nA.height < 2 := not_lt.mpr hAh
  have hmove : move = f ∨ move = g := by
    split_ifs at hkm <;> simp only [Prod.mk.injEq] at hkm
    · exact Or.inr hkm.2.1
    · exact Or.inl hkm.2.1
  obtain ⟨t1, e1, r1, l1, n1⟩ := balance_swap_spec t a c nA nC hA hC hac
  have unfold_eq : balance t (some a) =
      (((balance_swap t (some a) (some c)).bind fun t =>
        (balance_relink_C t (some a) (some c)).bind fun t =>
          (balance_rotate_C_rotate t (some a) (some b) (some c) (some f) (some g)).bind
            fun t => some (t, some c))) := by
    simp [balance, balance_rotate_C, hA, hB, hC, hF, hG, hl, hh, hA1, hA2, hC1, hC2, hbal]
  rw [unfold_eq, e1, Option.some_bind]
  have h1A := n1 a
  have h1B := n1 b
  have h1C := n1 c
  have h1F := n1 f
  have h1G := n1 g
  simp only [if_true, hac, Ne.symm hac, Ne.symm hab, Ne.symm haf, Ne.symm hag, hbc,
    Ne.symm hbc, Ne.symm hcf, Ne.symm hcg, if_false, hB, hF, hG] at h1A h1B h1C h1F h1G
  cases hpar : nA.parent with
  | none =>
    have e2 := balance_relink_C_root t1 a c _ h1C (by simp only; exact hpar)
    rw [e2, Option.some_bind]
    obtain ⟨t3, e3, r3, l3, n3⟩ := balance_rotate_C_rotate_spec
      { t1 with m_root := some c } a b c f g _ nB _ nF nG h1A h1B h1C h1F h1G
      hab hac haf hag hbc hbf hbg hcf hcg hfg keep move nKeep nMove hkm
    rw [e3, Option.some_bind]
    refine ⟨t3, rfl, by rw [l3]; exact l1, by rw [r3]; simp, fun j => ?_⟩
    rw [n3 j]
    by_cases hja : j = a
    · simp [hja]
    · by_cases hjc : j = c
      · simp [hjc, hac, Ne.symm hac, hpar]
      · by_cases hjm : j = move
        · subst hjm
          simp [hja, hjc]
        · simp only [hja, hjc, hjm, if_false]
          have := n1 j
          simp only [hja, hjc, if_false] at this
          simpa [node_with_root] using this
  | some p =>
    obtain ⟨hpa, hpb, hpc, hpf, hpg, nP, hP0⟩ := hP p hpar
    have h1P := n1 p
    simp only [hpa, hpc, if_false, hP0] at h1P
    obtain ⟨t2, e2, r2, l2, n2⟩ := balance_relink_C_parent t1 a c p _ nP h1C
      (by simp only; exact hpar) h1P
    rw [e2, Option.some_bind]
    have h2A := n2 a
    have h2B := n2 b
    have h2C := n2 c
    have h2F := n2 f
    have h2G := n2 g
    simp only [Ne.symm hpa, Ne.symm hpb, Ne.symm hpc, Ne.symm hpf, Ne.symm hpg, if_false,
      h1A, h1B, h1C, h1F, h1G] at h2A h2B h2C h2F h2G
    obtain ⟨t3, e3, r3, l3, n3⟩ := balance_rotate_C_rotate_spec
      t2 a b c f g _ nB _ nF nG h2A h2B h2C h2F h2G
      hab hac haf hag hbc hbf hbg hcf hcg hfg keep move nKeep nMove hkm
    rw [e3, Option.some_bind]
    refine ⟨t3, rfl, by rw [l3, l2]; exact l1, by rw [r3, r2, r1]; simp, fun j => ?_⟩
    rw [n3 j]
    have hpm : p ≠ move := by
      rcases hmove with h | h <;> rw [h]
      · exact hpf
      · exact hpg
    by_cases hja : j = a
    · simp [hja]
    · by_cases hjc : j = c
      · simp [hjc, hac, Ne.symm hac, hpar]
      · by_cases hjm : j = move
        · subst hjm
          simp [hja, hjc]
        · simp only [hja, hjc, hjm, if_false]
          rw [n2 j]
          by_cases hjp : j = p
          · subst hjp
            simp [hP0]
          · have hne : ¬ (some j = some p) := by
              intro hc
              exact hjp (Option.some.inj hc)
            simp only [hjp, hne, if_false]
            have := n1 j
            simpa only [hja, hjc, if_false] using this

/-- C27: let A have the children B (`child1`) and C (`child2`), and C the children F and G,
the five nodes being distinct nodes of the arena whose parent fields name A, A and C; let A have
no parent exactly when it is the root, and otherwise a parent P, another node, that lists A as
a child. When the height of C exceeds that of B by more than 1 (and A has a height of at
least 2, so that `balance` looks at its children), `balance(A)` returns C and afterwards: C
has the parent A had, P lists C in the place of A, and the root is C exactly when it was A; A
is `child1` of C and keeps B as `child1`; the strictly taller of F and G (G on a tie) is
`child2` of C and the other is `child2` of A; and the parent fields of A, B, F and G name
the node that lists them. -/
theorem balance_promotes_C {α : Type} [LinearOrderedCommRing α]
    (t : dynamic_tree α) (a b c f g : Nat) (nA nB nC nF nG : tree_node α)
    (hA : t.node (some a) = some nA) (hB : t.node (some b) = some nB)
    (hC : t.node (some c) = some nC) (hF : t.node (some f) = some nF)
    (hG : t.node (some g) = some nG)
    (hA1 : nA.child1 = some b) (hA2 : nA.child2 = some c)
    (hC1 : nC.child1 = some f) (hC2 : nC.child2 = some g)
    (hd : [a, b, c, f, g].Nodup)
    (hBp : nB.parent = some a) (hFp : nF.parent = some c) (hGp : nG.parent = some c)
    (hroot : nA.parent = null_node_id ↔ t.m_root = some a) (hrc : t.m_root ≠ some c)
    (hP : ∀ p, nA.parent = some p → p ∉ [a, b, c, f, g] ∧
      ∃ nP, t.node (some p) = some nP ∧ (nP.child1 = some a ∨ nP.child2 = some a))
    (hAh : 2 ≤ nA.height) (hbal : nC.height - nB.height > 1) :
    ∃ t' nA' nB' nC' nF' nG', balance t (some a) = some (t', some c) ∧
      t'.node (some a) = some nA' ∧ t'.node (some b) = some nB' ∧
      t'.node (some c) = some nC' ∧ t'.node (some f) = some nF' ∧
      t'.node (some g) = some nG' ∧
      nC'.parent = nA.parent ∧
      (∀ p nP, nA.parent = some p → t.node (some p) = some nP →
        ∃ nP', t'.node (some p) = some nP' ∧
          nP'.child1 = (if nP.child1 = some a then some c else nP.child1) ∧
          nP'.child2 = (if nP.child1 = some a then nP.child2 else some c)) ∧
      (t'.m_root = some c ↔ t.m_root = some a) ∧
      (t.m_root ≠ some a → t'.m_root = t.m_root) ∧
      nC'.child1 = some a ∧ nA'.parent = some c ∧ nA'.child1 = some b ∧
      nB'.parent = some a ∧
      (nF.height > nG.height →
        nC'.child2 = some f ∧ nA'.child2 = some g ∧ nF'.parent = some c ∧
          nG'.parent = some a) ∧
      (¬ nF.height > nG.height →
        nC'.child2 = some g ∧ nA'.child2 = some f ∧ nG'.parent = some c ∧
          nF'.parent = some a) := by
  simp only [List.nodup_cons, List.mem_cons, List.mem_singleton, not_or, List.not_mem_nil,
    not_false_eq_true, List.nodup_nil, and_true] at hd
  obtain ⟨⟨hab, hac, haf, hag⟩, ⟨hbc, hbf, hbg⟩, ⟨hcf, hcg⟩, hfg⟩ := hd
  have hP' : ∀ p, nA.parent = some p →
      p ≠ a ∧ p ≠ b ∧ p ≠ c ∧ p ≠ f ∧ p ≠ g ∧ ∃ nP, t.node (some p) = some nP := by
    intro p hp
    obtain ⟨hn, nP, hnP, _⟩ := hP p hp
    simp only [List.mem_cons, List.mem_singleton, not_or, List.not_mem_nil,
      not_false_eq_true, and_true] at hn
    exact ⟨hn.1, hn.2.1, hn.2.2.1, hn.2.2.2.1, hn.2.2.2.2, nP, hnP⟩
  have hroot' : t.m_root ≠ some a → nA.parent ≠ null_node_id := fun h1 h2 => h1 (hroot.mp h2)
  by_cases hFG : nF.height > nG.height
  · obtain ⟨t', e, _, r, n⟩ := balance_C_up_spec t a b c f g nA nB nC nF nG hA hB hC hF hG
      hA1 hA2 hC1 hC2 hab hac haf hag hbc hbf hbg hcf hcg hfg hAh hbal hP' f g nF nG
      (by rw [if_pos hFG])
    have ka := n a
    have kb := n b
    have kc := n c
    have kf := n f
    have kg := n g
    simp only [if_true, if_false, hab, hac, haf, hag, hbc, hbf, hbg, hcf, hcg, hfg, Ne.symm hab, Ne.symm hac, Ne.symm haf, Ne.symm hag,
      Ne.symm hbc, Ne.symm hbf, Ne.symm hbg, Ne.symm hcf, Ne.symm hcg, Ne.symm hfg] at ka kb kc kf kg
    have kb' : t'.node (some b) = some nB := by
      rw [kb]
      split_ifs with h
      · obtain ⟨_, h2, _⟩ := hP' b h.symm
        exact absurd rfl h2
      · exact hB
    have kf' : t'.node (some f) = some nF := by
      rw [kf]
      split_ifs with h
      · obtain ⟨_, _, _, h2, _⟩ := hP' f h.symm
        exact absurd rfl h2
      · exact hF
    refine ⟨t', _, nB, _, nF, _, e, ka, kb', kc, kf', kg, rfl, ?_, ?_, ?_, rfl, rfl, hA1, hBp,
      fun _ => ⟨rfl, rfl, hFp, rfl⟩, fun h => absurd hFG h⟩
    · intro p nP hp hnP
      obtain ⟨hpa, _, hpc, _, hpg, _⟩ := hP' p hp
      have kp := n p
      simp only [hpa, hpc, hpg, if_false, hp, if_true, hnP, Option.map_some'] at kp
      refine ⟨_, kp, ?_, ?_⟩ <;> split_ifs <;> rfl
    · rw [r]
      constructor
      · intro h
        by_contra hne
        rw [if_neg (hroot' hne)] at h
        exact hrc h
      · intro h
        rw [if_pos (hroot.mpr h)]
    · intro h
      rw [r, if_neg (hroot' h)]
  · obtain ⟨t', e, _, r, n⟩ := balance_C_up_spec t a b c f g nA nB nC nF nG hA hB hC hF hG
      hA1 hA2 hC1 hC2 hab hac haf hag hbc hbf hbg hcf hcg hfg hAh hbal hP' g f nG nF
      (by rw [if_neg hFG])
    have ka := n a
    have kb := n b
    have kc := n c
    have kf := n f
    have kg := n g
    simp only [if_true, if_false, hab, hac, haf, hag, hbc, hbf, hbg, hcf, hcg, hfg, Ne.symm hab, Ne.symm hac, Ne.symm haf, Ne.symm hag,
      Ne.symm hbc, Ne.symm hbf, Ne.symm hbg, Ne.symm hcf, Ne.symm hcg, Ne.symm hfg] at ka kb kc kf kg
    have kb' : t'.node (some b) = some nB := by
      rw [kb]
      split_ifs with h
      · obtain ⟨_, h2, _⟩ := hP' b h.symm
        exact absurd rfl h2
      · exact hB
    have kg' : t'.node (some g) = some nG := by
      rw [kg]
      split_ifs with h
      · obtain ⟨_, _, _, _, h2, _⟩ := hP' g h.symm
        exact absurd rfl h2
      · exact hG
    refine ⟨t', _, nB, _, _, nG, e, ka, kb', kc, kf, kg', rfl, ?_, ?_, ?_, rfl, rfl, hA1, hBp,
      fun h => absurd h hFG, fun _ => ⟨rfl, rfl, hGp, rfl⟩⟩
    · intro p nP hp hnP
      obtain ⟨hpa, _, hpc, hpf, _, _⟩ := hP' p hp
      have kp := n p
      simp only [hpa, hpc, hpf, if_false, hp, if_true, hnP, Option.map_some'] at kp
      refine ⟨_, kp, ?_, ?_⟩ <;> split_ifs <;> rfl
    · rw [r]
      constructor
      · intro h
        by_contra hne
        rw [if_neg (hroot' hne)] at h
        exact hrc h
      · intro h
        rw [if_pos (hroot.mpr h)]
    · intro h
      rw [r, if_neg (hroot' h)]

/-- C27 on `right_heavy_tree`: `balance(1)` returns 3; afterwards node 3 has the parent 0 and
the children 1 and 5, node 1 has the parent 3 and the children 2 and 4, and node 0 lists 3 in
the place of 1. -/
theorem balance_promotes_C_witness :
    ∃ t' nA' nC' nP', balance right_heavy_tree (some 1) = some (t', some 3) ∧
      t'.node (some 1) = some nA' ∧ t'.node (some 3) = some nC' ∧
      t'.node (some 0) = some nP' ∧
      nC'.parent = some 0 ∧ nC'.child1 = some 1 ∧ nC'.child2 = some 5 ∧
      nA'.parent = some 3 ∧ nA'.child1 = some 2 ∧ nA'.child2 = some 4 ∧
      nP'.child1 = some 3 ∧ nP'.child2 = some 7 := by
  obtain ⟨t', nA', nB', nC', nF', nG', e, hA, hB, hC, hF, hG, h1, h2, h3, h4, h5, h6, h7, h8,
      h9, h10⟩ :=
    balance_promotes_C right_heavy_tree 1 2 3 4 5
      (sample_node (some 0) (some 2) (some 3) 3 0 7) (sample_node (some 1) none none 0 0 1)
      (sample_node (some 1) (some 4) (some 5) 2 2 7) (sample_node (some 3) none none 0 2 3)
      (sample_node (some 3) (some 6) (some 8) 1 4 7) rfl rfl rfl rfl rfl rfl rfl rfl rfl
      (by decide) rfl rfl rfl (by decide) (by decide)
      (by
        intro p hp
        have hp0 : p = 0 := by
          simp only [sample_node, Option.some.injEq] at hp
          exact hp.symm
        subst hp0
        exact ⟨by decide, sample_node none (some 1) (some 7) 4 0 9, rfl, Or.inl rfl⟩)
      (by decide) (by decide)
  obtain ⟨nP', hP', p1, p2⟩ := h2 0 (sample_node none (some 1) (some 7) 4 0 9) rfl rfl
  obtain ⟨g1, g2, _, _⟩ := h10 (by decide)
  exact ⟨t', nA', nC', nP', e, hA, hC, hP', h1, h5, g1, h6, h7, g2, p1, p2⟩

/-- C28: on `left_heavy_root_tree`, where the root 0 has the children 1 (of height 2) and 2 (a
leaf), `balance(0)` indexes the arena with the null id; on `left_heavy_tree`, where node 1 has
the parent 0 (the root) and the children 2 (of height 2) and 3 (a leaf), `balance(1)` returns
2 and afterwards the root is 2, although node 2 has the parent 0 and node 0 still has the
children 1 and 7. -/
theorem balance_promotes_B_defect :
    (balance left_heavy_root_tree (some 0)).isNone = true ∧
    left_heavy_tree.m_root = some 0 ∧
    (balance left_heavy_tree (some 1)).map (fun r =>
      (r.2, r.1.m_root, (r.1.node (some 0)).map (fun n => n.child1),
        (r.1.node (some 0)).map (fun n => n.child2),
        (r.1.node (some 2)).map (fun n => n.parent))) =
      some (some 2, some 2, some (some 1), some (some 7), some (some 0)) := by
  decide

/-- The true height of a subtree does not depend on the fuel that suffices to compute it. -/
theorem subtree_height_unique {α : Type} (t : dynamic_tree α) (n m : Nat) (id : node_id_t)
    (h h' : Int) (hn : subtree_height n t id = some h) (hm : subtree_height m t id = some h') :
    h = h' := by
  induction n generalizing m id h h' with
  | zero => simp [subtree_height] at hn
  | succ n ih =>
    cases m with
    | zero => simp [subtree_height] at hm
    | succ m =>
      unfold subtree_height at hn hm
      cases hnode : t.node id with
      | none => simp [hnode] at hn
      | some x =>
        simp only [hnode] at hn hm
        by_cases hl : x.child1 = null_node_id
        · simp only [hl, if_true, Option.some.injEq] at hn hm
          rw [← hn, ← hm]
        · simp only [hl, if_false] at hn hm
          cases e1 : subtree_height n t x.child1 with
          | none => simp [e1] at hn
          | some a1 =>
            cases e2 : subtree_height n t x.child2 with
            | none => simp [e1, e2] at hn
            | some a2 =>
              cases e3 : subtree_height m t x.child1 with
              | none => simp [e3] at hm
              | some b1 =>
                cases e4 : subtree_height m t x.child2 with
                | none => simp [e3, e4] at hm
                | some b2 =>
                  simp only [e1, e2, e3, e4, Option.some.injEq] at hn hm
                  rw [← hn, ← hm, ih m x.child1 a1 b1 e1 e3, ih m x.child2 a2 b2 e2 e4]

/-- An internal node whose height field and whose children's height fields are true heights
has a height field of one more than the larger of its children's. -/
theorem true_height_of_children {α : Type} (t : dynamic_tree α) (c f g : Nat)
    (nC nF nG : tree_node α) (hC : t.node (some c) = some nC) (hF : t.node (some f) = some nF)
    (hG : t.node (some g) = some nG) (hC1 : nC.child1 = some f) (hC2 : nC.child2 = some g)
    (tC : has_true_height t (some c)) (tF : has_true_height t (some f))
    (tG : has_true_height t (some g)) :
    nC.height = Max.max nF.height nG.height + 1 := by
  obtain ⟨n, h, hs, hh⟩ := tC
  obtain ⟨nf, h1, hs1, hh1⟩ := tF
  obtain ⟨ng, h2, hs2, hh2⟩ := tG
  simp only [dynamic_tree.height, hC, hF, hG, Option.map_some', Option.some.injEq] at hh hh1 hh2
  subst hh hh1 hh2
  cases n with
  | zero => simp [subtree_height] at hs
  | succ n =>
    unfold subtree_height at hs
    simp only [hC, hC1, hC2] at hs
    cases e1 : subtree_height n t (some f) with
    | none => simp [e1] at hs
    | some a1 =>
      cases e2 : subtree_height n t (some g) with
      | none => simp [e1, e2] at hs
      | some a2 =>
        simp only [e1, e2] at hs
        have k1 := subtree_height_unique t n nf (some f) a1 _ e1 hs1
        have k2 := subtree_height_unique t n ng (some g) a2 _ e2 hs2
        subst k1 k2
        simpa using hs.symm

/-- C29: let A have the children B and C, and C the children F and G (five distinct nodes of
the arena, A with no parent or with a parent that is another node), let the height fields of
C, F and G be the true heights of their subtrees, let the height of C exceed that of B by 2,
and let A have a height of at least 2, so that `balance` looks at its children. After
`balance(A)`, which returns C, the height fields of the two children of C differ by at most 1,
the height fields of A and of C are one more than the larger of the height fields of their
children, and the height field of C is at most one more than it was. -/
theorem balance_heights_after_promoting_C {α : Type} [LinearOrderedCommRing α]
    (t : dynamic_tree α) (a b c f g : Nat) (nA nB nC nF nG : tree_node α)
    (hA : t.node (some a) = some nA) (hB : t.node (some b) = some nB)
    (hC : t.node (some c) = some nC) (hF : t.node (some f) = some nF)
    (hG : t.node (some g) = some nG)
    (hA1 : nA.child1 = some b) (hA2 : nA.child2 = some c)
    (hC1 : nC.child1 = some f) (hC2 : nC.child2 = some g)
    (hd : [a, b, c, f, g].Nodup)
    (hP : ∀ p, nA.parent = some p → p ∉ [a, b, c, f, g] ∧ ∃ nP, t.node (some p) = some nP)
    (tC : has_true_height t (some c)) (tF : has_true_height t (some f))
    (tG : has_true_height t (some g))
    (hAh : 2 ≤ nA.height) (hbal : nC.height - nB.height = 2) :
    ∃ t' nA' nC' n1 n2 m1 m2, balance t (some a) = some (t', some c) ∧
      t'.node (some a) = some nA' ∧ t'.node (some c) = some nC' ∧
      t'.node nC'.child1 = some n1 ∧ t'.node nC'.child2 = some n2 ∧
      t'.node nA'.child1 = some m1 ∧ t'.node nA'.child2 = some m2 ∧
      |n1.height - n2.height| ≤ 1 ∧
      nA'.height = Max.max m1.height m2.height + 1 ∧
      nC'.height = Max.max n1.height n2.height + 1 ∧
      nC'.height ≤ nC.height + 1 := by
  have hCh := true_height_of_children t c f g nC nF nG hC hF hG hC1 hC2 tC tF tG
  simp only [List.nodup_cons, List.mem_cons, List.mem_singleton, not_or, List.not_mem_nil,
    not_false_eq_true, List.nodup_nil, and_true] at hd
  obtain ⟨⟨hab, hac, haf, hag⟩, ⟨hbc, hbf, hbg⟩, ⟨hcf, hcg⟩, hfg⟩ := hd
  have hP' : ∀ p, nA.parent = some p →
      p ≠ a ∧ p ≠ b ∧ p ≠ c ∧ p ≠ f ∧ p ≠ g ∧ ∃ nP, t.node (some p) = some nP := by
    intro p hp
    obtain ⟨hn, nP, hnP⟩ := hP p hp
    simp only [List.mem_cons, List.mem_singleton, not_or, List.not_mem_nil,
      not_false_eq_true, and_true] at hn
    exact ⟨hn.1, hn.2.1, hn.2.2.1, hn.2.2.2.1, hn.2.2.2.2, nP, hnP⟩
  have hbal' : nC.height - nB.height > 1 := by omega
  by_cases hFG : nF.height > nG.height
  · obtain ⟨t', e, _, r, n⟩ := balance_C_up_spec t a b c f g nA nB nC nF nG hA hB hC hF hG
      hA1 hA2 hC1 hC2 hab hac haf hag hbc hbf hbg hcf hcg hfg hAh hbal' hP' f g nF nG
      (by rw [if_pos hFG])
    have ka := n a
    have kb := n b
    have kc := n c
    have kf := n f
    have kg := n g
    simp only [if_true, if_false, hab, hac, haf, hag, hbc, hbf, hbg, hcf, hcg, hfg,
      Ne.symm hab, Ne.symm hac, Ne.symm haf, Ne.symm hag, Ne.symm hbc, Ne.symm hbf,
      Ne.symm hbg, Ne.symm hcf, Ne.symm hcg, Ne.symm hfg] at ka kb kc kf kg
    have kb' : t'.node (some b) = some nB := by
      rw [kb]
      split_ifs with h
      · obtain ⟨_, h2, _⟩ := hP' b h.symm
        exact absurd rfl h2
      · exact hB
    have kf' : t'.node (some f) = some nF := by
      rw [kf]
      split_ifs with h
      · obtain ⟨_, _, _, h2, _⟩ := hP' f h.symm
        exact absurd rfl h2
      · exact hF
    refine ⟨t', _, _, _, nF, nB, _, e, ka, kc, ka, kf', by simp only [hA1]; exact kb', kg,
      ?_, rfl, rfl, ?_⟩
    · simp only
      rw [abs_le]
      rcases max_cases nF.height nG.height with ⟨h1, _⟩ | ⟨h1, _⟩ <;>
        rcases max_cases nB.height nG.height with ⟨h2, _⟩ | ⟨h2, _⟩ <;>
        constructor <;> omega
    · simp only
      rcases max_cases nF.height nG.height with ⟨h1, _⟩ | ⟨h1, _⟩ <;>
        rcases max_cases nB.height nG.height with ⟨h2, _⟩ | ⟨h2, _⟩ <;>
        rcases max_cases (Max.max nB.height nG.height + 1) nF.height with ⟨h3, _⟩ | ⟨h3, _⟩ <;>
        omega
  · obtain ⟨t', e, _, r, n⟩ := balance_C_up_spec t a b c f g nA nB nC nF nG hA hB hC hF hG
      hA1 hA2 hC1 hC2 hab hac haf hag hbc hbf hbg hcf hcg hfg hAh hbal' hP' g f nG nF
      (by rw [if_neg hFG])
    have ka := n a
    have kb := n b
    have kc := n c
    have kf := n f
    have kg := n g
    simp only [if_true, if_false, hab, hac, haf, hag, hbc, hbf, hbg, hcf, hcg, hfg,
      Ne.symm hab, Ne.symm hac, Ne.symm haf, Ne.symm hag, Ne.symm hbc, Ne.symm hbf,
      Ne.symm hbg, Ne.symm hcf, Ne.symm hcg, Ne.symm hfg] at ka kb kc kf kg
    have kb' : t'.node (some b) = some nB := by
      rw [kb]
      split_ifs with h
      · obtain ⟨_, h2, _⟩ := hP' b h.symm
        exact absurd rfl h2
      · exact hB
    have kg' : t'.node (some g) = some nG := by
      rw [kg]
      split_ifs with h
      · obtain ⟨_, _, _, _, h2, _⟩ := hP' g h.symm
        exact absurd rfl h2
      · exact hG
    refine ⟨t', _, _, _, nG, nB, _, e, ka, kc, ka, kg', by simp only [hA1]; exact kb', kf,
      ?_, rfl, rfl, ?_⟩
    · simp only
      rw [abs_le]
      rcases max_cases nF.height nG.height with ⟨h1, _⟩ | ⟨h1, _⟩ <;>
        rcases max_cases nB.height nF.height with ⟨h2, _⟩ | ⟨h2, _⟩ <;>
        constructor <;> omega
    · simp only
      rcases max_cases nF.height nG.height with ⟨h1, _⟩ | ⟨h1, _⟩ <;>
        rcases max_cases nB.height nF.height with ⟨h2, _⟩ | ⟨h2, _⟩ <;>
        rcases max_cases (Max.max nB.height nF.height + 1) nG.height with ⟨h3, _⟩ | ⟨h3, _⟩ <;>
        omega

/-- C29 on `right_heavy_tree`, where C (node 3) has the height 2 and B (node 2) the height 0:
`balance(1)` returns 3, and afterwards the height fields of the children of node 3 differ by
at most 1 and the height field of node 3 is at most 3. -/
theorem balance_heights_after_promoting_C_witness :
    ∃ t' nC' n1 n2, balance right_heavy_tree (some 1) = some (t', some 3) ∧
      t'.node (some 3) = some nC' ∧ t'.node nC'.child1 = some n1 ∧
      t'.node nC'.child2 = some n2 ∧ |n1.height - n2.height| ≤ 1 ∧
      nC'.height = Max.max n1.height n2.height + 1 ∧ nC'.height ≤ 2 + 1 := by
  obtain ⟨t', nA', nC', n1, n2, m1, m2, e, hA, hC, h1, h2, h3, h4, h5, h6, h7, h8⟩ :=
    balance_heights_after_promoting_C right_heavy_tree 1 2 3 4 5
      (sample_node (some 0) (some 2) (some 3) 3 0 7) (sample_node (some 1) none none 0 0 1)
      (sample_node (some 1) (some 4) (some 5) 2 2 7) (sample_node (some 3) none none 0 2 3)
      (sample_node (some 3) (some 6) (some 8) 1 4 7) rfl rfl rfl rfl rfl rfl rfl rfl rfl
      (by decide)
      (by
        intro p hp
        have hp0 : p = 0 := by
          simp only [sample_node, Option.some.injEq] at hp
          exact hp.symm
        subst hp0
        exact ⟨by decide, sample_node none (some 1) (some 7) 4 0 9, rfl⟩)
      ⟨3, 2, by decide, rfl⟩ ⟨1, 0, by decide, rfl⟩ ⟨2, 1, by decide, rfl⟩
      (by decide) (by decide)
  exact ⟨t', nC', n1, n2, e, hC, h1, h2, h5, h7, h8⟩

/-- The four statements that apply an impulse to two different bodies, accumulator by
accumulator. -/
theorem apply_impulse_distinct {α : Type} [LinearOrderedField α]
    (bodies : entity → Option (solver_body α)) (bodyA bodyB : entity)
    (inv_mA : α) (inv_IA : matrix3x3 α) (inv_mB : α) (inv_IB : matrix3x3 α)
    (J : jacobian α) (impulse : α) (bA bB : solver_body α)
    (hA : bodies bodyA = some bA) (hB : bodies bodyB = some bB) (hne : bodyA ≠ bodyB) :
    ∃ bodies', apply_impulse bodies bodyA bodyB inv_mA inv_IA inv_mB inv_IB J impulse =
        some bodies' ∧
      bodies' bodyA = some { bA with
        delta_linvel := bA.delta_linvel.add ((vector3.scale inv_mA J.j0).mul impulse)
        delta_angvel := bA.delta_angvel.add ((inv_IA.mul_vec J.j1).mul impulse) } ∧
      bodies' bodyB = some { bB with
        delta_linvel := bB.delta_linvel.add ((vector3.scale inv_mB J.j2).mul impulse)
        delta_angvel := bB.delta_angvel.add ((inv_IB.mul_vec J.j3).mul impulse) } := by
  have hne' : bodyB ≠ bodyA := Ne.symm hne
  cases hres : apply_impulse bodies bodyA bodyB inv_mA inv_IA inv_mB inv_IB J impulse with
  | none =>
    simp [apply_impulse, add_delta_linvel, add_delta_angvel, hA, hB, hne, hne'] at hres
  | some bodies' =>
    simp only [apply_impulse, add_delta_linvel, add_delta_angvel, hA, hB, hne, hne',
      Option.bind_eq_bind, Option.map_some', Option.some_bind, if_true, if_false,
      Option.some.injEq] at hres
    subst hres
    refine ⟨_, rfl, ?_, ?_⟩
    · simp only [hne, hne', if_true, if_false]
    · simp only [hne, hne', if_true, if_false]

/-- The denominator of the effective mass of a row along a unit direction, for two bodies
with zero inverse inertia: the sum of the inverse masses. -/
theorem J_invM_JT_zero_inertia {α : Type} [LinearOrderedField α] (bA bB : solver_body α)
    (rA rB d : vector3 α)
    (hzA : bA.inertia_world_inv = ⟨vector3_zero, vector3_zero, vector3_zero⟩)
    (hzB : bB.inertia_world_inv = ⟨vector3_zero, vector3_zero, vector3_zero⟩)
    (hd : dot d d = 1) :
    J_invM_JT (contact_jacobian rA rB d) bA bB = bA.mass_inv + bB.mass_inv := by
  simp only [J_invM_JT, contact_jacobian, hzA, hzB, matrix3x3.mul_vec, dot, vector3_zero,
    vector3.neg] at hd ⊢
  linear_combination (bA.mass_inv + bB.mass_inv) * hd

/-- C30: for a single contact between two different bodies with zero inverse inertia and
`inv_mA + inv_mB > 0`, whose friction rows are those that `prepare_constraints` builds for
two orthonormal tangents, if the trial friction impulse lies within the friction circle, then
`iterate_constraints` returns and, for each friction row, the relative velocity along the
row counted on the updated delta-velocities of the bodies equals the `rhs` of the row. -/
theorem iterate_constraints_zeroes_tangential_velocity {α : Type} [LinearOrderedField α]
    (sqrt : α → α) (EDYN_EPSILON : α) (st : solver_state α)
    (pair : contact_friction_row_pair α) (normal_row : constraint_row α)
    (bA bB : solver_body α) (cp : contact_point α) (t0 t1 : vector3 α) (i0 i1 : α)
    (hrows : st.friction_rows = [pair])
    (hrow : st.rows[st.row_start_index]? = some normal_row)
    (hA : st.bodies normal_row.bodyA = some bA) (hB : st.bodies normal_row.bodyB = some bB)
    (hne : normal_row.bodyA ≠ normal_row.bodyB)
    (hmA : normal_row.inv_mA = bA.mass_inv) (hmB : normal_row.inv_mB = bB.mass_inv)
    (hIA : normal_row.inv_IA = bA.inertia_world_inv)
    (hIB : normal_row.inv_IB = bB.inertia_world_inv)
    (hzA : bA.inertia_world_inv = ⟨vector3_zero, vector3_zero, vector3_zero⟩)
    (hzB : bB.inertia_world_inv = ⟨vector3_zero, vector3_zero, vector3_zero⟩)
    (hm : 0 < bA.mass_inv + bB.mass_inv)
    (h0 : pair.row0 = friction_row_of bA bB cp t0 i0)
    (h1 : pair.row1 = friction_row_of bA bB cp t1 i1)
    (ht00 : dot t0 t0 = 1) (ht11 : dot t1 t1 = 1) (ht01 : dot t0 t1 = 0)
    (hcircle : (friction_unclipped pair bA bB).2.1 * (friction_unclipped pair bA bB).2.1 +
        (friction_unclipped pair bA bB).2.2 * (friction_unclipped pair bA bB).2.2 ≤
      (pair.friction_coefficient * normal_row.impulse) *
        (pair.friction_coefficient * normal_row.impulse)) :
    ∃ st' bA' bB', iterate_constraints sqrt EDYN_EPSILON st = some st' ∧
      st'.bodies normal_row.bodyA = some bA' ∧ st'.bodies normal_row.bodyB = some bB' ∧
      friction_delta_relvel pair.row0 bA' bB' = pair.row0.rhs ∧
      friction_delta_relvel pair.row1 bA' bB' = pair.row1.rhs := by
  have hclip : friction_clip sqrt EDYN_EPSILON pair normal_row (friction_unclipped pair bA bB) =
      friction_unclipped pair bA bB := by
    unfold friction_clip
    simp only
    rw [if_neg]
    intro hc
    exact absurd hc.1 (not_lt.mpr hcircle)
  have hne0 : bA.mass_inv + bB.mass_inv ≠ 0 := ne_of_gt hm
  have hJ0 : pair.row0.J = contact_jacobian (contact_arms bA bB cp).1 (contact_arms bA bB cp).2
      t0 := by
    rw [h0]
    rfl
  have hJ1 : pair.row1.J = contact_jacobian (contact_arms bA bB cp).1 (contact_arms bA bB cp).2
      t1 := by
    rw [h1]
    rfl
  have he0 : pair.row0.eff_mass = 1 / (bA.mass_inv + bB.mass_inv) := by
    rw [h0]
    simp only [friction_row_of]
    rw [J_invM_JT_zero_inertia bA bB _ _ t0 hzA hzB ht00]
  have he1 : pair.row1.eff_mass = 1 / (bA.mass_inv + bB.mass_inv) := by
    rw [h1]
    simp only [friction_row_of]
    rw [J_invM_JT_zero_inertia bA bB _ _ t1 hzA hzB ht11]
  have hδ0 : (bA.mass_inv + bB.mass_inv) * (friction_unclipped pair bA bB).1.1 =
      pair.row0.rhs - friction_delta_relvel pair.row0 bA bB := by
    simp only [friction_unclipped, he0]
    field_simp
  have hδ1 : (bA.mass_inv + bB.mass_inv) * (friction_unclipped pair bA bB).1.2 =
      pair.row1.rhs - friction_delta_relvel pair.row1 bA bB := by
    simp only [friction_unclipped, he1]
    field_simp
  obtain ⟨b1, e1, a1, c1⟩ := apply_impulse_distinct st.bodies normal_row.bodyA normal_row.bodyB
    normal_row.inv_mA normal_row.inv_IA normal_row.inv_mB normal_row.inv_IB pair.row0.J
    (friction_unclipped pair bA bB).1.1 bA bB hA hB hne
  obtain ⟨b2, e2, a2, c2⟩ := apply_impulse_distinct b1 normal_row.bodyA normal_row.bodyB
    normal_row.inv_mA normal_row.inv_IA normal_row.inv_mB normal_row.inv_IB pair.row1.J
    (friction_unclipped pair bA bB).1.2 _ _ a1 c1 hne
  cases hrun : iterate_constraints sqrt EDYN_EPSILON st with
  | none =>
    simp [iterate_constraints, hrows, iterate_loop, iterate_step, hrow, hA, hB, hclip,
      friction_apply, e1, e2] at hrun
  | some st' =>
    simp only [iterate_constraints, hrows, List.length_singleton, iterate_loop, iterate_step,
      Nat.add_zero, hrow, List.getElem?_cons_zero, Option.bind_eq_bind, Option.some_bind, hA,
      hB, hclip, friction_apply, e1, e2, Option.some.injEq] at hrun
    subst hrun
    refine ⟨_, _, _, rfl, a2, c2, ?_, ?_⟩ <;> clear e1 e2 a1 c1 a2 c2 hclip hcircle <;>
      generalize (friction_unclipped pair bA bB).1.1 = d0 at hδ0 ⊢ <;>
      generalize (friction_unclipped pair bA bB).1.2 = d1 at hδ1 ⊢
    · simp only [friction_delta_relvel, hJ0, hJ1, dot, vector3.add, vector3.mul,
        vector3.scale, matrix3x3.mul_vec, contact_jacobian, vector3.neg, hmA, hmB, hIA, hIB,
        hzA, hzB, vector3_zero] at hδ0 ht00 ht01 ⊢
      linear_combination hδ0 + (bA.mass_inv + bB.mass_inv) * d0 * ht00 +
        (bA.mass_inv + bB.mass_inv) * d1 * ht01
    · simp only [friction_delta_relvel, hJ0, hJ1, dot, vector3.add, vector3.mul,
        vector3.scale, matrix3x3.mul_vec, contact_jacobian, vector3.neg, hmA, hmB, hIA, hIB,
        hzA, hzB, vector3_zero] at hδ1 ht11 ht01 ⊢
      linear_combination hδ1 + (bA.mass_inv + bB.mass_inv) * d1 * ht11 +
        (bA.mass_inv + bB.mass_inv) * d0 * ht01

/-- C30 on `sliding_state`: `iterate_constraints` returns, and the relative velocity along
each friction row counted on the updated accumulators of the bodies 0 and 1 equals the `rhs`
of the row. -/
theorem iterate_constraints_zeroes_tangential_velocity_witness :
    ∃ st' bA' bB', iterate_constraints Real.sqrt (1 / 100 : ℝ) sliding_state = some st' ∧
      st'.bodies (some 0) = some bA' ∧ st'.bodies (some 1) = some bB' ∧
      friction_delta_relvel (sliding_pair : contact_friction_row_pair ℝ).row0 bA' bB' =
        (sliding_pair : contact_friction_row_pair ℝ).row0.rhs ∧
      friction_delta_relvel (sliding_pair : contact_friction_row_pair ℝ).row1 bA' bB' =
        (sliding_pair : contact_friction_row_pair ℝ).row1.rhs :=
  iterate_constraints_zeroes_tangential_velocity Real.sqrt (1 / 100 : ℝ) sliding_state
    sliding_pair sliding_normal_row (point_mass_body ⟨1, 0, 0⟩) (point_mass_body ⟨0, 0, 0⟩)
    sliding_point ⟨1, 0, 0⟩ ⟨0, 0, 1⟩ 0 0 rfl rfl (by simp [sliding_state, sliding_normal_row])
    (by simp [sliding_state, sliding_normal_row]) (by simp [sliding_normal_row]) rfl rfl rfl rfl
    rfl rfl (by norm_num [point_mass_body]) rfl rfl (by norm_num [dot]) (by norm_num [dot])
    (by norm_num [dot])
    (by
      norm_num [friction_unclipped, friction_delta_relvel, sliding_pair, friction_row_of,
        J_invM_JT, contact_jacobian, contact_arms, body_origin, point_mass_body, sliding_point,
        sliding_normal_row, dot, cross, vector3.neg, vector3.sub, vector3.add, to_world_space,
        rotate, quaternion.mul, quaternion.mul_vec, conjugate, matrix3x3.mul_vec,
        vector3_zero])

/-- An angular correction by the zero vector leaves a unit orientation as it is: the
quaternion update adds nothing and `normalize` divides by 1. -/
theorem angular_correct_trivial {α : Type} [LinearOrderedField α] (sqrt : α → α)
    (EDYN_EPSILON : α) (bodies : entity → Option (solver_body α)) (e : entity)
    (J : vector3 α) (correction : α) (b : solver_body α) (hb : bodies e = some b)
    (hz : (b.inertia_world_inv.mul_vec J).mul correction = vector3_zero)
    (hu : b.orientation.length_sqr = 1) (hs : sqrt 1 = 1) (he : EDYN_EPSILON < 1) :
    angular_correct sqrt EDYN_EPSILON bodies e J correction = some bodies := by
  have horn : b.orientation.add ((quaternion.scale (1 / 2)
      ⟨((b.inertia_world_inv.mul_vec J).mul correction).x,
       ((b.inertia_world_inv.mul_vec J).mul correction).y,
       ((b.inertia_world_inv.mul_vec J).mul correction).z, 0⟩).mul b.orientation) =
      b.orientation := by
    rw [hz]
    simp [quaternion.add, quaternion.scale, quaternion.mul, vector3_zero]
  have hn : normalize sqrt EDYN_EPSILON b.orientation = some b.orientation := by
    simp [normalize, hu, hs, he, quaternion.div]
  unfold angular_correct
  simp only [hb, Option.bind_eq_bind, Option.some_bind, horn, hn, Option.some.injEq]
  funext e'
  by_cases h : e' = e
  · subst h
    simp [hb]
  · simp [h]

/-- The statement `pos += inv_m * J * correction` on a body of the view. -/
theorem shift_position_eq {α : Type} [LinearOrderedField α]
    (bodies : entity → Option (solver_body α)) (e : entity) (J : vector3 α) (correction : α)
    (b : solver_body α) (hb : bodies e = some b) :
    shift_position bodies e J correction = some fun e' =>
      if e' = e then
        some { b with position := b.position.add ((vector3.scale b.mass_inv J).mul correction) }
      else bodies e' := by
  simp [shift_position, hb]

/-- The inertia refresh on a body of the view. -/
theorem refresh_inertia_eq {α : Type} [LinearOrderedField α]
    (bodies : entity → Option (solver_body α)) (e : entity) (b : solver_body α)
    (hb : bodies e = some b) :
    refresh_inertia bodies e = some fun e' =>
      if e' = e then
        some { b with
          inertia_world_inv := ((to_matrix3x3 b.orientation).mul b.inertia_world_inv).mul
            (to_matrix3x3 b.orientation).transpose }
      else bodies e' := by
  simp [refresh_inertia, hb]

/-- The statements of `solve_position_constraints` that move the bodies, for two different
bodies with unit orientations whose angular corrections vanish: the positions are shifted
and the inertia tensors are multiplied by the rotation matrices on both sides. -/
theorem position_apply_linear {α : Type} [LinearOrderedField α] (sqrt : α → α)
    (EDYN_EPSILON : α) (bodies : entity → Option (solver_body α)) (bodyA bodyB : entity)
    (J : jacobian α) (correction : α) (bA bB : solver_body α)
    (hA : bodies bodyA = some bA) (hB : bodies bodyB = some bB) (hne : bodyA ≠ bodyB)
    (hzA : (bA.inertia_world_inv.mul_vec J.j1).mul correction = vector3_zero)
    (hzB : (bB.inertia_world_inv.mul_vec J.j3).mul correction = vector3_zero)
    (huA : bA.orientation.length_sqr = 1) (huB : bB.orientation.length_sqr = 1)
    (hs : sqrt 1 = 1) (he : EDYN_EPSILON < 1) :
    ∃ bodies', position_apply sqrt EDYN_EPSILON bodies bodyA bodyB J correction =
        some bodies' ∧
      bodies' bodyA = some { bA with
        position := bA.position.add ((vector3.scale bA.mass_inv J.j0).mul correction)
        inertia_world_inv := ((to_matrix3x3 bA.orientation).mul bA.inertia_world_inv).mul
          (to_matrix3x3 bA.orientation).transpose } ∧
      bodies' bodyB = some { bB with
        position := bB.position.add ((vector3.scale bB.mass_inv J.j2).mul correction)
        inertia_world_inv := ((to_matrix3x3 bB.orientation).mul bB.inertia_world_inv).mul
          (to_matrix3x3 bB.orientation).transpose } ∧
      ∀ e, e ≠ bodyA → e ≠ bodyB → bodies' e = bodies e := by
  have hne' : bodyB ≠ bodyA := Ne.symm hne
  obtain ⟨b1, hb1⟩ : ∃ b1 : entity → Option (solver_body α), b1 = fun e' =>
      if e' = bodyA then
        some { bA with
          position := bA.position.add ((vector3.scale bA.mass_inv J.j0).mul correction) }
      else bodies e' := ⟨_, rfl⟩
  have e1 : shift_position bodies bodyA J.j0 correction = some b1 := by
    rw [hb1]
    exact shift_position_eq bodies bodyA J.j0 correction bA hA
  have h1A : b1 bodyA = some { bA with
      position := bA.position.add ((vector3.scale bA.mass_inv J.j0).mul correction) } := by
    rw [hb1]
    simp
  have h1B : b1 bodyB = some bB := by
    rw [hb1]
    simp [hne', hB]
  have h1O : ∀ e, e ≠ bodyA → b1 e = bodies e := by
    intro e h
    rw [hb1]
    simp [h]
  clear hb1
  obtain ⟨b2, hb2⟩ : ∃ b2 : entity → Option (solver_body α), b2 = fun e' =>
      if e' = bodyB then
        some { bB with
          position := bB.position.add ((vector3.scale bB.mass_inv J.j2).mul correction) }
      else b1 e' := ⟨_, rfl⟩
  have e2 : shift_position b1 bodyB J.j2 correction = some b2 := by
    rw [hb2]
    exact shift_position_eq b1 bodyB J.j2 correction bB h1B
  have h2A : b2 bodyA = some { bA with
      position := bA.position.add ((vector3.scale bA.mass_inv J.j0).mul correction) } := by
    rw [hb2]
    simp [hne, h1A]
  have h2B : b2 bodyB = some { bB with
      position := bB.position.add ((vector3.scale bB.mass_inv J.j2).mul correction) } := by
    rw [hb2]
    simp
  have h2O : ∀ e, e ≠ bodyB → b2 e = b1 e := by
    intro e h
    rw [hb2]
    simp [h]
  clear hb2
  have e3 := angular_correct_trivial sqrt EDYN_EPSILON b2 bodyA J.j1 correction _ h2A hzA huA
    hs he
  have e4 := angular_correct_trivial sqrt EDYN_EPSILON b2 bodyB J.j3 correction _ h2B hzB huB
    hs he
  obtain ⟨b5, hb5⟩ : ∃ b5 : entity → Option (solver_body α), b5 = fun e' =>
      if e' = bodyA then
        some { bA with
          position := bA.position.add ((vector3.scale bA.mass_inv J.j0).mul correction)
          inertia_world_inv := ((to_matrix3x3 bA.orientation).mul bA.inertia_world_inv).mul
            (to_matrix3x3 bA.orientation).transpose }
      else b2 e' := ⟨_, rfl⟩
  have e5 : refresh_inertia b2 bodyA = some b5 := by
    rw [hb5]
    exact refresh_inertia_eq b2 bodyA _ h2A
  have h5A : b5 bodyA = some { bA with
      position := bA.position.add ((vector3.scale bA.mass_inv J.j0).mul correction)
      inertia_world_inv := ((to_matrix3x3 bA.orientation).mul bA.inertia_world_inv).mul
        (to_matrix3x3 bA.orientation).transpose } := by
    rw [hb5]
    simp
  have h5B : b5 bodyB = some { bB with
      position := bB.position.add ((vector3.scale bB.mass_inv J.j2).mul correction) } := by
    rw [hb5]
    simp [hne', h2B]
  have h5O : ∀ e, e ≠ bodyA → b5 e = b2 e := by
    intro e h
    rw [hb5]
    simp [h]
  clear hb5
  obtain ⟨b6, hb6⟩ : ∃ b6 : entity → Option (solver_body α), b6 = fun e' =>
      if e' = bodyB then
        some { bB with
          position := bB.position.add ((vector3.scale bB.mass_inv J.j2).mul correction)
          inertia_world_inv := ((to_matrix3x3 bB.orientation).mul bB.inertia_world_inv).mul
            (to_matrix3x3 bB.orientation).transpose }
      else b5 e' := ⟨_, rfl⟩
  have e6 : refresh_inertia b5 bodyB = some b6 := by
    rw [hb6]
    exact refresh_inertia_eq b5 bodyB _ h5B
  refine ⟨b6, ?_, ?_, ?_, ?_⟩
  · simp only [position_apply, Option.bind_eq_bind, e1, e2, e3, e4, e5, Option.some_bind]
    exact e6
  · rw [hb6]
    simp [hne, h5A]
  · rw [hb6]
    simp
  · intro e hea heb
    rw [hb6]
    simp only [heb, if_false]
    rw [h5O e hea, h2O e heb, h1O e hea]

/-- What the body of the loop of `solve_position_constraints` does on one contact: the normal
is refreshed, the distance recomputed, `min_dist` lowered to it, and the bodies moved. -/
theorem solve_position_contact_spec {α : Type} [LinearOrderedField α] (rate : α)
    (sqrt : α → α) (EDYN_EPSILON : α) (bodies : entity → Option (solver_body α))
    (cp : contact_point α) (min_dist : α)
    (r : (entity → Option (solver_body α)) × contact_point α × α)
    (h : solve_position_contact rate sqrt EDYN_EPSILON bodies cp min_dist = some r) :
    ∃ bA bB, bodies cp.body.1 = some bA ∧ bodies cp.body.2 = some bB ∧
      r.2.1 = { cp with normal := (position_correction_of rate bA bB cp).normal
                        distance := (position_correction_of rate bA bB cp).distance } ∧
      r.2.2 = Min.min (position_correction_of rate bA bB cp).distance min_dist ∧
      position_apply sqrt EDYN_EPSILON bodies cp.body.1 cp.body.2
        (position_correction_of rate bA bB cp).J
        (position_correction_of rate bA bB cp).correction = some r.1 := by
  unfold solve_position_contact at h
  simp only [Option.bind_eq_bind, Option.bind_eq_some] at h
  obtain ⟨bA, hA, bB, hB, b', happ, hr⟩ := h
  simp only [Option.some.injEq] at hr
  subst hr
  exact ⟨bA, bB, hA, hB, rfl, rfl, happ⟩

/-- The value of `min_dist` after the loop of `solve_position_constraints`: a bound is below
it exactly when it is below the initial value and below the recomputed distance of every
contact. -/
theorem solve_position_loop_min {α : Type} [LinearOrderedField α] (rate : α)
    (sqrt : α → α) (EDYN_EPSILON : α) (cps : List (entity × contact_point α)) :
    ∀ (bodies : entity → Option (solver_body α)) (min_dist : α)
      (r : (entity → Option (solver_body α)) × List (entity × contact_point α) × α),
      solve_position_loop rate sqrt EDYN_EPSILON bodies min_dist cps = some r →
      ∀ e, (e < r.2.2 ↔ e < min_dist ∧ ∀ p ∈ r.2.1, e < p.2.distance) := by
  induction cps with
  | nil =>
    intro bodies min_dist r h e
    simp only [solve_position_loop, Option.some.injEq] at h
    subst h
    simp
  | cons c rest ih =>
    intro bodies min_dist r h e
    obtain ⟨ent, cp⟩ := c
    unfold solve_position_loop at h
    cases h1 : solve_position_contact rate sqrt EDYN_EPSILON bodies cp min_dist with
    | none => simp [h1] at h
    | some r1 =>
      obtain ⟨b1, cp1, m1⟩ := r1
      simp only [h1] at h
      cases h2 : solve_position_loop rate sqrt EDYN_EPSILON b1 m1 rest with
      | none => simp [h2] at h
      | some r2 =>
        obtain ⟨b2, rest2, m2⟩ := r2
        simp only [h2, Option.some.injEq] at h
        subst h
        obtain ⟨bA, bB, _, _, hcp, hm, _⟩ :=
          solve_position_contact_spec rate sqrt EDYN_EPSILON bodies cp min_dist _ h1
        simp only at hcp hm
        have hi := ih b1 m1 _ h2 e
        simp only at hi ⊢
        rw [hi, hm, lt_min_iff]
        simp only [List.mem_cons, forall_eq_or_imp, hcp]
        tauto

/-- C21 (amended): `solve_position_constraints` returns true exactly when
`contact_position_solver_min_error` is strictly below 0 and strictly below the distance of
every contact as recomputed during the call, that is, strictly below the minimum of 0 and of
the recomputed distances. -/
theorem solve_position_constraints_flag {α : Type} [LinearOrderedField α]
    (rate min_error : α) (sqrt : α → α) (EDYN_EPSILON : α) (st st' : position_state α)
    (flag : Bool)
    (h : solve_position_constraints rate min_error sqrt EDYN_EPSILON st = some (st', flag)) :
    flag = true ↔ (min_error < 0 ∧ ∀ p ∈ st'.contact_points, min_error < p.2.distance) := by
  unfold solve_position_constraints at h
  simp only [Option.map_eq_some', Prod.mk.injEq] at h
  obtain ⟨r, hr, hst, hflag⟩ := h
  have := solve_position_loop_min rate sqrt EDYN_EPSILON st.contact_points st.bodies 0 r hr
    min_error
  rw [← hflag, ← hst]
  simp only [decide_eq_true_eq, gt_iff_lt]
  exact this

/-- The body of the loop of `solve_position_constraints` on a contact between two different
bodies with unit orientations whose angular corrections vanish: it returns, with the positions
shifted along the normal and the inertia tensors multiplied by the rotation matrices. -/
theorem solve_position_contact_linear {α : Type} [LinearOrderedField α] (rate : α)
    (sqrt : α → α) (EDYN_EPSILON : α) (bodies : entity → Option (solver_body α))
    (cp : contact_point α) (min_dist : α) (bA bB : solver_body α)
    (hA : bodies cp.body.1 = some bA) (hB : bodies cp.body.2 = some bB)
    (hne : cp.body.1 ≠ cp.body.2)
    (hzA : (bA.inertia_world_inv.mul_vec (position_correction_of rate bA bB cp).J.j1).mul
      (position_correction_of rate bA bB cp).correction = vector3_zero)
    (hzB : (bB.inertia_world_inv.mul_vec (position_correction_of rate bA bB cp).J.j3).mul
      (position_correction_of rate bA bB cp).correction = vector3_zero)
    (huA : bA.orientation.length_sqr = 1) (huB : bB.orientation.length_sqr = 1)
    (hs : sqrt 1 = 1) (he : EDYN_EPSILON < 1) :
    ∃ bodies', solve_position_contact rate sqrt EDYN_EPSILON bodies cp min_dist =
        some (bodies',
          { cp with normal := (position_correction_of rate bA bB cp).normal
                    distance := (position_correction_of rate bA bB cp).distance },
          Min.min (position_correction_of rate bA bB cp).distance min_dist) ∧
      bodies' cp.body.1 = some { bA with
        position := bA.position.add ((vector3.scale bA.mass_inv
          (position_correction_of rate bA bB cp).J.j0).mul
          (position_correction_of rate bA bB cp).correction)
        inertia_world_inv := ((to_matrix3x3 bA.orientation).mul bA.inertia_world_inv).mul
          (to_matrix3x3 bA.orientation).transpose } ∧
      bodies' cp.body.2 = some { bB with
        position := bB.position.add ((vector3.scale bB.mass_inv
          (position_correction_of rate bA bB cp).J.j2).mul
          (position_correction_of rate bA bB cp).correction)
        inertia_world_inv := ((to_matrix3x3 bB.orientation).mul bB.inertia_world_inv).mul
          (to_matrix3x3 bB.orientation).transpose } ∧
      ∀ e, e ≠ cp.body.1 → e ≠ cp.body.2 → bodies' e = bodies e := by
  obtain ⟨b', happ, h1, h2, h3⟩ := position_apply_linear sqrt EDYN_EPSILON bodies cp.body.1
    cp.body.2 (position_correction_of rate bA bB cp).J
    (position_correction_of rate bA bB cp).correction bA bB hA hB hne hzA hzB huA huB hs he
  refine ⟨b', ?_, h1, h2, h3⟩
  simp only [solve_position_contact, hA, hB, Option.bind_eq_bind, Option.some_bind, happ]

/-- The function `solve_position_constraints` on a single contact between two different
bodies with unit orientations whose angular corrections vanish. -/
theorem solve_position_single {α : Type} [LinearOrderedField α] (rate min_error : α)
    (sqrt : α → α) (EDYN_EPSILON : α) (st : position_state α) (ent : entity)
    (cp : contact_point α) (bA bB : solver_body α)
    (hcps : st.contact_points = [(ent, cp)])
    (hA : st.bodies cp.body.1 = some bA) (hB : st.bodies cp.body.2 = some bB)
    (hne : cp.body.1 ≠ cp.body.2)
    (hzA : (bA.inertia_world_inv.mul_vec (position_correction_of rate bA bB cp).J.j1).mul
      (position_correction_of rate bA bB cp).correction = vector3_zero)
    (hzB : (bB.inertia_world_inv.mul_vec (position_correction_of rate bA bB cp).J.j3).mul
      (position_correction_of rate bA bB cp).correction = vector3_zero)
    (huA : bA.orientation.length_sqr = 1) (huB : bB.orientation.length_sqr = 1)
    (hs : sqrt 1 = 1) (he : EDYN_EPSILON < 1) :
    ∃ st', solve_position_constraints rate min_error sqrt EDYN_EPSILON st =
        some (st', decide (Min.min (position_correction_of rate bA bB cp).distance 0 >
          min_error)) ∧
      st'.contact_points = [(ent,
        { cp with normal := (position_correction_of rate bA bB cp).normal
                  distance := (position_correction_of rate bA bB cp).distance })] ∧
      st'.bodies cp.body.1 = some { bA with
        position := bA.position.add ((vector3.scale bA.mass_inv
          (position_correction_of rate bA bB cp).J.j0).mul
          (position_correction_of rate bA bB cp).correction)
        inertia_world_inv := ((to_matrix3x3 bA.orientation).mul bA.inertia_world_inv).mul
          (to_matrix3x3 bA.orientation).transpose } ∧
      st'.bodies cp.body.2 = some { bB with
        position := bB.position.add ((vector3.scale bB.mass_inv
          (position_correction_of rate bA bB cp).J.j2).mul
          (position_correction_of rate bA bB cp).correction)
        inertia_world_inv := ((to_matrix3x3 bB.orientation).mul bB.inertia_world_inv).mul
          (to_matrix3x3 bB.orientation).transpose } ∧
      ∀ e, e ≠ cp.body.1 → e ≠ cp.body.2 → st'.bodies e = st.bodies e := by
  obtain ⟨b', hstep, h1, h2, h3⟩ := solve_position_contact_linear rate sqrt EDYN_EPSILON
    st.bodies cp 0 bA bB hA hB hne hzA hzB huA huB hs he
  refine ⟨⟨b', [(ent,
    { cp with normal := (position_correction_of rate bA bB cp).normal,
              distance := (position_correction_of rate bA bB cp).distance })]⟩,
    ?_, rfl, h1, h2, h3⟩
  simp only [solve_position_constraints, hcps, solve_position_loop, hstep, Option.map_some']

/-- The rotation matrix of an orientation takes the zero tensor to itself. -/
theorem refresh_zero_inertia {α : Type} [LinearOrderedField α] (m : matrix3x3 α) :
    (m.mul ⟨vector3_zero, vector3_zero, vector3_zero⟩).mul m.transpose =
      ⟨vector3_zero, vector3_zero, vector3_zero⟩ := by
  simp [matrix3x3.mul, matrix3x3.transpose, matrix3x3.column0, matrix3x3.column1,
    matrix3x3.column2, dot, vector3_zero]

/-- The zero tensor takes every vector to the zero vector. -/
theorem zero_inertia_mul_vec {α : Type} [LinearOrderedField α] (J : vector3 α) (c : α) :
    ((⟨vector3_zero, vector3_zero, vector3_zero⟩ : matrix3x3 α).mul_vec J).mul c =
      vector3_zero := by
  simp [matrix3x3.mul_vec, vector3.mul, dot, vector3_zero]

/-- The distance that `solve_position_constraints` computes for a contact whose normal is not
attached to a body, after the two bodies have been shifted by `u` and by `v`. -/
theorem position_distance_after_shift {α : Type} [LinearOrderedField α] (rate : α)
    (bA bB : solver_body α) (cp : contact_point α) (u v : vector3 α)
    (hatt : cp.normal_attachment = contact_normal_attachment.none)
    (mA mB : matrix3x3 α) (d : α) :
    (position_correction_of rate { bA with position := bA.position.add u, inertia_world_inv := mA }
        { bB with position := bB.position.add v, inertia_world_inv := mB }
        { cp with normal := cp.normal, distance := d }).distance =
      (position_correction_of rate bA bB cp).distance + dot (u.sub v) cp.normal := by
  simp only [position_correction_of, refreshed_normal, hatt, to_world_space, body_origin]
  generalize rotate bA.orientation cp.pivotA = pA
  generalize rotate bB.orientation cp.pivotB = pB
  cases hcA : bA.center_of_mass <;> cases hcB : bB.center_of_mass <;>
    simp only [dot, vector3.add, vector3.sub] <;> ring

/-- The values that `solve_position_constraints` computes for a contact with a unit normal that
is not attached to a body, between two bodies with zero inverse inertia: the normal is kept
and the correction is `-min(distance, 0) * rate / (inv_mA + inv_mB)`. -/
theorem position_correction_zero_inertia {α : Type} [LinearOrderedField α] (rate : α)
    (bA bB : solver_body α) (cp : contact_point α)
    (hatt : cp.normal_attachment = contact_normal_attachment.none)
    (hn : dot cp.normal cp.normal = 1)
    (hIA : bA.inertia_world_inv = ⟨vector3_zero, vector3_zero, vector3_zero⟩)
    (hIB : bB.inertia_world_inv = ⟨vector3_zero, vector3_zero, vector3_zero⟩) :
    (position_correction_of rate bA bB cp).normal = cp.normal ∧
    (position_correction_of rate bA bB cp).J.j0 = cp.normal ∧
    (position_correction_of rate bA bB cp).J.j2 = cp.normal.neg ∧
    (position_correction_of rate bA bB cp).correction =
      -(Min.min (position_correction_of rate bA bB cp).distance 0) * rate /
        (bA.mass_inv + bB.mass_inv) := by
  have hr : refreshed_normal cp bA.orientation bB.orientation = cp.normal := by
    simp [refreshed_normal, hatt]
  refine ⟨hr, ?_, ?_, ?_⟩
  · simp only [position_correction_of, contact_jacobian, hr]
  · simp only [position_correction_of, contact_jacobian, hr]
  · simp only [position_correction_of, hr]
    rw [J_invM_JT_zero_inertia bA bB _ _ cp.normal hIA hIB hn]
    ring

/-- C22: for a single contact with a unit normal that is not attached to a body, between two
different bodies with zero inverse inertia, unit orientations and `inv_mA + inv_mB > 0`, one
call of `solve_position_constraints` returns, having moved A by `+inv_mA * n * c` and B by
`-inv_mB * n * c` with `c = -min(d, 0) * rate / (inv_mA + inv_mB)`, where `d` is the distance
it recomputed; the distance that the next call recomputes is `(1 - rate) * d` when `d < 0`
and `d` when `d >= 0`, and is not below `d` when the rate is not negative. -/
theorem solve_position_single_contact_correction {α : Type} [LinearOrderedField α]
    (rate min_error : α) (sqrt : α → α) (EDYN_EPSILON : α) (st : position_state α)
    (ent : entity) (cp : contact_point α) (bA bB : solver_body α)
    (hcps : st.contact_points = [(ent, cp)])
    (hA : st.bodies cp.body.1 = some bA) (hB : st.bodies cp.body.2 = some bB)
    (hne : cp.body.1 ≠ cp.body.2)
    (hatt : cp.normal_attachment = contact_normal_attachment.none)
    (hn : dot cp.normal cp.normal = 1)
    (hIA : bA.inertia_world_inv = ⟨vector3_zero, vector3_zero, vector3_zero⟩)
    (hIB : bB.inertia_world_inv = ⟨vector3_zero, vector3_zero, vector3_zero⟩)
    (huA : bA.orientation.length_sqr = 1) (huB : bB.orientation.length_sqr = 1)
    (hm : 0 < bA.mass_inv + bB.mass_inv) (hs : sqrt 1 = 1) (he : EDYN_EPSILON < 1) :
    ∃ st' flag bA' bB' cp' st'' flag' cp'',
      solve_position_constraints rate min_error sqrt EDYN_EPSILON st = some (st', flag) ∧
      st'.bodies cp.body.1 = some bA' ∧ st'.bodies cp.body.2 = some bB' ∧
      st'.contact_points = [(ent, cp')] ∧
      bA'.position = bA.position.add ((vector3.scale bA.mass_inv cp.normal).mul
        (-(Min.min cp'.distance 0) * rate / (bA.mass_inv + bB.mass_inv))) ∧
      bB'.position = bB.position.sub ((vector3.scale bB.mass_inv cp.normal).mul
        (-(Min.min cp'.distance 0) * rate / (bA.mass_inv + bB.mass_inv))) ∧
      solve_position_constraints rate min_error sqrt EDYN_EPSILON st' = some (st'', flag') ∧
      st''.contact_points = [(ent, cp'')] ∧
      (cp'.distance < 0 → cp''.distance = (1 - rate) * cp'.distance) ∧
      (0 ≤ cp'.distance → cp''.distance = cp'.distance) ∧
      (0 ≤ rate → cp'.distance ≤ cp''.distance) := by
  obtain ⟨k1, k2, k3, k4⟩ := position_correction_zero_inertia rate bA bB cp hatt hn hIA hIB
  have hne0 : bA.mass_inv + bB.mass_inv ≠ 0 := ne_of_gt hm
  obtain ⟨st', e1, p1, a1, c1, _⟩ := solve_position_single rate min_error sqrt EDYN_EPSILON st
    ent cp bA bB hcps hA hB hne (by rw [hIA]; exact zero_inertia_mul_vec _ _)
    (by rw [hIB]; exact zero_inertia_mul_vec _ _) huA huB hs he
  rw [k1] at p1
  rw [k2] at a1
  rw [k3] at c1
  generalize hd : (position_correction_of rate bA bB cp).distance = d at e1 p1 a1 c1 k4
  generalize hc : (position_correction_of rate bA bB cp).correction = c at a1 c1 k4
  obtain ⟨st'', e2, p2, _, _, _⟩ := solve_position_single rate min_error sqrt EDYN_EPSILON st'
    ent { cp with normal := cp.normal, distance := d } _ _ p1 a1 c1 hne
    (by
      simp only [hIA]
      rw [refresh_zero_inertia]
      exact zero_inertia_mul_vec _ _)
    (by
      simp only [hIB]
      rw [refresh_zero_inertia]
      exact zero_inertia_mul_vec _ _) huA huB hs he
  have hdist := position_distance_after_shift rate bA bB cp
    ((vector3.scale bA.mass_inv cp.normal).mul c)
    ((vector3.scale bB.mass_inv cp.normal.neg).mul c) hatt
    (((to_matrix3x3 bA.orientation).mul bA.inertia_world_inv).mul
      (to_matrix3x3 bA.orientation).transpose)
    (((to_matrix3x3 bB.orientation).mul bB.inertia_world_inv).mul
      (to_matrix3x3 bB.orientation).transpose) d
  rw [hd] at hdist
  have hshift : dot (((vector3.scale bA.mass_inv cp.normal).mul c).sub
      ((vector3.scale bB.mass_inv cp.normal.neg).mul c)) cp.normal =
      -(Min.min d 0) * rate := by
    have hc' : (bA.mass_inv + bB.mass_inv) * c = -(Min.min d 0) * rate := by
      rw [k4]
      field_simp
      ring
    simp only [dot, vector3.sub, vector3.mul, vector3.scale, vector3.neg] at hn ⊢
    linear_combination hc' + (bA.mass_inv + bB.mass_inv) * c * hn
  rw [hshift] at hdist
  refine ⟨st', _, _, _, _, st'', _, _, e1, a1, c1, p1, ?_, ?_, e2, p2, ?_, ?_, ?_⟩
  · simp only
    rw [k4]
  · simp only
    rw [k4]
    simp only [vector3.add, vector3.sub, vector3.mul, vector3.scale, vector3.neg]
    congr 1 <;> ring
  · intro hlt
    simp only at hlt ⊢
    rw [hdist, min_eq_left (le_of_lt hlt)]
    ring
  · intro hge
    simp only at hge ⊢
    rw [hdist, min_eq_right hge]
    ring
  · intro hr
    simp only
    rw [hdist]
    have : Min.min d 0 ≤ 0 := min_le_right _ _
    nlinarith

/-- The distance that the position solver computes on `contact_state_at d` is `d`. -/
theorem contact_state_distance {α : Type} [LinearOrderedField α] (rate d : α) :
    (position_correction_of rate (point_mass_at ⟨0, d, 0⟩) (point_mass_at ⟨0, 0, 0⟩)
      sliding_point).distance = d := by
  simp [position_correction_of, point_mass_at, point_mass_body, sliding_point, refreshed_normal,
    to_world_space, body_origin, rotate, quaternion.mul, quaternion.mul_vec, conjugate, dot,
    vector3.add, vector3.sub]

/-- The run of `solve_position_constraints` on `contact_state_at d`: it returns, with the flag
`min(d, 0) > min_error` and the recomputed distance `d`. -/
theorem solve_position_contact_state {α : Type} [LinearOrderedField α] (rate min_error : α)
    (sqrt : α → α) (EDYN_EPSILON : α) (d : α) (hs : sqrt 1 = 1) (he : EDYN_EPSILON < 1) :
    ∃ st', solve_position_constraints rate min_error sqrt EDYN_EPSILON (contact_state_at d) =
        some (st', decide (Min.min d 0 > min_error)) ∧
      st'.contact_points = [(some 5, { (sliding_point : contact_point α) with distance := d })] := by
  obtain ⟨st', e, p, _⟩ := solve_position_single rate min_error sqrt EDYN_EPSILON
    (contact_state_at d) (some 5) sliding_point (point_mass_at ⟨0, d, 0⟩)
    (point_mass_at ⟨0, 0, 0⟩) rfl (by simp [contact_state_at, sliding_point])
    (by simp [contact_state_at, sliding_point]) (by simp [sliding_point])
    (zero_inertia_mul_vec _ _) (zero_inertia_mul_vec _ _)
    (by simp [point_mass_at, point_mass_body, quaternion.length_sqr])
    (by simp [point_mass_at, point_mass_body, quaternion.length_sqr]) hs he
  rw [contact_state_distance] at e p
  refine ⟨st', e, ?_⟩
  rw [p]
  simp [position_correction_of, refreshed_normal, sliding_point]

/-- C21, counterexample: with the tolerance `-1/200`, on the single contact at the distance
`-1/200`, `solve_position_constraints` returns false although the distance of every contact,
as recomputed during the call, is at least the tolerance. -/
theorem solve_position_false_at_tolerance :
    ∃ st', solve_position_constraints (1 / 5) (-1 / 200 : ℝ) Real.sqrt (1 / 1000)
        (contact_state_at (-1 / 200)) = some (st', false) ∧
      st'.contact_points ≠ [] ∧
      ∀ p ∈ st'.contact_points, (-1 / 200 : ℝ) ≤ p.2.distance := by
  obtain ⟨st', e, p⟩ := solve_position_contact_state (1 / 5) (-1 / 200 : ℝ) Real.sqrt
    (1 / 1000) (-1 / 200) Real.sqrt_one (by norm_num)
  refine ⟨st', ?_, ?_, ?_⟩
  · rw [e]
    norm_num
  · rw [p]
    simp
  · intro q hq
    rw [p] at hq
    simp only [List.mem_singleton] at hq
    rw [hq]

/-- C21 (amended) on the single contact at the distance `1/100`, with the tolerance `-1/200`:
`solve_position_constraints` returns true. -/
theorem solve_position_constraints_flag_witness :
    ∃ st', solve_position_constraints (1 / 5) (-1 / 200 : ℝ) Real.sqrt (1 / 1000)
        (contact_state_at (1 / 100)) = some (st', true) ∧
      ((-1 / 200 : ℝ) < 0 ∧ ∀ p ∈ st'.contact_points, (-1 / 200 : ℝ) < p.2.distance) := by
  obtain ⟨st', e, _⟩ := solve_position_contact_state (1 / 5) (-1 / 200 : ℝ) Real.sqrt
    (1 / 1000) (1 / 100) Real.sqrt_one (by norm_num)
  have e' : solve_position_constraints (1 / 5) (-1 / 200 : ℝ) Real.sqrt (1 / 1000)
      (contact_state_at (1 / 100)) = some (st', true) := by
    rw [e]
    norm_num
  exact ⟨st', e', (solve_position_constraints_flag (1 / 5) (-1 / 200 : ℝ) Real.sqrt (1 / 1000)
    (contact_state_at (1 / 100)) st' true e').mp rfl⟩

/-- C22 on `contact_state_at (-1/10)` with the rate `1/5`: the first call recomputes the
distance `-1/10` and moves body 0 to `(0, -9/100, 0)`, and the next call recomputes the
distance `-2/25`. -/
theorem solve_position_single_contact_correction_witness :
    ∃ st' flag bA' cp' st'' flag' cp'',
      solve_position_constraints (1 / 5) (-1 / 200 : ℝ) Real.sqrt (1 / 1000)
        (contact_state_at (-1 / 10)) = some (st', flag) ∧
      st'.bodies (some 0) = some bA' ∧ st'.contact_points = [(some 5, cp')] ∧
      cp'.distance = -1 / 10 ∧ bA'.position = ⟨0, -9 / 100, 0⟩ ∧
      solve_position_constraints (1 / 5) (-1 / 200 : ℝ) Real.sqrt (1 / 1000) st' =
        some (st'', flag') ∧
      st''.contact_points = [(some 5, cp'')] ∧ cp''.distance = -2 / 25 := by
  obtain ⟨st', flag, bA', bB', cp', st'', flag', cp'', e1, a1, _, p1, hA, _, e2, p2, h1, _, _⟩ :=
    solve_position_single_contact_correction (1 / 5) (-1 / 200 : ℝ) Real.sqrt (1 / 1000)
      (contact_state_at (-1 / 10)) (some 5) sliding_point (point_mass_at ⟨0, -1 / 10, 0⟩)
      (point_mass_at ⟨0, 0, 0⟩) rfl (by simp [contact_state_at, sliding_point])
      (by simp [contact_state_at, sliding_point]) (by simp [sliding_point]) rfl
      (by norm_num [dot, sliding_point]) rfl rfl
      (by norm_num [point_mass_at, point_mass_body, quaternion.length_sqr])
      (by norm_num [point_mass_at, point_mass_body, quaternion.length_sqr])
      (by norm_num [point_mass_at, point_mass_body]) Real.sqrt_one (by norm_num)
  obtain ⟨st0, e0, p0⟩ := solve_position_contact_state (1 / 5) (-1 / 200 : ℝ) Real.sqrt
    (1 / 1000) (-1 / 10) Real.sqrt_one (by norm_num)
  have hst : st0 = st' := by
    rw [e0] at e1
    simp only [Option.some.injEq, Prod.mk.injEq] at e1
    exact e1.1
  subst hst
  rw [p0] at p1
  simp only [List.cons.injEq, Prod.mk.injEq, true_and, and_true] at p1
  have hd : cp'.distance = -1 / 10 := by
    rw [← p1]
  refine ⟨st0, flag, bA', cp', st'', flag', cp'', e1, a1, ?_, hd, ?_, e2, p2, ?_⟩
  · rw [p0, p1]
  · rw [hA, hd]
    norm_num [point_mass_at, point_mass_body, sliding_point, vector3.add, vector3.mul,
      vector3.scale]
  · rw [h1 (by rw [hd]; norm_num), hd]
    norm_num

/-- Rotating by a unit quaternion undoes the rotation by its conjugate. -/
theorem rotate_conjugate_cancel {α : Type} [LinearOrderedCommRing α] (q : quaternion α)
    (v : vector3 α) (hq : q.x * q.x + q.y * q.y + q.z * q.z + q.w * q.w = 1) :
    rotate q (rotate (conjugate q) v) = v := by
  have hx : (rotate q (rotate (conjugate q) v)).x = v.x := by
    simp only [rotate, quaternion.mul, quaternion.mul_vec, conjugate]
    linear_combination (v.x * (q.x * q.x + q.y * q.y + q.z * q.z + q.w * q.w + 1)) * hq
  have hy : (rotate q (rotate (conjugate q) v)).y = v.y := by
    simp only [rotate, quaternion.mul, quaternion.mul_vec, conjugate]
    linear_combination (v.y * (q.x * q.x + q.y * q.y + q.z * q.z + q.w * q.w + 1)) * hq
  have hz : (rotate q (rotate (conjugate q) v)).z = v.z := by
    simp only [rotate, quaternion.mul, quaternion.mul_vec, conjugate]
    linear_combination (v.z * (q.x * q.x + q.y * q.y + q.z * q.z + q.w * q.w + 1)) * hq
  cases hr : rotate q (rotate (conjugate q) v) with
  | mk x y z =>
    rw [hr] at hx hy hz
    cases v
    simp only at hx hy hz
    rw [hx, hy, hz]

/-- C23: in the body of the loop of `solve_position_constraints`, a point tagged
`normal_on_A` gets the normal `rotate(ornA, local_normal)`, one tagged `normal_on_B` gets
`rotate(ornB, local_normal)`, with the orientations the bodies have when the contact is
processed, and one tagged `none` keeps its normal; and the contact point that
`create_contact_point` stores for a candidate has `local_normal = rotate(conjugate(orn),
rp.normal)` for the body the normal is attached to, so that, for unit orientations, the
refreshed normal is the normal of the candidate. -/
theorem position_normal_refresh {α : Type} [LinearOrderedField α] (rate : α)
    (sqrt : α → α) (EDYN_EPSILON : α) :
    (∀ (bodies : entity → Option (solver_body α)) (cp : contact_point α) (min_dist : α)
      (r : (entity → Option (solver_body α)) × contact_point α × α),
      solve_position_contact rate sqrt EDYN_EPSILON bodies cp min_dist = some r →
      ∃ bA bB, bodies cp.body.1 = some bA ∧ bodies cp.body.2 = some bB ∧
        (cp.normal_attachment = contact_normal_attachment.normal_on_A →
          r.2.1.normal = rotate bA.orientation cp.local_normal) ∧
        (cp.normal_attachment = contact_normal_attachment.normal_on_B →
          r.2.1.normal = rotate bB.orientation cp.local_normal) ∧
        (cp.normal_attachment = contact_normal_attachment.none →
          r.2.1.normal = cp.normal)) ∧
    (∀ (reg : registry α) (manifold_entity : entity) (manifold : contact_manifold)
      (rp : collision_point α) (r : registry α × contact_manifold × entity)
      (ornA ornB : quaternion α),
      create_contact_point reg manifold_entity manifold rp = some r →
      reg.orientation manifold.body.1 = some ornA →
      reg.orientation manifold.body.2 = some ornB →
      ornA.length_sqr = 1 → ornB.length_sqr = 1 →
      ∃ cp, r.1.contact_points = reg.contact_points ++ [(r.2.2, cp)] ∧
        (rp.normal_attachment = contact_normal_attachment.normal_on_A →
          cp.local_normal = rotate (conjugate ornA) rp.normal) ∧
        (rp.normal_attachment = contact_normal_attachment.normal_on_B →
          cp.local_normal = rotate (conjugate ornB) rp.normal) ∧
        refreshed_normal cp ornA ornB = rp.normal) := by
  constructor
  · intro bodies cp min_dist r h
    obtain ⟨bA, bB, hA, hB, hcp, _, _⟩ :=
      solve_position_contact_spec rate sqrt EDYN_EPSILON bodies cp min_dist r h
    refine ⟨bA, bB, hA, hB, ?_, ?_, ?_⟩ <;> intro hatt <;> rw [hcp] <;>
      simp [position_correction_of, refreshed_normal, hatt]
  · intro reg manifold_entity manifold rp r ornA ornB h hoA hoB huA huB
    unfold create_contact_point at h
    simp only at h
    split at h
    · simp only [Option.bind_eq_bind, Option.bind_eq_some] at h
      obtain ⟨m', hm', ln, hln, hr⟩ := h
      simp only [Option.some.injEq] at hr
      subst hr
      have hbody : m'.body = manifold.body := by
        unfold contact_manifold.set_point at hm'
        split at hm'
        · simp only [Option.some.injEq] at hm'
          rw [← hm']
        · cases hm'
      refine ⟨_, rfl, ?_, ?_, ?_⟩
      · intro hatt
        simp only [create_local_normal, hatt, hbody, hoA, Option.map_some',
          Option.some.injEq] at hln
        exact hln.symm
      · intro hatt
        simp only [create_local_normal, hatt, hbody, hoB, Option.map_some',
          Option.some.injEq] at hln
        exact hln.symm
      · cases hatt : rp.normal_attachment with
        | none => simp [refreshed_normal, hatt]
        | normal_on_A =>
          simp only [create_local_normal, hatt, hbody, hoA, Option.map_some',
            Option.some.injEq] at hln
          simp only [refreshed_normal, hatt, ← hln]
          exact rotate_conjugate_cancel ornA rp.normal huA
        | normal_on_B =>
          simp only [create_local_normal, hatt, hbody, hoB, Option.map_some',
            Option.some.injEq] at hln
          simp only [refreshed_normal, hatt, ← hln]
          exact rotate_conjugate_cancel ornB rp.normal huB
    · cases h

/-- The correction on `tilted_state`, whose contact has the distance 0, is 0, whatever the
attachment of the normal. -/
theorem tilted_correction_zero {α : Type} [LinearOrderedField α] (rate : α)
    (cp : contact_point α) (hA : cp.pivotA = ⟨0, 0, 0⟩) (hB : cp.pivotB = ⟨0, 0, 0⟩) :
    (position_correction_of rate tilted_body (point_mass_at ⟨0, 0, 0⟩) cp).distance = 0 ∧
    (position_correction_of rate tilted_body (point_mass_at ⟨0, 0, 0⟩) cp).correction = 0 := by
  have hd : (position_correction_of rate tilted_body (point_mass_at ⟨0, 0, 0⟩) cp).distance
      = 0 := by
    simp [position_correction_of, tilted_body, point_mass_at, point_mass_body, hA, hB,
      to_world_space, body_origin, rotate, quaternion.mul, quaternion.mul_vec, conjugate, dot,
      vector3.add, vector3.sub]
  refine ⟨hd, ?_⟩
  have : (position_correction_of rate tilted_body (point_mass_at ⟨0, 0, 0⟩) cp).correction =
      -(Min.min (position_correction_of rate tilted_body (point_mass_at ⟨0, 0, 0⟩) cp).distance
        0) * rate * (1 / J_invM_JT
          (position_correction_of rate tilted_body (point_mass_at ⟨0, 0, 0⟩) cp).J tilted_body
          (point_mass_at ⟨0, 0, 0⟩)) := rfl
  rw [this, hd]
  simp

/-- C23 on concrete inputs: on the bodies of `tilted_state`, the contact `attached_point`,
tagged `normal_on_A`, gets the normal `rotate(ornA, local_normal)`; and the contact point that
`create_contact_point` stores for `sample_candidate` refreshes to the normal of the
candidate. -/
theorem position_normal_refresh_witness :
    (∃ r, solve_position_contact (1 / 5 : ℝ) Real.sqrt (1 / 1000)
        (tilted_state : position_state ℝ).bodies attached_point 0 = some r ∧
      r.2.1.normal = rotate ⟨0, 0, 3 / 5, 4 / 5⟩ ⟨0, 1, 0⟩) ∧
    (∃ r cp, create_contact_point sample_registry (some 2)
        ⟨(some 0, some 1), [some 5, none, none, none]⟩ sample_candidate = some r ∧
      r.1.contact_points = [(r.2.2, cp)] ∧
      refreshed_normal cp ⟨0, 0, 0, 1⟩ ⟨0, 0, 0, 1⟩ = ⟨1, 0, 0⟩) := by
  constructor
  · obtain ⟨k1, k2⟩ := tilted_correction_zero (1 / 5 : ℝ) attached_point rfl rfl
    obtain ⟨b', e, _⟩ := solve_position_contact_linear (1 / 5 : ℝ) Real.sqrt (1 / 1000)
      (tilted_state : position_state ℝ).bodies attached_point 0 tilted_body
      (point_mass_at ⟨0, 0, 0⟩) (by simp [tilted_state, attached_point, sliding_point])
      (by simp [tilted_state, attached_point, sliding_point])
      (by simp [attached_point, sliding_point])
      (by rw [k2]; simp [vector3.mul, vector3_zero])
      (by rw [k2]; simp [vector3.mul, vector3_zero])
      (by norm_num [tilted_body, quaternion.length_sqr])
      (by norm_num [point_mass_at, point_mass_body, quaternion.length_sqr])
      Real.sqrt_one (by norm_num)
    obtain ⟨bA, bB, hA, _, h1, _, _⟩ := (position_normal_refresh (1 / 5 : ℝ) Real.sqrt
      (1 / 1000)).1 _ _ _ _ e
    have hbA : bA = tilted_body := by
      simp [tilted_state, attached_point, sliding_point] at hA
      exact hA.symm
    refine ⟨_, e, ?_⟩
    rw [h1 rfl, hbA]
    rfl
  · cases h : create_contact_point sample_registry (some 2)
        ⟨(some 0, some 1), [some 5, none, none, none]⟩ sample_candidate with
    | none =>
      exfalso
      simp [create_contact_point, contact_manifold.num_points, max_contacts,
        contact_manifold.set_point, create_local_normal, sample_candidate, sample_registry] at h
    | some r =>
      obtain ⟨cp, hcp, _, _, hn⟩ := (position_normal_refresh (1 / 5 : ℚ) (fun x => x)
        (1 / 1000)).2 sample_registry (some 2) ⟨(some 0, some 1), [some 5, none, none, none]⟩
        sample_candidate r ⟨0, 0, 0, 1⟩ ⟨0, 0, 0, 1⟩ h rfl rfl
        (by norm_num [quaternion.length_sqr]) (by norm_num [quaternion.length_sqr])
      exact ⟨r, cp, rfl, hcp, hn⟩

/-- C24: on `tilted_state`, whose body 0 has the unit orientation `(0, 0, 3/5, 4/5)` and the
inverse inertia `R(orn) * I_body_inv * R(orn)^T` with `I_body_inv` the diagonal 1, 2, 3, and
whose contact has the distance 0, `solve_position_constraints` returns and leaves the
orientation of body 0 as it was, but its inverse inertia is neither what it was nor
`R(orn') * I_body_inv * R(orn')^T` for the orientation `orn'` afterwards. -/
theorem solve_position_rotates_world_inertia :
    ∃ st' flag bA' cp', solve_position_constraints (1 / 5) (-1 / 200 : ℝ) Real.sqrt (1 / 1000)
        tilted_state = some (st', flag) ∧
      st'.bodies (some 0) = some bA' ∧ st'.contact_points = [(some 5, cp')] ∧
      0 ≤ cp'.distance ∧
      (tilted_body : solver_body ℝ).inertia_world_inv =
        ((to_matrix3x3 (tilted_body : solver_body ℝ).orientation).mul tilted_body_inertia).mul
          (to_matrix3x3 (tilted_body : solver_body ℝ).orientation).transpose ∧
      bA'.orientation = (tilted_body : solver_body ℝ).orientation ∧
      bA'.inertia_world_inv ≠ (tilted_body : solver_body ℝ).inertia_world_inv ∧
      bA'.inertia_world_inv ≠
        ((to_matrix3x3 bA'.orientation).mul tilted_body_inertia).mul
          (to_matrix3x3 bA'.orientation).transpose := by
  obtain ⟨k1, k2⟩ := tilted_correction_zero (1 / 5 : ℝ) sliding_point rfl rfl
  obtain ⟨st', e, p, a, _⟩ := solve_position_single (1 / 5) (-1 / 200 : ℝ) Real.sqrt (1 / 1000)
    tilted_state (some 5) sliding_point tilted_body (point_mass_at ⟨0, 0, 0⟩) rfl
    (by simp [tilted_state, sliding_point]) (by simp [tilted_state, sliding_point])
    (by simp [sliding_point])
    (by rw [k2]; simp [vector3.mul, vector3_zero])
    (by rw [k2]; simp [vector3.mul, vector3_zero])
    (by norm_num [tilted_body, quaternion.length_sqr])
    (by norm_num [point_mass_at, point_mass_body, quaternion.length_sqr])
    Real.sqrt_one (by norm_num)
  have hne : (((to_matrix3x3 (tilted_body : solver_body ℝ).orientation).mul
      (tilted_body : solver_body ℝ).inertia_world_inv).mul
      (to_matrix3x3 (tilted_body : solver_body ℝ).orientation).transpose).row0.x ≠
      ((tilted_body : solver_body ℝ).inertia_world_inv).row0.x := by
    norm_num [tilted_body, tilted_body_inertia, point_mass_body, to_matrix3x3,
      quaternion.length_sqr, matrix3x3.mul, matrix3x3.transpose, matrix3x3.column0,
      matrix3x3.column1, matrix3x3.column2, dot]
  refine ⟨st', _, _, _, e, a, p, ?_, rfl, rfl, ?_, ?_⟩
  · simp only
    rw [k1]
  · intro h
    exact hne (congrArg (fun m => m.row0.x) h)
  · intro h
    exact hne (congrArg (fun m => m.row0.x) h)

/-! ## Narrow phase -/

section narrow_phase_theorems

variable {α : Type} [LinearOrderedField α]

/-- The axis that `towards_A` returns points from B towards A. -/
theorem towards_A_oriented (posA posB dir : vector3 α) :
    0 ≤ dot (posA.sub posB) (towards_A posA posB dir) := by
  unfold towards_A
  split_ifs with h
  · have e : dot (posA.sub posB) (dir.mul (-1)) = -(dot (posA.sub posB) dir) := by
      simp only [dot, vector3.mul]; ring
    rw [e]; linarith
  · exact not_lt.mp h

/-- The search of the axis never lowers `distance`. -/
theorem axis_update_foldl_le (cs : List (vector3 α × α)) :
    ∀ st : α × vector3 α, st.1 ≤ (cs.foldl axis_update st).1 := by
  induction cs with
  | nil => intro st; exact le_refl _
  | cons c cs ih =>
    intro st
    rw [List.foldl_cons]
    refine le_trans ?_ (ih _)
    unfold axis_update
    split_ifs with h
    · exact le_of_lt h
    · exact le_refl _

/-- After the search of the axis, `distance` is at least the gap of every candidate. -/
theorem axis_update_foldl_ge (cs : List (vector3 α × α)) :
    ∀ st : α × vector3 α, ∀ c ∈ cs, c.2 ≤ (cs.foldl axis_update st).1 := by
  induction cs with
  | nil => intro st c hc; cases hc
  | cons c0 cs ih =>
    intro st c hc
    rw [List.foldl_cons]
    rcases List.mem_cons.mp hc with h | h
    · subst h
      refine le_trans ?_ (axis_update_foldl_le cs _)
      unfold axis_update
      split_ifs with h
      · exact le_refl _
      · exact not_lt.mp h
    · exact ih _ c h

/-- After the search of the axis, the pair `(distance, sep_axis)` is the initial one or that
of a candidate. -/
theorem axis_update_foldl_mem (cs : List (vector3 α × α)) :
    ∀ st : α × vector3 α,
      cs.foldl axis_update st = st ∨ ∃ c ∈ cs, cs.foldl axis_update st = (c.2, c.1) := by
  induction cs with
  | nil => intro st; exact Or.inl rfl
  | cons c0 cs ih =>
    intro st
    rw [List.foldl_cons]
    rcases ih (axis_update st c0) with h | ⟨c, hc, h⟩
    · rw [h]
      unfold axis_update
      split_ifs with h0
      · exact Or.inr ⟨c0, List.mem_cons_self _ _, rfl⟩
      · exact Or.inl rfl
    · exact Or.inr ⟨c, List.mem_cons_of_mem _ hc, h⟩

/-- Every candidate axis of the cylinder against the box points from B towards A. -/
theorem cylinder_box_candidates_oriented (L : narrow_phase_library α)
    (support_feature_tolerance : α) (shA : cylinder_shape α) (shB : box_shape α)
    (ctx : collision_context α) :
    ∀ c ∈ cylinder_box_candidates L support_feature_tolerance shA shB ctx,
      0 ≤ dot (ctx.posA.sub ctx.posB) c.1 := by
  intro c hc
  unfold cylinder_box_candidates at hc
  simp only [List.mem_append, List.mem_map, List.mem_filterMap, List.mem_flatten,
    List.mem_singleton, List.mem_range] at hc
  rcases hc with (((⟨i, -, h⟩ | h) | ⟨i, -, h⟩) | ⟨i, -, h⟩) | ⟨l, ⟨i, -, hl⟩, h⟩
  · rw [← h]; exact towards_A_oriented _ _ _
  · rw [h]; exact towards_A_oriented _ _ _
  · unfold box_edge_candidate at h
    split at h
    · cases h
    · cases h; exact towards_A_oriented _ _ _
  · unfold box_vertex_candidate at h
    simp only at h
    split at h
    · cases h
    · cases h; exact towards_A_oriented _ _ _
  · subst hl
    simp only [List.mem_filterMap, List.mem_range] at h
    obtain ⟨j, -, h⟩ := h
    unfold cap_edge_candidate at h
    simp only at h
    split_ifs at h
    cases h; exact towards_A_oriented _ _ _

/-- The axis of a box face is a candidate. -/
theorem box_face_candidate_mem (L : narrow_phase_library α) (support_feature_tolerance : α)
    (shA : cylinder_shape α) (shB : box_shape α) (ctx : collision_context α) (i : Nat)
    (hi : i < 3) :
    box_face_candidate L shA shB ctx i ∈
      cylinder_box_candidates L support_feature_tolerance shA shB ctx := by
  unfold cylinder_box_candidates
  simp only [List.mem_append, List.mem_map, List.mem_range]
  exact Or.inl (Or.inl (Or.inl (Or.inl ⟨i, hi, rfl⟩)))

/-- The normal of the triangle is a candidate. -/
theorem triangle_face_candidate_mem (L : narrow_phase_library α) (capsule : capsule_shape α)
    (tri_vertices : Nat → vector3 α) (tri_normal : vector3 α)
    (capsule_vertices : Nat → vector3 α) (posA : vector3 α) :
    triangle_face_candidate L capsule tri_vertices tri_normal capsule_vertices ∈
      capsule_triangle_candidates L capsule tri_vertices tri_normal capsule_vertices posA := by
  unfold capsule_triangle_candidates
  exact List.mem_append_left _ (List.mem_append_left _ (List.mem_append_left _
    (List.mem_singleton_self _)))

/-- A candidate gap beyond the threshold ends `collide(cylinder_shape, box_shape)` at once. -/
theorem collide_cylinder_box_separated (L : narrow_phase_library α)
    (coincident : collision_point α → collision_point α → Bool)
    (EDYN_SCALAR_MAX support_feature_tolerance : α) (sep_axis0 : vector3 α)
    (shA : cylinder_shape α) (shB : box_shape α) (ctx : collision_context α)
    (result : collision_result α) (c : vector3 α × α)
    (hc : c ∈ cylinder_box_candidates L support_feature_tolerance shA shB ctx)
    (hgap : ctx.threshold < c.2) :
    collide_cylinder_box L coincident EDYN_SCALAR_MAX support_feature_tolerance sep_axis0 shA shB
      ctx result = some result := by
  have h := axis_update_foldl_ge _ (-EDYN_SCALAR_MAX, sep_axis0) c hc
  unfold collide_cylinder_box
  simp only
  rw [if_pos]
  unfold cylinder_box_axis
  exact lt_of_lt_of_le hgap h

/-- A candidate gap beyond the threshold ends `collide_capsule_triangle` at once. -/
theorem collide_capsule_triangle_separated (L : narrow_phase_library α)
    (coincident : collision_point α → collision_point α → Bool)
    (attachment : contact_normal_attachment) (EDYN_SCALAR_MAX support_feature_tolerance : α)
    (capsule : capsule_shape α) (mesh : triangle_mesh α) (tri_idx : Nat)
    (capsule_vertices : Nat → vector3 α) (ctx : collision_context α)
    (result : collision_result α) (c : vector3 α × α)
    (hc : c ∈ capsule_triangle_candidates L capsule (mesh.get_triangle_vertices tri_idx)
      (mesh.get_triangle_normal tri_idx) capsule_vertices ctx.posA)
    (hgap : ctx.threshold < c.2) :
    collide_capsule_triangle L coincident attachment EDYN_SCALAR_MAX support_feature_tolerance
      capsule mesh tri_idx capsule_vertices ctx result = some result := by
  have h := axis_update_foldl_ge _ (-EDYN_SCALAR_MAX, vector3_zero) c hc
  unfold collide_capsule_triangle
  simp only
  rw [if_pos]
  unfold capsule_triangle_axis
  exact lt_of_lt_of_le hgap h

/-- Claim C26: `collide(cylinder_shape, box_shape)` adds no contact point to `result` when
the gap along one of its candidate axes, in particular along a box face axis, exceeds
`ctx.threshold`; and `collide_capsule_triangle` adds none when the gap along one of its
candidate axes, in particular along the normal of the triangle, exceeds `ctx.threshold`. -/
theorem collide_adds_nothing_beyond_threshold (L : narrow_phase_library α)
    (coincident : collision_point α → collision_point α → Bool)
    (attachment : contact_normal_attachment) (EDYN_SCALAR_MAX support_feature_tolerance : α)
    (sep_axis0 : vector3 α) (shA : cylinder_shape α) (shB : box_shape α)
    (capsule : capsule_shape α) (mesh : triangle_mesh α) (tri_idx : Nat)
    (capsule_vertices : Nat → vector3 α) (ctx : collision_context α)
    (result : collision_result α) :
    (∀ c ∈ cylinder_box_candidates L support_feature_tolerance shA shB ctx,
      ctx.threshold < c.2 →
      collide_cylinder_box L coincident EDYN_SCALAR_MAX support_feature_tolerance sep_axis0
        shA shB ctx result = some result) ∧
    (∀ i, i < 3 → ctx.threshold < (box_face_candidate L shA shB ctx i).2 →
      collide_cylinder_box L coincident EDYN_SCALAR_MAX support_feature_tolerance sep_axis0
        shA shB ctx result = some result) ∧
    (∀ c ∈ capsule_triangle_candidates L capsule (mesh.get_triangle_vertices tri_idx)
        (mesh.get_triangle_normal tri_idx) capsule_vertices ctx.posA,
      ctx.threshold < c.2 →
      collide_capsule_triangle L coincident attachment EDYN_SCALAR_MAX
        support_feature_tolerance capsule mesh tri_idx capsule_vertices ctx result =
          some result) ∧
    (ctx.threshold < (triangle_face_candidate L capsule (mesh.get_triangle_vertices tri_idx)
        (mesh.get_triangle_normal tri_idx) capsule_vertices).2 →
      collide_capsule_triangle L coincident attachment EDYN_SCALAR_MAX
        support_feature_tolerance capsule mesh tri_idx capsule_vertices ctx result =
          some result) := by
  refine ⟨?_, ?_, ?_, ?_⟩
  · intro c hc hgap
    exact collide_cylinder_box_separated L coincident EDYN_SCALAR_MAX support_feature_tolerance
      sep_axis0 shA shB ctx result c hc hgap
  · intro i hi hgap
    exact collide_cylinder_box_separated L coincident EDYN_SCALAR_MAX support_feature_tolerance
      sep_axis0 shA shB ctx result _
      (box_face_candidate_mem L support_feature_tolerance shA shB ctx i hi) hgap
  · intro c hc hgap
    exact collide_capsule_triangle_separated L coincident attachment EDYN_SCALAR_MAX
      support_feature_tolerance capsule mesh tri_idx capsule_vertices ctx result c hc hgap
  · intro hgap
    exact collide_capsule_triangle_separated L coincident attachment EDYN_SCALAR_MAX
      support_feature_tolerance capsule mesh tri_idx capsule_vertices ctx result _
      (triangle_face_candidate_mem L capsule _ _ capsule_vertices ctx.posA) hgap

end narrow_phase_theorems

/-- Witness of `collide_adds_nothing_beyond_threshold`: the cylinder with its centre at
`(3, 0, 0)` is a unit away from the box along the x axis of the box, and the capsule at the
height 2 is 3/2 above the triangle; neither run adds a point. -/
theorem collide_adds_nothing_beyond_threshold_witness :
    (cylinder_box_context 3).threshold <
        (box_face_candidate sample_library sample_cylinder sample_box
          (cylinder_box_context 3) 0).2 ∧
      collide_cylinder_box sample_library same_pivotA 1000000 (1 / 1000) vector3_zero
        sample_cylinder sample_box (cylinder_box_context 3) empty_result = some empty_result ∧
      (capsule_mesh_context 2).threshold <
        (triangle_face_candidate sample_library sample_capsule
          (sample_mesh.get_triangle_vertices 0) (sample_mesh.get_triangle_normal 0)
          (sample_capsule_vertices 2)).2 ∧
      collide_capsule_triangle sample_library same_pivotA contact_normal_attachment.none
        1000000 (1 / 1000) sample_capsule sample_mesh 0 (sample_capsule_vertices 2)
        (capsule_mesh_context 2) empty_result = some empty_result :=
  ⟨by decide!,
    (collide_adds_nothing_beyond_threshold sample_library same_pivotA
      contact_normal_attachment.none 1000000 (1 / 1000) vector3_zero sample_cylinder sample_box
      sample_capsule sample_mesh 0 (sample_capsule_vertices 2) (cylinder_box_context 3)
      empty_result).2.1 0 (by decide) (by decide!),
    by decide!,
    (collide_adds_nothing_beyond_threshold sample_library same_pivotA
      contact_normal_attachment.none 1000000 (1 / 1000) vector3_zero sample_cylinder sample_box
      sample_capsule sample_mesh 0 (sample_capsule_vertices 2) (capsule_mesh_context 2)
      empty_result).2.2.2 (by decide!)⟩

section narrow_phase_points

variable {α : Type} [LinearOrderedField α]

/-- What `add_point` does to a result whose array holds the points in use: one more point,
the new one at the end, the others as before. -/
theorem add_point_spec (result result' : collision_result α) (p : collision_point α)
    (hwf : result.num_points ≤ result.point.length)
    (h : result.add_point p = some result') :
    result'.num_points = result.num_points + 1 ∧
    result'.num_points ≤ result'.point.length ∧
    (∀ i, i < result.num_points → result'.point[i]? = result.point[i]?) ∧
    result'.point[result.num_points]? = some p := by
  unfold collision_result.add_point at h
  split_ifs at h
  cases h
  have hlen : (result.point.take result.num_points).length = result.num_points := by
    rw [List.length_take]; omega
  refine ⟨rfl, ?_, ?_, ?_⟩
  · simp only [List.length_append, List.length_take, List.length_drop, List.length_singleton]
    omega
  · intro i hi
    simp only [List.append_assoc]
    rw [List.getElem?_append_left (by omega), List.getElem?_take_of_lt hi]
  · simp only [List.append_assoc]
    rw [List.getElem?_append_right (by omega), hlen]
    simp

/-- What one call of `maybe_add_point` or of `add_point` does: nothing, or what `add_point`
does. -/
theorem add_step_spec (coincident : collision_point α → collision_point α → Bool)
    (result result' : collision_result α) (dedup : Bool) (p : collision_point α)
    (hwf : result.num_points ≤ result.point.length)
    (h : (if dedup then result.maybe_add_point coincident p else result.add_point p) =
      some result') :
    result' = result ∨
    (result'.num_points = result.num_points + 1 ∧
      result'.num_points ≤ result'.point.length ∧
      (∀ i, i < result.num_points → result'.point[i]? = result.point[i]?) ∧
      result'.point[result.num_points]? = some p) := by
  cases dedup with
  | false => exact Or.inr (add_point_spec result result' p hwf h)
  | true =>
    simp only [if_true] at h
    unfold collision_result.maybe_add_point at h
    split_ifs at h
    · cases h; exact Or.inl rfl
    · exact Or.inr (add_point_spec result result' p hwf h)

/-- A sequence of calls of `maybe_add_point` and `add_point` with points of the normal `n`
keeps the points that were in `result` and puts points of the normal `n` after them. -/
theorem add_points_spec (coincident : collision_point α → collision_point α → Bool)
    (n : vector3 α) :
    ∀ (ps : List (Bool × collision_point α)) (result result' : collision_result α),
      (∀ q ∈ ps, q.2.normal = n) → result.num_points ≤ result.point.length →
      result.add_points coincident ps = some result' →
      result.num_points ≤ result'.num_points ∧
      result'.num_points ≤ result'.point.length ∧
      (∀ i, i < result.num_points → result'.point[i]? = result.point[i]?) ∧
      (∀ i, result.num_points ≤ i → i < result'.num_points →
        ∃ p, result'.point[i]? = some p ∧ p.normal = n) := by
  intro ps
  induction ps with
  | nil =>
    intro result result' _ hwf h
    simp only [collision_result.add_points, Option.some.injEq] at h
    subst h
    exact ⟨le_refl _, hwf, fun _ _ => rfl, fun i h1 h2 => absurd h2 (by omega)⟩
  | cons q ps ih =>
    intro result result' hn hwf h
    obtain ⟨dedup, p⟩ := q
    simp only [collision_result.add_points] at h
    cases h1 : (if dedup then result.maybe_add_point coincident p else result.add_point p) with
    | none => rw [h1] at h; cases h
    | some r1 =>
      rw [h1] at h
      simp only at h
      have hn' : ∀ q ∈ ps, q.2.normal = n := fun q hq => hn q (List.mem_cons_of_mem _ hq)
      have hp : p.normal = n := hn (dedup, p) (List.mem_cons_self _ _)
      rcases add_step_spec coincident result r1 dedup p hwf h1 with e | ⟨e1, e2, e3, e4⟩
      · subst e
        exact ih _ _ hn' hwf h
      · obtain ⟨k1, k2, k3, k4⟩ := ih r1 result' hn' e2 h
        refine ⟨by omega, k2, ?_, ?_⟩
        · intro i hi
          rw [k3 i (by omega), e3 i hi]
        · intro i hi1 hi2
          by_cases hi : i = result.num_points
          · subst hi
            exact ⟨p, by rw [k3 _ (by omega), e4], hp⟩
          · exact k4 i (by omega) hi2

/-- Every point that the feature cases of `collide(cylinder_shape, box_shape)` hand to
`maybe_add_point` or `add_point` has `sep_axis` as its normal. -/
theorem cylinder_box_points_normal (L : narrow_phase_library α) (shA : cylinder_shape α)
    (shB : box_shape α) (ctx : collision_context α) (sep_axis : vector3 α) (distance : α)
    (featureA : cylinder_feature) (feature_indexA : Nat) (featureB : box_feature)
    (feature_indexB : Nat) (ps : List (Bool × collision_point α))
    (h : cylinder_box_points L shA shB ctx sep_axis distance featureA feature_indexA featureB
      feature_indexB = some ps) :
    ∀ q ∈ ps, q.2.normal = sep_axis := by
  intro q hq
  unfold cylinder_box_points at h
  split_ifs at h
  · cases h
    simp only [List.mem_map] at hq
    obtain ⟨p, hp, rfl⟩ := hq
    unfold face_face_points at hp
    simp only [List.mem_append, List.mem_flatten, List.mem_map] at hp
    rcases hp with ⟨l, ⟨e, ⟨i, -, rfl⟩, rfl⟩, hp⟩ | hp
    · simp only at hp
      cases he : face_face_edge_points L shA ctx sep_axis (L.to_sign (feature_indexA = 0))
        (L.box_get_face shB feature_indexB)
        (fun i => to_world_space (L.box_get_face shB feature_indexB i) ctx.posB ctx.ornB) i with
      | none => rw [he] at hp; simp at hp
      | some ps0 =>
        rw [he] at hp
        simp only [Option.getD_some] at hp
        unfold face_face_edge_points at he
        simp only at he
        split_ifs at he
        cases he
        simp only [List.mem_filterMap] at hp
        obtain ⟨t, -, ht⟩ := hp
        split_ifs at ht
        cases ht
        rfl
    · split_ifs at hp
      · unfold face_face_contained_points at hp
        simp only [List.mem_map] at hp
        obtain ⟨i, -, rfl⟩ := hp
        rfl
      · cases hp
      · unfold face_face_extra_point at hp
        simp only [List.mem_singleton] at hp
        rw [hp]
      · cases hp
  · simp only [Option.map_eq_some'] at h
    obtain ⟨ps0, h0, rfl⟩ := h
    simp only [List.mem_map] at hq
    obtain ⟨p, hp, rfl⟩ := hq
    unfold face_edge_points at h0
    simp only at h0
    split_ifs at h0
    cases h0
    simp only [List.mem_map] at hp
    obtain ⟨s, -, rfl⟩ := hp
    rfl
  · cases h
    simp only [List.mem_singleton] at hq
    rw [hq]; rfl
  · cases h
    simp only [List.mem_map] at hq
    obtain ⟨p, hp, rfl⟩ := hq
    unfold side_edge_face_points at hp
    simp only [List.mem_map] at hp
    obtain ⟨s, -, rfl⟩ := hp
    rfl
  · cases h
    simp only [List.mem_map] at hq
    obtain ⟨p, hp, rfl⟩ := hq
    unfold side_edge_edge_points at hp
    simp only [List.mem_map] at hp
    obtain ⟨s, -, rfl⟩ := hp
    rfl
  · cases h
    simp only [List.mem_singleton] at hq
    rw [hq]; rfl
  · cases h
    simp only [List.mem_singleton] at hq
    rw [hq]; rfl
  · cases h
    cases hq

/-- Claim C25: every contact point that `collide(cylinder_shape, box_shape)` appends to
`result` carries the winning separating axis `n` as its normal (the points that `result`
held stay), and `n` satisfies `dot(ctx.posA - ctx.posB, n) >= 0`; the gap of a candidate axis
is taken to lie above `-EDYN_SCALAR_MAX`, the start of the search. -/
theorem cylinder_box_points_carry_oriented_axis (L : narrow_phase_library α)
    (coincident : collision_point α → collision_point α → Bool)
    (EDYN_SCALAR_MAX support_feature_tolerance : α) (sep_axis0 : vector3 α)
    (shA : cylinder_shape α) (shB : box_shape α) (ctx : collision_context α)
    (result result' : collision_result α)
    (hwf : result.num_points ≤ result.point.length)
    (hrange : ∃ c ∈ cylinder_box_candidates L support_feature_tolerance shA shB ctx,
      -EDYN_SCALAR_MAX < c.2)
    (hrun : collide_cylinder_box L coincident EDYN_SCALAR_MAX support_feature_tolerance
      sep_axis0 shA shB ctx result = some result') :
    (∀ i, result.num_points ≤ i → i < result'.num_points →
      ∃ p, result'.point[i]? = some p ∧
        p.normal = (cylinder_box_axis L EDYN_SCALAR_MAX support_feature_tolerance sep_axis0
          shA shB ctx).2) ∧
    (∀ i, i < result.num_points → result'.point[i]? = result.point[i]?) ∧
    result.num_points ≤ result'.num_points ∧
    0 ≤ dot (ctx.posA.sub ctx.posB)
      (cylinder_box_axis L EDYN_SCALAR_MAX support_feature_tolerance sep_axis0 shA shB ctx).2 := by
  have horiented : 0 ≤ dot (ctx.posA.sub ctx.posB)
      (cylinder_box_axis L EDYN_SCALAR_MAX support_feature_tolerance sep_axis0 shA shB ctx).2 := by
    obtain ⟨c, hc, hlt⟩ := hrange
    have hge := axis_update_foldl_ge _ (-EDYN_SCALAR_MAX, sep_axis0) c hc
    unfold cylinder_box_axis
    rcases axis_update_foldl_mem (cylinder_box_candidates L support_feature_tolerance shA shB ctx)
      (-EDYN_SCALAR_MAX, sep_axis0) with h | ⟨c1, hc1, h⟩
    · rw [h] at hge
      exact absurd hlt (not_lt.mpr hge)
    · rw [h]
      exact cylinder_box_candidates_oriented L support_feature_tolerance shA shB ctx c1 hc1
  unfold collide_cylinder_box at hrun
  simp only at hrun
  split_ifs at hrun
  · cases hrun
    exact ⟨fun i h1 h2 => absurd h2 (by omega), fun _ _ => rfl, le_refl _, horiented⟩
  · split at hrun
    · cases hrun
    · rename_i points hpoints
      obtain ⟨k1, -, k3, k4⟩ := add_points_spec coincident _ points result result'
        (cylinder_box_points_normal L shA shB ctx _ _ _ _ _ _ points hpoints) hwf hrun
      exact ⟨k4, k3, k1, horiented⟩

end narrow_phase_points

/-- Witness of `cylinder_box_points_carry_oriented_axis`: the cap of the cylinder with its
centre at `(2, 0, 0)` lies on the face of the box; the run puts four points into the empty
result, each with the normal `(1, 0, 0)`. -/
theorem cylinder_box_points_carry_oriented_axis_witness :
    collide_cylinder_box sample_library same_pivotA 1000000 (1 / 1000) vector3_zero
        sample_cylinder sample_box (cylinder_box_context 2) empty_result =
          some cap_on_face_result ∧
      (∀ i, empty_result.num_points ≤ i → i < cap_on_face_result.num_points →
        ∃ p, cap_on_face_result.point[i]? = some p ∧
          p.normal = (cylinder_box_axis sample_library 1000000 (1 / 1000) vector3_zero
            sample_cylinder sample_box (cylinder_box_context 2)).2) ∧
      (∀ i, i < empty_result.num_points →
        cap_on_face_result.point[i]? = empty_result.point[i]?) ∧
      empty_result.num_points ≤ cap_on_face_result.num_points ∧
      0 ≤ dot ((cylinder_box_context 2).posA.sub (cylinder_box_context 2).posB)
        (cylinder_box_axis sample_library 1000000 (1 / 1000) vector3_zero sample_cylinder
          sample_box (cylinder_box_context 2)).2 :=
  ⟨by decide!,
    cylinder_box_points_carry_oriented_axis sample_library same_pivotA 1000000 (1 / 1000)
      vector3_zero sample_cylinder sample_box (cylinder_box_context 2) empty_result
      cap_on_face_result (by decide)
      ⟨box_face_candidate sample_library sample_cylinder sample_box (cylinder_box_context 2) 0,
        box_face_candidate_mem sample_library (1 / 1000) sample_cylinder sample_box
          (cylinder_box_context 2) 0 (by decide), by decide!⟩
      (by decide!)⟩

/-! ## Changes of frame -/

/-- Rotating by the conjugate of a unit quaternion undoes the rotation by it. -/
theorem conjugate_rotate_cancel {α : Type} [LinearOrderedCommRing α] (q : quaternion α)
    (v : vector3 α) (hq : q.x * q.x + q.y * q.y + q.z * q.z + q.w * q.w = 1) :
    rotate (conjugate q) (rotate q v) = v := by
  have h := rotate_conjugate_cancel (conjugate q) v
    (by simp only [conjugate]; linear_combination hq)
  have hc : conjugate (conjugate q) = q := by
    cases q; simp [conjugate]
  rw [hc] at h
  exact h

/-- A unit quaternion rotates a vector without changing its squared length. -/
theorem rotate_length_sqr {α : Type} [LinearOrderedCommRing α] (q : quaternion α)
    (v : vector3 α) (hq : q.x * q.x + q.y * q.y + q.z * q.z + q.w * q.w = 1) :
    length_sqr (rotate q v) = length_sqr v := by
  simp only [length_sqr, dot, rotate, quaternion.mul, quaternion.mul_vec, conjugate]
  linear_combination
    ((v.x * v.x + v.y * v.y + v.z * v.z) *
      (q.x * q.x + q.y * q.y + q.z * q.z + q.w * q.w + 1)) * hq

/-- Claim C40: for every unit quaternion `orn` and all vectors `p`, `pos` and `v`,
`to_object_space(to_world_space(p, pos, orn), pos, orn) = p` and
`to_world_space(to_object_space(p, pos, orn), pos, orn) = p`, and `rotate(orn, v)` has the
same length as `v`: the squared lengths are equal, and so are their square roots. -/
theorem frame_round_trip {α : Type} [LinearOrderedField α] (orn : quaternion α)
    (p pos v : vector3 α) (hq : orn.length_sqr = 1) :
    to_object_space (to_world_space p pos orn) pos orn = p ∧
    to_world_space (to_object_space p pos orn) pos orn = p ∧
    length_sqr (rotate orn v) = length_sqr v ∧
    ∀ sqrt : α → α, sqrt (length_sqr (rotate orn v)) = sqrt (length_sqr v) := by
  have hq' : orn.x * orn.x + orn.y * orn.y + orn.z * orn.z + orn.w * orn.w = 1 := hq
  have hadd : ∀ a b : vector3 α, (a.add b).sub a = b := by
    intro a b; cases a; cases b; simp [vector3.add, vector3.sub]
  have hsub : ∀ a b : vector3 α, a.add (b.sub a) = b := by
    intro a b; cases a; cases b; simp [vector3.add, vector3.sub]
  refine ⟨?_, ?_, rotate_length_sqr orn v hq', ?_⟩
  · unfold to_object_space to_world_space
    rw [hadd, conjugate_rotate_cancel orn p hq']
  · unfold to_object_space to_world_space
    rw [rotate_conjugate_cancel orn _ hq', hsub]
  · intro sqrt
    rw [rotate_length_sqr orn v hq']

/-- Witness of `frame_round_trip`: the unit quaternion `(0, 0, 3/5, 4/5)`, the point
`(1, 2, 3)`, the position `(4, 5, 6)` and the vector `(1, 0, 0)`. -/
theorem frame_round_trip_witness :
    (⟨0, 0, 3 / 5, 4 / 5⟩ : quaternion ℚ).length_sqr = 1 ∧
    to_object_space (to_world_space ⟨1, 2, 3⟩ ⟨4, 5, 6⟩ (⟨0, 0, 3 / 5, 4 / 5⟩ : quaternion ℚ))
      ⟨4, 5, 6⟩ ⟨0, 0, 3 / 5, 4 / 5⟩ = ⟨1, 2, 3⟩ ∧
    to_world_space (to_object_space ⟨1, 2, 3⟩ ⟨4, 5, 6⟩ (⟨0, 0, 3 / 5, 4 / 5⟩ : quaternion ℚ))
      ⟨4, 5, 6⟩ ⟨0, 0, 3 / 5, 4 / 5⟩ = ⟨1, 2, 3⟩ ∧
    length_sqr (rotate (⟨0, 0, 3 / 5, 4 / 5⟩ : quaternion ℚ) ⟨1, 0, 0⟩) =
      length_sqr (⟨1, 0, 0⟩ : vector3 ℚ) :=
  ⟨by decide!,
    (frame_round_trip (⟨0, 0, 3 / 5, 4 / 5⟩ : quaternion ℚ) ⟨1, 2, 3⟩ ⟨4, 5, 6⟩ ⟨1, 0, 0⟩
      (by decide!)).1,
    (frame_round_trip (⟨0, 0, 3 / 5, 4 / 5⟩ : quaternion ℚ) ⟨1, 2, 3⟩ ⟨4, 5, 6⟩ ⟨1, 0, 0⟩
      (by decide!)).2.1,
    (frame_round_trip (⟨0, 0, 3 / 5, 4 / 5⟩ : quaternion ℚ) ⟨1, 2, 3⟩ ⟨4, 5, 6⟩ ⟨1, 0, 0⟩
      (by decide!)).2.2.1⟩
/-! ## The denominator of the effective mass -/

/-- The denominator `J_invM_JT` for the Jacobian of a contact direction `d`, with the terms
of the two bodies collected. -/
theorem J_invM_JT_eq {α : Type} [LinearOrderedField α] (bA bB : solver_body α)
    (rA rB d : vector3 α) :
    J_invM_JT (contact_jacobian rA rB d) bA bB =
      dot d d * (bA.mass_inv + bB.mass_inv) +
        dot (bA.inertia_world_inv.mul_vec (cross rA d)) (cross rA d) +
        dot (bB.inertia_world_inv.mul_vec (cross rB d)) (cross rB d) := by
  simp only [J_invM_JT, contact_jacobian, matrix3x3.mul_vec, dot, vector3.neg]
  ring

/-- The denominator `J_invM_JT` along a unit direction is positive when both inverse inertia
tensors are positive semidefinite, both inverse masses are not negative and one of them is
positive. -/
theorem J_invM_JT_pos {α : Type} [LinearOrderedField α] (bA bB : solver_body α)
    (rA rB d : vector3 α) (hd : dot d d = 1)
    (hIA : ∀ v, 0 ≤ dot (bA.inertia_world_inv.mul_vec v) v)
    (hIB : ∀ v, 0 ≤ dot (bB.inertia_world_inv.mul_vec v) v)
    (hmA : 0 ≤ bA.mass_inv) (hmB : 0 ≤ bB.mass_inv)
    (hm : 0 < bA.mass_inv ∨ 0 < bB.mass_inv) :
    0 < J_invM_JT (contact_jacobian rA rB d) bA bB := by
  rw [J_invM_JT_eq, hd, one_mul]
  have h1 := hIA (cross rA d)
  have h2 := hIB (cross rB d)
  rcases hm with h | h <;> linarith

/-- Claim C38: in `prepare_constraints` (friction rows) and in `solve_position_constraints`
the denominator `J_invM_JT` of the effective mass is strictly positive, so that
`1 / J_invM_JT` is defined (and positive), whenever the contact direction (tangent or normal)
is a unit vector, both inverse inertia tensors are positive semidefinite, both inverse masses
are `>= 0` and at least one is `> 0`; when both bodies have zero inverse mass and zero
inverse inertia the denominator is 0. -/
theorem effective_mass_denominator_positive {α : Type} [LinearOrderedField α]
    (bA bB : solver_body α) (cp : contact_point α) (tangent : vector3 α)
    (impulse contact_position_correction_rate : α) :
    ((∀ v, 0 ≤ dot (bA.inertia_world_inv.mul_vec v) v) →
      (∀ v, 0 ≤ dot (bB.inertia_world_inv.mul_vec v) v) →
      0 ≤ bA.mass_inv → 0 ≤ bB.mass_inv → (0 < bA.mass_inv ∨ 0 < bB.mass_inv) →
      (dot tangent tangent = 1 →
        0 < J_invM_JT (friction_row_of bA bB cp tangent impulse).J bA bB ∧
        (friction_row_of bA bB cp tangent impulse).eff_mass =
          1 / J_invM_JT (friction_row_of bA bB cp tangent impulse).J bA bB ∧
        0 < (friction_row_of bA bB cp tangent impulse).eff_mass) ∧
      (dot (refreshed_normal cp bA.orientation bB.orientation)
          (refreshed_normal cp bA.orientation bB.orientation) = 1 →
        0 < J_invM_JT (position_correction_of contact_position_correction_rate bA bB cp).J
          bA bB)) ∧
    (bA.mass_inv = 0 → bB.mass_inv = 0 →
      bA.inertia_world_inv = ⟨vector3_zero, vector3_zero, vector3_zero⟩ →
      bB.inertia_world_inv = ⟨vector3_zero, vector3_zero, vector3_zero⟩ →
      J_invM_JT (friction_row_of bA bB cp tangent impulse).J bA bB = 0 ∧
      J_invM_JT (position_correction_of contact_position_correction_rate bA bB cp).J
        bA bB = 0) := by
  constructor
  · intro hIA hIB hmA hmB hm
    constructor
    · intro hd
      have hpos : 0 < J_invM_JT (friction_row_of bA bB cp tangent impulse).J bA bB :=
        J_invM_JT_pos bA bB _ _ tangent hd hIA hIB hmA hmB hm
      refine ⟨hpos, rfl, ?_⟩
      show 0 < 1 / J_invM_JT (friction_row_of bA bB cp tangent impulse).J bA bB
      exact one_div_pos.mpr hpos
    · intro hd
      exact J_invM_JT_pos bA bB _ _ _ hd hIA hIB hmA hmB hm
  · intro hA hB hzA hzB
    constructor
    · show J_invM_JT (contact_jacobian _ _ tangent) bA bB = 0
      rw [J_invM_JT_eq, hA, hB, hzA, hzB]
      simp [matrix3x3.mul_vec, dot, vector3_zero]
    · show J_invM_JT (contact_jacobian _ _ _) bA bB = 0
      rw [J_invM_JT_eq, hA, hB, hzA, hzB]
      simp [matrix3x3.mul_vec, dot, vector3_zero]

/-- Witness of `effective_mass_denominator_positive`: two bodies `sample_body` (inverse mass
1, unit inverse inertia) with the contact `sliding_point`, the tangent `(1, 0, 0)` and the
normal `(0, 1, 0)`. -/
theorem effective_mass_denominator_positive_witness :
    0 < J_invM_JT (friction_row_of (sample_body : solver_body ℚ) sample_body sliding_point
        ⟨1, 0, 0⟩ 0).J sample_body sample_body ∧
    0 < (friction_row_of (sample_body : solver_body ℚ) sample_body sliding_point
        ⟨1, 0, 0⟩ 0).eff_mass ∧
    0 < J_invM_JT (position_correction_of (1 / 5) (sample_body : solver_body ℚ) sample_body
        sliding_point).J sample_body sample_body := by
  have hI : ∀ v : vector3 ℚ,
      0 ≤ dot ((sample_body : solver_body ℚ).inertia_world_inv.mul_vec v) v := by
    intro v
    simp only [sample_body, matrix3x3.mul_vec, dot]
    nlinarith [mul_self_nonneg v.x, mul_self_nonneg v.y, mul_self_nonneg v.z]
  have h := (effective_mass_denominator_positive (sample_body : solver_body ℚ) sample_body
    sliding_point ⟨1, 0, 0⟩ 0 (1 / 5)).1 hI hI (by decide!) (by decide!)
    (Or.inl (by decide!))
  exact ⟨(h.1 (by decide!)).1, (h.1 (by decide!)).2.2, h.2 (by decide!)⟩
/-! ## The orientation update of the position solver -/

section orientation_update

variable {α : Type} [LinearOrderedField α]

/-- The squared length of `q + 0.5 * (w, 0) * q` for a unit quaternion `q`. -/
theorem orientation_update_length_sqr (q : quaternion α) (w : vector3 α)
    (hq : q.length_sqr = 1) :
    (q.add ((quaternion.scale (1 / 2) ⟨w.x, w.y, w.z, 0⟩).mul q)).length_sqr =
      1 + length_sqr w / 4 := by
  simp only [quaternion.length_sqr, quaternion.add, quaternion.scale, quaternion.mul,
    length_sqr, dot] at hq ⊢
  linear_combination (1 + (w.x * w.x + w.y * w.y + w.z * w.z) / 4) * hq

/-- The call of `normalize` on a quaternion of squared length at least 1 returns a unit
quaternion. -/
theorem normalize_of_one_le (sqrt : α → α) (EDYN_EPSILON : α)
    (hsqrt : ∀ s, 0 ≤ s → 0 ≤ sqrt s ∧ sqrt s * sqrt s = s) (he : EDYN_EPSILON < 1)
    (q : quaternion α) (hq : 1 ≤ q.length_sqr) :
    ∃ q', normalize sqrt EDYN_EPSILON q = some q' ∧ q'.length_sqr = 1 := by
  obtain ⟨h0, hmul⟩ := hsqrt q.length_sqr (le_trans zero_le_one hq)
  have h1 : 1 ≤ sqrt q.length_sqr := by
    by_contra h
    have hlt : sqrt q.length_sqr < 1 := not_le.mp h
    have : sqrt q.length_sqr * sqrt q.length_sqr < 1 := by nlinarith
    linarith
  have hne : sqrt q.length_sqr ≠ 0 := by
    intro h; rw [h] at h1; linarith
  refine ⟨q.div (sqrt q.length_sqr), ?_, ?_⟩
  · unfold normalize
    simp only
    rw [if_pos (lt_of_lt_of_le he h1)]
  · obtain ⟨l, hl⟩ : ∃ l, l = sqrt q.length_sqr := ⟨_, rfl⟩
    rw [← hl] at hne hmul ⊢
    have hL : q.x * q.x + q.y * q.y + q.z * q.z + q.w * q.w = l * l := hmul.symm
    simp only [quaternion.length_sqr, quaternion.div]
    field_simp
    linear_combination hL

/-- A positive semidefinite tensor stays positive semidefinite when it is multiplied by a
matrix on the left and by its transpose on the right. -/
theorem positive_semidefinite_conjugate (basis m : matrix3x3 α)
    (h : positive_semidefinite m) :
    positive_semidefinite ((basis.mul m).mul basis.transpose) := by
  intro v
  have e : dot (((basis.mul m).mul basis.transpose).mul_vec v) v =
      dot (m.mul_vec (basis.transpose.mul_vec v)) (basis.transpose.mul_vec v) := by
    simp only [matrix3x3.mul, matrix3x3.transpose, matrix3x3.column0, matrix3x3.column1,
      matrix3x3.column2, matrix3x3.mul_vec, dot]
    ring
  rw [e]
  exact h _

/-- Replacing the body `e` by one that is ready and has the same inverse mass keeps the
bodies ready and their inverse masses. -/
theorem update_ready (bodies : entity → Option (solver_body α)) (e : entity)
    (b b' : solver_body α) (hb : bodies e = some b) (hr : solver_ready bodies)
    (hb' : b'.orientation.length_sqr = 1 ∧ 0 ≤ b'.mass_inv ∧
      positive_semidefinite b'.inertia_world_inv)
    (hm : b'.mass_inv = b.mass_inv) :
    solver_ready (fun e' => if e' = e then some b' else bodies e') ∧
    ∀ e', ((fun e' => if e' = e then some b' else bodies e') e').map (fun b => b.mass_inv) =
      (bodies e').map fun b => b.mass_inv := by
  constructor
  · intro e' b'' h
    by_cases he : e' = e
    · simp only [he, if_true, Option.some.injEq] at h
      rw [← h]
      exact hb'
    · simp only [he, if_false] at h
      exact hr e' b'' h
  · intro e'
    by_cases he : e' = e
    · simp only [he, if_true, hb, Option.map_some', hm]
    · simp only [he, if_false]

/-- The statement `pos += inv_m * J * correction` returns on a body of the view and keeps the
bodies ready and their inverse masses. -/
theorem shift_position_ready (bodies : entity → Option (solver_body α)) (e : entity)
    (J : vector3 α) (correction : α) (hdom : (bodies e).isSome)
    (hr : solver_ready bodies) :
    ∃ bodies', shift_position bodies e J correction = some bodies' ∧ solver_ready bodies' ∧
      ∀ e', (bodies' e').map (fun b => b.mass_inv) = (bodies e').map fun b => b.mass_inv := by
  obtain ⟨b, hb⟩ := Option.isSome_iff_exists.mp hdom
  obtain ⟨k1, k2⟩ := update_ready bodies e b
    { b with position := b.position.add ((vector3.scale b.mass_inv J).mul correction) }
    hb hr (hr e b hb) rfl
  exact ⟨_, shift_position_eq bodies e J correction b hb, k1, k2⟩

/-- The inertia refresh returns on a body of the view and keeps the bodies ready and their
inverse masses. -/
theorem refresh_inertia_ready (bodies : entity → Option (solver_body α)) (e : entity)
    (hdom : (bodies e).isSome) (hr : solver_ready bodies) :
    ∃ bodies', refresh_inertia bodies e = some bodies' ∧ solver_ready bodies' ∧
      ∀ e', (bodies' e').map (fun b => b.mass_inv) = (bodies e').map fun b => b.mass_inv := by
  obtain ⟨b, hb⟩ := Option.isSome_iff_exists.mp hdom
  obtain ⟨h1, h2, h3⟩ := hr e b hb
  obtain ⟨k1, k2⟩ := update_ready bodies e b
    { b with
      inertia_world_inv := ((to_matrix3x3 b.orientation).mul b.inertia_world_inv).mul
        (to_matrix3x3 b.orientation).transpose }
    hb hr ⟨h1, h2, positive_semidefinite_conjugate _ _ h3⟩ rfl
  exact ⟨_, refresh_inertia_eq bodies e b hb, k1, k2⟩

/-- The angular correction of a body of the view returns and keeps the bodies ready and
their inverse masses: the updated quaternion has a squared length of at least 1, so that
`normalize` does not fail. -/
theorem angular_correct_ready (sqrt : α → α) (EDYN_EPSILON : α)
    (hsqrt : ∀ s, 0 ≤ s → 0 ≤ sqrt s ∧ sqrt s * sqrt s = s) (he : EDYN_EPSILON < 1)
    (bodies : entity → Option (solver_body α)) (e : entity) (J : vector3 α) (correction : α)
    (hdom : (bodies e).isSome) (hr : solver_ready bodies) :
    ∃ bodies', angular_correct sqrt EDYN_EPSILON bodies e J correction = some bodies' ∧
      solver_ready bodies' ∧
      ∀ e', (bodies' e').map (fun b => b.mass_inv) = (bodies e').map fun b => b.mass_inv := by
  obtain ⟨b, hb⟩ := Option.isSome_iff_exists.mp hdom
  obtain ⟨h1, h2, h3⟩ := hr e b hb
  have hlen := orientation_update_length_sqr b.orientation
    ((b.inertia_world_inv.mul_vec J).mul correction) h1
  have hge : 1 ≤ (b.orientation.add ((quaternion.scale (1 / 2)
      ⟨((b.inertia_world_inv.mul_vec J).mul correction).x,
       ((b.inertia_world_inv.mul_vec J).mul correction).y,
       ((b.inertia_world_inv.mul_vec J).mul correction).z, 0⟩).mul b.orientation)).length_sqr := by
    rw [hlen]
    have : 0 ≤ length_sqr ((b.inertia_world_inv.mul_vec J).mul correction) := by
      simp only [length_sqr, dot]
      nlinarith [mul_self_nonneg ((b.inertia_world_inv.mul_vec J).mul correction).x,
        mul_self_nonneg ((b.inertia_world_inv.mul_vec J).mul correction).y,
        mul_self_nonneg ((b.inertia_world_inv.mul_vec J).mul correction).z]
    linarith
  obtain ⟨q', hq', hq'u⟩ := normalize_of_one_le sqrt EDYN_EPSILON hsqrt he _ hge
  obtain ⟨k1, k2⟩ := update_ready bodies e b { b with orientation := q' } hb hr
    ⟨hq'u, h2, h3⟩ rfl
  refine ⟨_, ?_, k1, k2⟩
  unfold angular_correct
  simp only [hb, Option.bind_eq_bind, Option.some_bind, hq']

/-- The statements of `solve_position_constraints` that move the two bodies return and keep
the bodies ready and their inverse masses. -/
theorem position_apply_ready (sqrt : α → α) (EDYN_EPSILON : α)
    (hsqrt : ∀ s, 0 ≤ s → 0 ≤ sqrt s ∧ sqrt s * sqrt s = s) (he : EDYN_EPSILON < 1)
    (bodies : entity → Option (solver_body α)) (bodyA bodyB : entity) (J : jacobian α)
    (correction : α) (hA : (bodies bodyA).isSome) (hB : (bodies bodyB).isSome)
    (hr : solver_ready bodies) :
    ∃ bodies', position_apply sqrt EDYN_EPSILON bodies bodyA bodyB J correction =
        some bodies' ∧ solver_ready bodies' ∧
      ∀ e', (bodies' e').map (fun b => b.mass_inv) = (bodies e').map fun b => b.mass_inv := by
  have dom : ∀ (b1 b2 : entity → Option (solver_body α)) (e : entity),
      (∀ e', (b2 e').map (fun b => b.mass_inv) = (b1 e').map fun b => b.mass_inv) →
      (b1 e).isSome → (b2 e).isSome := by
    intro b1 b2 e h hs
    have := h e
    cases h2 : b2 e with
    | none =>
      rw [h2] at this
      cases h1 : b1 e with
      | none => rw [h1] at hs; cases hs
      | some x => rw [h1] at this; cases this
    | some x => rfl
  obtain ⟨b1, e1, u1, d1⟩ := shift_position_ready bodies bodyA J.j0 correction hA hr
  have hA1 := dom _ _ bodyA d1 hA
  have hB1 := dom _ _ bodyB d1 hB
  obtain ⟨b2, e2, u2, d2⟩ := shift_position_ready b1 bodyB J.j2 correction hB1 u1
  have hA2 := dom _ _ bodyA d2 hA1
  have hB2 := dom _ _ bodyB d2 hB1
  obtain ⟨b3, e3, u3, d3⟩ := angular_correct_ready sqrt EDYN_EPSILON hsqrt he b2 bodyA J.j1
    correction hA2 u2
  have hA3 := dom _ _ bodyA d3 hA2
  have hB3 := dom _ _ bodyB d3 hB2
  obtain ⟨b4, e4, u4, d4⟩ := angular_correct_ready sqrt EDYN_EPSILON hsqrt he b3 bodyB J.j3
    correction hB3 u3
  have hA4 := dom _ _ bodyA d4 hA3
  have hB4 := dom _ _ bodyB d4 hB3
  obtain ⟨b5, e5, u5, d5⟩ := refresh_inertia_ready b4 bodyA hA4 u4
  have hB5 := dom _ _ bodyB d5 hB4
  obtain ⟨b6, e6, u6, d6⟩ := refresh_inertia_ready b5 bodyB hB5 u5
  refine ⟨b6, ?_, u6, ?_⟩
  · simp only [position_apply, Option.bind_eq_bind, e1, e2, e3, e4, e5, Option.some_bind]
    exact e6
  · intro e'
    rw [d6, d5, d4, d3, d2, d1]

/-- The refreshed normal of a contact is a unit vector when the stored normal of a contact
that is not attached, or the stored object-space normal of one that is, is a unit vector and
the orientations are of unit length. -/
theorem refreshed_normal_unit (cp : contact_point α) (ornA ornB : quaternion α)
    (hA : ornA.length_sqr = 1) (hB : ornB.length_sqr = 1)
    (hn : (cp.normal_attachment = contact_normal_attachment.none →
        dot cp.normal cp.normal = 1) ∧
      (cp.normal_attachment ≠ contact_normal_attachment.none →
        dot cp.local_normal cp.local_normal = 1)) :
    dot (refreshed_normal cp ornA ornB) (refreshed_normal cp ornA ornB) = 1 := by
  unfold refreshed_normal
  cases h : cp.normal_attachment with
  | none => exact hn.1 h
  | normal_on_A =>
    have := rotate_length_sqr ornA cp.local_normal hA
    simp only [length_sqr] at this
    rw [this]
    exact hn.2 (by rw [h]; decide)
  | normal_on_B =>
    have := rotate_length_sqr ornB cp.local_normal hB
    simp only [length_sqr] at this
    rw [this]
    exact hn.2 (by rw [h]; decide)

/-- The loop of `solve_position_constraints` on ready bodies, for contacts with unit normals
between bodies of the view of which one has a positive inverse mass: every denominator
`J_invM_JT` is positive, the loop returns, and the bodies are ready afterwards. -/
theorem solve_position_loop_ready (rate : α) (sqrt : α → α) (EDYN_EPSILON : α)
    (hsqrt : ∀ s, 0 ≤ s → 0 ≤ sqrt s ∧ sqrt s * sqrt s = s) (he : EDYN_EPSILON < 1) :
    ∀ (cps : List (entity × contact_point α)) (bodies : entity → Option (solver_body α))
      (min_dist : α),
      (∀ c ∈ cps, ∃ bA bB, bodies c.2.body.1 = some bA ∧ bodies c.2.body.2 = some bB ∧
        (0 < bA.mass_inv ∨ 0 < bB.mass_inv)) →
      (∀ c ∈ cps, (c.2.normal_attachment = contact_normal_attachment.none →
          dot c.2.normal c.2.normal = 1) ∧
        (c.2.normal_attachment ≠ contact_normal_attachment.none →
          dot c.2.local_normal c.2.local_normal = 1)) →
      solver_ready bodies →
      (solve_position_denominators rate sqrt EDYN_EPSILON bodies min_dist cps).length =
        cps.length ∧
      (∀ d ∈ solve_position_denominators rate sqrt EDYN_EPSILON bodies min_dist cps, 0 < d) ∧
      ∃ r, solve_position_loop rate sqrt EDYN_EPSILON bodies min_dist cps = some r ∧
        solver_ready r.1 := by
  intro cps
  induction cps with
  | nil =>
    intro bodies min_dist _ _ hr
    exact ⟨rfl, fun d hd => absurd hd (List.not_mem_nil _), _, rfl, hr⟩
  | cons c cps ih =>
    intro bodies min_dist hc hn hr
    obtain ⟨ent, cp⟩ := c
    obtain ⟨bA, bB, hbA, hbB, hm⟩ := hc (ent, cp) (List.mem_cons_self _ _)
    obtain ⟨uA, mA, pA⟩ := hr _ bA hbA
    obtain ⟨uB, mB, pB⟩ := hr _ bB hbB
    have hunit := refreshed_normal_unit cp bA.orientation bB.orientation uA uB
      (hn (ent, cp) (List.mem_cons_self _ _))
    have hpos : 0 < J_invM_JT (position_correction_of rate bA bB cp).J bA bB :=
      J_invM_JT_pos bA bB _ _ _ hunit pA pB mA mB hm
    obtain ⟨b', happ, hr', hd'⟩ := position_apply_ready sqrt EDYN_EPSILON hsqrt he bodies
      cp.body.1 cp.body.2 (position_correction_of rate bA bB cp).J
      (position_correction_of rate bA bB cp).correction (by rw [hbA]; rfl) (by rw [hbB]; rfl) hr
    have hstep : solve_position_contact rate sqrt EDYN_EPSILON bodies cp min_dist =
        some (b', { cp with normal := (position_correction_of rate bA bB cp).normal
                            distance := (position_correction_of rate bA bB cp).distance },
          Min.min (position_correction_of rate bA bB cp).distance min_dist) := by
      simp only [solve_position_contact, hbA, hbB, Option.bind_eq_bind, Option.some_bind, happ]
    have hc' : ∀ c ∈ cps, ∃ bA bB, b' c.2.body.1 = some bA ∧ b' c.2.body.2 = some bB ∧
        (0 < bA.mass_inv ∨ 0 < bB.mass_inv) := by
      intro c hcm
      obtain ⟨xA, xB, hxA, hxB, hx⟩ := hc c (List.mem_cons_of_mem _ hcm)
      have eA := hd' c.2.body.1
      have eB := hd' c.2.body.2
      rw [hxA] at eA
      rw [hxB] at eB
      cases hyA : b' c.2.body.1 with
      | none => rw [hyA] at eA; cases eA
      | some yA =>
        cases hyB : b' c.2.body.2 with
        | none => rw [hyB] at eB; cases eB
        | some yB =>
          rw [hyA] at eA
          rw [hyB] at eB
          simp only [Option.map_some', Option.some.injEq] at eA eB
          exact ⟨yA, yB, rfl, rfl, by rw [eA, eB]; exact hx⟩
    obtain ⟨k1, k2, r, hres, hrr⟩ := ih b'
      (Min.min (position_correction_of rate bA bB cp).distance min_dist) hc'
      (fun c hcm => hn c (List.mem_cons_of_mem _ hcm)) hr'
    have hden : solve_position_denominators rate sqrt EDYN_EPSILON bodies min_dist
        ((ent, cp) :: cps) =
        J_invM_JT (position_correction_of rate bA bB cp).J bA bB ::
          solve_position_denominators rate sqrt EDYN_EPSILON b'
            (Min.min (position_correction_of rate bA bB cp).distance min_dist) cps := by
      simp only [solve_position_denominators, hbA, hbB, hstep]
    refine ⟨?_, ?_, ?_⟩
    · rw [hden, List.length_cons, k1, List.length_cons]
    · intro d hd
      rw [hden] at hd
      rcases List.mem_cons.mp hd with h | h
      · rw [h]; exact hpos
      · exact k2 d h
    · obtain ⟨rb, rc, rm⟩ := r
      cases hall : solve_position_loop rate sqrt EDYN_EPSILON bodies min_dist
          ((ent, cp) :: cps) with
      | none => simp [solve_position_loop, hstep, hres] at hall
      | some r' =>
        simp only [solve_position_loop, hstep, hres, Option.some.injEq] at hall
        subst hall
        exact ⟨_, rfl, hrr⟩

/-- Claim C31: for every unit-length orientation `q` and every angular correction `w`, the
updated quaternion `q + 0.5 * (w, 0) * q` has the squared length `1 + |w|^2 / 4 >= 1`, so
that `normalize` does not fail on it and returns a quaternion of unit length; and
`solve_position_constraints` returns and stores orientations of unit length on every state
that gives it a correction to apply: bodies with unit orientations, inverse masses that are
not negative and positive semidefinite inverse inertia tensors, and contacts with unit
normals between bodies of which one has a positive inverse mass, so that every denominator
`J_invM_JT` by which the call divides is positive. The square root is exact on non-negative
numbers and `EDYN_EPSILON < 1`. -/
theorem solve_position_keeps_unit_orientations (rate min_error : α) (sqrt : α → α)
    (EDYN_EPSILON : α) (st : position_state α)
    (hsqrt : ∀ s, 0 ≤ s → 0 ≤ sqrt s ∧ sqrt s * sqrt s = s) (he : EDYN_EPSILON < 1)
    (hdom : ∀ c ∈ st.contact_points, ∃ bA bB,
      st.bodies c.2.body.1 = some bA ∧ st.bodies c.2.body.2 = some bB ∧
      (0 < bA.mass_inv ∨ 0 < bB.mass_inv))
    (hnormal : ∀ c ∈ st.contact_points,
      (c.2.normal_attachment = contact_normal_attachment.none →
        dot c.2.normal c.2.normal = 1) ∧
      (c.2.normal_attachment ≠ contact_normal_attachment.none →
        dot c.2.local_normal c.2.local_normal = 1))
    (hr : solver_ready st.bodies) :
    (∀ (q : quaternion α) (w : vector3 α), q.length_sqr = 1 →
      (q.add ((quaternion.scale (1 / 2) ⟨w.x, w.y, w.z, 0⟩).mul q)).length_sqr =
        1 + length_sqr w / 4 ∧
      1 ≤ (q.add ((quaternion.scale (1 / 2) ⟨w.x, w.y, w.z, 0⟩).mul q)).length_sqr ∧
      ∃ q', normalize sqrt EDYN_EPSILON
          (q.add ((quaternion.scale (1 / 2) ⟨w.x, w.y, w.z, 0⟩).mul q)) = some q' ∧
        q'.length_sqr = 1) ∧
    (solve_position_denominators rate sqrt EDYN_EPSILON st.bodies 0 st.contact_points).length =
      st.contact_points.length ∧
    (∀ d ∈ solve_position_denominators rate sqrt EDYN_EPSILON st.bodies 0 st.contact_points,
      0 < d) ∧
    ∃ st' flag, solve_position_constraints rate min_error sqrt EDYN_EPSILON st =
        some (st', flag) ∧ unit_orientations st'.bodies := by
  refine ⟨?_, ?_⟩
  · intro q w hq
    have hlen := orientation_update_length_sqr q w hq
    have hge : 1 ≤ (q.add ((quaternion.scale (1 / 2) ⟨w.x, w.y, w.z, 0⟩).mul q)).length_sqr := by
      rw [hlen]
      have : 0 ≤ length_sqr w := by
        simp only [length_sqr, dot]
        nlinarith [mul_self_nonneg w.x, mul_self_nonneg w.y, mul_self_nonneg w.z]
      linarith
    exact ⟨hlen, hge, normalize_of_one_le sqrt EDYN_EPSILON hsqrt he _ hge⟩
  · obtain ⟨k1, k2, r, hres, hrr⟩ := solve_position_loop_ready rate sqrt EDYN_EPSILON hsqrt he
      st.contact_points st.bodies 0 hdom hnormal hr
    refine ⟨k1, k2, ⟨r.1, r.2.1⟩, decide (r.2.2 > min_error), ?_, fun e b hb => (hrr e b hb).1⟩
    simp only [solve_position_constraints, hres, Option.map_some']

end orientation_update

/-- Witness of `solve_position_keeps_unit_orientations`: on `turning_state`, whose contact
penetrates off the centres of the bodies, the one denominator is positive, the call with the
square root of the real numbers returns, and the orientations it stores are of unit
length. -/
theorem solve_position_keeps_unit_orientations_witness :
    (∀ d ∈ solve_position_denominators (1 / 5) Real.sqrt (1 / 1000)
      (turning_state : position_state ℝ).bodies 0 turning_state.contact_points, 0 < d) ∧
    ∃ st' flag, solve_position_constraints (1 / 5) (-1 / 200 : ℝ) Real.sqrt (1 / 1000)
        turning_state = some (st', flag) ∧ unit_orientations st'.bodies :=
  (solve_position_keeps_unit_orientations (1 / 5) (-1 / 200 : ℝ) Real.sqrt (1 / 1000)
    turning_state (fun s hs => ⟨Real.sqrt_nonneg s, Real.mul_self_sqrt hs⟩) (by norm_num)
    (fun c _ => ⟨sample_body, sample_body, rfl, rfl, Or.inl (by norm_num [sample_body])⟩)
    (fun c hc => by
      simp only [turning_state, List.mem_singleton] at hc
      subst hc
      constructor
      · intro _
        norm_num [sliding_point, dot]
      · intro h
        exact absurd rfl h)
    (fun e b hb => by
      simp only [turning_state, Option.some.injEq] at hb
      rw [← hb]
      refine ⟨by norm_num [sample_body, quaternion.length_sqr], by norm_num [sample_body], ?_⟩
      intro v
      simp only [sample_body, matrix3x3.mul_vec, dot]
      nlinarith [mul_self_nonneg v.x, mul_self_nonneg v.y, mul_self_nonneg v.z])).2.2

/-! ## Friction impulses and the velocity change they cause -/

section friction_deltas

variable {α : Type} [LinearOrderedField α]

/-- After the clipping statement of `iterate_constraints`, clipped or not, `delta_impulse`
is `impulse` minus the impulse stored in the friction rows. -/
theorem friction_clip_delta (sqrt : α → α) (EDYN_EPSILON : α)
    (pair : contact_friction_row_pair α) (normal_row : constraint_row α)
    (bA bB : solver_body α) :
    (friction_clip sqrt EDYN_EPSILON pair normal_row (friction_unclipped pair bA bB)).1 =
      ((friction_clip sqrt EDYN_EPSILON pair normal_row (friction_unclipped pair bA bB)).2.1 -
          pair.row0.impulse,
        (friction_clip sqrt EDYN_EPSILON pair normal_row (friction_unclipped pair bA bB)).2.2 -
          pair.row1.impulse) := by
  unfold friction_clip
  simp only
  split_ifs with h
  · rfl
  · simp only [friction_unclipped, Prod.mk.injEq]
    constructor <;> ring

/-- Claim C39: after one pass of `iterate_constraints` over a contact between two different
bodies, whether the friction impulse was clipped or not, the delta-velocity accumulators of
each body have changed by exactly the sum over the two friction rows `i` of
`inv_m * J_lin_i * (new_impulse_i - old_impulse_i)` and
`inv_I * J_ang_i * (new_impulse_i - old_impulse_i)`, where the new impulses are those stored
in the friction rows afterwards. -/
theorem iterate_step_velocity_matches_impulse (sqrt : α → α) (EDYN_EPSILON : α)
    (st : solver_state α) (row_idx : Nat) (normal_row : constraint_row α)
    (pair : contact_friction_row_pair α) (bA bB : solver_body α)
    (hrow : st.rows[st.row_start_index + row_idx]? = some normal_row)
    (hpair : st.friction_rows[row_idx]? = some pair)
    (hA : st.bodies normal_row.bodyA = some bA) (hB : st.bodies normal_row.bodyB = some bB)
    (hne : normal_row.bodyA ≠ normal_row.bodyB) :
    ∃ st' pair' bA' bB', iterate_step sqrt EDYN_EPSILON st row_idx = some st' ∧
      st'.friction_rows[row_idx]? = some pair' ∧
      (pair'.row0.impulse, pair'.row1.impulse) =
        (friction_clip sqrt EDYN_EPSILON pair normal_row (friction_unclipped pair bA bB)).2 ∧
      pair'.row0.J = pair.row0.J ∧ pair'.row1.J = pair.row1.J ∧
      st'.bodies normal_row.bodyA = some bA' ∧ st'.bodies normal_row.bodyB = some bB' ∧
      bA'.delta_linvel = (bA.delta_linvel.add
          ((vector3.scale normal_row.inv_mA pair.row0.J.j0).mul
            (pair'.row0.impulse - pair.row0.impulse))).add
          ((vector3.scale normal_row.inv_mA pair.row1.J.j0).mul
            (pair'.row1.impulse - pair.row1.impulse)) ∧
      bA'.delta_angvel = (bA.delta_angvel.add
          ((normal_row.inv_IA.mul_vec pair.row0.J.j1).mul
            (pair'.row0.impulse - pair.row0.impulse))).add
          ((normal_row.inv_IA.mul_vec pair.row1.J.j1).mul
            (pair'.row1.impulse - pair.row1.impulse)) ∧
      bB'.delta_linvel = (bB.delta_linvel.add
          ((vector3.scale normal_row.inv_mB pair.row0.J.j2).mul
            (pair'.row0.impulse - pair.row0.impulse))).add
          ((vector3.scale normal_row.inv_mB pair.row1.J.j2).mul
            (pair'.row1.impulse - pair.row1.impulse)) ∧
      bB'.delta_angvel = (bB.delta_angvel.add
          ((normal_row.inv_IB.mul_vec pair.row0.J.j3).mul
            (pair'.row0.impulse - pair.row0.impulse))).add
          ((normal_row.inv_IB.mul_vec pair.row1.J.j3).mul
            (pair'.row1.impulse - pair.row1.impulse)) := by
  have hd := friction_clip_delta sqrt EDYN_EPSILON pair normal_row bA bB
  obtain ⟨di, hdi⟩ : ∃ di, di =
      friction_clip sqrt EDYN_EPSILON pair normal_row (friction_unclipped pair bA bB) :=
    ⟨_, rfl⟩
  rw [← hdi] at hd ⊢
  have hd1 : di.1.1 = di.2.1 - pair.row0.impulse := by rw [hd]
  have hd2 : di.1.2 = di.2.2 - pair.row1.impulse := by rw [hd]
  obtain ⟨b1, e1, h1A, h1B⟩ := apply_impulse_distinct st.bodies normal_row.bodyA
    normal_row.bodyB normal_row.inv_mA normal_row.inv_IA normal_row.inv_mB normal_row.inv_IB
    pair.row0.J di.1.1 bA bB hA hB hne
  obtain ⟨b2, e2, h2A, h2B⟩ := apply_impulse_distinct b1 normal_row.bodyA
    normal_row.bodyB normal_row.inv_mA normal_row.inv_IA normal_row.inv_mB normal_row.inv_IB
    pair.row1.J di.1.2 _ _ h1A h1B hne
  have hlt : row_idx < st.friction_rows.length := by
    rcases Nat.lt_or_ge row_idx st.friction_rows.length with h | h
    · exact h
    · rw [List.getElem?_eq_none h] at hpair; cases hpair
  cases hres : iterate_step sqrt EDYN_EPSILON st row_idx with
  | none =>
    simp [iterate_step, hrow, hpair, hA, hB, ← hdi, friction_apply, e1, e2] at hres
  | some st' =>
    simp only [iterate_step, hrow, hpair, hA, hB, ← hdi, friction_apply, e1, e2,
      Option.bind_eq_bind, Option.some_bind, Option.some.injEq] at hres
    subst hres
    refine ⟨_, { pair with row0 := { pair.row0 with impulse := di.2.1 },
                            row1 := { pair.row1 with impulse := di.2.2 } },
      _, _, rfl, ?_, rfl, rfl, rfl, h2A, h2B, ?_, ?_, ?_, ?_⟩
    · simp only [List.getElem?_set, hlt, if_true]
    · simp only [hd1, hd2]
    · simp only [hd1, hd2]
    · simp only [hd1, hd2]
    · simp only [hd1, hd2]

end friction_deltas

/-- Witness of `iterate_step_velocity_matches_impulse`: the pass over the contact of
`sliding_state`, with the square root of the real numbers. -/
theorem iterate_step_velocity_matches_impulse_witness :
    ∃ st' pair' bA', iterate_step Real.sqrt (1 / 1000) (sliding_state : solver_state ℝ) 0 =
        some st' ∧
      st'.friction_rows[0]? = some pair' ∧ st'.bodies (some 0) = some bA' ∧
      bA'.delta_linvel = ((⟨0, 0, 0⟩ : vector3 ℝ).add
          ((vector3.scale 1 ⟨1, 0, 0⟩).mul (pair'.row0.impulse - 0))).add
          ((vector3.scale 1 ⟨0, 0, 1⟩).mul (pair'.row1.impulse - 0)) := by
  obtain ⟨st', pair', bA', bB', h, hp, _, _, _, hA, _, hv, _⟩ :=
    iterate_step_velocity_matches_impulse Real.sqrt (1 / 1000) (sliding_state : solver_state ℝ)
      0 sliding_normal_row sliding_pair (point_mass_body ⟨1, 0, 0⟩) (point_mass_body ⟨0, 0, 0⟩)
      rfl rfl (by simp [sliding_state, sliding_normal_row])
      (by simp [sliding_state, sliding_normal_row]) (by simp [sliding_normal_row])
  exact ⟨st', pair', bA', h, hp, hA, hv⟩
/-! ## Narrow phase: concave edges, ignored features and earlier points -/

/-- Lists that a filter drops may be left out of a concatenation when they are empty. -/
theorem flatten_map_filter {β γ : Type} (p : β → Bool) (g : β → List γ)
    (h : ∀ i, p i = false → g i = []) (l : List β) :
    (l.map g).flatten = ((l.filter p).map g).flatten := by
  induction l with
  | nil => rfl
  | cons a l ih =>
    cases hp : p a with
    | false =>
      simp only [List.map_cons, List.flatten_cons, h a hp, List.nil_append, List.filter_cons,
        hp, Bool.false_eq_true, if_false]
      exact ih
    | true =>
      simp only [List.map_cons, List.flatten_cons, List.filter_cons, hp, if_true, ih]

section concave_edges

variable {α : Type} [LinearOrderedField α]

/-- The loop over the edges of the triangle hands no point to `maybe_add_point` for an edge
that is flagged as concave. -/
theorem capsule_face_edge_points_concave (L : narrow_phase_library α)
    (attachment : contact_normal_attachment) (capsule : capsule_shape α)
    (mesh : triangle_mesh α) (tri_idx : Nat) (tri_vertices : Nat → vector3 α)
    (tri_normal : vector3 α) (capsule_vertices : Nat → vector3 α) (ctx : collision_context α)
    (sep_axis : vector3 α) (i : Nat)
    (h : mesh.is_concave_edge (mesh.get_face_edge_index tri_idx i) = true) :
    capsule_face_edge_points L attachment capsule mesh tri_idx tri_vertices tri_normal
      capsule_vertices ctx sep_axis i = [] := by
  unfold capsule_face_edge_points
  simp only [h, if_true]

/-- Claim C32: in `collide_capsule_triangle`, in the face case with the capsule segment
parallel to the triangle, no contact point comes from the intersection of the capsule
segment with the edge `i` when `mesh.is_concave_edge(mesh.get_face_edge_index(tri_idx, i))`
holds, so that the case adds the points of the end points inside the triangle and then only
those of the edges that are not flagged; and when `mesh.ignore_triangle_feature` holds for
the support feature, `result` is left as it was. -/
theorem concave_edges_and_ignored_features_add_nothing (L : narrow_phase_library α)
    (coincident : collision_point α → collision_point α → Bool)
    (attachment : contact_normal_attachment) (EDYN_SCALAR_MAX support_feature_tolerance : α)
    (capsule : capsule_shape α) (mesh : triangle_mesh α) (tri_idx : Nat)
    (capsule_vertices : Nat → vector3 α) (ctx : collision_context α)
    (result : collision_result α) :
    (∀ sep_axis i, mesh.is_concave_edge (mesh.get_face_edge_index tri_idx i) = true →
      capsule_face_edge_points L attachment capsule mesh tri_idx
        (mesh.get_triangle_vertices tri_idx) (mesh.get_triangle_normal tri_idx)
        capsule_vertices ctx sep_axis i = []) ∧
    (∀ sep_axis distance capsule_vertex_index,
      capsule_triangle_face L coincident attachment capsule mesh tri_idx capsule_vertices ctx
          sep_axis distance true capsule_vertex_index result =
        (result.add_points coincident
          ((capsule_face_inside_points L attachment capsule
            (mesh.get_triangle_vertices tri_idx) capsule_vertices ctx sep_axis).map
              fun p => (true, p))).bind fun r =>
          if r.num_points = 2 then some r
          else r.add_points coincident
            ((((List.range 3).filter fun i =>
                !mesh.is_concave_edge (mesh.get_face_edge_index tri_idx i)).map fun i =>
              (capsule_face_edge_points L attachment capsule mesh tri_idx
                (mesh.get_triangle_vertices tri_idx) (mesh.get_triangle_normal tri_idx)
                capsule_vertices ctx sep_axis i).map fun p => (true, p)).flatten)) ∧
    (mesh.ignore_triangle_feature tri_idx
        (L.get_triangle_support_feature (mesh.get_triangle_vertices tri_idx) vector3_zero
          (capsule_triangle_axis L EDYN_SCALAR_MAX capsule (mesh.get_triangle_vertices tri_idx)
            (mesh.get_triangle_normal tri_idx) capsule_vertices ctx.posA).2
          support_feature_tolerance).1
        (L.get_triangle_support_feature (mesh.get_triangle_vertices tri_idx) vector3_zero
          (capsule_triangle_axis L EDYN_SCALAR_MAX capsule (mesh.get_triangle_vertices tri_idx)
            (mesh.get_triangle_normal tri_idx) capsule_vertices ctx.posA).2
          support_feature_tolerance).2.1
        (capsule_triangle_axis L EDYN_SCALAR_MAX capsule (mesh.get_triangle_vertices tri_idx)
          (mesh.get_triangle_normal tri_idx) capsule_vertices ctx.posA).2 = true →
      collide_capsule_triangle L coincident attachment EDYN_SCALAR_MAX
        support_feature_tolerance capsule mesh tri_idx capsule_vertices ctx result =
          some result) := by
  refine ⟨?_, ?_, ?_⟩
  · intro sep_axis i h
    exact capsule_face_edge_points_concave L attachment capsule mesh tri_idx _ _
      capsule_vertices ctx sep_axis i h
  · intro sep_axis distance capsule_vertex_index
    unfold capsule_triangle_face
    simp only [if_true]
    rw [flatten_map_filter
      (fun i => !mesh.is_concave_edge (mesh.get_face_edge_index tri_idx i))
      (fun i => (capsule_face_edge_points L attachment capsule mesh tri_idx
        (mesh.get_triangle_vertices tri_idx) (mesh.get_triangle_normal tri_idx)
        capsule_vertices ctx sep_axis i).map fun p => (true, p))
      (fun i hi => by
        have hc : mesh.is_concave_edge (mesh.get_face_edge_index tri_idx i) = true := by
          cases h : mesh.is_concave_edge (mesh.get_face_edge_index tri_idx i) with
          | false => simp [h] at hi
          | true => rfl
        simp only [capsule_face_edge_points_concave L attachment capsule mesh tri_idx _ _
          capsule_vertices ctx sep_axis i hc, List.map_nil])]
    cases result.add_points coincident
      ((capsule_face_inside_points L attachment capsule (mesh.get_triangle_vertices tri_idx)
        capsule_vertices ctx sep_axis).map fun p => (true, p)) with
    | none => rfl
    | some r => rfl
  · intro h
    unfold collide_capsule_triangle
    simp only [h, if_true]
    split_ifs <;> rfl

end concave_edges

/-- Witness of `concave_edges_and_ignored_features_add_nothing`: the capsule of
`lying_capsule_vertices` crosses the first edge of triangle 1; on `flagged_mesh`, where that
edge is flagged as concave, the loop hands no point over for it, and on `ignoring_mesh`,
where the features of triangle 1 are ignored, the result stays empty. -/
theorem concave_edges_and_ignored_features_add_nothing_witness :
    flagged_mesh.is_concave_edge (flagged_mesh.get_face_edge_index 1 0) = true ∧
    capsule_face_edge_points planar_library contact_normal_attachment.none sample_capsule
      flagged_mesh 1 (flagged_mesh.get_triangle_vertices 1) (flagged_mesh.get_triangle_normal 1)
      lying_capsule_vertices lying_capsule_context vector3_y 0 = [] ∧
    (capsule_face_edge_points planar_library contact_normal_attachment.none sample_capsule
      gap_mesh 1 (gap_mesh.get_triangle_vertices 1) (gap_mesh.get_triangle_normal 1)
      lying_capsule_vertices lying_capsule_context vector3_y 0).length = 1 ∧
    collide_capsule_triangle planar_library same_pivotA contact_normal_attachment.none 1000000
      (1 / 1000) sample_capsule ignoring_mesh 1 lying_capsule_vertices lying_capsule_context
      empty_result = some empty_result :=
  ⟨by decide,
    (concave_edges_and_ignored_features_add_nothing planar_library same_pivotA
      contact_normal_attachment.none 1000000 (1 / 1000) sample_capsule flagged_mesh 1
      lying_capsule_vertices lying_capsule_context empty_result).1 vector3_y 0 (by decide),
    by decide!,
    (concave_edges_and_ignored_features_add_nothing planar_library same_pivotA
      contact_normal_attachment.none 1000000 (1 / 1000) sample_capsule ignoring_mesh 1
      lying_capsule_vertices lying_capsule_context empty_result).2.2 (by decide!)⟩

/-- Claim C37 fails on the code: whether the search for intersections with the triangle edges
is carried out depends on the points that earlier triangles put in `result`. The capsule of
`lying_capsule_vertices` has no end point inside triangle 1 of `gap_mesh` and crosses two of
its edges: on an empty result the search is carried out and adds the two crossings; on the
result of triangle 0, which holds two points, the test `result.num_points == 2` ends the
case and nothing is added. The run over the mesh gives two points when triangle 0 is visited
first and four when triangle 1 is visited first. -/
theorem capsule_edge_search_depends_on_earlier_points :
    capsule_face_inside_points planar_library contact_normal_attachment.none sample_capsule
      (gap_mesh.get_triangle_vertices 1) lying_capsule_vertices lying_capsule_context
      vector3_y = [] ∧
    (collide_capsule_triangle planar_library same_pivotA contact_normal_attachment.none
      1000000 (1 / 1000) sample_capsule gap_mesh 1 lying_capsule_vertices
      lying_capsule_context empty_result).map (fun r => r.num_points) = some 2 ∧
    (collide_capsule_triangle planar_library same_pivotA contact_normal_attachment.none
      1000000 (1 / 1000) sample_capsule gap_mesh 0 lying_capsule_vertices
      lying_capsule_context empty_result).map (fun r => r.num_points) = some 2 ∧
    ((collide_capsule_triangle planar_library same_pivotA contact_normal_attachment.none
      1000000 (1 / 1000) sample_capsule gap_mesh 0 lying_capsule_vertices
      lying_capsule_context empty_result).bind fun r =>
        (collide_capsule_triangle planar_library same_pivotA contact_normal_attachment.none
          1000000 (1 / 1000) sample_capsule gap_mesh 1 lying_capsule_vertices
          lying_capsule_context r).map fun r' => decide (r' = r)) = some true ∧
    (collide_capsule_mesh planar_library same_pivotA contact_normal_attachment.none 1000000
      (1 / 1000) (1 / 50) (fun _ _ _ => lying_capsule_vertices) (fun _ _ => [0, 1])
      sample_capsule gap_mesh lying_capsule_context empty_result).map
        (fun r => r.num_points) = some 2 ∧
    (collide_capsule_mesh planar_library same_pivotA contact_normal_attachment.none 1000000
      (1 / 1000) (1 / 50) (fun _ _ _ => lying_capsule_vertices) (fun _ _ => [1, 0])
      sample_capsule gap_mesh lying_capsule_context empty_result).map
        (fun r => r.num_points) = some 4 := by
  decide!
/-! ## The attached normal after a merge -/

/-- Claim C36 fails on the code: `create_contact_point` stores, for `sample_candidate`
(normal `(1, 0, 0)`, attached to body A, which is in the orientation `(0, 0, 3/5, 4/5)`), a
point with `rotate(ornA, local_normal) = normal`; after `merge_point` has merged
`turned_candidate` (normal `(0, 1, 0)`, attached to body B) into that point, the bodies not
having moved, the normal is `(0, 1, 0)` while the tag is still `normal_on_A` and
`local_normal` is the old one, so that `rotate(ornA, local_normal)` is still `(1, 0, 0)`
(and `rotate(ornB, local_normal)` is `(7/25, -24/25, 0)`); the switch of
`solve_position_constraints` then puts the old normal `(1, 0, 0)` back. -/
theorem merge_point_leaves_local_normal_stale :
    (create_contact_point tilted_registry (some 2) ⟨(some 0, some 1), [none, none, none, none]⟩
        sample_candidate).map (fun r => r.1.contact_points.map fun c =>
      (c.2.normal, c.2.normal_attachment, rotate ⟨0, 0, 3 / 5, 4 / 5⟩ c.2.local_normal)) =
      some [(⟨1, 0, 0⟩, contact_normal_attachment.normal_on_A, ⟨1, 0, 0⟩)] ∧
    (create_contact_point tilted_registry (some 2) ⟨(some 0, some 1), [none, none, none, none]⟩
        sample_candidate).map (fun r => r.1.contact_points.map fun c =>
      ((merge_point turned_candidate c.2).normal,
       (merge_point turned_candidate c.2).normal_attachment,
       rotate ⟨0, 0, 3 / 5, 4 / 5⟩ (merge_point turned_candidate c.2).local_normal)) =
      some [(⟨0, 1, 0⟩, contact_normal_attachment.normal_on_A, ⟨1, 0, 0⟩)] ∧
    (create_contact_point tilted_registry (some 2) ⟨(some 0, some 1), [none, none, none, none]⟩
        sample_candidate).map (fun r => r.1.contact_points.map fun c =>
      (rotate ⟨0, 0, 0, 1⟩ (merge_point turned_candidate c.2).local_normal,
       refreshed_normal (merge_point turned_candidate c.2) ⟨0, 0, 3 / 5, 4 / 5⟩ ⟨0, 0, 0, 1⟩)) =
      some [(⟨7 / 25, -24 / 25, 0⟩, ⟨1, 0, 0⟩)] := by
  decide!
/-! ## The cache of the paged triangle mesh -/

section paged_mesh_theorems

variable {M : Type}

/-- The count of `cache_num_vertices`, started from `count`, is the sum of the vertices of
the loaded nodes, wrapped. -/
theorem cache_fold_eq (nodes : List (triangle_mesh_node M)) :
    ∀ count, count < size_t_values →
      nodes.foldl
        (fun count node =>
          if node.trimesh.isSome then (count + node.num_vertices) % size_t_values else count)
        count = (count + loaded_vertices nodes) % size_t_values := by
  induction nodes with
  | nil =>
    intro count hc
    simp only [List.foldl_nil, loaded_vertices, Nat.add_zero]
    exact (Nat.mod_eq_of_lt hc).symm
  | cons node nodes ih =>
    intro count hc
    simp only [List.foldl_cons, loaded_vertices]
    by_cases h : node.trimesh.isSome = true
    · simp only [h, if_true]
      rw [ih _ (Nat.mod_lt _ (by decide)), Nat.mod_add_mod, Nat.add_assoc]
    · simp only [h, if_false, Bool.false_eq_true]
      rw [ih _ hc, Nat.zero_add]

/-- The function `cache_num_vertices` returns the sum of the vertices of the loaded nodes,
wrapped. -/
theorem cache_num_vertices_eq (mesh : paged_triangle_mesh M) :
    mesh.cache_num_vertices = loaded_vertices mesh.m_cache % size_t_values := by
  unfold paged_triangle_mesh.cache_num_vertices
  rw [cache_fold_eq mesh.m_cache 0 (by decide), Nat.zero_add]

/-- A cache without loaded nodes holds no vertices. -/
theorem loaded_vertices_of_none : ∀ (nodes : List (triangle_mesh_node M)),
    loaded_nodes nodes = 0 → loaded_vertices nodes = 0 := by
  intro nodes
  induction nodes with
  | nil => intro _; rfl
  | cons node nodes ih =>
    intro h
    simp only [loaded_nodes, loaded_vertices] at h ⊢
    by_cases hl : node.trimesh.isSome = true
    · simp [hl] at h
    · simp only [hl, if_false, Bool.false_eq_true, Nat.zero_add] at h ⊢
      exact ih h

/-- A cache with a loaded node at `i` has a loaded node. -/
theorem loaded_nodes_pos : ∀ (nodes : List (triangle_mesh_node M)) (i : Nat)
    (node : triangle_mesh_node M), nodes[i]? = some node → node.trimesh.isSome = true →
    0 < loaded_nodes nodes := by
  intro nodes
  induction nodes with
  | nil => intro i node h; simp at h
  | cons n nodes ih =>
    intro i node h hl
    cases i with
    | zero =>
      simp only [List.getElem?_cons_zero, Option.some.injEq] at h
      subst h
      simp [loaded_nodes, hl]
    | succ i =>
      simp only [List.getElem?_cons_succ] at h
      have := ih i node h hl
      simp only [loaded_nodes]
      omega

/-- The number of loaded nodes is at most the length of the cache. -/
theorem loaded_nodes_le : ∀ (nodes : List (triangle_mesh_node M)),
    loaded_nodes nodes ≤ nodes.length := by
  intro nodes
  induction nodes with
  | nil => exact Nat.le_refl _
  | cons n nodes ih =>
    simp only [loaded_nodes, List.length_cons]
    split_ifs <;> omega

/-- Unloading the loaded node at `i` takes one from the number of loaded nodes. -/
theorem loaded_nodes_unload : ∀ (nodes : List (triangle_mesh_node M)) (i : Nat)
    (node : triangle_mesh_node M), nodes[i]? = some node → node.trimesh.isSome = true →
    loaded_nodes (nodes.set i { node with trimesh := none }) + 1 = loaded_nodes nodes := by
  intro nodes
  induction nodes with
  | nil => intro i node h; simp at h
  | cons n nodes ih =>
    intro i node h hl
    cases i with
    | zero =>
      simp only [List.getElem?_cons_zero, Option.some.injEq] at h
      subst h
      simp [loaded_nodes, hl, Nat.add_comm]
    | succ i =>
      simp only [List.getElem?_cons_succ] at h
      have := ih i node h hl
      simp only [List.set_cons_succ, loaded_nodes]
      omega

/-- Loading the node at `i`, which was not loaded, adds its vertices to the sum. -/
theorem loaded_vertices_load : ∀ (nodes : List (triangle_mesh_node M)) (i : Nat)
    (node : triangle_mesh_node M) (m : M), nodes[i]? = some node → node.trimesh = none →
    loaded_vertices (nodes.set i { node with trimesh := some m }) =
      loaded_vertices nodes + node.num_vertices := by
  intro nodes
  induction nodes with
  | nil => intro i node m h; simp at h
  | cons n nodes ih =>
    intro i node m h hl
    cases i with
    | zero =>
      simp only [List.getElem?_cons_zero, Option.some.injEq] at h
      subst h
      simp [loaded_vertices, hl, Nat.add_comm]
    | succ i =>
      simp only [List.getElem?_cons_succ] at h
      have := ih i node m h hl
      simp only [List.set_cons_succ, loaded_vertices]
      omega

/-- Every mesh is itself with no node unloaded. -/
theorem unloaded_to_refl (mesh : paged_triangle_mesh M) : mesh.unloaded_to mesh :=
  ⟨rfl, rfl, rfl, rfl, fun _ node h => ⟨node, h, rfl, rfl, fun h => h⟩⟩

/-- Unloading after unloading is unloading. -/
theorem unloaded_to_trans (m1 m2 m3 : paged_triangle_mesh M) (h12 : m1.unloaded_to m2)
    (h23 : m2.unloaded_to m3) : m1.unloaded_to m3 := by
  obtain ⟨a1, a2, a3, a4, a5⟩ := h12
  obtain ⟨b1, b2, b3, b4, b5⟩ := h23
  refine ⟨by rw [b1, a1], by rw [b2, a2], by rw [b3, a3], by rw [b4, a4], ?_⟩
  intro i node h
  obtain ⟨n2, h2, v2, i2, t2⟩ := a5 i node h
  obtain ⟨n3, h3, v3, i3, t3⟩ := b5 i n2 h2
  exact ⟨n3, h3, by rw [v3, v2], by rw [i3, i2], fun hn => t3 (t2 hn)⟩

/-- The loop of `unload_least_recently_visited_node` over valid indices returns the mesh as
it is when none of them is the index of a loaded node, and the mesh with one loaded node
unloaded otherwise. -/
theorem unload_first_loaded_spec (mesh : paged_triangle_mesh M) :
    ∀ (its : List Nat), (∀ i ∈ its, i < mesh.m_cache.length) →
      (mesh.unload_first_loaded its = some mesh ∧
        ∀ i ∈ its, ∀ node : triangle_mesh_node M, mesh.m_cache[i]? = some node →
          node.trimesh.isSome = false) ∨
      ∃ (i : Nat) (node : triangle_mesh_node M), mesh.m_cache[i]? = some node ∧
        node.trimesh.isSome = true ∧
        mesh.unload_first_loaded its = some (mesh.unload_node i node) := by
  intro its
  induction its with
  | nil =>
    intro _
    exact Or.inl ⟨rfl, fun i hi => absurd hi (List.not_mem_nil _)⟩
  | cons it its ih =>
    intro hv
    have hlt : it < mesh.m_cache.length := hv it (List.mem_cons_self _ _)
    obtain ⟨node, hnode⟩ : ∃ node, mesh.m_cache[it]? = some node :=
      ⟨mesh.m_cache[it], List.getElem?_eq_getElem hlt⟩
    by_cases hl : node.trimesh.isSome = true
    · refine Or.inr ⟨it, node, hnode, hl, ?_⟩
      simp only [paged_triangle_mesh.unload_first_loaded, hnode, hl, if_true]
    · have hl' : node.trimesh.isSome = false := by
        cases h : node.trimesh.isSome with
        | false => rfl
        | true => exact absurd h hl
      have hstep : mesh.unload_first_loaded (it :: its) = mesh.unload_first_loaded its := by
        simp only [paged_triangle_mesh.unload_first_loaded, hnode, hl', Bool.false_eq_true,
          if_false]
      rcases ih (fun i hi => hv i (List.mem_cons_of_mem _ hi)) with ⟨h1, h2⟩ | ⟨i, nd, h1, h2, h3⟩
      · refine Or.inl ⟨by rw [hstep, h1], ?_⟩
        intro i hi nd hnd
        rcases List.mem_cons.mp hi with h | h
        · subst h
          rw [hnode] at hnd
          cases hnd
          exact hl'
        · exact h2 i h nd hnd
      · exact Or.inr ⟨i, nd, h1, h2, by rw [hstep, h3]⟩

/-- Unloading a loaded node keeps `lru_lists_loaded` and is an unloading. -/
theorem unload_node_keeps (mesh : paged_triangle_mesh M) (i : Nat)
    (node : triangle_mesh_node M) (hnode : mesh.m_cache[i]? = some node)
    (hinv : mesh.lru_lists_loaded) :
    (mesh.unload_node i node).lru_lists_loaded ∧ mesh.unloaded_to (mesh.unload_node i node) := by
  have hlt : i < mesh.m_cache.length := by
    rcases Nat.lt_or_ge i mesh.m_cache.length with h | h
    · exact h
    · rw [List.getElem?_eq_none h] at hnode; cases hnode
  constructor
  · constructor
    · intro j hj
      simp only [paged_triangle_mesh.unload_node, List.length_set]
      exact hinv.1 j hj
    · intro j nd hj hl
      simp only [paged_triangle_mesh.unload_node, List.getElem?_set] at hj
      by_cases hij : i = j
      · subst hij
        simp only [hlt, if_true, Option.some.injEq] at hj
        subst hj
        simp at hl
      · simp only [hij, if_false] at hj
        exact hinv.2 j nd hj hl
  · refine ⟨rfl, rfl, rfl, by simp [paged_triangle_mesh.unload_node], ?_⟩
    intro j nd hj
    by_cases hij : i = j
    · subst hij
      rw [hnode] at hj
      cases hj
      exact ⟨{ node with trimesh := none },
        by simp [paged_triangle_mesh.unload_node, List.getElem?_set, hlt], rfl, rfl,
        fun _ => rfl⟩
    · exact ⟨nd, by simp [paged_triangle_mesh.unload_node, List.getElem?_set, hij, hj], rfl,
        rfl, fun h => h⟩

/-- A cache with a loaded node has one at some index. -/
theorem loaded_nodes_exists : ∀ (nodes : List (triangle_mesh_node M)),
    0 < loaded_nodes nodes →
    ∃ (i : Nat) (node : triangle_mesh_node M),
      nodes[i]? = some node ∧ node.trimesh.isSome = true := by
  intro nodes
  induction nodes with
  | nil => intro h; simp [loaded_nodes] at h
  | cons n nodes ih =>
    intro hpos
    by_cases hn : n.trimesh.isSome = true
    · exact ⟨0, n, by simp, hn⟩
    · simp only [loaded_nodes, hn, if_false, Bool.false_eq_true, Nat.zero_add] at hpos
      obtain ⟨i, nd, h1, h2⟩ := ih hpos
      exact ⟨i + 1, nd, by simpa using h1, h2⟩

/-- The eviction loop for a node that fits the limit returns when the fuel exceeds the number
of loaded nodes: it exits with the condition false, on the mesh with some nodes unloaded. -/
theorem evict_spec (num_vertices : Nat) :
    ∀ (fuel : Nat) (mesh : paged_triangle_mesh M),
      loaded_nodes mesh.m_cache < fuel → mesh.lru_lists_loaded →
      num_vertices ≤ mesh.m_max_cache_num_vertices →
      mesh.m_max_cache_num_vertices < size_t_values →
      ∃ mesh', mesh.evict fuel num_vertices = some mesh' ∧ mesh'.lru_lists_loaded ∧
        (mesh'.cache_num_vertices + num_vertices) % size_t_values ≤
          mesh'.m_max_cache_num_vertices ∧
        mesh.unloaded_to mesh' := by
  intro fuel
  induction fuel with
  | zero => intro mesh h; exact absurd h (Nat.not_lt_zero _)
  | succ fuel ih =>
    intro mesh hfuel hinv hfit hmax
    by_cases hc : (mesh.cache_num_vertices + num_vertices) % size_t_values >
        mesh.m_max_cache_num_vertices
    · have hvalid : ∀ i ∈ mesh.m_lru_indices.reverse, i < mesh.m_cache.length :=
        fun i hi => hinv.1 i (List.mem_reverse.mp hi)
      rcases unload_first_loaded_spec mesh mesh.m_lru_indices.reverse hvalid with
        ⟨_, hnone⟩ | ⟨i, node, hnode, hl, hun⟩
      · exfalso
        have hzero : loaded_nodes mesh.m_cache = 0 := by
          by_contra hne
          obtain ⟨i, node, h1, h2⟩ := loaded_nodes_exists mesh.m_cache (Nat.pos_of_ne_zero hne)
          have hmem := hinv.2 i node h1 h2
          have := hnone i (List.mem_reverse.mpr hmem) node h1
          rw [h2] at this
          cases this
        rw [cache_num_vertices_eq, loaded_vertices_of_none _ hzero, Nat.zero_mod, Nat.zero_add,
          Nat.mod_eq_of_lt (Nat.lt_of_le_of_lt hfit hmax)] at hc
        exact absurd hfit (Nat.not_le.mpr hc)
      · obtain ⟨k1, k2⟩ := unload_node_keeps mesh i node hnode hinv
        have hcount := loaded_nodes_unload mesh.m_cache i node hnode hl
        obtain ⟨mesh', e, hinv', hexit, hto⟩ := ih (mesh.unload_node i node)
          (by simp only [paged_triangle_mesh.unload_node]; omega) k1
          (by simpa [paged_triangle_mesh.unload_node] using hfit)
          (by simpa [paged_triangle_mesh.unload_node] using hmax)
        refine ⟨mesh', ?_, hinv', hexit, unloaded_to_trans _ _ _ k2 hto⟩
        simp only [paged_triangle_mesh.evict, hc, if_true,
          paged_triangle_mesh.unload_least_recently_visited_node, hun]
        exact e
    · exact ⟨mesh, by simp only [paged_triangle_mesh.evict, hc, if_false], hinv,
        Nat.le_of_not_lt hc, unloaded_to_refl mesh⟩

/-- The sum of the vertices of the loaded nodes is at most that of all nodes. -/
theorem loaded_vertices_le_sum : ∀ (nodes : List (triangle_mesh_node M)),
    loaded_vertices nodes ≤ (nodes.map fun n => n.num_vertices).sum := by
  intro nodes
  induction nodes with
  | nil => exact Nat.le_refl _
  | cons n nodes ih =>
    simp only [loaded_vertices, List.map_cons, List.sum_cons]
    split_ifs <;> omega

/-- Unloading leaves the sizes of the nodes as they are. -/
theorem unloaded_to_sizes (mesh mesh' : paged_triangle_mesh M) (h : mesh.unloaded_to mesh') :
    (mesh'.m_cache.map fun n => n.num_vertices) = mesh.m_cache.map fun n => n.num_vertices := by
  obtain ⟨_, _, _, hlen, hnodes⟩ := h
  apply List.ext_getElem?
  intro i
  simp only [List.getElem?_map]
  cases hi : mesh.m_cache[i]? with
  | none =>
    have : mesh.m_cache.length ≤ i := List.getElem?_eq_none_iff.mp hi
    rw [List.getElem?_eq_none (by omega)]
  | some node =>
    obtain ⟨node', h1, h2, _⟩ := hnodes i node hi
    rw [h1]
    simp [h2]

/-- Writing a node of the same size leaves the sizes of the nodes as they are. -/
theorem sizes_set : ∀ (nodes : List (triangle_mesh_node M)) (i : Nat)
    (node node' : triangle_mesh_node M), nodes[i]? = some node →
    node'.num_vertices = node.num_vertices →
    ((nodes.set i node').map fun n => n.num_vertices) = nodes.map fun n => n.num_vertices := by
  intro nodes
  induction nodes with
  | nil => intro i node node' h; simp at h
  | cons n nodes ih =>
    intro i node node' h hv
    cases i with
    | zero =>
      simp only [List.getElem?_cons_zero, Option.some.injEq] at h
      subst h
      simp [hv]
    | succ i =>
      simp only [List.getElem?_cons_succ] at h
      simp only [List.set_cons_succ, List.map_cons, ih i node node' h hv]

/-- Claim C33, with the conditions it needs: in `paged_triangle_mesh::visit` and
`visit_all`, for every cache state in which `m_lru_indices` holds indices of the cache and
the index of every loaded node, and every node that is not loaded and has
`num_vertices <= m_max_cache_num_vertices`, the eviction loop that runs before the node is
loaded terminates (within as many tests as the cache has nodes, plus one), and when it exits
`cache_num_vertices() + node.num_vertices <= m_max_cache_num_vertices`; after the load,
`cache_num_vertices()` is at most the limit. The sums are those of `size_t`; when the sizes
of all nodes together do not wrap around, they are the sums of the numbers. -/
theorem eviction_loop_terminates_within_limit (fuel : Nat) (mesh : paged_triangle_mesh M)
    (trimesh_idx : Nat) (node : triangle_mesh_node M)
    (hnode : mesh.m_cache[trimesh_idx]? = some node) (hun : node.trimesh = none)
    (hfit : node.num_vertices ≤ mesh.m_max_cache_num_vertices)
    (hmax : mesh.m_max_cache_num_vertices < size_t_values)
    (hlru : mesh.lru_lists_loaded) (hfuel : mesh.m_cache.length < fuel) :
    ∃ mesh1 mesh2, mesh.evict fuel node.num_vertices = some mesh1 ∧
      (mesh1.cache_num_vertices + node.num_vertices) % size_t_values ≤
        mesh.m_max_cache_num_vertices ∧
      mesh.unloaded_to mesh1 ∧
      mesh.load fuel trimesh_idx = some mesh2 ∧
      mesh2.m_max_cache_num_vertices = mesh.m_max_cache_num_vertices ∧
      mesh2.cache_num_vertices ≤ mesh.m_max_cache_num_vertices ∧
      ((mesh.m_cache.map fun n => n.num_vertices).sum < size_t_values →
        loaded_vertices mesh1.m_cache + node.num_vertices ≤ mesh.m_max_cache_num_vertices ∧
        loaded_vertices mesh2.m_cache ≤ mesh.m_max_cache_num_vertices) := by
  obtain ⟨mesh1, e1, hinv1, hexit, hto⟩ := evict_spec node.num_vertices fuel mesh
    (Nat.lt_of_le_of_lt (loaded_nodes_le _) hfuel) hlru hfit hmax
  obtain ⟨hm, _, _, _, hnodes⟩ := hto
  obtain ⟨node1, hnode1, hv1, _, ht1⟩ := hnodes trimesh_idx node hnode
  have hun1 : node1.trimesh = none := ht1 hun
  rw [hm] at hexit
  have hlv : loaded_vertices (mesh1.m_cache.set trimesh_idx
        { node1 with trimesh := some (mesh1.m_input_archive_source trimesh_idx) }) =
      loaded_vertices mesh1.m_cache + node.num_vertices :=
    (loaded_vertices_load mesh1.m_cache trimesh_idx node1
      (mesh1.m_input_archive_source trimesh_idx) hnode1 hun1).trans (congrArg _ hv1)
  have hload : mesh.load fuel trimesh_idx = some { mesh1 with
      m_cache := mesh1.m_cache.set trimesh_idx
        { node1 with trimesh := some (mesh1.m_input_archive_source trimesh_idx) } } := by
    simp only [paged_triangle_mesh.load, hnode, hun, Option.isNone_none, if_true, e1, hnode1]
  have hcount : ({ mesh1 with
      m_cache := mesh1.m_cache.set trimesh_idx
        { node1 with trimesh := some (mesh1.m_input_archive_source trimesh_idx) } } :
        paged_triangle_mesh M).cache_num_vertices =
      (mesh1.cache_num_vertices + node.num_vertices) % size_t_values := by
    rw [cache_num_vertices_eq, cache_num_vertices_eq, Nat.mod_add_mod]
    simp only [hlv]
  refine ⟨mesh1, _, e1, hexit, ⟨hm, by assumption, by assumption, by assumption, hnodes⟩,
    hload, hm, ?_, ?_⟩
  · rw [hcount]
    exact hexit
  · intro hsum
    have hsizes : ((mesh1.m_cache.set trimesh_idx
        { node1 with trimesh := some (mesh1.m_input_archive_source trimesh_idx) }).map
          fun n => n.num_vertices) = mesh.m_cache.map fun n => n.num_vertices := by
      rw [sizes_set mesh1.m_cache trimesh_idx node1
        { node1 with trimesh := some (mesh1.m_input_archive_source trimesh_idx) } hnode1 rfl]
      exact unloaded_to_sizes mesh mesh1 ⟨hm, by assumption, by assumption, by assumption, hnodes⟩
    have hle := loaded_vertices_le_sum (mesh1.m_cache.set trimesh_idx
      { node1 with trimesh := some (mesh1.m_input_archive_source trimesh_idx) })
    rw [hsizes, hlv] at hle
    have hlt : loaded_vertices mesh1.m_cache + node.num_vertices < size_t_values :=
      Nat.lt_of_le_of_lt hle hsum
    have h1 : (mesh1.cache_num_vertices + node.num_vertices) % size_t_values =
        loaded_vertices mesh1.m_cache + node.num_vertices := by
      rw [cache_num_vertices_eq, Nat.mod_add_mod, Nat.mod_eq_of_lt hlt]
    rw [h1] at hexit
    exact ⟨hexit, by rw [hlv]; exact hexit⟩

end paged_mesh_theorems

/-- On `oversized_mesh` and on `unlisted_mesh` no number of tests of its condition ends the
eviction loop. -/
theorem evict_never_returns (fuel : Nat) :
    oversized_mesh.evict fuel 8193 = none ∧ unlisted_mesh.evict fuel 5000 = none := by
  constructor
  · induction fuel with
    | zero => rfl
    | succ fuel ih =>
      have hc : (oversized_mesh.cache_num_vertices + 8193) % size_t_values >
          oversized_mesh.m_max_cache_num_vertices := by decide
      have hu : oversized_mesh.unload_least_recently_visited_node = some oversized_mesh := rfl
      simp only [paged_triangle_mesh.evict, hc, if_true, hu]
      exact ih
  · induction fuel with
    | zero => rfl
    | succ fuel ih =>
      have hc : (unlisted_mesh.cache_num_vertices + 5000) % size_t_values >
          unlisted_mesh.m_max_cache_num_vertices := by decide
      have hu : unlisted_mesh.unload_least_recently_visited_node = some unlisted_mesh := rfl
      simp only [paged_triangle_mesh.evict, hc, if_true, hu]
      exact ih

/-- Claim C33, as stated, fails: on `oversized_mesh`, whose only node has 8193 vertices, one
more than the limit, and is not loaded, the condition of the eviction loop holds with an
empty cache and `unload_least_recently_visited_node` finds nothing to unload and leaves the
mesh as it is, so that no number of tests of the condition ends the loop; `visit` and
`visit_all` do not return. The same happens on `unlisted_mesh`, where the loaded node that
is in the way is not in `m_lru_indices`. -/
theorem eviction_loop_runs_forever_on_oversized_node :
    ((oversized_mesh.cache_num_vertices + 8193) % size_t_values >
        oversized_mesh.m_max_cache_num_vertices ∧
      oversized_mesh.unload_least_recently_visited_node = some oversized_mesh) ∧
    ((unlisted_mesh.cache_num_vertices + 5000) % size_t_values >
        unlisted_mesh.m_max_cache_num_vertices ∧
      unlisted_mesh.unload_least_recently_visited_node = some unlisted_mesh) ∧
    ∀ fuel : Nat, oversized_mesh.evict fuel 8193 = none ∧
      oversized_mesh.load fuel 0 = none ∧ oversized_mesh.visit fuel [0] = none ∧
      oversized_mesh.visit_all fuel = none ∧ unlisted_mesh.evict fuel 5000 = none ∧
      unlisted_mesh.load fuel 1 = none := by
  refine ⟨⟨by decide, rfl⟩, ⟨by decide, rfl⟩, ?_⟩
  intro fuel
  obtain ⟨h, h'⟩ := evict_never_returns fuel
  have hl : oversized_mesh.load fuel 0 = none := by
    have hn : oversized_mesh.m_cache[0]? = some ⟨8193, 24576, none⟩ := rfl
    simp only [paged_triangle_mesh.load, hn, Option.isNone_none, if_true, h]
  have hl' : unlisted_mesh.load fuel 1 = none := by
    have hn : unlisted_mesh.m_cache[1]? = some ⟨5000, 15000, none⟩ := rfl
    simp only [paged_triangle_mesh.load, hn, Option.isNone_none, if_true, h']
  refine ⟨h, hl, ?_, ?_, h', hl'⟩
  · simp only [paged_triangle_mesh.visit, List.foldl_cons, List.foldl_nil, Option.some_bind, hl,
      Option.none_bind]
  · have hr : List.range oversized_mesh.m_cache.length = [0] := rfl
    simp only [paged_triangle_mesh.visit_all, hr, List.foldl_cons, List.foldl_nil,
      Option.some_bind, hl]

/-- Witness of `eviction_loop_terminates_within_limit`: on `sample_paged_mesh`, which holds
7000 vertices, the node 2 of 5000 vertices is loaded after the node 0, the least recently
visited one, has been unloaded; the cache then holds 8000 vertices. -/
theorem eviction_loop_terminates_within_limit_witness :
    ∃ mesh1 mesh2, sample_paged_mesh.evict 4 5000 = some mesh1 ∧
      mesh1.m_cache.map (fun n => n.trimesh.isSome) = [false, true, false] ∧
      mesh1.cache_num_vertices + 5000 ≤ 8192 ∧
      sample_paged_mesh.load 4 2 = some mesh2 ∧
      mesh2.m_cache.map (fun n => n.trimesh.isSome) = [false, true, true] ∧
      mesh2.cache_num_vertices ≤ 8192 := by
  obtain ⟨mesh1, mesh2, e1, _, _, e2, _, h2, _⟩ :=
    eviction_loop_terminates_within_limit 4 sample_paged_mesh 2 ⟨5000, 15000, none⟩ rfl rfl
      (by decide) (by decide)
      ⟨by decide, by
        intro i node hi hl
        have hlt : i < 3 := by
          rcases Nat.lt_or_ge i 3 with h | h
          · exact h
          · rw [List.getElem?_eq_none (by simpa [sample_paged_mesh] using h)] at hi
            cases hi
        interval_cases i <;> decide⟩
      (by decide)
  have r1 : sample_paged_mesh.evict 4 5000 = some
      { sample_paged_mesh with
        m_cache := [⟨4000, 12000, none⟩, ⟨3000, 9000, some ()⟩, ⟨5000, 15000, none⟩] } := by
    rfl
  have r2 : sample_paged_mesh.load 4 2 = some
      { sample_paged_mesh with
        m_cache := [⟨4000, 12000, none⟩, ⟨3000, 9000, some ()⟩, ⟨5000, 15000, some ()⟩] } := by
    rfl
  rw [r1] at e1
  rw [r2] at e2
  cases e1
  cases e2
  exact ⟨_, _, r1, rfl, by decide, r2, rfl, h2⟩
/-! ## A move that does not return, and nodes in use out of reach -/

/-- Claim C34 fails on the code: on the tree built by five `create` calls, which has the
shape invariant and the box invariant and the reachable leaves 0, 1, 3, 5 and 7, the call
`move(7, box_at 20, 0)` is in the other case (the stored box of the leaf does not contain
the new box), and it does not return: `remove` returns, the new box is stored, and `insert`
pairs the leaf with the old root 4 under the new root 8, whose children have the heights 2
and 0; `balance` then rotates B up at the root, where the test `nodeB.parent ==
null_node_id` holds and the arena is indexed with the null id. -/
theorem move_fails_to_return :
    five_leaf_tree.map
        (fun t => (shape_invariant t, aabb_invariant t, t.leaves.map fun l => l.1)) =
      some (true, true, [0, 1, 3, 5, 7]) ∧
    (five_leaf_tree.bind
        fun t => (t.node (some 7)).map fun n => (n.leaf, n.aabb.contains (box_at 20))) =
      some (true, false) ∧
    (five_leaf_tree.map
        fun t => (move unit_margin 50 t (some 7) (box_at 20) ⟨0, 0, 0⟩).isSome) =
      some false ∧
    five_leaf_tree_before_adjust.map (fun r => (r.2.1, r.2.2, r.1.m_root)) =
      some (some 4, some 8, some 8) ∧
    five_leaf_tree_before_adjust.map
        (fun r => (r.1.parent (some 7), r.1.parent (some 8), r.1.height (some 4),
          r.1.height (some 7))) =
      some (some (some 8), some none, some 2, some 0) ∧
    five_leaf_tree_before_adjust.map
        (fun r => (balance_swap r.1 (some 8) (some 4)).isSome) = some true ∧
    five_leaf_tree_before_adjust.map
        (fun r => ((balance_swap r.1 (some 8) (some 4)).bind fun t =>
          balance_relink_B t (some 8) (some 4)).isSome) = some false ∧
    five_leaf_tree_before_adjust.map (fun r => (balance r.1 (some 8)).isSome) = some false := by
  decide!

/-- Claim C35 fails on the code: after six `create` calls, which all return, the arena holds
`2 * 6 - 1 = 11` nodes and none of them is on the free list, but only seven of them are
reachable from the root: the leaves 0 and 1 and the internal nodes 2 and 4 are in use (their
heights are not -1) and out of reach. -/
theorem nodes_in_use_out_of_reach :
    (run_calls unit_margin 50 dynamic_tree.empty (creates_at [5, 3, 10, 11, 9, 7])).map
        (fun t => (t.m_nodes.length, t.free_ids, t.m_free_list, t.reachable)) =
      some (11, [], none, [8, 6, 3, 5, 10, 7, 9]) ∧
    (run_calls unit_margin 50 dynamic_tree.empty (creates_at [5, 3, 10, 11, 9, 7])).map
        (fun t => t.m_nodes.map fun n => n.height) =
      some [0, 0, 1, 0, 2, 0, 1, 0, 2, 0, 1] ∧
    (run_calls unit_margin 50 dynamic_tree.empty (creates_at [5, 3, 10, 11, 9, 7])).map
        (fun t => t.m_nodes.map fun n => n.leaf) =
      some [true, true, false, true, false, true, false, true, false, true, false] := by
  decide!

end edyn
